import Mathlib

/-!
# The DRM backend: outputs, CRTCs, planes and page flips

A shallow embedding of `backend/drm/drm.c`, `backend/drm/drm-atomic.c` and
`backend/drm/drm-legacy.c`.

* C pointers into the backend's arrays are indices: an output is its position in
  `backend->outputs`, a CRTC its position in `backend->crtcs`, a kernel plane its
  position in `backend->planes`.  A synthetic cursor plane (the `calloc` of
  `wlr_drm_output_set_cursor`) is owned by exactly one CRTC slot and is stored there by value.
* Every function that can dereference a null or dangling pointer, index outside an
  array, hand a null object to libgbm, or wait for an event that never arrives returns
  `Option`: `none` means that the C program has no defined result on that input.
* The kernel and the libraries are an explicit environment `Env`: answers to queries,
  the matcher `match_obj` (its file `drm-util.c` is not part of the sources) and an oracle
  telling which fallible library calls succeed.  Calls are numbered by `Sys.clock`.
* Signals and kernel requests are recorded, in order, in the trace `Sys.events`.
-/

namespace Drm

/-- Modelled from the spec: the matcher value for "no left item is assigned to this slot".
It is declared in `backend/drm-util.h`, which is not among the sources, as `(uint32_t)-1`. -/
def UNMATCHED : Nat := 4294967295

/-- Modelled from the spec: the matcher value for "this slot is off-limits".
It is declared in `backend/drm-util.h`, which is not among the sources, as `(uint32_t)-2`. -/
def SKIP : Nat := 4294967294

/-- The test `mask & (1 << j)` of C, as a boolean. -/
def hasBit (mask j : Nat) : Bool := (mask &&& (1 <<< j)) != 0

/-- Values of `enum wlr_drm_output_state`. -/
inductive wlr_drm_output_state where
  | WLR_DRM_OUTPUT_DISCONNECTED
  | WLR_DRM_OUTPUT_NEEDS_MODESET
  | WLR_DRM_OUTPUT_CONNECTED
  deriving DecidableEq, Repr

open wlr_drm_output_state

/-- The fields of `drmModeModeInfo` that the backend reads; the remaining timings are
summarised by `timings`. -/
structure drmModeModeInfo where
  hdisplay : Nat
  vdisplay : Nat
  timings : Nat
  deriving DecidableEq, Repr

/-- A `struct wlr_output_mode` together with the `wlr_output_mode_state` it points to. -/
structure wlr_output_mode where
  width : Nat
  height : Nat
  refresh : Nat
  state : drmModeModeInfo
  deriving DecidableEq, Repr

/-- The kernel's `drmModeCrtc` snapshot. -/
structure drmModeCrtc where
  crtc_id : Nat
  buffer_id : Nat
  x : Nat
  y : Nat
  mode : drmModeModeInfo
  deriving DecidableEq, Repr

/-- The kernel's `drmModeEncoder`. -/
structure drmModeEncoder where
  crtc_id : Nat
  possible_crtcs : Nat
  deriving DecidableEq, Repr

/-- The kernel's `drmModeConnector`; `connected` is `connection == DRM_MODE_CONNECTED`,
`count_modes` is `modes.length`, `count_encoders` is `encoders.length`. -/
structure drmModeConnector where
  connector_id : Nat
  connected : Bool
  modes : List drmModeModeInfo
  encoders : List Nat
  encoder_id : Nat
  mmWidth : Nat
  mmHeight : Nat
  deriving DecidableEq, Repr

/-- Property ids of a connector (`output->props`). -/
structure wlr_drm_connector_props where
  dpms : Nat
  crtc_id : Nat
  deriving DecidableEq, Repr

/-- Property ids of a CRTC (`crtc->props`). -/
structure wlr_drm_crtc_props where
  active : Nat
  mode_id : Nat
  deriving DecidableEq, Repr

/-- Property ids of a plane (`plane->props`). -/
structure wlr_drm_plane_props where
  type : Nat
  src_x : Nat
  src_y : Nat
  src_w : Nat
  src_h : Nat
  crtc_x : Nat
  crtc_y : Nat
  crtc_w : Nat
  crtc_h : Nat
  fb_id : Nat
  crtc_id : Nat
  deriving DecidableEq, Repr

/-- One entry of the trace: a signal emitted to the compositor, a call through the driver
interface, or a request to the kernel, libgbm or EGL. -/
inductive Event where
  | output_add (output : Nat)
  | output_remove (output : Nat)
  | frame (output : Nat)
  | resolution (output : Nat)
  | crtc_pageflip (output crtc fb : Nat) (mode : Option drmModeModeInfo)
  | conn_enable (output : Nat) (enable : Bool)
  | crtc_set_cursor (crtc : Nat) (bo : Option Nat)
  | crtc_move_cursor (crtc : Nat) (x y : Int)
  | drmModeSetCrtc (crtc_id buffer_id x y connector : Nat) (mode : drmModeModeInfo)
  | drmModePageFlip (crtc_id fb_id user : Nat) (accepted : Bool)
  | drmModeAtomicCommit (items : List (Nat × Nat × Nat)) (test_only allow_modeset : Bool)
      (user : Option Nat) (accepted : Bool)
  | drmModeConnectorSetProperty (connector prop value : Nat)
  | drmModeSetCursor (crtc_id : Nat) (bo : Option Nat) (width height : Nat)
  | drmModeMoveCursor (crtc_id : Nat) (x y : Int)
  | drmModeCreatePropertyBlob (blob : Nat)
  | drmModeDestroyPropertyBlob (blob : Nat)
  | gbm_surface_create (surface width height : Nat)
  | gbm_surface_destroy (surface : Nat)
  | wlr_egl_create_surface (surface : Nat)
  | eglDestroySurface (surface : Nat)
  | eglSwapBuffers (surface : Option Nat)
  | gbm_surface_lock_front_buffer (bo : Nat)
  | gbm_surface_release_buffer (bo : Nat)
  | gbm_bo_create (bo width height : Nat)
  | gbm_bo_destroy (bo : Nat)
  | glClear (width height : Nat)
  | cursor_upload (width height : Nat)
  deriving DecidableEq, Repr

/-- The fallible library and kernel calls whose outcome the oracle decides. -/
inductive Call where
  | calloc
  | wlr_output_create
  | gbm_surface_create
  | wlr_egl_create_surface
  | gbm_bo_create
  | wlr_gles2_renderer_init
  | wlr_render_texture_init
  | gbm_bo_map
  | drmModeAtomicAlloc
  | drmModeAtomicAddProperty
  | drmModeAtomicCommit
  | drmModeCreatePropertyBlob
  | drmModePageFlip
  | drmModeSetCursor
  | drmModeMoveCursor
  deriving DecidableEq, Repr

/-- The kernel and the libraries, as seen during one operation of the backend. -/
structure Env where
  drmModeGetResources : Option (List Nat)
  drmModeGetConnector : Nat → Option drmModeConnector
  drmModeGetEncoder : Nat → Option drmModeEncoder
  drmModeGetCrtc : Nat → Option drmModeCrtc
  wlr_drm_get_connector_props : Nat → wlr_drm_connector_props
  drmGetCap_CURSOR_WIDTH : Option Nat
  drmGetCap_CURSOR_HEIGHT : Option Nat
  calculate_refresh_rate : drmModeModeInfo → Nat
  match_obj : Nat → List Nat → Nat → List Nat → Nat → Nat
  succeeds : Call → Nat → Bool

/-- Call counter and trace. -/
structure Sys where
  clock : Nat
  events : List Event
  deriving DecidableEq, Repr

/-- Append an entry to the trace. -/
def Sys.emit (s : Sys) (e : Event) : Sys := { s with events := s.events ++ [e] }

/-- Count one fallible external call. -/
def Sys.tick (s : Sys) : Sys := { s with clock := s.clock + 1 }

/-- The `struct wlr_drm_plane`.  `gbm` and `egl` are the handles of the buffer queue and of
the context surface (`none` is `NULL` and `EGL_NO_SURFACE`), `front` and `back` the locked
buffers, `wlr_rend` and `wlr_tex` whether the cursor renderer and texture exist. -/
structure wlr_drm_plane where
  type : Nat
  id : Nat
  possible_crtcs : Nat
  props : wlr_drm_plane_props
  width : Nat
  height : Nat
  gbm : Option Nat
  egl : Option Nat
  front : Option Nat
  back : Option Nat
  wlr_rend : Bool
  wlr_tex : Bool
  cursor_bo : Option Nat
  deriving DecidableEq, Repr

/-- What `calloc(1, sizeof(struct wlr_drm_plane))` yields. -/
def wlr_drm_plane.zero : wlr_drm_plane :=
  { type := 0, id := 0, possible_crtcs := 0,
    props := ⟨0, 0, 0, 0, 0, 0, 0, 0, 0, 0, 0⟩,
    width := 0, height := 0, gbm := none, egl := none, front := none, back := none,
    wlr_rend := false, wlr_tex := false, cursor_bo := none }

/-- A `struct wlr_drm_plane *` held in a CRTC slot. -/
inductive PlanePtr where
  | null
  | kernel (index : Nat)
  | fake (plane : wlr_drm_plane)
  deriving DecidableEq, Repr

/-- The `struct wlr_drm_crtc`; `atomic` is the reusable request with the items below its
cursor, `overlay`, `primary`, `cursor` are `planes[0]`, `planes[1]`, `planes[2]`. -/
structure wlr_drm_crtc where
  id : Nat
  props : wlr_drm_crtc_props
  overlay : PlanePtr
  primary : PlanePtr
  cursor : PlanePtr
  atomic : Option (List (Nat × Nat × Nat))
  mode_id : Nat
  deriving DecidableEq, Repr

/-- The slot `crtc->planes[t]`. -/
def wlr_drm_crtc.planes (c : wlr_drm_crtc) (t : Nat) : PlanePtr :=
  match t with
  | 0 => c.overlay
  | 1 => c.primary
  | _ => c.cursor

/-- The assignment `crtc->planes[t] = p`. -/
def wlr_drm_crtc.set_plane (c : wlr_drm_crtc) (t : Nat) (p : PlanePtr) : wlr_drm_crtc :=
  match t with
  | 0 => { c with overlay := p }
  | 1 => { c with primary := p }
  | _ => { c with cursor := p }

/-- The fields of `struct wlr_output` that the backend writes. -/
structure wlr_output where
  width : Nat
  height : Nat
  phys_width : Nat
  phys_height : Nat
  modes : List wlr_output_mode
  current_mode : Option wlr_output_mode
  transform : Nat
  deriving DecidableEq, Repr

/-- The `struct wlr_output_state` of the DRM backend. -/
structure wlr_output_state where
  base : wlr_output
  connector : Nat
  props : wlr_drm_connector_props
  state : wlr_drm_output_state
  crtc : Option Nat
  possible_crtc : Nat
  old_crtc : Option drmModeCrtc
  pageflip_pending : Bool
  width : Nat
  height : Nat
  deriving DecidableEq, Repr

/-- The two driver interfaces. -/
inductive wlr_drm_interface where
  | legacy_iface
  | atomic_iface
  deriving DecidableEq, Repr

/-- The `struct wlr_drm_backend`.  `planes` is sorted by type, so that `type_planes[t]`
starts at offset `0`, `num_overlay_planes`, `num_overlay_planes + num_primary_planes`.
`inflight` lists, oldest first, the outputs whose accepted page flip has not yet been
reported by the kernel; `session_active` is `backend->session->active`. -/
structure wlr_drm_backend where
  iface : wlr_drm_interface
  session_active : Bool
  crtcs : List wlr_drm_crtc
  planes : List wlr_drm_plane
  num_overlay_planes : Nat
  num_primary_planes : Nat
  num_cursor_planes : Nat
  outputs : List wlr_output_state
  inflight : List Nat
  sys : Sys
  deriving DecidableEq, Repr

/-- The counter `backend->num_type_planes[t]`. -/
def wlr_drm_backend.num_type_planes (b : wlr_drm_backend) (t : Nat) : Nat :=
  match t with
  | 0 => b.num_overlay_planes
  | 1 => b.num_primary_planes
  | _ => b.num_cursor_planes

/-- The offset of `backend->type_planes[t]` in `backend->planes`. -/
def wlr_drm_backend.type_planes (b : wlr_drm_backend) (t : Nat) : Nat :=
  match t with
  | 0 => 0
  | 1 => b.num_overlay_planes
  | _ => b.num_overlay_planes + b.num_primary_planes

/-! ## Plane renderer (`drm.c`) -/

/-- The call `gbm_surface_release_buffer(plane->gbm, bo)`; libgbm dereferences the surface. -/
def gbm_surface_release_buffer (s : Sys) (plane : wlr_drm_plane) (bo : Nat) : Option Sys :=
  match plane.gbm with
  | none => none
  | some _ => some (s.emit (.gbm_surface_release_buffer bo))

/-- The call `gbm_surface_lock_front_buffer(plane->gbm)`; libgbm dereferences the surface.
The buffer handed out is named by the call counter, so it is distinct from every earlier one. -/
def gbm_surface_lock_front_buffer (s : Sys) (plane : wlr_drm_plane) : Option (Sys × Nat) :=
  match plane.gbm with
  | none => none
  | some _ => some ((s.emit (.gbm_surface_lock_front_buffer s.clock)).tick, s.clock)

/-- The function `wlr_drm_plane_renderer_init`: returns the plane and the result. -/
def wlr_drm_plane_renderer_init (env : Env) (s : Sys) (plane : wlr_drm_plane)
    (width height : Nat) : Sys × wlr_drm_plane × Bool :=
  if plane.width = width ∧ plane.height = height then
    (s, plane, true)
  else
    let plane := { plane with width := width, height := height }
    if env.succeeds .gbm_surface_create s.clock then
      let plane := { plane with gbm := some s.clock }
      let s := (s.emit (.gbm_surface_create s.clock width height)).tick
      if env.succeeds .wlr_egl_create_surface s.clock then
        ((s.emit (.wlr_egl_create_surface s.clock)).tick, { plane with egl := some s.clock }, true)
      else
        (s.tick, { plane with egl := none }, false)
    else
      (s.tick, { plane with gbm := none }, false)

/-- The statement `if (bo) gbm_surface_release_buffer(plane->gbm, bo);`. -/
def release_if_locked (s : Sys) (plane : wlr_drm_plane) : Option Nat → Option Sys
  | some bo => gbm_surface_release_buffer s plane bo
  | none => some s

/-- The destructor calls of `wlr_drm_plane_renderer_free`, each guarded by a null test:
the context surface, the buffer queue and the cursor scratch buffer. -/
def wlr_drm_plane_renderer_free.destroy (s : Sys) (plane : wlr_drm_plane) : Sys :=
  let s := match plane.egl with
    | some e => s.emit (.eglDestroySurface e)
    | none => s
  let s := match plane.gbm with
    | some g => s.emit (.gbm_surface_destroy g)
    | none => s
  match plane.cursor_bo with
  | some bo => s.emit (.gbm_bo_destroy bo)
  | none => s

/-- The assignments that end `wlr_drm_plane_renderer_free`. -/
def wlr_drm_plane_renderer_free.reset (plane : wlr_drm_plane) : wlr_drm_plane :=
  { plane with width := 0, height := 0, egl := none, gbm := none, front := none,
               back := none, wlr_rend := false, wlr_tex := false, cursor_bo := none }

/-- The function `wlr_drm_plane_renderer_free` on a non-null plane. -/
def wlr_drm_plane_renderer_free (s : Sys) (plane : wlr_drm_plane) :
    Option (Sys × wlr_drm_plane) := do
  let s ← release_if_locked s plane plane.front
  let s ← release_if_locked s plane plane.back
  some (wlr_drm_plane_renderer_free.destroy s plane, wlr_drm_plane_renderer_free.reset plane)

/-- The function `wlr_drm_plane_swap_buffers`. -/
def wlr_drm_plane_swap_buffers (s : Sys) (plane : wlr_drm_plane) :
    Option (Sys × wlr_drm_plane) := do
  let s ← release_if_locked s plane plane.front
  let r ← gbm_surface_lock_front_buffer (s.emit (.eglSwapBuffers plane.egl)) plane
  some (r.1, { plane with front := plane.back, back := some r.2 })

/-- Modelled from the spec: `get_fb_for_bo` of `drm-util.c` (not among the sources) yields
the framebuffer id of a buffer; the framebuffer is named after the buffer it wraps. -/
def get_fb_for_bo (bo : Nat) : Nat := bo

/-- The plane a slot pointer refers to; `none` for a null or out-of-array pointer. -/
def wlr_drm_backend.deref (b : wlr_drm_backend) (p : PlanePtr) : Option wlr_drm_plane :=
  match p with
  | .null => none
  | .kernel g => b.planes[g]?
  | .fake plane => some plane

/-- Write the plane reached through `crtcs[ci].planes[t]` back: a kernel plane into the
array, a synthetic one into the slot that owns it. -/
def wlr_drm_backend.store (b : wlr_drm_backend) (ci t : Nat) (plane : wlr_drm_plane) :
    Option wlr_drm_backend := do
  let c ← b.crtcs[ci]?
  match c.planes t with
  | .null => none
  | .kernel g => if g < b.planes.length then some { b with planes := b.planes.set g plane } else none
  | .fake _ => some { b with crtcs := b.crtcs.set ci (c.set_plane t (.fake plane)) }

/-! ## Legacy driver interface (`drm-legacy.c`) -/

/-- The function `legacy_crtc_pageflip`; the kernel may refuse the flip, which the code ignores. -/
def legacy_crtc_pageflip (env : Env) (b : wlr_drm_backend) (oi ci fb : Nat)
    (mode : Option drmModeModeInfo) : Option (wlr_drm_backend × Bool) := do
  let output ← b.outputs[oi]?
  let crtc ← b.crtcs[ci]?
  let s := match mode with
    | some m => b.sys.emit (.drmModeSetCrtc crtc.id fb 0 0 output.connector m)
    | none => b.sys
  let ok := env.succeeds .drmModePageFlip s.clock
  let s := (s.emit (.drmModePageFlip crtc.id fb oi ok)).tick
  some ({ b with sys := s, inflight := if ok then b.inflight ++ [oi] else b.inflight }, true)

/-- The function `legacy_conn_enable`; `DRM_MODE_DPMS_ON` is 0 and `DRM_MODE_DPMS_OFF` is 3. -/
def legacy_conn_enable (b : wlr_drm_backend) (oi : Nat) (enable : Bool) :
    Option wlr_drm_backend := do
  let output ← b.outputs[oi]?
  some { b with sys := b.sys.emit (.drmModeConnectorSetProperty output.connector
                          output.props.dpms (if enable then 0 else 3)) }

/-- The function `legacy_crtc_set_cursor`. -/
def legacy_crtc_set_cursor (env : Env) (b : wlr_drm_backend) (crtc : Option Nat)
    (bo : Option Nat) : Option (wlr_drm_backend × Bool) :=
  match crtc with
  | none => some (b, true)
  | some ci => do
    let c ← b.crtcs[ci]?
    if c.cursor = .null then
      some (b, true)
    else
      match bo with
      | none => some ({ b with sys := b.sys.emit (.drmModeSetCursor c.id none 0 0) }, true)
      | some bo => do
        let plane ← b.deref c.cursor
        let ok := env.succeeds .drmModeSetCursor b.sys.clock
        some ({ b with sys := (b.sys.emit
                  (.drmModeSetCursor c.id (some bo) plane.width plane.height)).tick }, ok)

/-- The function `legacy_crtc_move_cursor`. -/
def legacy_crtc_move_cursor (env : Env) (b : wlr_drm_backend) (crtc : Option Nat)
    (x y : Int) : Option (wlr_drm_backend × Bool) := do
  let ci ← crtc
  let c ← b.crtcs[ci]?
  let ok := env.succeeds .drmModeMoveCursor b.sys.clock
  some ({ b with sys := (b.sys.emit (.drmModeMoveCursor c.id x y)).tick }, ok)

/-! ## Atomic driver interface (`drm-atomic.c`) -/

/-- The `struct atomic`: `req` holds the items of the request below its cursor. -/
structure atomic where
  req : List (Nat × Nat × Nat)
  cursor : Nat
  failed : Bool
  deriving DecidableEq, Repr

/-- The function `atomic_begin`. -/
def atomic_begin (env : Env) (s : Sys) (crtc : wlr_drm_crtc) : Sys × wlr_drm_crtc × atomic :=
  match crtc.atomic with
  | none =>
    if env.succeeds .drmModeAtomicAlloc s.clock then
      (s.tick, { crtc with atomic := some [] }, { req := [], cursor := 0, failed := false })
    else
      (s.tick, crtc, { req := [], cursor := 0, failed := true })
  | some items => (s, crtc, { req := items, cursor := items.length, failed := false })

/-- The function `atomic_add`. -/
def atomic_add (env : Env) (s : Sys) (atom : atomic) (id prop val : Nat) : Sys × atomic :=
  if atom.failed then
    (s, atom)
  else if env.succeeds .drmModeAtomicAddProperty s.clock then
    (s.tick, { atom with req := atom.req ++ [(id, prop, val)] })
  else
    (s.tick, { atom with failed := true })

/-- The function `atomic_end`: a test-only commit; on refusal the cursor is rewound. -/
def atomic_end (env : Env) (s : Sys) (atom : atomic) : Sys × atomic × Bool :=
  if atom.failed then
    (s, atom, false)
  else
    let ok := env.succeeds .drmModeAtomicCommit s.clock
    let s := (s.emit (.drmModeAtomicCommit atom.req true false none ok)).tick
    if ok then (s, atom, true) else (s, { atom with req := atom.req.take atom.cursor }, false)

/-- The function `atomic_commit`: the real commit, with `PAGE_FLIP_EVENT`; afterwards the
cursor of the request is set to 0. -/
def atomic_commit (env : Env) (s : Sys) (atom : atomic) (oi : Nat) (allow_modeset : Bool) :
    Sys × atomic × Bool :=
  if atom.failed then
    (s, atom, false)
  else
    let ok := env.succeeds .drmModeAtomicCommit s.clock
    let s := (s.emit (.drmModeAtomicCommit atom.req false allow_modeset (some oi) ok)).tick
    (s, { atom with req := [] }, ok)

/-- The function `set_plane_props`; `src_w` and `src_h` are 16.16 fixed point, computed
in 32 bits. -/
def set_plane_props (env : Env) (s : Sys) (atom : atomic) (plane : wlr_drm_plane)
    (crtc_id fb_id : Nat) (set_crtc_xy : Bool) : Sys × atomic :=
  let id := plane.id
  let props := plane.props
  let (s, atom) := atomic_add env s atom id props.src_x 0
  let (s, atom) := atomic_add env s atom id props.src_y 0
  let (s, atom) := atomic_add env s atom id props.src_w ((plane.width <<< 16) % 4294967296)
  let (s, atom) := atomic_add env s atom id props.src_h ((plane.height <<< 16) % 4294967296)
  let (s, atom) := atomic_add env s atom id props.crtc_w plane.width
  let (s, atom) := atomic_add env s atom id props.crtc_h plane.height
  let (s, atom) := atomic_add env s atom id props.fb_id fb_id
  let (s, atom) := atomic_add env s atom id props.crtc_id crtc_id
  if set_crtc_xy then
    let (s, atom) := atomic_add env s atom id props.crtc_x 0
    atomic_add env s atom id props.crtc_y 0
  else
    (s, atom)

/-- Store the working request back into `crtc->atomic` (the two are one object in C). -/
def wlr_drm_crtc.put_req (c : wlr_drm_crtc) (atom : Drm.atomic) : wlr_drm_crtc :=
  { c with atomic := c.atomic.map (fun _ => atom.req) }

/-- The block `if (mode) { ... }` of `atomic_crtc_pageflip`: the old mode blob is destroyed
and a new one created, whose id is stored in `crtc->mode_id`; the answer `false` is the
`return false` after a failed creation. -/
def atomic_crtc_pageflip.blob (env : Env) (s : Sys) (crtc : wlr_drm_crtc)
    (mode : Option drmModeModeInfo) : Sys × wlr_drm_crtc × Bool :=
  match mode with
  | some _ =>
    let s := if crtc.mode_id ≠ 0 then s.emit (.drmModeDestroyPropertyBlob crtc.mode_id) else s
    if env.succeeds .drmModeCreatePropertyBlob s.clock then
      ((s.emit (.drmModeCreatePropertyBlob (s.clock + 1))).tick,
        { crtc with mode_id := s.clock + 1 }, true)
    else
      (s.tick, crtc, false)
  | none => (s, crtc, true)

/-- The properties that `atomic_crtc_pageflip` adds to the request. -/
def atomic_crtc_pageflip.request (env : Env) (s : Sys) (atom : atomic)
    (output : wlr_output_state) (crtc : wlr_drm_crtc) (plane : wlr_drm_plane) (fb : Nat) :
    Sys × atomic :=
  let r := atomic_add env s atom output.connector output.props.crtc_id crtc.id
  let r := atomic_add env r.1 r.2 crtc.id crtc.props.mode_id crtc.mode_id
  let r := atomic_add env r.1 r.2 crtc.id crtc.props.active 1
  set_plane_props env r.1 r.2 plane crtc.id fb true

/-- The function `atomic_crtc_pageflip`. -/
def atomic_crtc_pageflip (env : Env) (b : wlr_drm_backend) (oi ci fb : Nat)
    (mode : Option drmModeModeInfo) : Option (wlr_drm_backend × Bool) := do
  let output ← b.outputs[oi]?
  let crtc ← b.crtcs[ci]?
  let blob := atomic_crtc_pageflip.blob env b.sys crtc mode
  if !blob.2.2 then
    some ({ b with sys := blob.1, crtcs := b.crtcs.set ci blob.2.1 }, false)
  else do
    let begun := atomic_begin env blob.1 blob.2.1
    let plane ← b.deref begun.2.1.primary
    let req := atomic_crtc_pageflip.request env begun.1 begun.2.2 output begun.2.1 plane fb
    let done := atomic_commit env req.1 req.2 oi mode.isSome
    some ({ b with sys := done.1, crtcs := b.crtcs.set ci (begun.2.1.put_req done.2.1),
                   inflight := if done.2.2 then b.inflight ++ [oi] else b.inflight }, done.2.2)

/-- The function `atomic_conn_enable`. -/
def atomic_conn_enable (env : Env) (b : wlr_drm_backend) (oi : Nat) (enable : Bool) :
    Option wlr_drm_backend := do
  let output ← b.outputs[oi]?
  let ci ← output.crtc
  let crtc ← b.crtcs[ci]?
  let begun := atomic_begin env b.sys crtc
  let added := atomic_add env begun.1 begun.2.2 begun.2.1.id begun.2.1.props.active
    (if enable then 1 else 0)
  let done := atomic_end env added.1 added.2
  some { b with sys := done.1, crtcs := b.crtcs.set ci (begun.2.1.put_req done.2.1) }

/-- The properties that `atomic_crtc_set_cursor` adds to the request. -/
def atomic_crtc_set_cursor.request (env : Env) (s : Sys) (atom : atomic)
    (crtc : wlr_drm_crtc) (plane : wlr_drm_plane) (bo : Option Nat) : Sys × atomic :=
  match bo with
  | some bo => set_plane_props env s atom plane crtc.id (get_fb_for_bo bo) false
  | none =>
    let added := atomic_add env s atom plane.id plane.props.fb_id 0
    atomic_add env added.1 added.2 plane.id plane.props.crtc_id 0

/-- The function `atomic_crtc_set_cursor`. -/
def atomic_crtc_set_cursor (env : Env) (b : wlr_drm_backend) (crtc : Option Nat)
    (bo : Option Nat) : Option (wlr_drm_backend × Bool) :=
  match crtc with
  | none => some (b, true)
  | some ci => do
    let c ← b.crtcs[ci]?
    if c.cursor = .null then
      some (b, true)
    else do
      let plane ← b.deref c.cursor
      -- We can't use atomic operations on fake planes
      if plane.id = 0 then
        legacy_crtc_set_cursor env b crtc bo
      else
        let begun := atomic_begin env b.sys c
        let added := atomic_crtc_set_cursor.request env begun.1 begun.2.2 begun.2.1 plane bo
        let done := atomic_end env added.1 added.2
        some ({ b with sys := done.1, crtcs := b.crtcs.set ci (begun.2.1.put_req done.2.1) },
          done.2.2)

/-- The function `atomic_crtc_move_cursor`; `x` and `y` are widened to `uint64_t`. -/
def atomic_crtc_move_cursor (env : Env) (b : wlr_drm_backend) (crtc : Option Nat)
    (x y : Int) : Option (wlr_drm_backend × Bool) := do
  let ci ← crtc
  let c ← b.crtcs[ci]?
  let plane ← b.deref c.cursor
  -- We can't use atomic operations on fake planes
  if plane.id = 0 then
    legacy_crtc_move_cursor env b crtc x y
  else
    let begun := atomic_begin env b.sys c
    let added := atomic_add env begun.1 begun.2.2 plane.id plane.props.crtc_x
      (x % 18446744073709551616).toNat
    let added := atomic_add env added.1 added.2 plane.id plane.props.crtc_y
      (y % 18446744073709551616).toNat
    let done := atomic_end env added.1 added.2
    some ({ b with sys := done.1, crtcs := b.crtcs.set ci (begun.2.1.put_req done.2.1) },
      done.2.2)

/-! ## Dispatch through `backend->iface` -/

/-- The call `backend->iface->crtc_pageflip(backend, output, crtc, fb_id, mode)`. -/
def crtc_pageflip (env : Env) (b : wlr_drm_backend) (oi ci fb : Nat)
    (mode : Option drmModeModeInfo) : Option (wlr_drm_backend × Bool) :=
  let b := { b with sys := b.sys.emit (.crtc_pageflip oi ci fb mode) }
  match b.iface with
  | .legacy_iface => legacy_crtc_pageflip env b oi ci fb mode
  | .atomic_iface => atomic_crtc_pageflip env b oi ci fb mode

/-- The call `backend->iface->conn_enable(backend, output, enable)`. -/
def conn_enable (env : Env) (b : wlr_drm_backend) (oi : Nat) (enable : Bool) :
    Option wlr_drm_backend :=
  let b := { b with sys := b.sys.emit (.conn_enable oi enable) }
  match b.iface with
  | .legacy_iface => legacy_conn_enable b oi enable
  | .atomic_iface => atomic_conn_enable env b oi enable

/-- The call `backend->iface->crtc_set_cursor(backend, crtc, bo)` on a non-null CRTC. -/
def crtc_set_cursor (env : Env) (b : wlr_drm_backend) (ci : Nat) (bo : Option Nat) :
    Option (wlr_drm_backend × Bool) :=
  let b := { b with sys := b.sys.emit (.crtc_set_cursor ci bo) }
  match b.iface with
  | .legacy_iface => legacy_crtc_set_cursor env b (some ci) bo
  | .atomic_iface => atomic_crtc_set_cursor env b (some ci) bo

/-- The call `backend->iface->crtc_move_cursor(backend, output->crtc, x, y)`. -/
def crtc_move_cursor (env : Env) (b : wlr_drm_backend) (crtc : Option Nat) (x y : Int) :
    Option (wlr_drm_backend × Bool) :=
  match b.iface with
  | .legacy_iface => legacy_crtc_move_cursor env b crtc x y
  | .atomic_iface => atomic_crtc_move_cursor env b crtc x y

/-! ## Outputs (`drm.c`) -/

/-- Assign to the fields of `outputs[oi]`. -/
def wlr_drm_backend.set_output (b : wlr_drm_backend) (oi : Nat)
    (f : wlr_output_state → wlr_output_state) : Option wlr_drm_backend := do
  let output ← b.outputs[oi]?
  some { b with outputs := b.outputs.set oi (f output) }

/-- Run a plane-renderer function on the plane `crtcs[ci].planes[t]` points to and write the
plane back; the pointer is dereferenced, so a null slot has no defined result. -/
def wlr_drm_backend.on_plane (b : wlr_drm_backend) (ci t : Nat)
    (f : Sys → wlr_drm_plane → Option (Sys × wlr_drm_plane)) : Option wlr_drm_backend := do
  let c ← b.crtcs[ci]?
  let plane ← b.deref (c.planes t)
  let (s, plane) ← f b.sys plane
  ({ b with sys := s }).store ci t plane

/-- The call `wlr_drm_plane_renderer_free(renderer, crtcs[ci].planes[t])`, which returns at once
on a null plane. -/
def wlr_drm_backend.free_slot (b : wlr_drm_backend) (ci t : Nat) : Option wlr_drm_backend := do
  let c ← b.crtcs[ci]?
  if c.planes t = .null then some b else b.on_plane ci t wlr_drm_plane_renderer_free

/-- The call `wlr_drm_plane_renderer_free(renderer, &backend->planes[g])`. -/
def wlr_drm_backend.free_kernel (b : wlr_drm_backend) (g : Nat) : Option wlr_drm_backend := do
  let plane ← b.planes[g]?
  let (s, plane) ← wlr_drm_plane_renderer_free b.sys plane
  some { b with sys := s, planes := b.planes.set g plane }

/-- The function `wlr_drm_output_swap_buffers`. -/
def wlr_drm_output_swap_buffers (env : Env) (b : wlr_drm_backend) (oi : Nat) :
    Option wlr_drm_backend := do
  let output ← b.outputs[oi]?
  let ci ← output.crtc
  let b ← b.on_plane ci 1 wlr_drm_plane_swap_buffers
  let c ← b.crtcs[ci]?
  let plane ← b.deref c.primary
  let bo ← plane.back
  let r ← crtc_pageflip env b oi ci (get_fb_for_bo bo) none
  r.1.set_output oi (fun o => { o with pageflip_pending := true })

/-- The buffer that `wlr_drm_output_start_renderer` flips to: the front buffer of the
primary plane when there is one; otherwise a black frame is rendered and swapped in, and the
buffer is the new back buffer. -/
def wlr_drm_output_start_renderer.buffer (b : wlr_drm_backend) (ci : Nat)
    (plane : wlr_drm_plane) : Option (wlr_drm_backend × Nat) :=
  match plane.front with
  | some bo => some (b, bo)
  | none => do
    -- Render a black frame to start the rendering loop
    let b ← ({ b with sys := b.sys.emit (.glClear plane.width plane.height) }).on_plane ci 1
      wlr_drm_plane_swap_buffers
    let c ← b.crtcs[ci]?
    let plane ← b.deref c.primary
    let bo ← plane.back
    some (b, bo)

/-- The function `wlr_drm_output_start_renderer`. -/
def wlr_drm_output_start_renderer (env : Env) (b : wlr_drm_backend) (oi : Nat) :
    Option wlr_drm_backend := do
  let output ← b.outputs[oi]?
  if output.state ≠ WLR_DRM_OUTPUT_CONNECTED then
    some b
  else do
    let ci ← output.crtc
    let c ← b.crtcs[ci]?
    let plane ← b.deref c.primary
    let r ← wlr_drm_output_start_renderer.buffer b ci plane
    let mode ← output.base.current_mode
    let r ← crtc_pageflip env r.1 oi ci (get_fb_for_bo r.2) (some mode.state)
    r.1.set_output oi (fun o => { o with pageflip_pending := true })

/-- The function `wlr_drm_output_enable`. -/
def wlr_drm_output_enable (env : Env) (b : wlr_drm_backend) (oi : Nat) (enable : Bool) :
    Option wlr_drm_backend := do
  let output ← b.outputs[oi]?
  if output.state ≠ WLR_DRM_OUTPUT_CONNECTED then
    some b
  else do
    let b ← conn_enable env b oi enable
    if enable then wlr_drm_output_start_renderer env b oi else some b

/-- The statement `if (plane->front) { gbm_surface_release_buffer(...); plane->front = NULL; }`
of `page_flip_handler`, on the primary plane of CRTC `ci`. -/
def page_flip_handler.release (s : Sys) (plane : wlr_drm_plane) : Option (Sys × wlr_drm_plane) :=
  match plane.front with
  | some bo => do
    let s ← gbm_surface_release_buffer s plane bo
    some (s, { plane with front := none })
  | none => some (s, plane)

/-- The function `page_flip_handler`, with `user` the output. -/
def page_flip_handler (b : wlr_drm_backend) (oi : Nat) : Option wlr_drm_backend := do
  let output ← b.outputs[oi]?
  let b ← b.set_output oi (fun o => { o with pageflip_pending := false })
  if output.state ≠ WLR_DRM_OUTPUT_CONNECTED then
    some b
  else do
    let ci ← output.crtc
    let b ← b.on_plane ci 1 page_flip_handler.release
    if b.session_active then
      some { b with sys := b.sys.emit (.frame oi) }
    else
      some b

/-- The function `wlr_drm_event`: `drmHandleEvent` hands the oldest completed page flip to
`page_flip_handler`.  With no flip in flight the read never returns. -/
def wlr_drm_event (b : wlr_drm_backend) : Option wlr_drm_backend :=
  match b.inflight with
  | [] => none
  | oi :: rest => page_flip_handler { b with inflight := rest } oi

/-- The loop `while (output->pageflip_pending) wlr_drm_event(fd, 0, NULL);` of `restore_output`.
Each round consumes one flip in flight, so `n` rounds suffice when `n` flips are in flight. -/
def restore_output.drain (oi : Nat) : Nat → wlr_drm_backend → Option wlr_drm_backend
  | n, b => do
    let output ← b.outputs[oi]?
    if !output.pageflip_pending then
      some b
    else
      match n with
      | 0 => none
      | n + 1 => do
        let b ← wlr_drm_event b
        restore_output.drain oi n b

/-- The function `restore_output`. -/
def restore_output (b : wlr_drm_backend) (oi : Nat) : Option wlr_drm_backend := do
  let b ← restore_output.drain oi b.inflight.length b
  let output ← b.outputs[oi]?
  match output.old_crtc with
  | none => some b
  | some crtc =>
    let e := Event.drmModeSetCrtc crtc.crtc_id crtc.buffer_id crtc.x crtc.y output.connector crtc.mode
    some { b with sys := b.sys.emit e }

/-- One round of the plane loop of `wlr_drm_output_cleanup`: free the renderer of
`crtc->planes[i]`; a plane with id 0 is then released with `free` and the slot cleared.
Only a synthetic plane may be passed to `free`. -/
def wlr_drm_output_cleanup.plane (b : wlr_drm_backend) (ci i : Nat) :
    Option wlr_drm_backend := do
  let b ← b.free_slot ci i
  let c ← b.crtcs[ci]?
  match c.planes i with
  | .null => some b
  | .kernel g => do
    let plane ← b.planes[g]?
    if plane.id = 0 then none else some b
  | .fake plane =>
    if plane.id = 0 then
      some { b with crtcs := b.crtcs.set ci (c.set_plane i .null) }
    else
      some b

/-- The statement `if (restore) restore_output(output, renderer->fd);`. -/
def wlr_drm_output_cleanup.restore (b : wlr_drm_backend) (oi : Nat) (restore : Bool) :
    Option wlr_drm_backend :=
  if restore then restore_output b oi else some b

/-- The function `wlr_drm_output_cleanup` on a non-null output. -/
def wlr_drm_output_cleanup (b : wlr_drm_backend) (oi : Nat) (restore : Bool) :
    Option wlr_drm_backend := do
  let output ← b.outputs[oi]?
  match output.state with
  | WLR_DRM_OUTPUT_CONNECTED => do
    let b ← b.set_output oi (fun o => { o with state := WLR_DRM_OUTPUT_DISCONNECTED })
    let b ← wlr_drm_output_cleanup.restore b oi restore
    let ci ← output.crtc
    let b ← wlr_drm_output_cleanup.plane b ci 0
    let b ← wlr_drm_output_cleanup.plane b ci 1
    let b ← wlr_drm_output_cleanup.plane b ci 2
    let b ← b.set_output oi (fun o => { o with crtc := none, possible_crtc := 0 })
    -- Fallthrough, with `restore` false by now
    let b ← b.set_output oi (fun o => { o with state := WLR_DRM_OUTPUT_DISCONNECTED })
    some { b with sys := b.sys.emit (.output_remove oi) }
  | WLR_DRM_OUTPUT_NEEDS_MODESET => do
    let b ← b.set_output oi (fun o => { o with state := WLR_DRM_OUTPUT_DISCONNECTED })
    let b ← wlr_drm_output_cleanup.restore b oi restore
    some { b with sys := b.sys.emit (.output_remove oi) }
  | WLR_DRM_OUTPUT_DISCONNECTED => some b

/-- The function `wlr_drm_output_destroy`. -/
def wlr_drm_output_destroy (b : wlr_drm_backend) (oi : Nat) : Option wlr_drm_backend :=
  wlr_drm_output_cleanup b oi true

/-! ## Reallocation of planes and CRTCs (`drm.c`) -/

/-- Run the body `f` for every index of the list, in order (a C `for` loop). -/
def for_each (f : wlr_drm_backend → Nat → Option wlr_drm_backend) :
    List Nat → wlr_drm_backend → Option wlr_drm_backend
  | [], b => some b
  | i :: rest, b => do
    let b ← f b i
    for_each f rest b

/-- The array `possible` that `realloc_planes` fills for one plane type:
`possible[i] = backend->type_planes[type][i].possible_crtcs`. -/
def realloc_planes.possible (b : wlr_drm_backend) (type : Nat) : List Nat :=
  (List.range (b.num_type_planes type)).map
    (fun i => (b.planes.getD (b.type_planes type + i) wlr_drm_plane.zero).possible_crtcs)

/-- The entry `crtc[i]` that `realloc_planes` fills for one plane type.  The pointer
difference is converted to `uint32_t`; it is defined only between pointers into the array. -/
def realloc_planes.current (b : wlr_drm_backend) (type : Nat) (crtc_in : Nat → Nat)
    (i : Nat) : Option Nat := do
  let c ← b.crtcs[i]?
  if crtc_in i = UNMATCHED then
    some SKIP
  else
    match c.planes type with
    | .null => some UNMATCHED
    | .kernel g => some (((g : Int) - (b.type_planes type : Int)) % 4294967296).toNat
    | .fake _ => none

/-- The array `crtc` that `realloc_planes` fills for one plane type. -/
def realloc_planes.current_all (b : wlr_drm_backend) (type : Nat) (crtc_in : Nat → Nat) :
    List Nat → Option (List Nat)
  | [] => some []
  | i :: rest => do
    let v ← realloc_planes.current b type crtc_in i
    let vs ← realloc_planes.current_all b type crtc_in rest
    some (v :: vs)

/-- The body of the last loop of `realloc_planes`, for CRTC `i`. -/
def realloc_planes.assign (type : Nat) (crtc_res : Nat → Nat) (b : wlr_drm_backend)
    (i : Nat) : Option wlr_drm_backend :=
  if crtc_res i = UNMATCHED ∨ crtc_res i = SKIP then
    some b
  else do
    let c ← b.crtcs[i]?
    let new := PlanePtr.kernel (b.type_planes type + crtc_res i)
    if c.planes type ≠ new then do
      let b ← b.free_slot i type
      let b ← b.free_kernel (b.type_planes type + crtc_res i)
      let c ← b.crtcs[i]?
      some { b with crtcs := b.crtcs.set i (c.set_plane type new) }
    else
      some b

/-- The body of the outer loop of `realloc_planes`, for one plane type. -/
def realloc_planes.type (env : Env) (crtc_in : Nat → Nat) (b : wlr_drm_backend)
    (type : Nat) : Option wlr_drm_backend :=
  if b.num_type_planes type = 0 then
    some b
  else if b.planes.length < b.type_planes type + b.num_type_planes type then
    none
  else do
    let possible := realloc_planes.possible b type
    let crtc ← realloc_planes.current_all b type crtc_in (List.range b.crtcs.length)
    let crtc_res := env.match_obj (b.num_type_planes type) possible b.crtcs.length crtc
    for_each (realloc_planes.assign type crtc_res) (List.range b.crtcs.length) b

/-- The function `realloc_planes`. -/
def realloc_planes (env : Env) (b : wlr_drm_backend) (crtc_in : Nat → Nat) :
    Option wlr_drm_backend :=
  for_each (realloc_planes.type env crtc_in) [0, 1, 2] b

/-- The first loop of `realloc_crtcs` over `outputs[i..]`: fills `crtc` and `possible_crtc`
from the Connected outputs.  The index is stored in a `uint32_t`. -/
def realloc_crtcs.collect (num_crtcs : Nat) :
    List wlr_output_state → Nat → List Nat × List Nat → Option (List Nat × List Nat)
  | [], _, acc => some acc
  | o :: rest, i, (crtc, possible_crtc) =>
    if o.state ≠ WLR_DRM_OUTPUT_CONNECTED then
      realloc_crtcs.collect num_crtcs rest (i + 1) (crtc, possible_crtc)
    else do
      let c ← o.crtc
      if c < num_crtcs then
        realloc_crtcs.collect num_crtcs rest (i + 1)
          (crtc.set c (i % 4294967296), possible_crtc.set i o.possible_crtc)
      else
        none

/-- The arrays `crtc` and `possible_crtc` that `realloc_crtcs` hands to `match_obj`. -/
def realloc_crtcs.inputs (b : wlr_drm_backend) (oi : Nat) : Option (List Nat × List Nat) := do
  let (crtc, possible_crtc) ← realloc_crtcs.collect b.crtcs.length b.outputs 0
    (List.replicate b.crtcs.length UNMATCHED, List.replicate b.outputs.length 0)
  let output ← b.outputs[oi]?
  some (crtc, possible_crtc.set oi output.possible_crtc)

/-- The test of the second loop of `realloc_crtcs` that makes it return: a slot that was
matched is UNMATCHED in the result.  The loop returns at the first such slot. -/
def realloc_crtcs.deactivates (num_crtcs : Nat) (crtc : List Nat) (crtc_res : Nat → Nat) :
    Bool :=
  (List.range num_crtcs).any
    (fun i => crtc.getD i UNMATCHED != UNMATCHED && crtc_res i == UNMATCHED)

/-- The flag `matched` of `realloc_crtcs`: some slot of the result holds `index`. -/
def realloc_crtcs.matched (num_crtcs : Nat) (crtc_res : Nat → Nat) (index : Nat) : Bool :=
  (List.range num_crtcs).any (fun i => crtc_res i == index)

/-- The body of the last loop of `realloc_crtcs`, for CRTC `i`. -/
def realloc_crtcs.assign (crtc : List Nat) (crtc_res : Nat → Nat) (b : wlr_drm_backend)
    (i : Nat) : Option wlr_drm_backend :=
  if crtc_res i = UNMATCHED then
    some b
  else if crtc_res i ≠ crtc.getD i UNMATCHED then
    b.set_output (crtc_res i) (fun o => { o with crtc := some i })
  else
    some b

/-- The function `realloc_crtcs`, with `output = outputs[oi]`. -/
def realloc_crtcs (env : Env) (b : wlr_drm_backend) (oi : Nat) : Option wlr_drm_backend := do
  let (crtc, possible_crtc) ← realloc_crtcs.inputs b oi
  let crtc_res := env.match_obj b.outputs.length possible_crtc b.crtcs.length crtc
  -- We don't want any of the current monitors to be deactivated.
  if realloc_crtcs.deactivates b.crtcs.length crtc crtc_res then
    some b
  -- There is no point doing anything if this monitor doesn't get activated
  else if !realloc_crtcs.matched b.crtcs.length crtc_res oi then
    some b
  else do
    let b ← for_each (realloc_crtcs.assign crtc crtc_res) (List.range b.crtcs.length) b
    realloc_planes env b crtc_res

/-! ## Mode setting (`drm.c`) -/

/-- The body of the loop of `wlr_drm_output_set_mode` over all outputs, for output `i`:
initialise the primary plane of a Connected output to its current mode and start its
renderer.  The answer is `false` when the initialisation failed (the `goto error_enc`). -/
def wlr_drm_output_set_mode.reinit_one (env : Env) (b : wlr_drm_backend) (i : Nat) :
    Option (wlr_drm_backend × Bool) := do
  let output ← b.outputs[i]?
  if output.state ≠ WLR_DRM_OUTPUT_CONNECTED then
    some (b, true)
  else do
    let ci ← output.crtc
    let c ← b.crtcs[ci]?
    let plane ← b.deref c.primary
    let mode ← output.base.current_mode
    let r := wlr_drm_plane_renderer_init env b.sys plane mode.width mode.height
    let b ← ({ b with sys := r.1 }).store ci 1 r.2.1
    if !r.2.2 then
      some (b, false)
    else do
      let b ← wlr_drm_output_start_renderer env b i
      some (b, true)

/-- The loop of `wlr_drm_output_set_mode` over all outputs; it stops at the first failed
initialisation. -/
def wlr_drm_output_set_mode.reinit (env : Env) :
    List Nat → wlr_drm_backend → Option (wlr_drm_backend × Bool)
  | [], b => some (b, true)
  | i :: rest, b => do
    let r ← wlr_drm_output_set_mode.reinit_one env b i
    if r.2 then wlr_drm_output_set_mode.reinit env rest r.1 else some r

/-- The error exit of `wlr_drm_output_set_mode`: `wlr_drm_output_cleanup(output, false)`. -/
def wlr_drm_output_set_mode.error (b : wlr_drm_backend) (oi : Nat) :
    Option (wlr_drm_backend × Bool) := do
  let b ← wlr_drm_output_cleanup b oi false
  some (b, false)

/-- The function `wlr_drm_output_set_mode`, with `output = outputs[oi]`. -/
def wlr_drm_output_set_mode (env : Env) (b : wlr_drm_backend) (oi : Nat)
    (mode : wlr_output_mode) : Option (wlr_drm_backend × Bool) := do
  let output ← b.outputs[oi]?
  match env.drmModeGetConnector output.connector with
  | none => wlr_drm_output_set_mode.error b oi
  | some conn =>
    if !conn.connected ∨ conn.modes.length = 0 then
      wlr_drm_output_set_mode.error b oi
    else
      match conn.encoders.findSome? env.drmModeGetEncoder with
      | none => wlr_drm_output_set_mode.error b oi
      | some enc => do
        let b ← b.set_output oi (fun o => { o with possible_crtc := enc.possible_crtcs })
        let b ← realloc_crtcs env b oi
        let output ← b.outputs[oi]?
        match output.crtc with
        | none => wlr_drm_output_set_mode.error b oi
        | some ci => do
          let _ ← b.crtcs[ci]?
          let b ← b.set_output oi (fun o =>
            { o with state := WLR_DRM_OUTPUT_CONNECTED, width := mode.width,
                     height := mode.height,
                     base := { o.base with width := mode.width, height := mode.height,
                                           current_mode := some mode } })
          let b := { b with sys := b.sys.emit (.resolution oi) }
          -- Since realloc_crtcs can deallocate planes on OTHER outputs,
          -- we actually need to reinitalise all of them
          let r ← wlr_drm_output_set_mode.reinit env (List.range b.outputs.length) b
          if r.2 then some (r.1, true) else wlr_drm_output_set_mode.error r.1 oi

/-! ## Cursor (`drm.c`) -/

/-- The rest of the block `if (!plane->gbm) { ... }` of `wlr_drm_output_set_cursor` once the
plane renderer is initialised: the scratch buffer, the renderer and the texture. -/
def wlr_drm_output_set_cursor.resources (env : Env) (s : Sys) (plane : wlr_drm_plane)
    (w h : Nat) : Sys × wlr_drm_plane × Bool :=
  if !env.succeeds .gbm_bo_create s.clock then
    (s.tick, { plane with cursor_bo := none }, false)
  else if !env.succeeds .wlr_gles2_renderer_init (s.clock + 1) then
    (((s.emit (.gbm_bo_create s.clock w h)).tick).tick,
      { plane with cursor_bo := some s.clock, wlr_rend := false }, false)
  else if !env.succeeds .wlr_render_texture_init (s.clock + 2) then
    ((((s.emit (.gbm_bo_create s.clock w h)).tick).tick).tick,
      { plane with cursor_bo := some s.clock, wlr_rend := true, wlr_tex := false }, false)
  else
    ((((s.emit (.gbm_bo_create s.clock w h)).tick).tick).tick,
      { plane with cursor_bo := some s.clock, wlr_rend := true, wlr_tex := true }, true)

/-- The block `if (!plane->gbm) { ... }` of `wlr_drm_output_set_cursor`; the answer `false`
is its `return false`.  The capability values are `uint64_t` and are passed on as `uint32_t`. -/
def wlr_drm_output_set_cursor.init (env : Env) (s : Sys) (plane : wlr_drm_plane)
    (width height : Nat) : Sys × wlr_drm_plane × Bool :=
  let w := env.drmGetCap_CURSOR_WIDTH.getD 64
  let h := env.drmGetCap_CURSOR_HEIGHT.getD 64
  if width > w ∨ height > h then
    (s, plane, false)
  else
    let r := wlr_drm_plane_renderer_init env s plane (w % 4294967296) (h % 4294967296)
    if !r.2.2 then
      r
    else
      wlr_drm_output_set_cursor.resources env r.1 r.2.1 (w % 4294967296) (h % 4294967296)

/-- The part of `wlr_drm_output_set_cursor` that follows the initialisation: map the scratch
buffer, render the image into it, swap and hand the buffer to the driver.  The texture and
the renderer are dereferenced by the rendering library. -/
def wlr_drm_output_set_cursor.upload (env : Env) (b : wlr_drm_backend) (ci : Nat)
    (plane : wlr_drm_plane) (width height : Nat) : Option (wlr_drm_backend × Bool) := do
  let bo ← plane.cursor_bo
  if !env.succeeds .gbm_bo_map b.sys.clock then
    some ({ b with sys := b.sys.tick }, false)
  else if !plane.wlr_tex ∨ !plane.wlr_rend then
    none
  else do
    let b ← ({ b with sys := (b.sys.tick).emit (.cursor_upload width height) }).on_plane ci 2
      wlr_drm_plane_swap_buffers
    crtc_set_cursor env b ci (some bo)

/-- The function `wlr_drm_output_set_cursor`; `buf` tells whether the image is non-null. -/
def wlr_drm_output_set_cursor (env : Env) (b : wlr_drm_backend) (oi : Nat) (buf : Bool)
    (width height : Nat) : Option (wlr_drm_backend × Bool) := do
  let output ← b.outputs[oi]?
  let ci ← output.crtc
  let c ← b.crtcs[ci]?
  if !buf then
    crtc_set_cursor env b ci none
  else if c.cursor = .null ∧ !env.succeeds .calloc b.sys.clock then
    some ({ b with sys := b.sys.tick }, false)
  else do
    -- We don't have a real cursor plane, so we make a fake one
    let b := if c.cursor = .null then
        { b with sys := b.sys.tick,
                 crtcs := b.crtcs.set ci { c with cursor := .fake wlr_drm_plane.zero } }
      else b
    let c ← b.crtcs[ci]?
    let plane ← b.deref c.cursor
    let r := if plane.gbm.isNone then
        wlr_drm_output_set_cursor.init env b.sys plane width height
      else (b.sys, plane, true)
    let b ← ({ b with sys := r.1 }).store ci 2 r.2.1
    if !r.2.2 then
      some (b, false)
    else
      wlr_drm_output_set_cursor.upload env b ci r.2.1 width height

/-- The function `wlr_drm_output_move_cursor`. -/
def wlr_drm_output_move_cursor (env : Env) (b : wlr_drm_backend) (oi : Nat) (x y : Int) :
    Option (wlr_drm_backend × Bool) := do
  let output ← b.outputs[oi]?
  crtc_move_cursor env b output.crtc x y

/-! ## Connector scan (`drm.c`) -/

/-- Modelled from the spec: `wlr_output_create` of `types/wlr_output.c` (not among the
sources) yields a zeroed output whose list of modes is empty. -/
def wlr_output_create : wlr_output :=
  { width := 0, height := 0, phys_width := 0, phys_height := 0, modes := [],
    current_mode := none, transform := 0 }

/-- The comparison `find_id`. -/
def find_id (output : wlr_output_state) (id : Nat) : Int :=
  if output.connector < id then -1
  else if output.connector > id then 1
  else 0

/-- Modelled from the spec: `list_seq_find` of `util/list.c` (not among the sources) looks an
item up: it yields the position of the first item on which the comparison answers 0, and
-1 (here `none`) when there is none. -/
def list_seq_find (items : List wlr_output_state) (id : Nat) : Option Nat :=
  match items with
  | [] => none
  | o :: rest => if find_id o id = 0 then some 0 else (list_seq_find rest id).map (· + 1)

/-- The branch `index == -1` of `wlr_drm_scan_connectors`: create the output of a connector
seen for the first time.  Without memory the connector is skipped (`none`). -/
def wlr_drm_scan_connectors.create (env : Env) (b : wlr_drm_backend)
    (conn : drmModeConnector) : wlr_drm_backend × Option Nat :=
  if !env.succeeds .calloc b.sys.clock then
    ({ b with sys := b.sys.tick }, none)
  else if !env.succeeds .wlr_output_create (b.sys.clock + 1) then
    ({ b with sys := b.sys.tick.tick }, none)
  else
    let output : wlr_output_state :=
      { base := { wlr_output_create with phys_width := conn.mmWidth,
                                         phys_height := conn.mmHeight },
        connector := conn.connector_id,
        props := env.wlr_drm_get_connector_props conn.connector_id,
        state := WLR_DRM_OUTPUT_DISCONNECTED,
        crtc := none,
        possible_crtc := 0,
        old_crtc := (env.drmModeGetEncoder conn.encoder_id).bind
          (fun enc => env.drmModeGetCrtc enc.crtc_id),
        pageflip_pending := false,
        width := 0,
        height := 0 }
    ({ b with sys := b.sys.tick.tick, outputs := b.outputs ++ [output] }, some b.outputs.length)

/-- The mode that the scan derives from one `drmModeModeInfo` of the connector. -/
def wlr_drm_scan_connectors.mode (env : Env) (m : drmModeModeInfo) : wlr_output_mode :=
  { width := m.hdisplay, height := m.vdisplay, refresh := env.calculate_refresh_rate m,
    state := m }

/-- The end of the loop body of `wlr_drm_scan_connectors`, with `output = outputs[index]`:
a Disconnected output whose connector is connected receives the modes, becomes
NeedsModeset and is announced; a Connected output whose connector is gone is cleaned up. -/
def wlr_drm_scan_connectors.transition (env : Env) (b : wlr_drm_backend) (index : Nat)
    (conn : drmModeConnector) : Option wlr_drm_backend := do
  let output ← b.outputs[index]?
  if output.state = WLR_DRM_OUTPUT_DISCONNECTED ∧ conn.connected then do
    let modes := conn.modes.map (wlr_drm_scan_connectors.mode env)
    let b ← b.set_output index (fun o =>
      { o with base := { o.base with modes := o.base.modes ++ modes },
               state := WLR_DRM_OUTPUT_NEEDS_MODESET })
    some { b with sys := b.sys.emit (.output_add index) }
  else if output.state = WLR_DRM_OUTPUT_CONNECTED ∧ !conn.connected then
    wlr_drm_output_cleanup b index false
  else
    some b

/-- The body of the loop of `wlr_drm_scan_connectors`, for the connector with id `id`. -/
def wlr_drm_scan_connectors.connector (env : Env) (b : wlr_drm_backend) (id : Nat) :
    Option wlr_drm_backend :=
  match env.drmModeGetConnector id with
  | none => some b
  | some conn =>
    match list_seq_find b.outputs conn.connector_id with
    | some index => wlr_drm_scan_connectors.transition env b index conn
    | none =>
      let created := wlr_drm_scan_connectors.create env b conn
      match created.2 with
      | none => some created.1
      | some index => wlr_drm_scan_connectors.transition env created.1 index conn

/-- The function `wlr_drm_scan_connectors`. -/
def wlr_drm_scan_connectors (env : Env) (b : wlr_drm_backend) : Option wlr_drm_backend :=
  match env.drmModeGetResources with
  | none => some b
  | some connectors => for_each (wlr_drm_scan_connectors.connector env) connectors b

/-- A sequence of scans, each against the kernel as it is at that time. -/
def scans : List Env → wlr_drm_backend → Option wlr_drm_backend
  | [], b => some b
  | env :: rest, b => do
    let b ← wlr_drm_scan_connectors env b
    scans rest b

/-! ## Conditions on the matcher and on the state -/

/-- The conditions the specification puts on a result of `match_obj`: SKIP slots pass
through, every assigned left index is in range and allowed for its slot by the bitmask, and
no left index appears twice. -/
def MatchOK (num_objs : Nat) (possible : List Nat) (num_res : Nat) (current : List Nat)
    (result : Nat → Nat) : Prop :=
  (∀ j, j < num_res → current.getD j UNMATCHED = SKIP → result j = SKIP) ∧
  (∀ j, j < num_res → result j ≠ SKIP → result j ≠ UNMATCHED →
    result j < num_objs ∧ hasBit (possible.getD (result j) 0) j = true) ∧
  (∀ i j, i < num_res → j < num_res → result i = result j →
    result i ≠ SKIP → result i ≠ UNMATCHED → i = j)

/-- The CRTC field of output `k`, if that output exists. -/
def wlr_drm_backend.crtc_of (b : wlr_drm_backend) (k : Nat) : Option (Option Nat) :=
  (b.outputs[k]?).map (fun o => o.crtc)

/-- Output `k` exists and is Connected. -/
def wlr_drm_backend.connected (b : wlr_drm_backend) (k : Nat) : Bool :=
  match b.outputs[k]? with
  | some o => o.state == WLR_DRM_OUTPUT_CONNECTED
  | none => false

/-! ## Concrete backends and environments -/

namespace Ex

/-- A CRTC with kernel id `id` and empty plane slots. -/
def crtc (id : Nat) : wlr_drm_crtc :=
  { id := id, props := ⟨10, 11⟩, overlay := .null, primary := .null, cursor := .null,
    atomic := none, mode_id := 0 }

/-- A primary kernel plane, as `init_planes` leaves it. -/
def primary (id possible_crtcs : Nat) : wlr_drm_plane :=
  { wlr_drm_plane.zero with type := 1, id := id, possible_crtcs := possible_crtcs }

/-- The mode 1920x1080. -/
def info : drmModeModeInfo := ⟨1920, 1080, 60⟩

/-- The output mode for `info`. -/
def mode : wlr_output_mode := ⟨1920, 1080, 60000, info⟩

/-- An output that the scan has found connected. -/
def needs_modeset (connector : Nat) : wlr_output_state :=
  { base := { wlr_output_create with modes := [mode] }, connector := connector,
    props := ⟨1, 2⟩, state := WLR_DRM_OUTPUT_NEEDS_MODESET, crtc := none, possible_crtc := 0,
    old_crtc := none, pageflip_pending := false, width := 0, height := 0 }

/-- An output that is Connected on CRTC `ci` in mode `mode`. -/
def connected (connector ci possible_crtc : Nat) : wlr_output_state :=
  { needs_modeset connector with
    base := { wlr_output_create with modes := [mode], current_mode := some mode,
                                     width := 1920, height := 1080 },
    state := WLR_DRM_OUTPUT_CONNECTED, crtc := some ci, possible_crtc := possible_crtc,
    width := 1920, height := 1080 }

/-- A kernel in which every connector is connected with the mode `info` and encoder 3, whose
CRTC mask is `enc_mask`; the matcher and the oracle are given. -/
def env (enc_mask : Nat) (match_obj : Nat → List Nat → Nat → List Nat → Nat → Nat)
    (succeeds : Call → Nat → Bool) : Env :=
  { drmModeGetResources := some [7]
    drmModeGetConnector := fun id =>
      some { connector_id := id, connected := true, modes := [info], encoders := [3],
             encoder_id := 3, mmWidth := 500, mmHeight := 300 }
    drmModeGetEncoder := fun id => if id = 3 then some ⟨0, enc_mask⟩ else none
    drmModeGetCrtc := fun _ => none
    wlr_drm_get_connector_props := fun _ => ⟨1, 2⟩
    drmGetCap_CURSOR_WIDTH := none
    drmGetCap_CURSOR_HEIGHT := none
    calculate_refresh_rate := fun m => m.timings * 1000
    match_obj := match_obj
    succeeds := succeeds }

/-- One CRTC, no planes; output 0 is Connected on the CRTC, output 1 waits for a mode. -/
def one_crtc : wlr_drm_backend :=
  { iface := .legacy_iface, session_active := true, crtcs := [crtc 40], planes := [],
    num_overlay_planes := 0, num_primary_planes := 0, num_cursor_planes := 0,
    outputs := [connected 7 0 1, { needs_modeset 8 with possible_crtc := 1 }],
    inflight := [], sys := ⟨0, []⟩ }

/-- A matcher answer that leaves every slot unmatched. -/
def match_none : Nat → List Nat → Nat → List Nat → Nat → Nat :=
  fun _ _ _ _ _ => UNMATCHED

/-- A matcher answer that keeps what is assigned and assigns nothing new. -/
def match_keep : Nat → List Nat → Nat → List Nat → Nat → Nat :=
  fun _ _ _ current j => current.getD j UNMATCHED

/-- A matcher answer that gives slot 0 to left item 1. -/
def match_steal : Nat → List Nat → Nat → List Nat → Nat → Nat :=
  fun _ _ _ _ j => if j = 0 then 1 else UNMATCHED

/-- An oracle under which every call succeeds. -/
def all_succeed : Call → Nat → Bool := fun _ _ => true

end Ex

/-! ## What reallocation may and may not change -/

/-- The array index behind a slot pointer, for a pointer into `backend->planes`. -/
def kernel_index : PlanePtr → Option Nat
  | .kernel g => some g
  | _ => none

/-- The identity of a plane: the fields that `init_planes` sets and nothing else writes. -/
def wlr_drm_plane.key (p : wlr_drm_plane) : Nat × Nat × Nat :=
  (p.type, p.id, p.possible_crtcs)

/-- The kernel planes held by the three slots of a CRTC. -/
def wlr_drm_crtc.key (c : wlr_drm_crtc) : Nat × Option Nat × Option Nat × Option Nat :=
  (c.id, kernel_index c.overlay, kernel_index c.primary, kernel_index c.cursor)

/-- The backend without renderer state, requests, outputs and trace: the identity of the
kernel planes, which kernel plane each CRTC slot holds, and the plane counts. -/
def wlr_drm_backend.skeleton (b : wlr_drm_backend) :
    List (Nat × Nat × Nat) × List (Nat × Option Nat × Option Nat × Option Nat)
      × Nat × Nat × Nat :=
  (b.planes.map wlr_drm_plane.key, b.crtcs.map wlr_drm_crtc.key,
    b.num_overlay_planes, b.num_primary_planes, b.num_cursor_planes)

namespace Ex

/-- Two CRTCs, no planes; output 0 is Connected on CRTC 0, output 1 waits for a mode. -/
def two_crtcs : wlr_drm_backend :=
  { one_crtc with
    crtcs := [crtc 40, crtc 41],
    outputs := [connected 7 0 3, { needs_modeset 8 with possible_crtc := 2 }] }

/-- A matcher answer that keeps what is assigned and gives slot 1 to left item 1. -/
def match_second : Nat → List Nat → Nat → List Nat → Nat → Nat :=
  fun _ _ _ current j => if j = 1 then 1 else current.getD j UNMATCHED

/-- The backend `two_crtcs` after the reallocation for output 1 under `match_second`. -/
def two_crtcs_after : wlr_drm_backend :=
  { two_crtcs with
    outputs := [connected 7 0 3, { needs_modeset 8 with possible_crtc := 2, crtc := some 1 }] }

end Ex

namespace Ex

/-- One CRTC with one primary plane; output 0 is Connected, has rendered its first frame
and waits for the completion of the page flip it submitted. -/
def flipping : wlr_drm_backend :=
  { iface := .legacy_iface, session_active := true,
    crtcs := [{ crtc 40 with primary := .kernel 0 }],
    planes := [{ primary 30 1 with width := 1920, height := 1080, gbm := some 2, egl := some 3,
                                   back := some 4 }],
    num_overlay_planes := 0, num_primary_planes := 1, num_cursor_planes := 0,
    outputs := [{ connected 7 0 1 with pageflip_pending := true }],
    inflight := [0], sys := ⟨6, []⟩ }

end Ex

/-- The invariant of the specification on an output: a Connected output has a CRTC, the
CRTC has a primary plane, and the plane has a buffer queue and a context surface. -/
def wlr_drm_backend.output_ready (b : wlr_drm_backend) (o : wlr_output_state) : Bool :=
  o.state != WLR_DRM_OUTPUT_CONNECTED ||
    match o.crtc with
    | none => false
    | some ci =>
      match b.crtcs[ci]? with
      | none => false
      | some c =>
        match b.deref c.primary with
        | none => false
        | some plane => plane.gbm.isSome && plane.egl.isSome

/-- The invariant of the specification on every output of the backend. -/
def wlr_drm_backend.outputs_ready (b : wlr_drm_backend) : Bool :=
  b.outputs.all b.output_ready

namespace Ex

/-- Two CRTCs and two primary planes: plane 0 fits both CRTCs, plane 1 only CRTC 0.
Output 0 is Connected on CRTC 0 with plane 0, whose renderer is initialised; output 1
waits for a mode. -/
def two_planes : wlr_drm_backend :=
  { iface := .legacy_iface, session_active := true,
    crtcs := [{ crtc 40 with primary := .kernel 0 }, crtc 41],
    planes := [{ primary 30 3 with width := 1920, height := 1080, gbm := some 2, egl := some 3,
                                   back := some 4 },
               primary 31 1],
    num_overlay_planes := 0, num_primary_planes := 2, num_cursor_planes := 0,
    outputs := [connected 7 0 1, needs_modeset 8],
    inflight := [], sys := ⟨6, []⟩ }

/-- The answers of a maximum matcher on `two_planes` when output 1 asks for CRTC 1: the
outputs keep and get CRTC 0 and CRTC 1; of the primary planes, whose masks are 3 and 1,
CRTC 1 can only take plane 0, so CRTC 0 moves to plane 1. -/
def match_swap : Nat → List Nat → Nat → List Nat → Nat → Nat :=
  fun _ possible _ current j =>
    if possible = [3, 1] then
      if j = 0 then 1 else if j = 1 then 0 else UNMATCHED
    else
      if j = 1 then 1 else current.getD j UNMATCHED

/-- An oracle under which `gbm_surface_create` fails and every other call succeeds. -/
def no_surface : Call → Nat → Bool := fun call _ => call != .gbm_surface_create

end Ex

/-- The validity condition of the specification on a result of `match_obj`: every assigned
left index is in range and allowed for its slot by the bitmask. -/
def MatchValid (num_objs : Nat) (possible : List Nat) (num_res : Nat) (result : Nat → Nat) :
    Prop :=
  ∀ j, j < num_res → result j ≠ SKIP → result j ≠ UNMATCHED →
    result j < num_objs ∧ hasBit (possible.getD (result j) 0) j = true

/-- Every CRTC slot that holds a kernel plane holds one whose `possible_crtcs` has the bit
of the CRTC's index. -/
def wlr_drm_backend.slots_allowed (b : wlr_drm_backend) : Prop :=
  ∀ ci c t g, b.crtcs[ci]? = some c → c.planes t = .kernel g →
    ∃ p, b.planes[g]? = some p ∧ hasBit p.possible_crtcs ci = true

/-- The backend `x` has the kernel planes, the plane counts and the number of CRTCs of `b`. -/
def wlr_drm_backend.same_planes (b x : wlr_drm_backend) : Prop :=
  x.planes.map wlr_drm_plane.key = b.planes.map wlr_drm_plane.key ∧
  x.crtcs.length = b.crtcs.length ∧
  x.num_overlay_planes = b.num_overlay_planes ∧
  x.num_primary_planes = b.num_primary_planes ∧
  x.num_cursor_planes = b.num_cursor_planes

namespace Ex

/-- A matcher answer for the primary planes of `two_planes` (masks 3 and 1): CRTC 0 takes
plane 1 and CRTC 1 takes plane 0; for every other question nothing is assigned. -/
def match_planes : Nat → List Nat → Nat → List Nat → Nat → Nat :=
  fun _ possible _ _ j =>
    if possible = [3, 1] then
      if j = 0 then 1 else if j = 1 then 0 else UNMATCHED
    else UNMATCHED

/-- The backend `two_planes` after `realloc_planes` under `match_planes`: both primary
planes are freed and swapped between the CRTCs. -/
def two_planes_after : wlr_drm_backend :=
  { two_planes with
    crtcs := [{ crtc 40 with primary := .kernel 1 }, { crtc 41 with primary := .kernel 0 }],
    planes := [primary 30 3, primary 31 1],
    sys := ⟨6, [Event.gbm_surface_release_buffer 4, Event.eglDestroySurface 3,
                Event.gbm_surface_destroy 2]⟩ }

end Ex

/-- The connector ids that one scan obtains from the kernel: for every id listed by
`drmModeGetResources` for which `drmModeGetConnector` returns a connector, the id of that
connector. -/
def observed (env : Env) : List Nat :=
  match env.drmModeGetResources with
  | none => []
  | some connectors =>
    connectors.filterMap (fun id => (env.drmModeGetConnector id).map (fun c => c.connector_id))

/-- The list of ids `after` extends the list `before` by exactly the ids in `seen`: it stays
free of repetitions, it contains the old ids and the seen ones and no others, and the old
ids keep their positions. -/
def Grows (before after seen : List Nat) : Prop :=
  (before.Nodup → after.Nodup) ∧
  (∀ id, id ∈ after ↔ id ∈ before ∨ id ∈ seen) ∧
  ∃ l, after = before ++ l

/-- The connector ids obtained from the kernel by a sequence of scans. -/
def observed_all : List Env → List Nat
  | [] => []
  | env :: rest => observed env ++ observed_all rest

namespace Ex

/-- A backend before its first scan: one CRTC, one primary plane, no outputs. -/
def fresh : wlr_drm_backend :=
  { iface := .legacy_iface, session_active := true, crtcs := [crtc 40],
    planes := [primary 30 1],
    num_overlay_planes := 0, num_primary_planes := 1, num_cursor_planes := 0,
    outputs := [], inflight := [], sys := ⟨0, []⟩ }

/-- A kernel that lists the connectors 7 and then 7 and 9. -/
def hotplug : List Env :=
  [env 1 match_keep all_succeed,
   { env 1 match_keep all_succeed with drmModeGetResources := some [7, 9] }]

end Ex

namespace Ex

/-- The backend `flipping` one frame later: the primary plane holds a front and a back
buffer and the page flip to the back buffer is in flight. -/
def flipped : wlr_drm_backend :=
  { flipping with
    planes := [{ primary 30 1 with width := 1920, height := 1080, gbm := some 2, egl := some 3,
                                   front := some 4, back := some 6 }],
    sys := ⟨8, []⟩ }

/-- A kernel whose connectors are all disconnected. -/
def unplugged : Env :=
  { env 1 match_keep all_succeed with
    drmModeGetConnector := fun id =>
      some { connector_id := id, connected := false, modes := [], encoders := [3],
             encoder_id := 3, mmWidth := 500, mmHeight := 300 } }

/-- A matcher answer that gives slot 0 to left item 0. -/
def match_first : Nat → List Nat → Nat → List Nat → Nat → Nat :=
  fun _ _ _ _ j => if j = 0 then 0 else UNMATCHED

end Ex

namespace Ex
/-- The backend `fresh` once the scan has found connector 7 connected. -/
def plugged : wlr_drm_backend := { fresh with outputs := [needs_modeset 7] }
end Ex

/-- The event is a `drmModeSetCrtc` call. -/
def Event.is_drmModeSetCrtc : Event → Bool
  | .drmModeSetCrtc _ _ _ _ _ _ => true
  | _ => false

/-- A plane on which `wlr_drm_plane_renderer_free` is defined: a buffer it holds has a queue
to go back to. -/
def wlr_drm_plane.sound (p : wlr_drm_plane) : Prop :=
  (p.front ≠ none ∨ p.back ≠ none) → p.gbm ≠ none

/-- A slot that the plane loop of `wlr_drm_output_cleanup` can process: it is empty, or holds
a plane of the kernel array (which has a non-zero id), or a synthetic plane. -/
def wlr_drm_backend.slot_ok (b : wlr_drm_backend) : PlanePtr → Prop
  | .null => True
  | .kernel g => ∃ p, b.planes[g]? = some p ∧ p.id ≠ 0 ∧ p.sound
  | .fake p => p.sound

/-- The CRTC `crtcs[ci]` exists and its three slots can be processed by the cleanup. -/
def wlr_drm_backend.crtc_ok (b : wlr_drm_backend) (ci : Nat) : Prop :=
  ∃ c, b.crtcs[ci]? = some c ∧ b.slot_ok c.overlay ∧ b.slot_ok c.primary ∧ b.slot_ok c.cursor

namespace Ex

/-- The CRTC configuration found on connector 7 before the backend took it over. -/
def saved : drmModeCrtc := ⟨40, 99, 0, 0, info⟩

/-- The backend `flipping` whose output has the configuration `saved` to go back to. -/
def flipping_saved : wlr_drm_backend :=
  { flipping with
    outputs := [{ connected 7 0 1 with pageflip_pending := true, old_crtc := some saved }] }

end Ex

/-- A slot pointer that can be followed: null, a plane inside the kernel array, or a sound
synthetic plane. -/
def wlr_drm_backend.ptr_ok (b : wlr_drm_backend) : PlanePtr → Prop
  | .null => True
  | .kernel g => g < b.planes.length
  | .fake p => p.sound

/-- A well-formed backend: every kernel plane has a non-zero id and is sound, every CRTC slot
can be followed, and every Connected output has a CRTC with a primary plane. -/
def wlr_drm_backend.wf (b : wlr_drm_backend) : Prop :=
  (∀ p ∈ b.planes, p.id ≠ 0 ∧ p.sound) ∧
  (∀ c ∈ b.crtcs, b.ptr_ok c.overlay ∧ b.ptr_ok c.primary ∧ b.ptr_ok c.cursor) ∧
  (∀ o ∈ b.outputs, o.state = WLR_DRM_OUTPUT_CONNECTED →
    ∃ ci c, o.crtc = some ci ∧ b.crtcs[ci]? = some c ∧ c.primary ≠ .null)

/-- The buffer that the event gives back to its queue, if it is a release. -/
def Event.released : Event → Option Nat
  | .gbm_surface_release_buffer bo => some bo
  | _ => none

/-- The buffer that the event takes from its queue, if it is a lock. -/
def Event.locked : Event → Option Nat
  | .gbm_surface_lock_front_buffer bo => some bo
  | _ => none

/-- The event neither takes a buffer from a queue nor gives one back. -/
def Event.quiet (e : Event) : Prop := e.released = none ∧ e.locked = none

/-- The three plane slots of a CRTC. -/
def wlr_drm_crtc.slots (c : wlr_drm_crtc) : PlanePtr × PlanePtr × PlanePtr :=
  (c.overlay, c.primary, c.cursor)

namespace Ex

/-- The backend `flipped` driven through the atomic interface. -/
def atomic_flipped : wlr_drm_backend := { flipped with iface := .atomic_iface }

end Ex

/-! ## Enumeration of CRTCs and planes (`drm.c`) -/

/-- The kernel's `drmModePlane`. -/
structure drmModePlane where
  plane_id : Nat
  possible_crtcs : Nat
  deriving DecidableEq, Repr

/-- The kernel and the libraries as seen by `wlr_drm_resources_init`.  `drmModeGetResources`
yields the CRTC ids; `calloc_crtcs` and `calloc_planes` tell whether the two allocations
succeed; `qsort` is the C library's sort.  The property lookups `wlr_drm_get_crtc_props`,
`wlr_drm_get_plane_props` and `wlr_drm_get_prop` of `drm-util.c` are not among the sources:
they answer whether the lookup succeeded, as their callers use them. -/
structure Probe where
  drmModeGetResources : Option (List Nat)
  calloc_crtcs : Bool
  wlr_drm_get_crtc_props : Nat → wlr_drm_crtc_props × Bool
  drmModeGetPlaneResources : Option (List Nat)
  calloc_planes : Bool
  drmModeGetPlane : Nat → Option drmModePlane
  wlr_drm_get_plane_props : Nat → Option wlr_drm_plane_props
  wlr_drm_get_prop : Nat → Nat → Option Nat
  qsort : (wlr_drm_plane → wlr_drm_plane → Int) → List wlr_drm_plane → List wlr_drm_plane

/-- The cast `(int)` of a `uint32_t`. -/
def int_of_uint32 (n : Nat) : Int :=
  if n % 4294967296 < 2147483648 then (n % 4294967296 : Nat) else (n % 4294967296 : Nat) - 4294967296

/-- The comparison `cmp_plane`. -/
def cmp_plane (a b : wlr_drm_plane) : Int :=
  int_of_uint32 a.type - int_of_uint32 b.type

/-- The statement `backend->num_type_planes[type]++`; the array has three entries. -/
def init_planes.count (type : Nat) (n : Nat × Nat × Nat) : Option (Nat × Nat × Nat) :=
  match type with
  | 0 => some (n.1 + 1, n.2.1, n.2.2)
  | 1 => some (n.1, n.2.1 + 1, n.2.2)
  | 2 => some (n.1, n.2.1, n.2.2 + 1)
  | _ => none

/-- The body of the loop of `init_planes` for the plane with id `id`, up to the counter: the
plane read from the kernel, or `none` on the way to `error_planes`. -/
def init_planes.plane (K : Probe) (id : Nat) : Option wlr_drm_plane :=
  match K.drmModeGetPlane id with
  | none => none
  | some plane =>
    match K.wlr_drm_get_plane_props plane.plane_id with
    | none => none
    | some props =>
      match K.wlr_drm_get_prop plane.plane_id props.type with
      | none => none
      | some type =>
        some { wlr_drm_plane.zero with id := plane.plane_id,
                                       possible_crtcs := plane.possible_crtcs,
                                       props := props, type := type }

/-- The loop of `init_planes` over the plane ids: the planes read so far and the three
counters; the answer `false` is the jump to `error_planes`.  A type outside the counter array
has no defined result. -/
def init_planes.loop (K : Probe) :
    List Nat → List wlr_drm_plane × (Nat × Nat × Nat) →
      Option (List wlr_drm_plane × (Nat × Nat × Nat) × Bool)
  | [], acc => some (acc.1, acc.2, true)
  | id :: rest, acc =>
    match init_planes.plane K id with
    | none => some (acc.1, acc.2, false)
    | some p =>
      match init_planes.count p.type acc.2 with
      | none => none
      | some n => init_planes.loop K rest (acc.1 ++ [p], n)

/-- The function `init_planes`.  On failure the plane array is freed. -/
def init_planes (K : Probe) (b : wlr_drm_backend) : Option (wlr_drm_backend × Bool) :=
  match K.drmModeGetPlaneResources with
  | none => some (b, false)
  | some ids =>
    if ids.length = 0 then
      some (b, true)
    else if !K.calloc_planes then
      some (b, false)
    else
      match init_planes.loop K ids
        ([], (b.num_overlay_planes, b.num_primary_planes, b.num_cursor_planes)) with
      | none => none
      | some r =>
        if !r.2.2 then
          some ({ b with planes := [], num_overlay_planes := r.2.1.1,
                         num_primary_planes := r.2.1.2.1, num_cursor_planes := r.2.1.2.2 },
            false)
        else
          some ({ b with planes := K.qsort cmp_plane r.1, num_overlay_planes := r.2.1.1,
                         num_primary_planes := r.2.1.2.1, num_cursor_planes := r.2.1.2.2 },
            true)

/-- The CRTC that `wlr_drm_resources_init` sets up for the kernel id `id`; the result of
`wlr_drm_get_crtc_props` is not looked at. -/
def wlr_drm_resources_init.crtc (K : Probe) (id : Nat) : wlr_drm_crtc :=
  { id := id, props := (K.wlr_drm_get_crtc_props id).1, overlay := .null, primary := .null,
    cursor := .null, atomic := none, mode_id := 0 }

/-- The function `wlr_drm_resources_init`.  On failure the CRTC array is freed. -/
def wlr_drm_resources_init (K : Probe) (b : wlr_drm_backend) :
    Option (wlr_drm_backend × Bool) :=
  match K.drmModeGetResources with
  | none => some (b, false)
  | some crtcs =>
    if !K.calloc_crtcs then
      some (b, false)
    else
      match init_planes K { b with crtcs := crtcs.map (wlr_drm_resources_init.crtc K) } with
      | none => none
      | some r => if !r.2 then some ({ r.1 with crtcs := [] }, false) else some (r.1, true)

namespace Ex

/-- A backend before the enumeration: everything is zero, as `calloc` leaves it. -/
def blank : wlr_drm_backend :=
  { iface := .legacy_iface, session_active := true, crtcs := [], planes := [],
    num_overlay_planes := 0, num_primary_planes := 0, num_cursor_planes := 0,
    outputs := [], inflight := [], sys := ⟨0, []⟩ }

/-- A kernel with CRTC 40 and the primary plane 30, on which the property lookup fails for
every CRTC and succeeds for every plane; the sort is an insertion sort. -/
def probe_no_crtc_props : Probe :=
  { drmModeGetResources := some [40]
    calloc_crtcs := true
    wlr_drm_get_crtc_props := fun _ => (⟨0, 0⟩, false)
    drmModeGetPlaneResources := some [30]
    calloc_planes := true
    drmModeGetPlane := fun id => some ⟨id, 1⟩
    wlr_drm_get_plane_props := fun _ => some ⟨5, 0, 0, 0, 0, 0, 0, 0, 0, 0, 0⟩
    wlr_drm_get_prop := fun _ _ => some 1
    qsort := fun cmp l => l.insertionSort (fun a b => cmp a b ≤ 0) }

end Ex

/-! ## The multi backend (`multi/backend.c`) -/

/-- The `struct wlr_multi_backend`: the child backends of `backends`, each named by a
handle, in list order. -/
structure wlr_multi_backend where
  backends : List Nat
  deriving DecidableEq, Repr

/-- Modelled from the spec: `list_create` of `util/list.c` (not among the sources) yields an
empty list; this is the multi backend `wlr_multi_backend_create` returns. -/
def wlr_multi_backend_create : wlr_multi_backend := { backends := [] }

/-- The function `wlr_multi_backend_add`; `calloc` tells whether the allocation of the
child's record succeeds, which the code does not test before writing to the record.
Modelled from the spec: `list_add` of `util/list.c` (not among the sources) appends. -/
def wlr_multi_backend_add (multi : wlr_multi_backend) (backend : Nat) (calloc : Bool) :
    Option wlr_multi_backend :=
  if calloc then some { multi with backends := multi.backends ++ [backend] } else none

/-- The function `multi_backend_init` on the children from position `i` on.  The calls
`wlr_backend_init(sub->backend)` made so far are kept in a trace, and the answer of a call
may depend on the calls made before it. -/
def multi_backend_init (wlr_backend_init : Nat → List Nat → Bool) :
    List Nat → List Nat → Bool × List Nat
  | [], trace => (true, trace)
  | sub :: rest, trace =>
    if !wlr_backend_init sub trace then
      (false, trace ++ [sub])
    else
      multi_backend_init wlr_backend_init rest (trace ++ [sub])

namespace Ex

/-- A kernel with CRTC 40 and four planes, enumerated as cursor, primary, overlay, primary;
every lookup succeeds and the sort is an insertion sort. -/
def probe_four : Probe :=
  { drmModeGetResources := some [40]
    calloc_crtcs := true
    wlr_drm_get_crtc_props := fun _ => (⟨10, 11⟩, true)
    drmModeGetPlaneResources := some [31, 32, 33, 34]
    calloc_planes := true
    drmModeGetPlane := fun id => some ⟨id, 1⟩
    wlr_drm_get_plane_props := fun _ => some ⟨5, 0, 0, 0, 0, 0, 0, 0, 0, 0, 0⟩
    wlr_drm_get_prop := fun id _ =>
      some (if id = 31 then 2 else if id = 33 then 0 else 1)
    qsort := fun cmp l => l.insertionSort (fun a b => cmp a b ≤ 0) }

end Ex

/-- The pointer in slot `s` of CRTC `j`, if that CRTC exists. -/
def wlr_drm_backend.slot (b : wlr_drm_backend) (j s : Nat) : Option PlanePtr :=
  (b.crtcs[j]?).map (fun c => c.planes s)

/-- From `b` to `b'` only slot `t` of CRTC `i` may have been written, and a kernel plane has
changed only if that slot was written and the plane is its old or its new occupant. -/
def realloc_planes.touches (b b' : wlr_drm_backend) (i t : Nat) : Prop :=
  b'.crtcs.length = b.crtcs.length ∧
  (∀ j s, s < 3 → (j ≠ i ∨ s ≠ t) → b'.slot j s = b.slot j s) ∧
  (∀ g, b'.planes[g]? = b.planes[g]? ∨
    (b'.slot i t ≠ b.slot i t ∧
      (b.slot i t = some (.kernel g) ∨ b'.slot i t = some (.kernel g)))) ∧
  b'.num_overlay_planes = b.num_overlay_planes ∧
  b'.num_primary_planes = b.num_primary_planes ∧
  b'.num_cursor_planes = b.num_cursor_planes

/-- From `b0` to `b` only the slots in `P` may have been written, and a kernel plane has
changed only if it is the old or the new occupant of a slot in `P` that holds another
pointer than before. -/
def realloc_planes.frame (b0 b : wlr_drm_backend) (P : Nat → Nat → Prop) : Prop :=
  b.crtcs.length = b0.crtcs.length ∧
  (∀ j s, s < 3 → ¬P j s → b.slot j s = b0.slot j s) ∧
  (∀ g, b.planes[g]? = b0.planes[g]? ∨
    ∃ j s, s < 3 ∧ P j s ∧ b.slot j s ≠ b0.slot j s ∧
      (b0.slot j s = some (.kernel g) ∨ b.slot j s = some (.kernel g))) ∧
  b.num_overlay_planes = b0.num_overlay_planes ∧
  b.num_primary_planes = b0.num_primary_planes ∧
  b.num_cursor_planes = b0.num_cursor_planes

/-- The event is a request of the driver interface to the kernel for a page flip: a mode
set, a page flip, an atomic commit or a mode blob. -/
def Event.from_driver : Event → Bool
  | .drmModeSetCrtc _ _ _ _ _ _ => true
  | .drmModePageFlip _ _ _ _ => true
  | .drmModeAtomicCommit _ _ _ _ _ => true
  | .drmModeCreatePropertyBlob _ => true
  | .drmModeDestroyPropertyBlob _ => true
  | _ => false

namespace Ex

/-- The backend `atomic_flipped` after `set_cursor` has fabricated a cursor plane of 64x64
for CRTC 0, which has no kernel cursor plane. -/
def atomic_fake_cursor : wlr_drm_backend :=
  { atomic_flipped with
    crtcs := [{ crtc 40 with
      primary := .kernel 0,
      cursor := .fake { wlr_drm_plane.zero with width := 64, height := 64, gbm := some 8,
                                                 egl := some 9, cursor_bo := some 10 } }] }

end Ex

namespace Ex

/-- The backend `atomic_flipped` with a kernel cursor plane (id 31) in the cursor slot of
CRTC 0 and an allocated, empty request. -/
def atomic_cursor : wlr_drm_backend :=
  { atomic_flipped with
    crtcs := [{ crtc 40 with primary := .kernel 0, cursor := .kernel 1, atomic := some [] }],
    planes := atomic_flipped.planes ++
      [{ wlr_drm_plane.zero with type := 2, id := 31, possible_crtcs := 1,
                                 props := ⟨0, 1, 2, 3, 4, 5, 6, 7, 8, 9, 10⟩ }],
    num_cursor_planes := 1 }

/-- An oracle under which the call numbered 9 fails if it is `drmModeAtomicAddProperty`, and
every other call succeeds. -/
def add_fails_at_9 : Call → Nat → Bool :=
  fun call n => !(call == .drmModeAtomicAddProperty && n == 9)

end Ex

namespace Ex

/-- The backend `atomic_flipped` after its page flip has completed: no flip is pending or
in flight and the primary plane shows buffer 6. -/
def atomic_idle : wlr_drm_backend :=
  { atomic_flipped with
    planes := [{ primary 30 1 with width := 1920, height := 1080, gbm := some 2, egl := some 3,
                                   back := some 6 }],
    outputs := [connected 7 0 1], inflight := [] }

/-- An oracle under which the kernel refuses every atomic commit and every other call
succeeds. -/
def no_commit : Call → Nat → Bool := fun call _ => call != .drmModeAtomicCommit

end Ex

namespace Ex

/-- Two CRTCs, two primary planes and one kernel cursor plane, which CRTC 0 holds; for
CRTC 1 `set_cursor` has fabricated a cursor plane of 64x64. -/
def fake_beside_kernel : wlr_drm_backend :=
  { iface := .legacy_iface, session_active := true,
    crtcs := [{ crtc 40 with primary := .kernel 0, cursor := .kernel 2 },
              { crtc 41 with
                primary := .kernel 1,
                cursor := .fake { wlr_drm_plane.zero with width := 64, height := 64,
                                                           gbm := some 8, egl := some 9,
                                                           cursor_bo := some 10 } }],
    planes := [primary 30 3, primary 31 3,
               { wlr_drm_plane.zero with type := 2, id := 32, possible_crtcs := 3 }],
    num_overlay_planes := 0, num_primary_planes := 2, num_cursor_planes := 1,
    outputs := [connected 7 0 1, connected 8 1 2],
    inflight := [], sys := ⟨11, []⟩ }

end Ex

/-- The event is the signal `output_remove`. -/
def Event.is_output_remove : Event → Bool
  | .output_remove _ => true
  | _ => false

/-- The event gives a buffer back to its queue, destroys a surface or a scratch buffer, or is
the signal `frame`: what freeing a plane and completing a page flip add to the trace. -/
def Event.incidental : Event → Bool
  | .gbm_surface_release_buffer _ => true
  | .eglDestroySurface _ => true
  | .gbm_surface_destroy _ => true
  | .gbm_bo_destroy _ => true
  | .frame _ => true
  | _ => false

/-- The trace of `s'` is the trace of `s` followed by incidental events only. -/
def Sys.incidental_from (s s' : Sys) : Prop :=
  ∃ l, s'.events = s.events ++ l ∧ ∀ e ∈ l, e.incidental = true

namespace Ex

/-- Two CRTCs and one primary plane, which both CRTCs can take; output 0 is Connected on CRTC 0
with the plane, output 1 waits for a mode. -/
def one_plane : wlr_drm_backend :=
  { iface := .legacy_iface, session_active := true,
    crtcs := [{ crtc 40 with primary := .kernel 0 }, crtc 41],
    planes := [{ primary 30 3 with width := 1920, height := 1080, gbm := some 2, egl := some 3,
                                   back := some 4 }],
    num_overlay_planes := 0, num_primary_planes := 1, num_cursor_planes := 0,
    outputs := [connected 7 0 1, needs_modeset 8],
    inflight := [], sys := ⟨6, []⟩ }

/-- A matcher answer that hands SKIP entries back, gives the last left item to slot 1 and
leaves slot 0 unmatched. -/
def match_last : Nat → List Nat → Nat → List Nat → Nat → Nat :=
  fun n _ _ current j =>
    if current.getD j UNMATCHED = SKIP then SKIP else if j = 1 then n - 1 else UNMATCHED

end Ex

namespace Ex

/-- The backend `flipping_saved` after its page flip was lost: `pageflip_pending` is set and
no flip is in flight, as `wlr_drm_output_swap_buffers` leaves the output when the kernel
refuses the flip. -/
def flip_lost : wlr_drm_backend := { flipping_saved with inflight := [] }

end Ex

/-- The state of kernel plane `g` in `x`, relative to `b`: as in `b` when `H` fails, and the
plane of `b` with its renderer freed when `H` holds. -/
def wlr_drm_backend.freed_if (b x : wlr_drm_backend) (g : Nat) (H : Prop) : Prop :=
  (¬H ∧ x.planes[g]? = b.planes[g]?) ∨
  (H ∧ ∃ p, b.planes[g]? = some p ∧ x.planes[g]? = some (wlr_drm_plane_renderer_free.reset p))

/-! # Properties -/

/-- A matched slot that is UNMATCHED in the result makes the veto test of
`realloc_crtcs` true. -/
theorem realloc_crtcs.deactivates_of_slot (n : Nat) (crtc : List Nat) (res : Nat → Nat)
    (h : ∃ i, i < n ∧ crtc.getD i UNMATCHED ≠ UNMATCHED ∧ res i = UNMATCHED) :
    realloc_crtcs.deactivates n crtc res = true := by
  obtain ⟨i, hi, hc, hr⟩ := h
  unfold realloc_crtcs.deactivates
  rw [List.any_eq_true]
  exact ⟨i, List.mem_range.mpr hi, by simpa [hr] using hc⟩

/-- The flag `matched` stays false when no slot of the result holds the index. -/
theorem realloc_crtcs.matched_eq_false (n : Nat) (res : Nat → Nat) (index : Nat)
    (h : ∀ i, i < n → res i ≠ index) : realloc_crtcs.matched n res index = false := by
  unfold realloc_crtcs.matched
  rw [List.any_eq_false]
  intro i hi
  simpa using h i (List.mem_range.mp hi)

/-- The flag `matched` is true exactly when some slot of the result holds the index. -/
theorem realloc_crtcs.matched_iff (n : Nat) (res : Nat → Nat) (index : Nat) :
    realloc_crtcs.matched n res index = true ↔ ∃ i, i < n ∧ res i = index := by
  unfold realloc_crtcs.matched
  rw [List.any_eq_true]
  constructor
  · rintro ⟨i, hi, h⟩
    exact ⟨i, List.mem_range.mp hi, by simpa using h⟩
  · rintro ⟨i, hi, h⟩
    exact ⟨i, List.mem_range.mpr hi, by simpa using h⟩

/-- C1: `realloc_crtcs` is all-or-nothing.  If a CRTC slot that was matched to a Connected
output before the call is UNMATCHED in the matcher's result, or no slot of the result holds
the requesting output, then `realloc_crtcs` returns the backend unchanged: no output's
`crtc`, no plane slot and no plane renderer is touched. -/
theorem realloc_crtcs_all_or_nothing (env : Env) (b : wlr_drm_backend) (oi : Nat)
    (crtc possible_crtc : List Nat)
    (hin : realloc_crtcs.inputs b oi = some (crtc, possible_crtc))
    (h : (∃ i, i < b.crtcs.length ∧ crtc.getD i UNMATCHED ≠ UNMATCHED ∧
            env.match_obj b.outputs.length possible_crtc b.crtcs.length crtc i = UNMATCHED) ∨
         (∀ i, i < b.crtcs.length →
            env.match_obj b.outputs.length possible_crtc b.crtcs.length crtc i ≠ oi)) :
    realloc_crtcs env b oi = some b := by
  unfold realloc_crtcs
  rw [hin]
  simp only [Option.bind_eq_bind, Option.some_bind]
  rcases h with h | h
  · simp [realloc_crtcs.deactivates_of_slot _ _ _ h]
  · simp [realloc_crtcs.matched_eq_false _ _ _ h]

/-- C1, on a concrete backend: the only CRTC is held by output 0 and the matcher leaves
it unmatched, so the reallocation for output 1 changes nothing. -/
theorem realloc_crtcs_all_or_nothing_witness :
    realloc_crtcs.inputs Ex.one_crtc 1 = some ([0], [1, 1]) ∧
    realloc_crtcs (Ex.env 1 Ex.match_none Ex.all_succeed) Ex.one_crtc 1 = some Ex.one_crtc :=
  ⟨by decide,
   realloc_crtcs_all_or_nothing (Ex.env 1 Ex.match_none Ex.all_succeed) Ex.one_crtc 1 [0] [1, 1]
     (by decide) (Or.inl ⟨0, by decide, by decide, by decide⟩)⟩

/-! ## Frame lemmas: what the plane-renderer functions leave alone -/

/-- Overwriting an entry by one with the same image leaves the mapped list as it was. -/
theorem map_set_of_eq {α β : Type} (f : α → β) (a a0 : α) :
    ∀ (l : List α) (g : Nat), l[g]? = some a0 → f a = f a0 → (l.set g a).map f = l.map f
  | [], _, h, _ => by simp at h
  | x :: l, 0, h, hf => by
    simp only [List.getElem?_cons_zero, Option.some.injEq] at h
    simp [List.set, hf, h]
  | x :: l, g + 1, h, hf => by
    simp only [List.getElem?_cons_succ] at h
    simp [List.set, map_set_of_eq f a a0 l g h hf]

/-- Putting a synthetic plane into a slot that is not a kernel pointer keeps the CRTC's key. -/
theorem wlr_drm_crtc.key_set_plane (c : wlr_drm_crtc) (t : Nat) (p : PlanePtr)
    (h : kernel_index p = kernel_index (c.planes t)) : (c.set_plane t p).key = c.key := by
  rcases t with _ | _ | t <;>
    simp_all [wlr_drm_crtc.set_plane, wlr_drm_crtc.planes, wlr_drm_crtc.key]

/-- Writing a plane back through a slot changes neither the outputs nor the skeleton, as long
as the plane keeps its identity. -/
theorem wlr_drm_backend.store_frame (b b' : wlr_drm_backend) (ci t : Nat)
    (plane p0 : wlr_drm_plane) (c : wlr_drm_crtc) (hc : b.crtcs[ci]? = some c)
    (hp : b.deref (c.planes t) = some p0) (hk : plane.key = p0.key)
    (h : b.store ci t plane = some b') :
    b'.outputs = b.outputs ∧ b'.skeleton = b.skeleton ∧ b'.sys = b.sys ∧
      b'.inflight = b.inflight ∧ b'.iface = b.iface ∧ b'.session_active = b.session_active := by
  unfold wlr_drm_backend.store at h
  simp only [hc, Option.bind_eq_bind, Option.some_bind] at h
  cases hpt : c.planes t with
  | null => simp [hpt] at h
  | kernel g =>
    simp only [hpt] at h hp
    split at h
    · cases h
      simp only [wlr_drm_backend.deref] at hp
      simp [wlr_drm_backend.skeleton, map_set_of_eq wlr_drm_plane.key plane p0 b.planes g hp hk]
    · simp at h
  | fake q =>
    simp only [hpt, Option.some.injEq] at h
    cases h
    have hkey : (c.set_plane t (.fake plane)).key = c.key :=
      wlr_drm_crtc.key_set_plane c t _ (by simp [hpt, kernel_index])
    simp [wlr_drm_backend.skeleton,
      map_set_of_eq wlr_drm_crtc.key (c.set_plane t (.fake plane)) c b.crtcs ci hc hkey]

/-- The renderer teardown keeps the identity of the plane. -/
theorem wlr_drm_plane_renderer_free_key (s s' : Sys) (p p' : wlr_drm_plane)
    (h : wlr_drm_plane_renderer_free s p = some (s', p')) : p'.key = p.key := by
  unfold wlr_drm_plane_renderer_free at h
  simp only [Option.bind_eq_bind, Option.bind_eq_some] at h
  obtain ⟨_, _, _, _, h⟩ := h
  simp only [Option.some.injEq, Prod.mk.injEq] at h
  rw [← h.2]
  rfl

/-- A buffer swap keeps the identity of the plane. -/
theorem wlr_drm_plane_swap_buffers_key (s s' : Sys) (p p' : wlr_drm_plane)
    (h : wlr_drm_plane_swap_buffers s p = some (s', p')) : p'.key = p.key := by
  unfold wlr_drm_plane_swap_buffers at h
  simp only [Option.bind_eq_bind, Option.bind_eq_some] at h
  obtain ⟨_, _, _, _, h⟩ := h
  simp only [Option.some.injEq, Prod.mk.injEq] at h
  rw [← h.2]
  rfl

/-- Renderer initialisation keeps the identity of the plane. -/
theorem wlr_drm_plane_renderer_init_key (env : Env) (s : Sys) (p : wlr_drm_plane) (w h : Nat) :
    (wlr_drm_plane_renderer_init env s p w h).2.1.key = p.key := by
  unfold wlr_drm_plane_renderer_init
  split
  · rfl
  · dsimp only
    split
    · split <;> rfl
    · rfl

/-- Running a renderer function on the plane of a slot changes neither the outputs nor the
skeleton. -/
theorem wlr_drm_backend.on_plane_frame (b b' : wlr_drm_backend) (ci t : Nat)
    (f : Sys → wlr_drm_plane → Option (Sys × wlr_drm_plane))
    (hf : ∀ s p s' p', f s p = some (s', p') → p'.key = p.key)
    (h : b.on_plane ci t f = some b') :
    b'.outputs = b.outputs ∧ b'.skeleton = b.skeleton ∧
      b'.inflight = b.inflight ∧ b'.iface = b.iface ∧ b'.session_active = b.session_active := by
  unfold wlr_drm_backend.on_plane at h
  simp only [Option.bind_eq_bind, Option.bind_eq_some] at h
  obtain ⟨c, hc, p0, hp, ⟨s, p⟩, hfp, hst⟩ := h
  have := wlr_drm_backend.store_frame { b with sys := s } b' ci t p p0 c hc hp
    (hf _ _ _ _ hfp) hst
  exact ⟨this.1, this.2.1, this.2.2.2.1, this.2.2.2.2.1, this.2.2.2.2.2⟩

/-- Freeing the renderer of a slot changes neither the outputs nor the skeleton. -/
theorem wlr_drm_backend.free_slot_frame (b b' : wlr_drm_backend) (ci t : Nat)
    (h : b.free_slot ci t = some b') :
    b'.outputs = b.outputs ∧ b'.skeleton = b.skeleton ∧
      b'.inflight = b.inflight ∧ b'.iface = b.iface ∧ b'.session_active = b.session_active := by
  unfold wlr_drm_backend.free_slot at h
  simp only [Option.bind_eq_bind, Option.bind_eq_some] at h
  obtain ⟨c, _, h⟩ := h
  split at h
  · cases h
    exact ⟨rfl, rfl, rfl, rfl, rfl⟩
  · exact wlr_drm_backend.on_plane_frame b b' ci t _
      (fun s p s' p' => wlr_drm_plane_renderer_free_key s s' p p') h

/-- Freeing the renderer of a kernel plane changes neither the outputs nor the skeleton. -/
theorem wlr_drm_backend.free_kernel_frame (b b' : wlr_drm_backend) (g : Nat)
    (h : b.free_kernel g = some b') :
    b'.outputs = b.outputs ∧ b'.skeleton = b.skeleton ∧
      b'.inflight = b.inflight ∧ b'.iface = b.iface ∧ b'.session_active = b.session_active := by
  unfold wlr_drm_backend.free_kernel at h
  simp only [Option.bind_eq_bind, Option.bind_eq_some] at h
  obtain ⟨p0, hp, ⟨s, p⟩, hfp, h⟩ := h
  simp only [Option.some.injEq] at h
  subst h
  have hk := wlr_drm_plane_renderer_free_key _ _ _ _ hfp
  simp [wlr_drm_backend.skeleton, map_set_of_eq wlr_drm_plane.key p p0 b.planes g hp hk]

/-- A property that every round of a loop hands on holds after the loop. -/
theorem for_each_induct (P : wlr_drm_backend → Prop)
    (f : wlr_drm_backend → Nat → Option wlr_drm_backend)
    (hf : ∀ b i b', P b → f b i = some b' → P b') :
    ∀ (l : List Nat) (b b' : wlr_drm_backend), P b → for_each f l b = some b' → P b'
  | [], b, b', hb, h => by
    simp only [for_each, Option.some.injEq] at h
    exact h ▸ hb
  | i :: l, b, b', hb, h => by
    simp only [for_each, Option.bind_eq_bind, Option.bind_eq_some] at h
    obtain ⟨b1, h1, h2⟩ := h
    exact for_each_induct P f hf l b1 b' (hf b i b1 hb h1) h2

/-- The function `realloc_planes` does not touch the outputs. -/
theorem realloc_planes_outputs (env : Env) (crtc_in : Nat → Nat) (b b' : wlr_drm_backend)
    (h : realloc_planes env b crtc_in = some b') : b'.outputs = b.outputs := by
  refine for_each_induct (fun x => x.outputs = b.outputs) _ ?_ _ b b' rfl h
  intro b1 t b2 hb1 ht
  unfold realloc_planes.type at ht
  split at ht
  · cases ht; exact hb1
  · split at ht
    · simp at ht
    · simp only [Option.bind_eq_bind, Option.bind_eq_some] at ht
      obtain ⟨crtc, _, ht⟩ := ht
      refine for_each_induct (fun x => x.outputs = b.outputs) _ ?_ _ b1 b2 hb1 ht
      intro b3 i b4 hb3 hi
      unfold realloc_planes.assign at hi
      split at hi
      · cases hi; exact hb3
      · simp only [Option.bind_eq_bind, Option.bind_eq_some] at hi
        obtain ⟨c, _, hi⟩ := hi
        split at hi
        · simp only [Option.bind_eq_bind, Option.bind_eq_some] at hi
          obtain ⟨b5, h5, b6, h6, c6, _, hi⟩ := hi
          simp only [Option.some.injEq] at hi
          subst hi
          have e5 := (wlr_drm_backend.free_slot_frame _ _ _ _ h5).1
          have e6 := (wlr_drm_backend.free_kernel_frame _ _ _ h6).1
          simp [e6, e5, hb3]
        · cases hi; exact hb3

/-! ## The CRTC reallocation -/

/-- What the first loop of `realloc_crtcs` computes: it succeeds only if every Connected
output has a CRTC, and an entry of `crtc` is either the initial one or the index of a
Connected output that sits on that CRTC. -/
theorem realloc_crtcs.collect_spec (n : Nat) :
    ∀ (os : List wlr_output_state) (i0 : Nat) (crtc0 poss0 crtc poss : List Nat),
      realloc_crtcs.collect n os i0 (crtc0, poss0) = some (crtc, poss) →
      (∀ (k : Nat) (o : wlr_output_state), os[k]? = some o →
        o.state = WLR_DRM_OUTPUT_CONNECTED → ∃ c, o.crtc = some c) ∧
      ∀ j v, crtc[j]? = some v →
        crtc0[j]? = some v ∨
        ∃ k o, os[k]? = some o ∧ o.state = WLR_DRM_OUTPUT_CONNECTED ∧ o.crtc = some j ∧
          v = (i0 + k) % 4294967296
  | [], i0, crtc0, poss0, crtc, poss, h => by
    simp only [realloc_crtcs.collect, Option.some.injEq, Prod.mk.injEq] at h
    obtain ⟨rfl, rfl⟩ := h
    exact ⟨by simp, fun j v hv => Or.inl hv⟩
  | o :: os, i0, crtc0, poss0, crtc, poss, h => by
    simp only [realloc_crtcs.collect] at h
    split at h
    · rename_i hs
      have ih := realloc_crtcs.collect_spec n os (i0 + 1) crtc0 poss0 crtc poss h
      refine ⟨?_, ?_⟩
      · intro k o' hk hs'
        cases k with
        | zero =>
          simp only [List.getElem?_cons_zero, Option.some.injEq] at hk
          subst hk
          exact absurd hs' hs
        | succ k => exact ih.1 k o' (by simpa using hk) hs'
      · intro j v hv
        rcases ih.2 j v hv with h0 | ⟨k, o', hk, hs', hc, hv'⟩
        · exact Or.inl h0
        · exact Or.inr ⟨k + 1, o', by simpa using hk, hs', hc, by rw [hv']; congr 1; omega⟩
    · rename_i hs
      have hs : o.state = WLR_DRM_OUTPUT_CONNECTED := not_not.mp hs
      simp only [Option.bind_eq_bind, Option.bind_eq_some] at h
      obtain ⟨c, hc, h⟩ := h
      split at h
      · have ih := realloc_crtcs.collect_spec n os (i0 + 1) _ _ crtc poss h
        refine ⟨?_, ?_⟩
        · intro k o' hk hs'
          cases k with
          | zero =>
            simp only [List.getElem?_cons_zero, Option.some.injEq] at hk
            subst hk
            exact ⟨c, hc⟩
          | succ k => exact ih.1 k o' (by simpa using hk) hs'
        · intro j v hv
          rcases ih.2 j v hv with h0 | ⟨k, o', hk, hs', hc', hv'⟩
          · rw [List.getElem?_set] at h0
            split at h0
            · rename_i hcj
              subst hcj
              split at h0
              · simp only [Option.some.injEq] at h0
                exact Or.inr ⟨0, o, by simp, hs, hc, by simpa using h0.symm⟩
              · simp at h0
            · exact Or.inl h0
          · exact Or.inr ⟨k + 1, o', by simpa using hk, hs', hc', by rw [hv']; congr 1; omega⟩
      · simp at h

/-- The first loop of `realloc_crtcs` keeps the length of `crtc`. -/
theorem realloc_crtcs.collect_length (n : Nat) :
    ∀ (os : List wlr_output_state) (i0 : Nat) (crtc0 poss0 crtc poss : List Nat),
      realloc_crtcs.collect n os i0 (crtc0, poss0) = some (crtc, poss) →
      crtc.length = crtc0.length
  | [], i0, crtc0, poss0, crtc, poss, h => by
    simp only [realloc_crtcs.collect, Option.some.injEq, Prod.mk.injEq] at h
    rw [h.1]
  | o :: os, i0, crtc0, poss0, crtc, poss, h => by
    simp only [realloc_crtcs.collect] at h
    split at h
    · exact realloc_crtcs.collect_length n os (i0 + 1) crtc0 poss0 crtc poss h
    · simp only [Option.bind_eq_bind, Option.bind_eq_some] at h
      obtain ⟨c, _, h⟩ := h
      split at h
      · simpa using realloc_crtcs.collect_length n os (i0 + 1) _ _ crtc poss h
      · simp at h

/-- Assigning to an output changes the CRTC field of that output only. -/
theorem wlr_drm_backend.set_output_crtc_of (b b' : wlr_drm_backend) (k : Nat)
    (f : wlr_output_state → wlr_output_state) (h : b.set_output k f = some b') (k' : Nat) :
    b'.crtc_of k' =
      if k = k' then (b.outputs[k]?).map (fun o => (f o).crtc) else b.crtc_of k' := by
  unfold wlr_drm_backend.set_output at h
  simp only [Option.bind_eq_bind, Option.bind_eq_some, Option.some.injEq] at h
  obtain ⟨o, ho, rfl⟩ := h
  have hk : k < b.outputs.length := (List.getElem?_eq_some.mp ho).1
  simp only [wlr_drm_backend.crtc_of, List.getElem?_set, ho]
  split <;> simp [hk]

/-- One round of the last loop of `realloc_crtcs`: output `k` receives CRTC `i` when the
result assigns `k` to slot `i` and the slot held something else; otherwise its CRTC stays. -/
theorem realloc_crtcs.assign_crtc_of (crtc : List Nat) (res : Nat → Nat)
    (b b' : wlr_drm_backend) (i : Nat) (h : realloc_crtcs.assign crtc res b i = some b')
    (k : Nat) :
    b'.crtc_of k =
      if res i = k ∧ res i ≠ UNMATCHED ∧ res i ≠ crtc.getD i UNMATCHED then some (some i)
      else b.crtc_of k := by
  unfold realloc_crtcs.assign at h
  split at h
  · rename_i hu
    cases h
    simp [hu]
  · rename_i hu
    split at h
    · rename_i hne
      rw [wlr_drm_backend.set_output_crtc_of b b' _ _ h k]
      by_cases hk : res i = k
      · have ho : ∃ o, b.outputs[res i]? = some o := by
          unfold wlr_drm_backend.set_output at h
          simp only [Option.bind_eq_bind, Option.bind_eq_some] at h
          obtain ⟨o, ho, _⟩ := h
          exact ⟨o, ho⟩
        obtain ⟨o, ho⟩ := ho
        subst hk
        have hne' : ¬ res i = crtc.getD i UNMATCHED := hne
        simp only [if_true, ho, Option.map_some', ne_eq, hu, not_false_eq_true, hne', and_self]
      · simp [hk]
    · rename_i hne
      cases h
      have : ¬ (res i = k ∧ res i ≠ UNMATCHED ∧ res i ≠ crtc.getD i UNMATCHED) :=
        fun hh => hne hh.2.2
      simp only [this, if_false]

/-- The last loop of `realloc_crtcs`: if every round that writes output `k` writes CRTC
`j`, and either `k` already sits on `j` or such a round exists, then `k` ends on `j`. -/
theorem realloc_crtcs.assign_loop (crtc : List Nat) (res : Nat → Nat) (k j : Nat) :
    ∀ (l : List Nat) (b b' : wlr_drm_backend),
      for_each (realloc_crtcs.assign crtc res) l b = some b' →
      (∀ i, i ∈ l → res i = k → res i ≠ UNMATCHED → res i ≠ crtc.getD i UNMATCHED → i = j) →
      (b.crtc_of k = some (some j) ∨
        (j ∈ l ∧ res j = k ∧ res j ≠ UNMATCHED ∧ res j ≠ crtc.getD j UNMATCHED)) →
      b'.crtc_of k = some (some j)
  | [], b, b', h, _, hor => by
    simp only [for_each, Option.some.injEq] at h
    subst h
    rcases hor with h | ⟨hm, _⟩
    · exact h
    · simp at hm
  | i :: l, b, b', h, huniq, hor => by
    simp only [for_each, Option.bind_eq_bind, Option.bind_eq_some] at h
    obtain ⟨b1, h1, h2⟩ := h
    have hstep := realloc_crtcs.assign_crtc_of crtc res b b1 i h1 k
    refine realloc_crtcs.assign_loop crtc res k j l b1 b' h2
      (fun i' hi' => huniq i' (List.mem_cons_of_mem _ hi')) ?_
    by_cases hw : res i = k ∧ res i ≠ UNMATCHED ∧ res i ≠ crtc.getD i UNMATCHED
    · have hij : i = j := huniq i (List.mem_cons_self _ _) hw.1 hw.2.1 hw.2.2
      left
      rw [hstep, if_pos hw, hij]
    · rw [if_neg hw] at hstep
      rcases hor with h | ⟨hm, hwj⟩
      · left
        rw [hstep]
        exact h
      · right
        rcases List.mem_cons.mp hm with hji | hm
        · subst hji
          exact absurd hwj hw
        · exact ⟨hm, hwj⟩

/-- C2 as stated fails: with one CRTC held by the Connected output 0, a matcher result that
gives the slot to the requesting output 1 meets the three conditions of the specification
and passes the veto test, and afterwards both outputs point to CRTC 0. -/
theorem realloc_crtcs_shares_crtc :
    realloc_crtcs.inputs Ex.one_crtc 1 = some ([0], [1, 1]) ∧
    MatchOK 2 [1, 1] 1 [0] (Ex.match_steal 2 [1, 1] 1 [0]) ∧
    Ex.one_crtc.connected 0 = true ∧
    (realloc_crtcs (Ex.env 1 Ex.match_steal Ex.all_succeed) Ex.one_crtc 1).map
        (fun b' => (b'.crtc_of 0, b'.crtc_of 1)) = some (some (some 0), some (some 0)) := by
  refine ⟨by decide, ⟨?_, ?_, ?_⟩, by decide, ?_⟩
  · intro j hj
    have : j = 0 := by omega
    subst this
    decide
  · intro j hj _ _
    have : j = 0 := by omega
    subst this
    decide
  · intro i j hi hj _ _ _
    omega
  · decide

/-- C2, amended: let the matcher result meet the conditions of the specification and, when
it passes the veto test, still give a slot to every output that was Connected.  Then after
`realloc_crtcs` every output that was Connected has a CRTC, and no two outputs among the
Connected ones and the requesting one point to the same CRTC. -/
theorem realloc_crtcs_keeps_outputs_apart (env : Env) (b b' : wlr_drm_backend) (oi : Nat)
    (crtc possible_crtc : List Nat)
    (hlen : b.outputs.length < SKIP)
    (hin : realloc_crtcs.inputs b oi = some (crtc, possible_crtc))
    (hpre : ∀ i j c, (b.connected i = true ∨ i = oi) → (b.connected j = true ∨ j = oi) →
      b.crtc_of i = some (some c) → b.crtc_of j = some (some c) → i = j)
    (hok : MatchOK b.outputs.length possible_crtc b.crtcs.length crtc
      (env.match_obj b.outputs.length possible_crtc b.crtcs.length crtc))
    (hkeep : realloc_crtcs.deactivates b.crtcs.length crtc
        (env.match_obj b.outputs.length possible_crtc b.crtcs.length crtc) = false →
      ∀ k, b.connected k = true → ∃ j, j < b.crtcs.length ∧
        env.match_obj b.outputs.length possible_crtc b.crtcs.length crtc j = k)
    (h : realloc_crtcs env b oi = some b') :
    (∀ k, b.connected k = true → ∃ c, b'.crtc_of k = some (some c)) ∧
    (∀ i j c, (b.connected i = true ∨ i = oi) → (b.connected j = true ∨ j = oi) →
      b'.crtc_of i = some (some c) → b'.crtc_of j = some (some c) → i = j) := by
  have hin' := hin
  unfold realloc_crtcs.inputs at hin'
  simp only [Option.bind_eq_bind, Option.bind_eq_some] at hin'
  obtain ⟨⟨crtc1, poss1⟩, hcol, out, hout, heq⟩ := hin'
  simp only [Option.some.injEq, Prod.mk.injEq] at heq
  obtain ⟨rfl, _⟩ := heq
  have hspec := realloc_crtcs.collect_spec _ _ _ _ _ _ _ hcol
  have hclen : crtc1.length = b.crtcs.length := by
    simpa using realloc_crtcs.collect_length _ _ _ _ _ _ _ hcol
  have hoi : oi < b.outputs.length := (List.getElem?_eq_some.mp hout).1
  have hconn : ∀ k, b.connected k = true →
      ∃ o, b.outputs[k]? = some o ∧ o.state = WLR_DRM_OUTPUT_CONNECTED := by
    intro k hk
    unfold wlr_drm_backend.connected at hk
    cases ho : b.outputs[k]? with
    | none => simp [ho] at hk
    | some o => exact ⟨o, rfl, by simpa [ho] using hk⟩
  have hnn : ∀ k, b.connected k = true → ∃ c, b.crtc_of k = some (some c) := by
    intro k hk
    obtain ⟨o, ho, hs⟩ := hconn k hk
    obtain ⟨c, hc⟩ := hspec.1 k o ho hs
    exact ⟨c, by simp [wlr_drm_backend.crtc_of, ho, hc]⟩
  unfold realloc_crtcs at h
  rw [hin] at h
  simp only [Option.bind_eq_bind, Option.some_bind] at h
  split at h
  · cases h
    exact ⟨hnn, hpre⟩
  · rename_i hd
    split at h
    · cases h
      exact ⟨hnn, hpre⟩
    · rename_i hm
      simp only [Option.bind_eq_bind, Option.bind_eq_some] at h
      obtain ⟨b1, hloop, hplanes⟩ := h
      have hco : ∀ k, b'.crtc_of k = b1.crtc_of k := by
        intro k
        simp [wlr_drm_backend.crtc_of, realloc_planes_outputs _ _ _ _ hplanes]
      have key : ∀ k j, k < b.outputs.length → j < b.crtcs.length →
          env.match_obj b.outputs.length possible_crtc b.crtcs.length crtc1 j = k →
          b1.crtc_of k = some (some j) := by
        intro k j hk hj hr
        have hkU : env.match_obj b.outputs.length possible_crtc b.crtcs.length crtc1 j
            ≠ UNMATCHED := by
          rw [hr]; unfold SKIP at hlen; unfold UNMATCHED; omega
        have hkS : env.match_obj b.outputs.length possible_crtc b.crtcs.length crtc1 j
            ≠ SKIP := by
          rw [hr]; omega
        refine realloc_crtcs.assign_loop crtc1 _ k j _ b b1 hloop ?_ ?_
        · intro i hi hik _ _
          exact hok.2.2 i j (List.mem_range.mp hi) hj (hik.trans hr.symm)
            (by rw [hik, ← hr]; exact hkS) (by rw [hik, ← hr]; exact hkU)
        · by_cases hne : env.match_obj b.outputs.length possible_crtc b.crtcs.length crtc1 j
              = crtc1.getD j UNMATCHED
          · left
            have hj' : j < crtc1.length := by rw [hclen]; exact hj
            have hget : crtc1[j]? = some k := by
              rw [← hr, hne, List.getD_eq_getElem?_getD, List.getElem?_eq_getElem hj']
              rfl
            rcases hspec.2 j k hget with h0 | ⟨k0, o, hk0, hs, hc, hv⟩
            · exfalso
              rw [List.getElem?_replicate] at h0
              split at h0
              · simp only [Option.some.injEq] at h0
                exact hkU (hr.trans h0.symm)
              · rename_i hnj
                exact hnj hj
            · have hk0l : k0 < b.outputs.length := (List.getElem?_eq_some.mp hk0).1
              have hkk : k = k0 := by unfold SKIP at hlen; omega
              subst hkk
              simp [wlr_drm_backend.crtc_of, hk0, hc]
          · right
            exact ⟨List.mem_range.mpr hj, hr, hkU, hne⟩
      have hslot : ∀ k, (b.connected k = true ∨ k = oi) → k < b.outputs.length ∧
          ∃ j, j < b.crtcs.length ∧
            env.match_obj b.outputs.length possible_crtc b.crtcs.length crtc1 j = k := by
        intro k hk
        rcases hk with hk | rfl
        · obtain ⟨o, ho, _⟩ := hconn k hk
          exact ⟨(List.getElem?_eq_some.mp ho).1, hkeep (by simpa using hd) k hk⟩
        · exact ⟨hoi, (realloc_crtcs.matched_iff _ _ _).mp (by simpa using hm)⟩
      refine ⟨?_, ?_⟩
      · intro k hk
        obtain ⟨hk1, j, hj, hr⟩ := hslot k (Or.inl hk)
        exact ⟨j, by rw [hco]; exact key k j hk1 hj hr⟩
      · intro i j c hi hj hci hcj
        obtain ⟨hi1, ji, hji, hri⟩ := hslot i hi
        obtain ⟨hj1, jj, hjj, hrj⟩ := hslot j hj
        rw [hco, key i ji hi1 hji hri] at hci
        rw [hco, key j jj hj1 hjj hrj] at hcj
        simp only [Option.some.injEq] at hci hcj
        rw [← hri, ← hrj, hci, hcj]

/-- C2 amended, on a concrete backend: output 0 keeps CRTC 0 and the requesting output 1
receives CRTC 1. -/
theorem realloc_crtcs_keeps_outputs_apart_witness :
    realloc_crtcs (Ex.env 2 Ex.match_second Ex.all_succeed) Ex.two_crtcs 1
      = some Ex.two_crtcs_after ∧
    ((∀ k, Ex.two_crtcs.connected k = true → ∃ c, Ex.two_crtcs_after.crtc_of k = some (some c)) ∧
     (∀ i j c, (Ex.two_crtcs.connected i = true ∨ i = 1) →
        (Ex.two_crtcs.connected j = true ∨ j = 1) →
        Ex.two_crtcs_after.crtc_of i = some (some c) →
        Ex.two_crtcs_after.crtc_of j = some (some c) → i = j)) :=
  ⟨by decide,
   realloc_crtcs_keeps_outputs_apart (Ex.env 2 Ex.match_second Ex.all_succeed) Ex.two_crtcs
     Ex.two_crtcs_after 1 [0, UNMATCHED] [3, 2] (by decide) (by decide)
     (by
       intro i j c hi hj hci hcj
       rcases i with _ | _ | i <;> rcases j with _ | _ | j <;>
         simp_all [wlr_drm_backend.connected, wlr_drm_backend.crtc_of, Ex.two_crtcs,
           Ex.one_crtc, Ex.connected, Ex.needs_modeset])
     (by
       refine ⟨?_, ?_, ?_⟩
       · intro j hj
         have hj2 : j < 2 := hj
         interval_cases j <;> decide
       · intro j hj _ _
         have hj2 : j < 2 := hj
         interval_cases j <;> decide
       · intro i j hi hj
         have hi2 : i < 2 := hi
         have hj2 : j < 2 := hj
         interval_cases i <;> interval_cases j <;> decide)
     (by
       intro _ k hk
       rcases k with _ | _ | k
       · exact ⟨0, by decide, by decide⟩
       · exact absurd hk (by decide)
       · simp [wlr_drm_backend.connected, Ex.two_crtcs, Ex.one_crtc] at hk)
     (by decide)⟩

/-! ## Mode setting without a free CRTC -/

/-- C3 as stated fails: the only CRTC is held by the Connected output 0 and the matcher
keeps it there; `set_mode` on the NeedsModeset output 1 returns false, but the output does
not stay NeedsModeset: the error exit runs `wlr_drm_output_cleanup`, which leaves it
Disconnected and emits `output_remove`. -/
theorem set_mode_without_crtc_disconnects :
    (wlr_drm_output_set_mode (Ex.env 1 Ex.match_keep Ex.all_succeed) Ex.one_crtc 1 Ex.mode).map
        (fun r => (r.2, (r.1.outputs[1]?).map (fun o => o.state), r.1.sys.events))
      = some (false, some WLR_DRM_OUTPUT_DISCONNECTED, [Event.output_remove 1]) := by
  decide

/-- C3, amended: when `set_mode` is called on a NeedsModeset output whose connector is
connected with an encoder, and the matcher's result is vetoed or holds no slot for the
output, `set_mode` returns false; the output is left Disconnected (not NeedsModeset) with
`possible_crtc` set from the encoder, one `output_remove` is emitted for it, and every
other output, every CRTC and every plane is unchanged. -/
theorem set_mode_without_crtc (env : Env) (b : wlr_drm_backend) (oi : Nat)
    (mode : wlr_output_mode) (output : wlr_output_state) (conn : drmModeConnector)
    (enc : drmModeEncoder) (crtc possible_crtc : List Nat)
    (hout : b.outputs[oi]? = some output)
    (hstate : output.state = WLR_DRM_OUTPUT_NEEDS_MODESET)
    (hcrtc : output.crtc = none)
    (hconn : env.drmModeGetConnector output.connector = some conn)
    (hc : conn.connected = true) (hmodes : conn.modes.length ≠ 0)
    (henc : conn.encoders.findSome? env.drmModeGetEncoder = some enc)
    (hin : realloc_crtcs.inputs
        { b with outputs := b.outputs.set oi { output with possible_crtc := enc.possible_crtcs } }
        oi = some (crtc, possible_crtc))
    (hno : (∃ i, i < b.crtcs.length ∧ crtc.getD i UNMATCHED ≠ UNMATCHED ∧
              env.match_obj b.outputs.length possible_crtc b.crtcs.length crtc i = UNMATCHED) ∨
           (∀ i, i < b.crtcs.length →
              env.match_obj b.outputs.length possible_crtc b.crtcs.length crtc i ≠ oi)) :
    wlr_drm_output_set_mode env b oi mode =
      some ({ b with
                outputs := b.outputs.set oi
                  { output with possible_crtc := enc.possible_crtcs,
                                state := WLR_DRM_OUTPUT_DISCONNECTED },
                sys := b.sys.emit (.output_remove oi) }, false) := by
  have hoi : oi < b.outputs.length := (List.getElem?_eq_some.mp hout).1
  have hre : realloc_crtcs env
      { b with outputs := b.outputs.set oi { output with possible_crtc := enc.possible_crtcs } }
      oi = some
      { b with outputs := b.outputs.set oi { output with possible_crtc := enc.possible_crtcs } } := by
    unfold realloc_crtcs
    rw [hin]
    simp only [Option.bind_eq_bind, Option.some_bind, List.length_set]
    rcases hno with h | h
    · simp [realloc_crtcs.deactivates_of_slot _ _ _ h]
    · simp [realloc_crtcs.matched_eq_false _ _ _ h]
  unfold wlr_drm_output_set_mode
  simp only [hout, Option.bind_eq_bind, Option.some_bind, hconn, hc, hmodes, henc,
    wlr_drm_backend.set_output, hre]
  simp [hoi, hcrtc, wlr_drm_output_set_mode.error, wlr_drm_output_cleanup, hstate,
    wlr_drm_backend.set_output, wlr_drm_output_cleanup.restore]

/-- C3 amended, on a concrete backend: the only CRTC stays with output 0. -/
theorem set_mode_without_crtc_witness :
    wlr_drm_output_set_mode (Ex.env 1 Ex.match_keep Ex.all_succeed) Ex.one_crtc 1 Ex.mode =
      some ({ Ex.one_crtc with
                outputs := Ex.one_crtc.outputs.set 1
                  { Ex.needs_modeset 8 with possible_crtc := 1,
                                            state := WLR_DRM_OUTPUT_DISCONNECTED },
                sys := Ex.one_crtc.sys.emit (.output_remove 1) }, false) :=
  set_mode_without_crtc (Ex.env 1 Ex.match_keep Ex.all_succeed) Ex.one_crtc 1 Ex.mode
    { Ex.needs_modeset 8 with possible_crtc := 1 }
    { connector_id := 8, connected := true, modes := [Ex.info], encoders := [3],
      encoder_id := 3, mmWidth := 500, mmHeight := 300 }
    ⟨0, 1⟩ [0] [1, 1] (by decide) (by decide) (by decide) (by decide) (by decide) (by decide)
    (by decide) (by decide)
    (Or.inr (by
      intro i hi
      have hi1 : i < 1 := hi
      interval_cases i
      decide))

/-! ## Page flips are submitted whether or not one is pending -/

/-- Adding a property to a request leaves the trace alone. -/
theorem atomic_add_events (env : Env) (s : Sys) (atom : atomic) (i p v : Nat) :
    (atomic_add env s atom i p v).1.events = s.events := by
  unfold atomic_add
  split
  · rfl
  · split <;> rfl

/-- Filling in the plane properties leaves the trace alone. -/
theorem set_plane_props_events (env : Env) (s : Sys) (atom : atomic) (plane : wlr_drm_plane)
    (c f : Nat) (xy : Bool) : (set_plane_props env s atom plane c f xy).1.events = s.events := by
  cases xy <;> simp [set_plane_props, atomic_add_events]

/-- Beginning a request leaves the trace and the plane slots alone. -/
theorem atomic_begin_frame (env : Env) (s : Sys) (c : wlr_drm_crtc) :
    (atomic_begin env s c).1.events = s.events ∧
    (atomic_begin env s c).2.1.primary = c.primary := by
  unfold atomic_begin
  split
  · split <;> exact ⟨rfl, rfl⟩
  · exact ⟨rfl, rfl⟩

/-- The mode blob block only appends to the trace and leaves the plane slots alone. -/
theorem atomic_crtc_pageflip.blob_frame (env : Env) (s : Sys) (c : wlr_drm_crtc)
    (mode : Option drmModeModeInfo) :
    (∃ l, (atomic_crtc_pageflip.blob env s c mode).1.events = s.events ++ l) ∧
    (atomic_crtc_pageflip.blob env s c mode).2.1.primary = c.primary := by
  unfold atomic_crtc_pageflip.blob
  cases mode with
  | none => exact ⟨⟨[], by simp⟩, rfl⟩
  | some m =>
    by_cases hm : c.mode_id = 0 <;>
      by_cases hs : env.succeeds .drmModeCreatePropertyBlob s.clock = true <;>
      simp [hm, hs, Sys.emit, Sys.tick]

/-- The properties of a page flip are added without touching the trace. -/
theorem atomic_crtc_pageflip.request_events (env : Env) (s : Sys) (atom : atomic)
    (output : wlr_output_state) (crtc : wlr_drm_crtc) (plane : wlr_drm_plane) (fb : Nat) :
    (atomic_crtc_pageflip.request env s atom output crtc plane fb).1.events = s.events := by
  simp only [atomic_crtc_pageflip.request, set_plane_props_events, atomic_add_events]

/-- A commit only appends to the trace. -/
theorem atomic_commit_events (env : Env) (s : Sys) (atom : atomic) (oi : Nat) (am : Bool) :
    ∃ l, (atomic_commit env s atom oi am).1.events = s.events ++ l := by
  unfold atomic_commit
  split
  · exact ⟨[], by simp⟩
  · exact ⟨[_], rfl⟩

/-- The legacy page flip is defined whenever the output and the CRTC exist; it only
appends to the trace and leaves the outputs alone. -/
theorem legacy_crtc_pageflip_spec (env : Env) (b : wlr_drm_backend) (oi ci fb : Nat)
    (mode : Option drmModeModeInfo) (output : wlr_output_state) (c : wlr_drm_crtc)
    (ho : b.outputs[oi]? = some output) (hc : b.crtcs[ci]? = some c) :
    ∃ r l, legacy_crtc_pageflip env b oi ci fb mode = some r ∧
      r.1.sys.events = b.sys.events ++ l ∧ r.1.outputs = b.outputs := by
  simp only [legacy_crtc_pageflip, ho, hc, Option.bind_eq_bind, Option.some_bind]
  cases mode <;> simp [Sys.emit, Sys.tick]

/-- The atomic page flip is defined whenever the output, the CRTC and its primary plane
exist; it only appends to the trace and leaves the outputs alone. -/
theorem atomic_crtc_pageflip_spec (env : Env) (b : wlr_drm_backend) (oi ci fb : Nat)
    (mode : Option drmModeModeInfo) (output : wlr_output_state) (c : wlr_drm_crtc)
    (plane : wlr_drm_plane) (ho : b.outputs[oi]? = some output) (hc : b.crtcs[ci]? = some c)
    (hp : b.deref c.primary = some plane) :
    ∃ r l, atomic_crtc_pageflip env b oi ci fb mode = some r ∧
      r.1.sys.events = b.sys.events ++ l ∧ r.1.outputs = b.outputs := by
  simp only [atomic_crtc_pageflip, ho, hc, Option.bind_eq_bind, Option.some_bind]
  obtain ⟨⟨l, hl⟩, hprim⟩ := atomic_crtc_pageflip.blob_frame env b.sys c mode
  split
  · exact ⟨_, l, rfl, hl, rfl⟩
  · have hb := atomic_begin_frame env (atomic_crtc_pageflip.blob env b.sys c mode).1
      (atomic_crtc_pageflip.blob env b.sys c mode).2.1
    have hd : b.deref (atomic_begin env (atomic_crtc_pageflip.blob env b.sys c mode).1
        (atomic_crtc_pageflip.blob env b.sys c mode).2.1).2.1.primary = some plane := by
      rw [hb.2, hprim]
      exact hp
    simp only [hd, Option.some_bind]
    obtain ⟨l2, hl2⟩ := atomic_commit_events env
      (atomic_crtc_pageflip.request env
        (atomic_begin env (atomic_crtc_pageflip.blob env b.sys c mode).1
          (atomic_crtc_pageflip.blob env b.sys c mode).2.1).1
        (atomic_begin env (atomic_crtc_pageflip.blob env b.sys c mode).1
          (atomic_crtc_pageflip.blob env b.sys c mode).2.1).2.2 output
        (atomic_begin env (atomic_crtc_pageflip.blob env b.sys c mode).1
          (atomic_crtc_pageflip.blob env b.sys c mode).2.1).2.1 plane fb).1
      (atomic_crtc_pageflip.request env
        (atomic_begin env (atomic_crtc_pageflip.blob env b.sys c mode).1
          (atomic_crtc_pageflip.blob env b.sys c mode).2.1).1
        (atomic_begin env (atomic_crtc_pageflip.blob env b.sys c mode).1
          (atomic_crtc_pageflip.blob env b.sys c mode).2.1).2.2 output
        (atomic_begin env (atomic_crtc_pageflip.blob env b.sys c mode).1
          (atomic_crtc_pageflip.blob env b.sys c mode).2.1).2.1 plane fb).2 oi mode.isSome
    refine ⟨_, l ++ l2, rfl, ?_, rfl⟩
    simp only [hl2, atomic_crtc_pageflip.request_events, hb.1, hl, List.append_assoc]

/-- The call through `iface->crtc_pageflip` is defined whenever the output, the CRTC and its
primary plane exist; it records the call in the trace and leaves the outputs alone. -/
theorem crtc_pageflip_spec (env : Env) (b : wlr_drm_backend) (oi ci fb : Nat)
    (mode : Option drmModeModeInfo) (output : wlr_output_state) (c : wlr_drm_crtc)
    (plane : wlr_drm_plane) (ho : b.outputs[oi]? = some output) (hc : b.crtcs[ci]? = some c)
    (hp : b.deref c.primary = some plane) :
    ∃ r post, crtc_pageflip env b oi ci fb mode = some r ∧
      r.1.sys.events = b.sys.events ++ [Event.crtc_pageflip oi ci fb mode] ++ post ∧
      r.1.outputs = b.outputs := by
  unfold crtc_pageflip
  cases hi : b.iface with
  | legacy_iface =>
    obtain ⟨r, l, h1, h2, h3⟩ := legacy_crtc_pageflip_spec env
      { b with sys := b.sys.emit (.crtc_pageflip oi ci fb mode) } oi ci fb mode output c ho hc
    exact ⟨r, l, by simpa [hi] using h1, by simpa [Sys.emit] using h2, h3⟩
  | atomic_iface =>
    obtain ⟨r, l, h1, h2, h3⟩ := atomic_crtc_pageflip_spec env
      { b with sys := b.sys.emit (.crtc_pageflip oi ci fb mode) } oi ci fb mode output c plane
      ho hc hp
    exact ⟨r, l, by simpa [hi] using h1, by simpa [Sys.emit] using h2, h3⟩

/-- Reading back the slot that was just assigned. -/
theorem wlr_drm_crtc.planes_set_plane (c : wlr_drm_crtc) (t : Nat) (p : PlanePtr) :
    (c.set_plane t p).planes t = p := by
  rcases t with _ | _ | t <;> rfl

/-- Writing a plane back through a slot that points to a plane is defined, and the slot then
points to the plane written. -/
theorem wlr_drm_backend.store_spec (b : wlr_drm_backend) (ci t : Nat)
    (plane p0 : wlr_drm_plane) (c : wlr_drm_crtc) (hc : b.crtcs[ci]? = some c)
    (hp : b.deref (c.planes t) = some p0) :
    ∃ b' c', b.store ci t plane = some b' ∧ b'.crtcs[ci]? = some c' ∧
      b'.deref (c'.planes t) = some plane ∧ b'.outputs = b.outputs ∧ b'.sys = b.sys ∧
      b'.iface = b.iface := by
  unfold wlr_drm_backend.store
  simp only [hc, Option.bind_eq_bind, Option.some_bind]
  cases hpt : c.planes t with
  | null => simp [hpt, wlr_drm_backend.deref] at hp
  | kernel g =>
    simp only [hpt, wlr_drm_backend.deref] at hp
    have hg : g < b.planes.length := (List.getElem?_eq_some.mp hp).1
    refine ⟨{ b with planes := b.planes.set g plane }, c, by simp only [hg, if_true], hc, ?_,
      rfl, rfl, rfl⟩
    simp [hpt, wlr_drm_backend.deref, hg]
  | fake q =>
    have hci : ci < b.crtcs.length := (List.getElem?_eq_some.mp hc).1
    refine ⟨{ b with crtcs := b.crtcs.set ci (c.set_plane t (.fake plane)) },
      c.set_plane t (.fake plane), rfl, by simp [hci], ?_, rfl, rfl, rfl⟩
    simp [wlr_drm_crtc.planes_set_plane, wlr_drm_backend.deref]

/-- Running a renderer function on the plane of a slot: when the slot points to a plane and
the function is defined on it, the result holds the new plane in the same slot. -/
theorem wlr_drm_backend.on_plane_spec (b : wlr_drm_backend) (ci t : Nat)
    (f : Sys → wlr_drm_plane → Option (Sys × wlr_drm_plane)) (c : wlr_drm_crtc)
    (p0 p' : wlr_drm_plane) (s' : Sys) (hc : b.crtcs[ci]? = some c)
    (hp : b.deref (c.planes t) = some p0) (hf : f b.sys p0 = some (s', p')) :
    ∃ b' c', b.on_plane ci t f = some b' ∧ b'.crtcs[ci]? = some c' ∧
      b'.deref (c'.planes t) = some p' ∧ b'.outputs = b.outputs ∧ b'.sys = s' ∧
      b'.iface = b.iface := by
  unfold wlr_drm_backend.on_plane
  simp only [hc, hp, hf, Option.bind_eq_bind, Option.some_bind]
  exact wlr_drm_backend.store_spec { b with sys := s' } ci t p' p0 c hc hp

/-- A buffer swap on a plane with a buffer queue is defined; it only appends to the trace
and leaves a back buffer. -/
theorem wlr_drm_plane_swap_buffers_spec (s : Sys) (plane : wlr_drm_plane) (g : Nat)
    (hg : plane.gbm = some g) :
    ∃ s' p' l bo, wlr_drm_plane_swap_buffers s plane = some (s', p') ∧
      s'.events = s.events ++ l ∧ p'.back = some bo ∧ p'.gbm = some g ∧
      (plane.front = none →
        l = [Event.eglSwapBuffers plane.egl, Event.gbm_surface_lock_front_buffer bo]) := by
  cases hf : plane.front with
  | none =>
    refine ⟨((s.emit (.eglSwapBuffers plane.egl)).emit
        (.gbm_surface_lock_front_buffer s.clock)).tick,
      { plane with front := plane.back, back := some s.clock },
      [.eglSwapBuffers plane.egl, .gbm_surface_lock_front_buffer s.clock], s.clock, ?_, ?_,
      rfl, hg, fun _ => rfl⟩
    · simp [wlr_drm_plane_swap_buffers, release_if_locked, gbm_surface_lock_front_buffer, hg,
        hf, Sys.emit, Sys.tick]
    · simp [Sys.emit, Sys.tick]
  | some bo =>
    refine ⟨(((s.emit (.gbm_surface_release_buffer bo)).emit (.eglSwapBuffers plane.egl)).emit
        (.gbm_surface_lock_front_buffer s.clock)).tick,
      { plane with front := plane.back, back := some s.clock },
      [.gbm_surface_release_buffer bo, .eglSwapBuffers plane.egl,
        .gbm_surface_lock_front_buffer s.clock], s.clock, ?_, ?_, rfl, hg,
      fun h => by simp [hf] at h⟩
    · simp [wlr_drm_plane_swap_buffers, release_if_locked, gbm_surface_release_buffer,
        gbm_surface_lock_front_buffer, hg, hf, Sys.emit, Sys.tick]
    · simp [Sys.emit, Sys.tick]

/-- Setting `pageflip_pending` on an existing output. -/
theorem wlr_drm_backend.set_pending_spec (b : wlr_drm_backend) (oi : Nat)
    (output : wlr_output_state) (ho : b.outputs[oi]? = some output) (v : Bool) :
    ∃ b', b.set_output oi (fun o => { o with pageflip_pending := v }) = some b' ∧
      b'.sys = b.sys ∧ (b'.outputs[oi]?).map (fun o => o.pageflip_pending) = some v ∧
      b'.outputs = b.outputs.set oi { output with pageflip_pending := v } ∧
      b'.crtcs = b.crtcs ∧ b'.planes = b.planes := by
  have hoi : oi < b.outputs.length := (List.getElem?_eq_some.mp ho).1
  exact ⟨{ b with outputs := b.outputs.set oi { output with pageflip_pending := v } },
    by simp only [wlr_drm_backend.set_output, ho, Option.bind_eq_bind, Option.some_bind],
    rfl, by simp [hoi], rfl, rfl, rfl⟩

/-- C4 as stated fails: output 0 is Connected with a page flip pending, and
`wlr_drm_output_swap_buffers` submits another `crtc_pageflip` all the same. -/
theorem swap_buffers_flips_while_pending :
    (Ex.flipping.outputs[0]?).map (fun o => o.pageflip_pending) = some true ∧
    (wlr_drm_output_swap_buffers (Ex.env 1 Ex.match_keep Ex.all_succeed) Ex.flipping 0).map
        (fun b' => b'.sys.events)
      = some [Event.eglSwapBuffers (some 3), Event.gbm_surface_lock_front_buffer 6,
              Event.crtc_pageflip 0 0 6 none, Event.drmModePageFlip 40 6 0 true] := by
  decide

/-- What `wlr_drm_output_swap_buffers` does on an output whose CRTC has a primary plane with
a buffer queue: it swaps, submits a page flip without mode and sets `pageflip_pending`. -/
theorem wlr_drm_output_swap_buffers_spec (env : Env) (b : wlr_drm_backend) (oi ci g : Nat)
    (output : wlr_output_state) (c : wlr_drm_crtc) (plane : wlr_drm_plane)
    (ho : b.outputs[oi]? = some output) (hci : output.crtc = some ci)
    (hc : b.crtcs[ci]? = some c) (hp : b.deref c.primary = some plane)
    (hg : plane.gbm = some g) :
    ∃ b' fb pre post, wlr_drm_output_swap_buffers env b oi = some b' ∧
      b'.sys.events = b.sys.events ++ pre ++ [Event.crtc_pageflip oi ci fb none] ++ post ∧
      b'.outputs = b.outputs.set oi { output with pageflip_pending := true } := by
  obtain ⟨s', p', l, bo, hsw, hev, hback, _⟩ := wlr_drm_plane_swap_buffers_spec b.sys plane g hg
  obtain ⟨b1, c1, hon, hc1, hp1, hout1, hsys1, _⟩ :=
    wlr_drm_backend.on_plane_spec b ci 1 wlr_drm_plane_swap_buffers c plane p' s' hc hp hsw
  have hp1' : b1.deref c1.primary = some p' := hp1
  obtain ⟨r, post, hpf, hev2, hout2⟩ := crtc_pageflip_spec env b1 oi ci (get_fb_for_bo bo)
    none output c1 p' (by rw [hout1]; exact ho) hc1 hp1'
  obtain ⟨b', hset, hsys', _, houts, _⟩ := wlr_drm_backend.set_pending_spec r.1 oi output
    (by rw [hout2, hout1]; exact ho) true
  refine ⟨b', get_fb_for_bo bo, l, post, ?_, ?_, ?_⟩
  · unfold wlr_drm_output_swap_buffers
    simp only [ho, hci, hon, hc1, hp1', hback, hpf, Option.bind_eq_bind, Option.some_bind]
    exact hset
  · rw [hsys', hev2, hsys1, hev]
  · rw [houts, hout2, hout1]

/-- What `wlr_drm_output_start_renderer` does on a Connected output with a current mode whose
CRTC has a primary plane with a buffer queue: it submits a page flip with the mode and sets
`pageflip_pending`; when the plane has no front buffer, it first clears to black and swaps,
and the flip shows the buffer just locked. -/
theorem wlr_drm_output_start_renderer_spec (env : Env) (b : wlr_drm_backend) (oi ci g : Nat)
    (output : wlr_output_state) (c : wlr_drm_crtc) (plane : wlr_drm_plane)
    (mode : wlr_output_mode)
    (ho : b.outputs[oi]? = some output) (hci : output.crtc = some ci)
    (hc : b.crtcs[ci]? = some c) (hp : b.deref c.primary = some plane)
    (hg : plane.gbm = some g) (hs : output.state = WLR_DRM_OUTPUT_CONNECTED)
    (hm : output.base.current_mode = some mode) :
    ∃ b' bo pre post, wlr_drm_output_start_renderer env b oi = some b' ∧
      b'.sys.events = b.sys.events ++ pre ++
        [Event.crtc_pageflip oi ci (get_fb_for_bo bo) (some mode.state)] ++ post ∧
      b'.outputs = b.outputs.set oi { output with pageflip_pending := true } ∧
      (plane.front = none →
        pre = [Event.glClear plane.width plane.height, Event.eglSwapBuffers plane.egl,
               Event.gbm_surface_lock_front_buffer bo]) := by
  cases hf : plane.front with
  | some fbo =>
    obtain ⟨r, post, hpf, hev2, hout2⟩ := crtc_pageflip_spec env b oi ci (get_fb_for_bo fbo)
      (some mode.state) output c plane ho hc hp
    obtain ⟨b', hset, hsys', _, houts, _⟩ := wlr_drm_backend.set_pending_spec r.1 oi output
      (by rw [hout2]; exact ho) true
    refine ⟨b', fbo, [], post, ?_, ?_, ?_, fun h => by simp at h⟩
    · unfold wlr_drm_output_start_renderer
      simp only [ho, hs, hci, hc, hp, hm, hf, wlr_drm_output_start_renderer.buffer, hpf,
        Option.bind_eq_bind, Option.some_bind, ne_eq, not_true_eq_false, if_false]
      exact hset
    · rw [hsys', hev2]
      simp
    · rw [houts, hout2]
  | none =>
    obtain ⟨s2, p2, l2, bo2, h2, hev2', hback2, _, hl2⟩ := wlr_drm_plane_swap_buffers_spec
      (b.sys.emit (.glClear plane.width plane.height)) plane g hg
    obtain ⟨b1, c1, hon, hc1, hp1, hout1, hsys1, _⟩ :=
      wlr_drm_backend.on_plane_spec
        { b with sys := b.sys.emit (.glClear plane.width plane.height) } ci 1
        wlr_drm_plane_swap_buffers c plane p2 s2 hc hp h2
    have hp1' : b1.deref c1.primary = some p2 := hp1
    obtain ⟨r, post, hpf, hev2, hout2⟩ := crtc_pageflip_spec env b1 oi ci (get_fb_for_bo bo2)
      (some mode.state) output c1 p2 (by rw [hout1]; exact ho) hc1 hp1'
    obtain ⟨b', hset, hsys', _, houts, _⟩ := wlr_drm_backend.set_pending_spec r.1 oi output
      (by rw [hout2, hout1]; exact ho) true
    refine ⟨b', bo2, [Event.glClear plane.width plane.height] ++ l2, post, ?_, ?_, ?_, ?_⟩
    · unfold wlr_drm_output_start_renderer
      simp only [ho, hs, hci, hc, hp, hm, hf, wlr_drm_output_start_renderer.buffer, hon, hc1,
        hp1', hback2, hpf, Option.bind_eq_bind, Option.some_bind, ne_eq, not_true_eq_false,
        if_false]
      exact hset
    · rw [hsys', hev2, hsys1, hev2']
      simp [Sys.emit]
    · rw [houts, hout2, hout1]
    · intro _
      rw [hl2 hf]
      rfl

/-- C4, amended: on an output whose CRTC has a primary plane with a buffer queue,
`wlr_drm_output_swap_buffers` and (on a Connected output with a current mode)
`wlr_drm_output_start_renderer` submit a `crtc_pageflip` for the output whatever the value of
`pageflip_pending`, and leave `pageflip_pending` true.  Nothing rejects or defers the flip. -/
theorem pageflip_not_gated (env : Env) (b : wlr_drm_backend) (oi ci g : Nat)
    (output : wlr_output_state) (c : wlr_drm_crtc) (plane : wlr_drm_plane)
    (ho : b.outputs[oi]? = some output) (hci : output.crtc = some ci)
    (hc : b.crtcs[ci]? = some c) (hp : b.deref c.primary = some plane)
    (hg : plane.gbm = some g) :
    (∃ b' fb pre post, wlr_drm_output_swap_buffers env b oi = some b' ∧
      b'.sys.events = b.sys.events ++ pre ++ [Event.crtc_pageflip oi ci fb none] ++ post ∧
      (b'.outputs[oi]?).map (fun o => o.pageflip_pending) = some true) ∧
    (∀ mode, output.state = WLR_DRM_OUTPUT_CONNECTED → output.base.current_mode = some mode →
      ∃ b' fb pre post, wlr_drm_output_start_renderer env b oi = some b' ∧
        b'.sys.events =
          b.sys.events ++ pre ++ [Event.crtc_pageflip oi ci fb (some mode.state)] ++ post ∧
        (b'.outputs[oi]?).map (fun o => o.pageflip_pending) = some true) := by
  have hoi : oi < b.outputs.length := (List.getElem?_eq_some.mp ho).1
  refine ⟨?_, ?_⟩
  · obtain ⟨b', fb, pre, post, h1, h2, h3⟩ :=
      wlr_drm_output_swap_buffers_spec env b oi ci g output c plane ho hci hc hp hg
    exact ⟨b', fb, pre, post, h1, h2, by simp [h3, hoi]⟩
  · intro mode hs hm
    obtain ⟨b', bo, pre, post, h1, h2, h3, _⟩ :=
      wlr_drm_output_start_renderer_spec env b oi ci g output c plane mode ho hci hc hp hg hs hm
    exact ⟨b', get_fb_for_bo bo, pre, post, h1, h2, by simp [h3, hoi]⟩

/-- C4 amended, on a concrete backend whose output 0 has a page flip pending. -/
theorem pageflip_not_gated_witness :
    ∃ b' fb pre post,
      wlr_drm_output_swap_buffers (Ex.env 1 Ex.match_keep Ex.all_succeed) Ex.flipping 0
        = some b' ∧
      b'.sys.events =
        Ex.flipping.sys.events ++ pre ++ [Event.crtc_pageflip 0 0 fb none] ++ post ∧
      (b'.outputs[0]?).map (fun o => o.pageflip_pending) = some true :=
  (pageflip_not_gated (Ex.env 1 Ex.match_keep Ex.all_succeed) Ex.flipping 0 0 2
    { Ex.connected 7 0 1 with pageflip_pending := true }
    { Ex.crtc 40 with primary := .kernel 0 }
    { Ex.primary 30 1 with width := 1920, height := 1080, gbm := some 2, egl := some 3,
                           back := some 4 }
    (by decide) (by decide) (by decide) (by decide) (by decide)).1

/-! ## A failed mode set leaves other outputs without buffers -/

/-- C5 fails on the error path of `wlr_drm_output_set_mode`.  Output 0 is Connected and
ready; `set_mode` on output 1 moves the primary plane of output 0 to a fresh plane, the
creation of its buffer queue fails, and the error exit cleans up output 1 only: output 0
stays Connected while its primary plane has neither buffer queue nor context surface. -/
theorem set_mode_failure_breaks_ready :
    Ex.two_planes.outputs_ready = true ∧
    (wlr_drm_output_set_mode (Ex.env 2 Ex.match_swap Ex.no_surface) Ex.two_planes 1 Ex.mode).map
        (fun r => (r.2, r.1.outputs.map (fun o => o.state), r.1.outputs_ready))
      = some (false, [WLR_DRM_OUTPUT_CONNECTED, WLR_DRM_OUTPUT_DISCONNECTED], false) ∧
    (wlr_drm_output_set_mode (Ex.env 2 Ex.match_swap Ex.no_surface) Ex.two_planes 1 Ex.mode).map
        (fun r => ((r.1.crtcs[0]?).map (fun c => c.primary),
                   (r.1.planes[1]?).map (fun p => (p.gbm, p.egl))))
      = some (some (.kernel 1), some (none, none)) := by
  refine ⟨by decide, by decide, by decide⟩

/-! ## Plane slots and `possible_crtcs` -/

/-- Lists with the same image under `f` have entries with the same image at each position. -/
theorem getElem?_of_map_eq {α β : Type} (f : α → β) (l l' : List α) (h : l'.map f = l.map f)
    (i : Nat) (a' : α) (ha : l'[i]? = some a') : ∃ a, l[i]? = some a ∧ f a = f a' := by
  have hi := congrArg (fun x => x[i]?) h
  simp only [List.getElem?_map, ha, Option.map_some'] at hi
  cases hl : l[i]? with
  | none => simp [hl] at hi
  | some a =>
    simp only [hl, Option.map_some', Option.some.injEq] at hi
    exact ⟨a, rfl, hi.symm⟩

/-- A slot pointer is a kernel pointer exactly when its kernel index says so. -/
theorem kernel_index_eq_some (p : PlanePtr) (g : Nat) :
    kernel_index p = some g ↔ p = .kernel g := by
  cases p <;> simp [kernel_index]

/-- CRTCs with the same key hold the same kernel planes. -/
theorem wlr_drm_crtc.kernel_index_of_key (c c' : wlr_drm_crtc) (h : c.key = c'.key) (t : Nat) :
    kernel_index (c.planes t) = kernel_index (c'.planes t) := by
  simp only [wlr_drm_crtc.key, Prod.mk.injEq] at h
  rcases t with _ | _ | t <;> simp [wlr_drm_crtc.planes, h]

/-- The slot invariant depends on the skeleton only. -/
theorem wlr_drm_backend.slots_allowed_of_skeleton (b b' : wlr_drm_backend)
    (h : b'.skeleton = b.skeleton) (hb : b.slots_allowed) : b'.slots_allowed := by
  simp only [wlr_drm_backend.skeleton, Prod.mk.injEq] at h
  intro ci c' t g hc' hpt
  obtain ⟨c, hc, hk⟩ := getElem?_of_map_eq wlr_drm_crtc.key b.crtcs b'.crtcs h.2.1 ci c' hc'
  have hpt0 : c.planes t = .kernel g := by
    rw [← kernel_index_eq_some, wlr_drm_crtc.kernel_index_of_key c c' hk t,
      kernel_index_eq_some]
    exact hpt
  obtain ⟨p, hp, hbit⟩ := hb ci c t g hc hpt0
  have hmap : b.planes.map wlr_drm_plane.key = b'.planes.map wlr_drm_plane.key := h.1.symm
  obtain ⟨p', hp', hk'⟩ := getElem?_of_map_eq wlr_drm_plane.key b'.planes b.planes hmap g p hp
  refine ⟨p', hp', ?_⟩
  simp only [wlr_drm_plane.key, Prod.mk.injEq] at hk'
  rw [hk'.2.2]
  exact hbit

/-- Reading a slot after an assignment to a slot. -/
theorem wlr_drm_crtc.planes_set_plane_other (c : wlr_drm_crtc) (t t' : Nat) (p : PlanePtr) :
    (c.set_plane t p).planes t' = p ∨ (c.set_plane t p).planes t' = c.planes t' := by
  rcases t with _ | _ | t <;> rcases t' with _ | _ | t' <;>
    simp [wlr_drm_crtc.set_plane, wlr_drm_crtc.planes]

/-- Putting an allowed kernel plane into a slot keeps the slot invariant. -/
theorem wlr_drm_backend.slots_allowed_set (b : wlr_drm_backend) (i t g : Nat)
    (c : wlr_drm_crtc) (p : wlr_drm_plane) (hb : b.slots_allowed) (hc : b.crtcs[i]? = some c)
    (hp : b.planes[g]? = some p) (hbit : hasBit p.possible_crtcs i = true) :
    wlr_drm_backend.slots_allowed
      { b with crtcs := b.crtcs.set i (c.set_plane t (.kernel g)) } := by
  intro ci c' t' g' hc' hpt
  simp only [List.getElem?_set] at hc'
  split at hc'
  · rename_i hi
    subst hi
    split at hc'
    · simp only [Option.some.injEq] at hc'
      subst hc'
      rcases wlr_drm_crtc.planes_set_plane_other c t t' (.kernel g) with h | h
      · rw [h] at hpt
        simp only [PlanePtr.kernel.injEq] at hpt
        subst hpt
        exact ⟨p, hp, hbit⟩
      · rw [h] at hpt
        exact hb i c t' g' hc hpt
    · simp at hc'
  · exact hb ci c' t' g' hc' hpt

/-- Backends with the same skeleton have the same kernel planes and counts. -/
theorem wlr_drm_backend.same_planes_of_skeleton (b x x' : wlr_drm_backend)
    (h : x'.skeleton = x.skeleton) (hx : b.same_planes x) : b.same_planes x' := by
  simp only [wlr_drm_backend.skeleton, Prod.mk.injEq] at h
  obtain ⟨h1, h2, h3, h4, h5⟩ := h
  obtain ⟨g1, g2, g3, g4, g5⟩ := hx
  refine ⟨h1.trans g1, ?_, h3.trans g3, h4.trans g4, h5.trans g5⟩
  have := congrArg List.length h2
  simp only [List.length_map] at this
  exact this.trans g2

/-- The plane counts and offsets follow the counters. -/
theorem wlr_drm_backend.same_planes_counts (b x : wlr_drm_backend) (hx : b.same_planes x)
    (t : Nat) :
    x.num_type_planes t = b.num_type_planes t ∧ x.type_planes t = b.type_planes t ∧
      x.planes.length = b.planes.length := by
  obtain ⟨g1, _, g3, g4, g5⟩ := hx
  have hl := congrArg List.length g1
  simp only [List.length_map] at hl
  rcases t with _ | _ | t <;>
    simp [wlr_drm_backend.num_type_planes, wlr_drm_backend.type_planes, g3, g4, g5, hl]

/-- The masks handed to the matcher depend on the kernel planes and counts only. -/
theorem realloc_planes.possible_congr (b x : wlr_drm_backend) (hx : b.same_planes x)
    (t : Nat) : realloc_planes.possible x t = realloc_planes.possible b t := by
  obtain ⟨hn, ht, _⟩ := wlr_drm_backend.same_planes_counts b x hx t
  unfold realloc_planes.possible
  rw [hn, ht]
  apply List.map_congr_left
  intro k _
  have h := congrArg (fun z => (z[b.type_planes t + k]?).map (fun q => q.2.2)) hx.1
  simp only [List.getElem?_map, Option.map_map] at h
  simp only [List.getD_eq_getElem?_getD]
  cases h1 : x.planes[b.type_planes t + k]? <;> cases h2 : b.planes[b.type_planes t + k]? <;>
    simp_all [wlr_drm_plane.key]

/-- Entry `k` of the masks handed to the matcher is the mask of plane `k` of the type. -/
theorem realloc_planes.possible_getD (b : wlr_drm_backend) (t k : Nat)
    (hk : k < b.num_type_planes t)
    (hg : b.type_planes t + b.num_type_planes t ≤ b.planes.length) :
    ∃ p, b.planes[b.type_planes t + k]? = some p ∧
      (realloc_planes.possible b t).getD k 0 = p.possible_crtcs := by
  have hlt : b.type_planes t + k < b.planes.length := by omega
  refine ⟨b.planes[b.type_planes t + k], List.getElem?_eq_getElem hlt, ?_⟩
  simp [realloc_planes.possible, List.getD_eq_getElem?_getD, List.getElem?_range hk,
    List.getElem?_eq_getElem hlt]

/-- One round of the last loop of `realloc_planes` keeps the slot invariant when the
matcher's entry for the CRTC is valid. -/
theorem realloc_planes.assign_allowed (b0 x x' : wlr_drm_backend) (type : Nat)
    (res : Nat → Nat) (i : Nat)
    (hg : b0.type_planes type + b0.num_type_planes type ≤ b0.planes.length)
    (hres : MatchValid (b0.num_type_planes type) (realloc_planes.possible b0 type)
      b0.crtcs.length res)
    (hx : b0.same_planes x ∧ x.slots_allowed)
    (h : realloc_planes.assign type res x i = some x') :
    b0.same_planes x' ∧ x'.slots_allowed := by
  unfold realloc_planes.assign at h
  split at h
  · cases h
    exact hx
  · rename_i hus
    simp only [not_or] at hus
    simp only [Option.bind_eq_bind, Option.bind_eq_some] at h
    obtain ⟨c, hc, h⟩ := h
    split at h
    · simp only [Option.bind_eq_bind, Option.bind_eq_some, Option.some.injEq] at h
      obtain ⟨b5, h5, b6, h6, c6, hc6, rfl⟩ := h
      have s5 := (wlr_drm_backend.free_slot_frame _ _ _ _ h5).2.1
      have s6 := (wlr_drm_backend.free_kernel_frame _ _ _ h6).2.1
      have hs6 : b0.same_planes b6 :=
        wlr_drm_backend.same_planes_of_skeleton b0 b5 b6 s6
          (wlr_drm_backend.same_planes_of_skeleton b0 x b5 s5 hx.1)
      have ha6 : b6.slots_allowed :=
        wlr_drm_backend.slots_allowed_of_skeleton b5 b6 s6
          (wlr_drm_backend.slots_allowed_of_skeleton x b5 s5 hx.2)
      have hi : i < b0.crtcs.length := by
        rw [← hx.1.2.1]
        exact (List.getElem?_eq_some.mp hc).1
      obtain ⟨hlt, hbit⟩ := hres i hi hus.2 hus.1
      obtain ⟨p0, hp0, hget⟩ := realloc_planes.possible_getD b0 type (res i) hlt hg
      rw [hget] at hbit
      have hmap : b6.planes.map wlr_drm_plane.key = b0.planes.map wlr_drm_plane.key := hs6.1
      obtain ⟨p, hp, hk⟩ := getElem?_of_map_eq wlr_drm_plane.key b6.planes b0.planes hmap.symm
        _ p0 hp0
      have hbit' : hasBit p.possible_crtcs i = true := by
        simp only [wlr_drm_plane.key, Prod.mk.injEq] at hk
        rw [hk.2.2]
        exact hbit
      have htp : x.type_planes type = b0.type_planes type :=
        (wlr_drm_backend.same_planes_counts b0 x hx.1 type).2.1
      refine ⟨?_, ?_⟩
      · obtain ⟨g1, g2, g3, g4, g5⟩ := hs6
        exact ⟨g1, by simpa using g2, g3, g4, g5⟩
      · rw [htp]
        exact wlr_drm_backend.slots_allowed_set b6 i type _ c6 p ha6 hc6 hp hbit'
    · cases h
      exact hx

/-- The function `realloc_planes` keeps the slot invariant when every answer of the matcher
is valid for the masks of the plane type it is asked about. -/
theorem realloc_planes_allowed (env : Env) (crtc_in : Nat → Nat) (b b' : wlr_drm_backend)
    (hvalid : ∀ t cur, MatchValid (b.num_type_planes t) (realloc_planes.possible b t)
      b.crtcs.length
      (env.match_obj (b.num_type_planes t) (realloc_planes.possible b t) b.crtcs.length cur))
    (hb : b.slots_allowed) (h : realloc_planes env b crtc_in = some b') :
    b.same_planes b' ∧ b'.slots_allowed := by
  refine for_each_induct (fun x => b.same_planes x ∧ x.slots_allowed) _ ?_ _ b b'
    ⟨⟨rfl, rfl, rfl, rfl, rfl⟩, hb⟩ h
  intro x t x' hx ht
  unfold realloc_planes.type at ht
  split at ht
  · cases ht
    exact hx
  · split at ht
    · simp at ht
    · rename_i hguard
      simp only [Option.bind_eq_bind, Option.bind_eq_some] at ht
      obtain ⟨crtc, _, ht⟩ := ht
      obtain ⟨hn, htp, hl⟩ := wlr_drm_backend.same_planes_counts b x hx.1 t
      rw [realloc_planes.possible_congr b x hx.1 t, hn, hx.1.2.1] at ht
      refine for_each_induct (fun y => b.same_planes y ∧ y.slots_allowed) _ ?_ _ x x' hx ht
      intro y i y' hy hi
      exact realloc_planes.assign_allowed b y y' t _ i (by omega) (hvalid t crtc) hy hi

/-! ## Frame lemmas for page-flip completion and cleanup -/

/-- Assigning to fields of an output other than its connector id changes neither the
skeleton nor the connector ids. -/
theorem wlr_drm_backend.set_output_frame (b b' : wlr_drm_backend) (k : Nat)
    (f : wlr_output_state → wlr_output_state) (h : b.set_output k f = some b')
    (hf : ∀ o, (f o).connector = o.connector) :
    b'.skeleton = b.skeleton ∧
      b'.outputs.map (fun o => o.connector) = b.outputs.map (fun o => o.connector) := by
  unfold wlr_drm_backend.set_output at h
  simp only [Option.bind_eq_bind, Option.bind_eq_some, Option.some.injEq] at h
  obtain ⟨o, ho, rfl⟩ := h
  exact ⟨rfl, map_set_of_eq (fun o => o.connector) (f o) o b.outputs k ho (hf o)⟩

/-- Releasing the front buffer keeps the identity of the plane. -/
theorem page_flip_handler.release_key (s s' : Sys) (p p' : wlr_drm_plane)
    (h : page_flip_handler.release s p = some (s', p')) : p'.key = p.key := by
  unfold page_flip_handler.release at h
  split at h
  · simp only [Option.bind_eq_bind, Option.bind_eq_some, Option.some.injEq,
      Prod.mk.injEq] at h
    obtain ⟨_, _, _, rfl⟩ := h
    rfl
  · simp only [Option.some.injEq, Prod.mk.injEq] at h
    rw [← h.2]

/-- The page-flip handler changes neither the skeleton nor the connector ids. -/
theorem page_flip_handler_frame (b b' : wlr_drm_backend) (oi : Nat)
    (h : page_flip_handler b oi = some b') :
    b'.skeleton = b.skeleton ∧
      b'.outputs.map (fun o => o.connector) = b.outputs.map (fun o => o.connector) := by
  unfold page_flip_handler at h
  simp only [Option.bind_eq_bind, Option.bind_eq_some] at h
  obtain ⟨output, _, b1, h1, h⟩ := h
  have f1 := wlr_drm_backend.set_output_frame b b1 oi _ h1 (fun _ => rfl)
  split at h
  · cases h
    exact f1
  · simp only [Option.bind_eq_bind, Option.bind_eq_some] at h
    obtain ⟨ci, _, b2, h2, h⟩ := h
    have f2 := wlr_drm_backend.on_plane_frame b1 b2 ci 1 _
      (fun s p s' p' => page_flip_handler.release_key s s' p p') h2
    have hb2 : b2.skeleton = b.skeleton ∧
        b2.outputs.map (fun o => o.connector) = b.outputs.map (fun o => o.connector) :=
      ⟨f2.2.1.trans f1.1, by rw [f2.1]; exact f1.2⟩
    split at h <;> cases h <;> exact hb2

/-- Handling one DRM event changes neither the skeleton nor the connector ids. -/
theorem wlr_drm_event_frame (b b' : wlr_drm_backend) (h : wlr_drm_event b = some b') :
    b'.skeleton = b.skeleton ∧
      b'.outputs.map (fun o => o.connector) = b.outputs.map (fun o => o.connector) := by
  unfold wlr_drm_event at h
  split at h
  · simp at h
  · have hf := page_flip_handler_frame _ b' _ h
    exact hf

/-- Draining the pending page flips changes neither the skeleton nor the connector ids. -/
theorem restore_output.drain_frame (oi : Nat) :
    ∀ (n : Nat) (b b' : wlr_drm_backend), restore_output.drain oi n b = some b' →
      b'.skeleton = b.skeleton ∧
        b'.outputs.map (fun o => o.connector) = b.outputs.map (fun o => o.connector)
  | 0, b, b', h => by
    unfold restore_output.drain at h
    simp only [Option.bind_eq_bind, Option.bind_eq_some] at h
    obtain ⟨_, _, h⟩ := h
    split at h
    · cases h
      exact ⟨rfl, rfl⟩
    · simp at h
  | n + 1, b, b', h => by
    unfold restore_output.drain at h
    simp only [Option.bind_eq_bind, Option.bind_eq_some] at h
    obtain ⟨_, _, h⟩ := h
    split at h
    · cases h
      exact ⟨rfl, rfl⟩
    · simp only [Option.bind_eq_bind, Option.bind_eq_some] at h
      obtain ⟨b1, h1, h2⟩ := h
      have f1 := wlr_drm_event_frame b b1 h1
      have f2 := restore_output.drain_frame oi n b1 b' h2
      exact ⟨f2.1.trans f1.1, f2.2.trans f1.2⟩

/-- Restoring the saved CRTC changes neither the skeleton nor the connector ids. -/
theorem restore_output_frame (b b' : wlr_drm_backend) (oi : Nat)
    (h : restore_output b oi = some b') :
    b'.skeleton = b.skeleton ∧
      b'.outputs.map (fun o => o.connector) = b.outputs.map (fun o => o.connector) := by
  unfold restore_output at h
  simp only [Option.bind_eq_bind, Option.bind_eq_some] at h
  obtain ⟨b1, h1, _, _, h⟩ := h
  have f1 := restore_output.drain_frame oi _ b b1 h1
  split at h <;> cases h <;> exact f1

/-- One round of the plane loop of the cleanup changes neither the skeleton nor the
outputs: a slot is only ever cleared when it holds a synthetic plane. -/
theorem wlr_drm_output_cleanup.plane_frame (b b' : wlr_drm_backend) (ci i : Nat)
    (h : wlr_drm_output_cleanup.plane b ci i = some b') :
    b'.skeleton = b.skeleton ∧ b'.outputs = b.outputs := by
  unfold wlr_drm_output_cleanup.plane at h
  simp only [Option.bind_eq_bind, Option.bind_eq_some] at h
  obtain ⟨b1, h1, c, hc, h⟩ := h
  have f1 := wlr_drm_backend.free_slot_frame b b1 ci i h1
  split at h
  · cases h
    exact ⟨f1.2.1, f1.1⟩
  · simp only [Option.bind_eq_bind, Option.bind_eq_some] at h
    obtain ⟨_, _, h⟩ := h
    split at h
    · simp at h
    · cases h
      exact ⟨f1.2.1, f1.1⟩
  · rename_i q hq
    split at h
    · cases h
      refine ⟨?_, f1.1⟩
      rw [← f1.2.1]
      have hkey : (c.set_plane i .null).key = c.key :=
        wlr_drm_crtc.key_set_plane c i _ (by simp [hq, kernel_index])
      simp [wlr_drm_backend.skeleton,
        map_set_of_eq wlr_drm_crtc.key (c.set_plane i .null) c b1.crtcs ci hc hkey]
    · cases h
      exact ⟨f1.2.1, f1.1⟩

/-- The cleanup of an output changes neither the skeleton nor the connector ids nor the
number of outputs. -/
theorem wlr_drm_output_cleanup_frame (b b' : wlr_drm_backend) (oi : Nat) (restore : Bool)
    (h : wlr_drm_output_cleanup b oi restore = some b') :
    b'.skeleton = b.skeleton ∧
      b'.outputs.map (fun o => o.connector) = b.outputs.map (fun o => o.connector) := by
  have hr : ∀ x x' : wlr_drm_backend, wlr_drm_output_cleanup.restore x oi restore = some x' →
      x'.skeleton = x.skeleton ∧
        x'.outputs.map (fun o => o.connector) = x.outputs.map (fun o => o.connector) := by
    intro x x' hx
    unfold wlr_drm_output_cleanup.restore at hx
    split at hx
    · exact restore_output_frame x x' oi hx
    · cases hx
      exact ⟨rfl, rfl⟩
  unfold wlr_drm_output_cleanup at h
  simp only [Option.bind_eq_bind, Option.bind_eq_some] at h
  obtain ⟨output, _, h⟩ := h
  split at h
  · simp only [Option.bind_eq_bind, Option.bind_eq_some, Option.some.injEq] at h
    obtain ⟨b1, h1, b2, h2, ci, _, b3, h3, b4, h4, b5, h5, b6, h6, b7, h7, rfl⟩ := h
    have f1 := wlr_drm_backend.set_output_frame b b1 oi _ h1 (fun _ => rfl)
    have f2 := hr b1 b2 h2
    have f3 := wlr_drm_output_cleanup.plane_frame b2 b3 ci 0 h3
    have f4 := wlr_drm_output_cleanup.plane_frame b3 b4 ci 1 h4
    have f5 := wlr_drm_output_cleanup.plane_frame b4 b5 ci 2 h5
    have f6 := wlr_drm_backend.set_output_frame b5 b6 oi _ h6 (fun _ => rfl)
    have f7 := wlr_drm_backend.set_output_frame b6 b7 oi _ h7 (fun _ => rfl)
    refine ⟨?_, ?_⟩
    · exact f7.1.trans (f6.1.trans (f5.1.trans (f4.1.trans (f3.1.trans (f2.1.trans f1.1)))))
    · show b7.outputs.map (fun o => o.connector) = _
      rw [f7.2, f6.2, f5.2, f4.2, f3.2, f2.2, f1.2]
  · simp only [Option.bind_eq_bind, Option.bind_eq_some, Option.some.injEq] at h
    obtain ⟨b1, h1, b2, h2, rfl⟩ := h
    have f1 := wlr_drm_backend.set_output_frame b b1 oi _ h1 (fun _ => rfl)
    have f2 := hr b1 b2 h2
    exact ⟨f2.1.trans f1.1, f2.2.trans f1.2⟩
  · cases h
    exact ⟨rfl, rfl⟩

/-! ## Frame lemmas for the cursor -/

/-- Beginning a request keeps the key of the CRTC. -/
theorem atomic_begin_key (env : Env) (s : Sys) (c : wlr_drm_crtc) :
    (atomic_begin env s c).2.1.key = c.key := by
  unfold atomic_begin
  split
  · split <;> rfl
  · rfl

/-- Storing a CRTC whose key is that of the CRTC it replaces keeps the skeleton. -/
theorem wlr_drm_backend.skeleton_set_crtc (b : wlr_drm_backend) (ci : Nat)
    (c c' : wlr_drm_crtc) (s : Sys) (hc : b.crtcs[ci]? = some c) (hk : c'.key = c.key) :
    wlr_drm_backend.skeleton { b with sys := s, crtcs := b.crtcs.set ci c' } = b.skeleton := by
  simp [wlr_drm_backend.skeleton, map_set_of_eq wlr_drm_crtc.key c' c b.crtcs ci hc hk]

/-- The legacy cursor update changes neither the skeleton nor the outputs. -/
theorem legacy_crtc_set_cursor_frame (env : Env) (b : wlr_drm_backend) (crtc bo : Option Nat)
    (r : wlr_drm_backend × Bool) (h : legacy_crtc_set_cursor env b crtc bo = some r) :
    r.1.skeleton = b.skeleton ∧ r.1.outputs = b.outputs := by
  unfold legacy_crtc_set_cursor at h
  split at h
  · cases h
    exact ⟨rfl, rfl⟩
  · simp only [Option.bind_eq_bind, Option.bind_eq_some] at h
    obtain ⟨c, _, h⟩ := h
    split at h
    · cases h
      exact ⟨rfl, rfl⟩
    · split at h
      · cases h
        exact ⟨rfl, rfl⟩
      · simp only [Option.bind_eq_bind, Option.bind_eq_some, Option.some.injEq] at h
        obtain ⟨_, _, rfl⟩ := h
        exact ⟨rfl, rfl⟩

/-- The atomic cursor update changes neither the skeleton nor the outputs. -/
theorem atomic_crtc_set_cursor_frame (env : Env) (b : wlr_drm_backend) (crtc bo : Option Nat)
    (r : wlr_drm_backend × Bool) (h : atomic_crtc_set_cursor env b crtc bo = some r) :
    r.1.skeleton = b.skeleton ∧ r.1.outputs = b.outputs := by
  unfold atomic_crtc_set_cursor at h
  split at h
  · cases h
    exact ⟨rfl, rfl⟩
  · rename_i ci
    simp only [Option.bind_eq_bind, Option.bind_eq_some] at h
    obtain ⟨c, hc, h⟩ := h
    split at h
    · cases h
      exact ⟨rfl, rfl⟩
    · simp only [Option.bind_eq_bind, Option.bind_eq_some] at h
      obtain ⟨plane, _, h⟩ := h
      split at h
      · exact legacy_crtc_set_cursor_frame env b _ bo r h
      · simp only [Option.some.injEq] at h
        subst h
        exact ⟨wlr_drm_backend.skeleton_set_crtc b ci c _ _ hc (atomic_begin_key env b.sys c),
          rfl⟩

/-- The call through `iface->crtc_set_cursor` changes neither the skeleton nor the outputs. -/
theorem crtc_set_cursor_frame (env : Env) (b : wlr_drm_backend) (ci : Nat) (bo : Option Nat)
    (r : wlr_drm_backend × Bool) (h : crtc_set_cursor env b ci bo = some r) :
    r.1.skeleton = b.skeleton ∧ r.1.outputs = b.outputs := by
  unfold crtc_set_cursor at h
  dsimp only at h
  split at h
  · have hf := legacy_crtc_set_cursor_frame env _ _ bo r h
    exact hf
  · have hf := atomic_crtc_set_cursor_frame env _ _ bo r h
    exact hf

/-- The cursor resources are created without touching the identity of the plane. -/
theorem wlr_drm_output_set_cursor.resources_key (env : Env) (s : Sys) (p : wlr_drm_plane)
    (w h : Nat) : (wlr_drm_output_set_cursor.resources env s p w h).2.1.key = p.key := by
  unfold wlr_drm_output_set_cursor.resources
  split
  · rfl
  · split
    · rfl
    · split <;> rfl

/-- The cursor initialisation keeps the identity of the plane. -/
theorem wlr_drm_output_set_cursor.init_key (env : Env) (s : Sys) (p : wlr_drm_plane)
    (w h : Nat) : (wlr_drm_output_set_cursor.init env s p w h).2.1.key = p.key := by
  unfold wlr_drm_output_set_cursor.init
  dsimp only
  split
  · rfl
  · split
    · exact wlr_drm_plane_renderer_init_key env s p _ _
    · rw [wlr_drm_output_set_cursor.resources_key]
      exact wlr_drm_plane_renderer_init_key env s p _ _

/-- The function `wlr_drm_output_set_cursor` changes neither the skeleton nor the outputs:
the only slot it assigns is an empty cursor slot, which receives a synthetic plane. -/
theorem wlr_drm_output_set_cursor_frame (env : Env) (b : wlr_drm_backend) (oi : Nat)
    (buf : Bool) (width height : Nat) (r : wlr_drm_backend × Bool)
    (h : wlr_drm_output_set_cursor env b oi buf width height = some r) :
    r.1.skeleton = b.skeleton ∧ r.1.outputs = b.outputs := by
  unfold wlr_drm_output_set_cursor at h
  simp only [Option.bind_eq_bind, Option.bind_eq_some] at h
  obtain ⟨output, _, ci, _, c, hc, h⟩ := h
  split at h
  · exact crtc_set_cursor_frame env b ci none r h
  · split at h
    · cases h
      exact ⟨rfl, rfl⟩
    · have hfake : ∀ (b1 : wlr_drm_backend),
          b1 = (if c.cursor = .null then
            { b with sys := b.sys.tick,
                     crtcs := b.crtcs.set ci { c with cursor := .fake wlr_drm_plane.zero } }
            else b) → b1.skeleton = b.skeleton ∧ b1.outputs = b.outputs := by
        intro b1 hb1
        split at hb1
        · rename_i hnull
          subst hb1
          refine ⟨wlr_drm_backend.skeleton_set_crtc b ci c _ _ hc ?_, rfl⟩
          simp [wlr_drm_crtc.key, hnull, kernel_index]
        · subst hb1
          exact ⟨rfl, rfl⟩
      generalize hb1 : (if c.cursor = .null then
            { b with sys := b.sys.tick,
                     crtcs := b.crtcs.set ci { c with cursor := .fake wlr_drm_plane.zero } }
            else b) = b1 at h
      have f1 := hfake b1 hb1.symm
      simp only [Option.bind_eq_bind, Option.bind_eq_some] at h
      obtain ⟨c1, hc1, plane, hp, b2, h2, h⟩ := h
      have hkey : (if plane.gbm.isNone = true then
            wlr_drm_output_set_cursor.init env b1.sys plane width height
          else (b1.sys, plane, true)).2.1.key = plane.key := by
        split
        · exact wlr_drm_output_set_cursor.init_key env b1.sys plane width height
        · rfl
      generalize (if plane.gbm.isNone = true then
            wlr_drm_output_set_cursor.init env b1.sys plane width height
          else (b1.sys, plane, true)) = r0 at h h2 hkey
      have f2 := wlr_drm_backend.store_frame { b1 with sys := r0.1 } b2 ci 2 _ plane c1 hc1 hp
        hkey h2
      have hb2 : b2.skeleton = b.skeleton ∧ b2.outputs = b.outputs :=
        ⟨f2.2.1.trans f1.1, f2.1.trans f1.2⟩
      split at h
      · cases h
        exact hb2
      · unfold wlr_drm_output_set_cursor.upload at h
        simp only [Option.bind_eq_bind, Option.bind_eq_some] at h
        obtain ⟨bo, _, h⟩ := h
        split at h
        · cases h
          exact hb2
        · split at h
          · simp at h
          · simp only [Option.bind_eq_bind, Option.bind_eq_some] at h
            obtain ⟨b3, h3, h⟩ := h
            have f3 := wlr_drm_backend.on_plane_frame _ b3 ci 2 _
              (fun s p s' p' => wlr_drm_plane_swap_buffers_key s s' p p') h3
            have f4 := crtc_set_cursor_frame env b3 ci (some bo) r h
            exact ⟨f4.1.trans (f3.2.1.trans hb2.1), f4.2.trans (f3.1.trans hb2.2)⟩

/-! ## The slot invariant -/

/-- C6 as stated fails at `set_cursor`: on a CRTC without cursor plane the call puts a
synthetic plane into the cursor slot; the slot is then non-null and the plane's
`possible_crtcs` is 0, so it lacks the bit of CRTC 0. -/
theorem set_cursor_fake_plane_has_no_bit :
    (wlr_drm_output_set_cursor (Ex.env 1 Ex.match_keep Ex.all_succeed) Ex.flipping 0 true 32
        32).map
      (fun r => (r.2, (r.1.crtcs[0]?).map (fun c =>
        (c.planes 2 != .null,
          (r.1.deref (c.planes 2)).map (fun p => hasBit p.possible_crtcs 0)))))
      = some (true, some (true, some false)) := by
  decide

/-- C6, amended: every CRTC slot that holds a kernel plane (a plane of the backend's array)
holds one whose `possible_crtcs` has the bit of the CRTC's index, and this is kept by
`realloc_planes` when the matcher's answers are valid, by `set_cursor` and by the cleanup.
A synthetic cursor plane is exempt: its `possible_crtcs` is 0. -/
theorem kernel_slots_stay_allowed (env : Env) (b b' : wlr_drm_backend)
    (hb : b.slots_allowed) :
    (∀ crtc_in,
      (∀ t cur, MatchValid (b.num_type_planes t) (realloc_planes.possible b t) b.crtcs.length
        (env.match_obj (b.num_type_planes t) (realloc_planes.possible b t) b.crtcs.length cur)) →
      realloc_planes env b crtc_in = some b' → b'.slots_allowed) ∧
    (∀ oi buf width height r,
      wlr_drm_output_set_cursor env b oi buf width height = some (b', r) → b'.slots_allowed) ∧
    (∀ oi restore, wlr_drm_output_cleanup b oi restore = some b' → b'.slots_allowed) := by
  refine ⟨?_, ?_, ?_⟩
  · intro crtc_in hvalid h
    exact (realloc_planes_allowed env crtc_in b b' hvalid hb h).2
  · intro oi buf width height r h
    exact wlr_drm_backend.slots_allowed_of_skeleton b b'
      (wlr_drm_output_set_cursor_frame env b oi buf width height (b', r) h).1 hb
  · intro oi restore h
    exact wlr_drm_backend.slots_allowed_of_skeleton b b'
      (wlr_drm_output_cleanup_frame b b' oi restore h).1 hb

/-- C6 amended, on a concrete backend: the two primary planes are swapped between the two
CRTCs, and each CRTC then holds a plane that allows it. -/
theorem kernel_slots_stay_allowed_witness :
    realloc_planes (Ex.env 2 Ex.match_planes Ex.all_succeed) Ex.two_planes
        (fun j => if j < 2 then j else UNMATCHED) = some Ex.two_planes_after ∧
    Ex.two_planes_after.slots_allowed :=
  ⟨by decide,
   (kernel_slots_stay_allowed (Ex.env 2 Ex.match_planes Ex.all_succeed) Ex.two_planes
      Ex.two_planes_after
      (by
        intro ci c t g hc hpt
        rcases ci with _ | _ | ci
        · simp only [Ex.two_planes, List.getElem?_cons_zero, Option.some.injEq] at hc
          subst hc
          rcases t with _ | _ | t
          · simp [wlr_drm_crtc.planes, Ex.crtc] at hpt
          · simp only [wlr_drm_crtc.planes, PlanePtr.kernel.injEq] at hpt
            subst hpt
            exact ⟨_, rfl, by decide⟩
          · simp [wlr_drm_crtc.planes, Ex.crtc] at hpt
        · simp only [Ex.two_planes, List.getElem?_cons_succ, List.getElem?_cons_zero,
            Option.some.injEq] at hc
          subst hc
          rcases t with _ | _ | t <;> simp [wlr_drm_crtc.planes, Ex.crtc] at hpt
        · simp [Ex.two_planes] at hc)).1
      (fun j => if j < 2 then j else UNMATCHED)
      (by
        intro t cur j hj _ hu
        have hj2 : j < 2 := hj
        rcases t with _ | _ | t
        · exact absurd rfl hu
        · interval_cases j
          · exact ⟨(by decide : (1 : Nat) < 2), (by decide : hasBit 1 0 = true)⟩
          · exact ⟨(by decide : (0 : Nat) < 2), (by decide : hasBit 3 1 = true)⟩
        · exact absurd rfl hu)
      (by decide)⟩

/-! ## Connector scans -/

/-- Nothing seen, nothing changed. -/
theorem Grows.refl (l : List Nat) : Grows l l [] :=
  ⟨id, fun _ => by simp, ⟨[], by simp⟩⟩

/-- Two extensions in a row are one extension. -/
theorem Grows.trans (a b c s1 s2 : List Nat) (h1 : Grows a b s1) (h2 : Grows b c s2) :
    Grows a c (s1 ++ s2) := by
  obtain ⟨n1, m1, l1, e1⟩ := h1
  obtain ⟨n2, m2, l2, e2⟩ := h2
  refine ⟨fun h => n2 (n1 h), ?_, ⟨l1 ++ l2, by rw [e2, e1, List.append_assoc]⟩⟩
  intro id
  rw [m2, m1, List.mem_append, or_assoc]

/-- The comparison `find_id` answers 0 exactly on the output of the connector. -/
theorem find_id_eq_zero (o : wlr_output_state) (id : Nat) :
    find_id o id = 0 ↔ o.connector = id := by
  unfold find_id
  split
  · constructor
    · intro h; omega
    · intro h; omega
  · split
    · constructor
      · intro h; omega
      · intro h; omega
    · constructor
      · intro _; omega
      · intro _; rfl

/-- A successful lookup yields the position of an output with the id looked up. -/
theorem list_seq_find_some :
    ∀ (os : List wlr_output_state) (id i : Nat), list_seq_find os id = some i →
      ∃ o, os[i]? = some o ∧ o.connector = id
  | [], _, _, h => by simp [list_seq_find] at h
  | o :: os, id, i, h => by
    unfold list_seq_find at h
    split at h
    · rename_i h0
      simp only [Option.some.injEq] at h
      subst h
      exact ⟨o, by simp, (find_id_eq_zero o id).mp h0⟩
    · simp only [Option.map_eq_some'] at h
      obtain ⟨j, hj, rfl⟩ := h
      obtain ⟨o', ho', hc⟩ := list_seq_find_some os id j hj
      exact ⟨o', by simpa using ho', hc⟩

/-- A failed lookup means that no output has the id looked up. -/
theorem list_seq_find_none :
    ∀ (os : List wlr_output_state) (id : Nat), list_seq_find os id = none →
      id ∉ os.map (fun o => o.connector)
  | [], _, _ => by simp
  | o :: os, id, h => by
    unfold list_seq_find at h
    split at h
    · simp at h
    · rename_i h0
      simp only [Option.map_eq_none'] at h
      have ih := list_seq_find_none os id h
      have hne : ¬ o.connector = id := fun hc => h0 ((find_id_eq_zero o id).mpr hc)
      simp only [List.map_cons, List.mem_cons, not_or]
      exact ⟨fun hc => hne hc.symm, ih⟩

/-- The two state transitions at the end of the scan of one connector keep the connector
ids of the outputs. -/
theorem wlr_drm_scan_connectors.transition_ids (env : Env) (x x' : wlr_drm_backend)
    (index : Nat) (conn : drmModeConnector)
    (h : wlr_drm_scan_connectors.transition env x index conn = some x') :
    x'.outputs.map (fun o => o.connector) = x.outputs.map (fun o => o.connector) := by
  unfold wlr_drm_scan_connectors.transition at h
  simp only [Option.bind_eq_bind, Option.bind_eq_some] at h
  obtain ⟨output, _, h⟩ := h
  split at h
  · simp only [Option.bind_eq_bind, Option.bind_eq_some, Option.some.injEq] at h
    obtain ⟨b1, h1, rfl⟩ := h
    exact (wlr_drm_backend.set_output_frame x b1 index _ h1 (fun _ => rfl)).2
  · split at h
    · exact (wlr_drm_output_cleanup_frame x x' index false h).2
    · cases h
      rfl

/-- The scan of one connector, with memory available: when the kernel returns a connector,
the outputs gain its id unless they have it already; otherwise they are unchanged. -/
theorem wlr_drm_scan_connectors.connector_ids (env : Env) (x x' : wlr_drm_backend) (id : Nat)
    (halloc : ∀ n, env.succeeds .calloc n = true ∧ env.succeeds .wlr_output_create n = true)
    (h : wlr_drm_scan_connectors.connector env x id = some x') :
    Grows (x.outputs.map (fun o => o.connector)) (x'.outputs.map (fun o => o.connector))
      ((env.drmModeGetConnector id).map (fun c => c.connector_id)).toList := by
  unfold wlr_drm_scan_connectors.connector at h
  cases hconn : env.drmModeGetConnector id with
  | none =>
    simp only [hconn, Option.some.injEq] at h
    subst h
    exact Grows.refl _
  | some conn =>
    simp only [hconn] at h
    cases hfind : list_seq_find x.outputs conn.connector_id with
    | some index =>
      simp only [hfind] at h
      have hids := wlr_drm_scan_connectors.transition_ids env x x' index conn h
      obtain ⟨o, ho, hc⟩ := list_seq_find_some x.outputs conn.connector_id index hfind
      have hmem : conn.connector_id ∈ x.outputs.map (fun o => o.connector) := by
        obtain ⟨hi, he⟩ := List.getElem?_eq_some.mp ho
        exact List.mem_map.mpr ⟨o, he ▸ List.getElem_mem hi, hc⟩
      rw [hids]
      refine ⟨fun hn => hn, ?_, ⟨[], by simp⟩⟩
      intro i
      simp only [Option.map_some', Option.toList_some, List.mem_singleton]
      constructor
      · exact Or.inl
      · rintro (h1 | rfl)
        · exact h1
        · exact hmem
    | none =>
      have hnot := list_seq_find_none x.outputs conn.connector_id hfind
      simp only [hfind, wlr_drm_scan_connectors.create, (halloc _).1, (halloc _).2,
        Bool.not_true, Bool.false_eq_true, if_false] at h
      have hids := wlr_drm_scan_connectors.transition_ids env _ x' _ conn h
      rw [hids]
      simp only [List.map_append, List.map_cons, List.map_nil, Option.map_some',
        Option.toList_some]
      refine ⟨?_, ?_, ⟨[conn.connector_id], rfl⟩⟩
      · intro hnd
        rw [List.nodup_append]
        refine ⟨hnd, List.nodup_singleton _, ?_⟩
        intro a ha hb
        simp only [List.mem_singleton] at hb
        subst hb
        exact hnot ha
      · intro i
        simp [List.mem_append]

/-- The loop of one scan extends the connector ids by those of the connectors returned. -/
theorem wlr_drm_scan_connectors.loop_ids (env : Env)
    (halloc : ∀ n, env.succeeds .calloc n = true ∧ env.succeeds .wlr_output_create n = true) :
    ∀ (ids : List Nat) (x x' : wlr_drm_backend),
      for_each (wlr_drm_scan_connectors.connector env) ids x = some x' →
      Grows (x.outputs.map (fun o => o.connector)) (x'.outputs.map (fun o => o.connector))
        (ids.filterMap (fun id => (env.drmModeGetConnector id).map (fun c => c.connector_id)))
  | [], x, x', h => by
    simp only [for_each, Option.some.injEq] at h
    subst h
    exact Grows.refl _
  | id :: ids, x, x', h => by
    simp only [for_each, Option.bind_eq_bind, Option.bind_eq_some] at h
    obtain ⟨x1, h1, h2⟩ := h
    have g1 := wlr_drm_scan_connectors.connector_ids env x x1 id halloc h1
    have g2 := wlr_drm_scan_connectors.loop_ids env halloc ids x1 x' h2
    have g := Grows.trans _ _ _ _ _ g1 g2
    cases hc : env.drmModeGetConnector id <;> simpa [List.filterMap_cons, hc] using g

/-- One scan extends the connector ids by the ids observed. -/
theorem wlr_drm_scan_connectors_ids (env : Env) (x x' : wlr_drm_backend)
    (halloc : ∀ n, env.succeeds .calloc n = true ∧ env.succeeds .wlr_output_create n = true)
    (h : wlr_drm_scan_connectors env x = some x') :
    Grows (x.outputs.map (fun o => o.connector)) (x'.outputs.map (fun o => o.connector))
      (observed env) := by
  unfold wlr_drm_scan_connectors at h
  unfold observed
  split at h
  · cases h
    exact Grows.refl _
  · rename_i ids hres
    exact wlr_drm_scan_connectors.loop_ids env halloc ids x x' h

/-- With no Connected output, the end of the loop body of the scan is defined and makes no
output Connected. -/
theorem wlr_drm_scan_connectors.transition_defined (env : Env) (x : wlr_drm_backend)
    (index : Nat) (conn : drmModeConnector) (o : wlr_output_state)
    (ho : x.outputs[index]? = some o)
    (hnc : ∀ o, o ∈ x.outputs → o.state ≠ WLR_DRM_OUTPUT_CONNECTED) :
    ∃ x', wlr_drm_scan_connectors.transition env x index conn = some x' ∧
      ∀ o, o ∈ x'.outputs → o.state ≠ WLR_DRM_OUTPUT_CONNECTED := by
  unfold wlr_drm_scan_connectors.transition
  simp only [ho, Option.bind_eq_bind, Option.some_bind, wlr_drm_backend.set_output]
  split
  · refine ⟨_, rfl, ?_⟩
    intro o' ho'
    rcases List.mem_or_eq_of_mem_set ho' with h1 | h1
    · exact hnc o' h1
    · rw [h1]
      simp
  · split
    · rename_i h
      exact absurd h.1 (hnc o (List.getElem?_mem ho))
    · exact ⟨x, rfl, hnc⟩

/-- With no Connected output and memory available, the scan of one connector is defined
and makes no output Connected. -/
theorem wlr_drm_scan_connectors.connector_defined (env : Env) (x : wlr_drm_backend) (id : Nat)
    (halloc : ∀ n, env.succeeds .calloc n = true ∧ env.succeeds .wlr_output_create n = true)
    (hnc : ∀ o, o ∈ x.outputs → o.state ≠ WLR_DRM_OUTPUT_CONNECTED) :
    ∃ x', wlr_drm_scan_connectors.connector env x id = some x' ∧
      ∀ o, o ∈ x'.outputs → o.state ≠ WLR_DRM_OUTPUT_CONNECTED := by
  unfold wlr_drm_scan_connectors.connector
  cases hconn : env.drmModeGetConnector id with
  | none => exact ⟨x, rfl, hnc⟩
  | some conn =>
    cases hfind : list_seq_find x.outputs conn.connector_id with
    | some index =>
      obtain ⟨o, ho, _⟩ := list_seq_find_some x.outputs conn.connector_id index hfind
      simp only [hfind]
      exact wlr_drm_scan_connectors.transition_defined env x index conn o ho hnc
    | none =>
      simp only [hfind, wlr_drm_scan_connectors.create, (halloc _).1, (halloc _).2,
        Bool.not_true, Bool.false_eq_true, if_false]
      refine wlr_drm_scan_connectors.transition_defined env _ _ conn _
        (List.getElem?_concat_length _ _) ?_
      intro o ho
      simp only [List.mem_append, List.mem_singleton] at ho
      rcases ho with h1 | h1
      · exact hnc o h1
      · rw [h1]
        simp

/-- With no Connected output and memory available, a sequence of scans is defined. -/
theorem scans_defined :
    ∀ (envs : List Env) (x : wlr_drm_backend),
      (∀ env, env ∈ envs → ∀ n,
        env.succeeds .calloc n = true ∧ env.succeeds .wlr_output_create n = true) →
      (∀ o, o ∈ x.outputs → o.state ≠ WLR_DRM_OUTPUT_CONNECTED) →
      ∃ x', scans envs x = some x'
  | [], x, _, _ => ⟨x, rfl⟩
  | env :: envs, x, halloc, hnc => by
    have hscan : ∃ x1, wlr_drm_scan_connectors env x = some x1 ∧
        ∀ o, o ∈ x1.outputs → o.state ≠ WLR_DRM_OUTPUT_CONNECTED := by
      unfold wlr_drm_scan_connectors
      split
      · exact ⟨x, rfl, hnc⟩
      · rename_i ids _
        have hloop : ∀ (l : List Nat) (y : wlr_drm_backend),
            (∀ o, o ∈ y.outputs → o.state ≠ WLR_DRM_OUTPUT_CONNECTED) →
            ∃ y', for_each (wlr_drm_scan_connectors.connector env) l y = some y' ∧
              ∀ o, o ∈ y'.outputs → o.state ≠ WLR_DRM_OUTPUT_CONNECTED := by
          intro l
          induction l with
          | nil => exact fun y hy => ⟨y, rfl, hy⟩
          | cons id l ih =>
            intro y hy
            obtain ⟨y1, h1, hy1⟩ := wlr_drm_scan_connectors.connector_defined env y id
              (halloc env (List.mem_cons_self _ _)) hy
            obtain ⟨y2, h2, hy2⟩ := ih y1 hy1
            exact ⟨y2, by simp only [for_each, h1, Option.bind_eq_bind, Option.some_bind, h2],
              hy2⟩
        exact hloop ids x hnc
    obtain ⟨x1, h1, hnc1⟩ := hscan
    obtain ⟨x', h'⟩ := scans_defined envs x1
      (fun e he => halloc e (List.mem_cons_of_mem _ he)) hnc1
    exact ⟨x', by simp only [scans, h1, Option.bind_eq_bind, Option.some_bind, h']⟩

/-- A sequence of scans extends the connector ids by the ids observed. -/
theorem scans_ids :
    ∀ (envs : List Env) (x x' : wlr_drm_backend),
      (∀ env, env ∈ envs → ∀ n,
        env.succeeds .calloc n = true ∧ env.succeeds .wlr_output_create n = true) →
      scans envs x = some x' →
      Grows (x.outputs.map (fun o => o.connector)) (x'.outputs.map (fun o => o.connector))
        (observed_all envs)
  | [], x, x', _, h => by
    simp only [scans, Option.some.injEq] at h
    subst h
    exact Grows.refl _
  | env :: envs, x, x', halloc, h => by
    simp only [scans, Option.bind_eq_bind, Option.bind_eq_some] at h
    obtain ⟨x1, h1, h2⟩ := h
    exact Grows.trans _ _ _ _ _
      (wlr_drm_scan_connectors_ids env x x1 (halloc env (List.mem_cons_self _ _)) h1)
      (scans_ids envs x1 x' (fun e he => halloc e (List.mem_cons_of_mem _ he)) h2)

/-- C7: for every sequence of `wlr_drm_scan_connectors` calls during which allocations
succeed, started on outputs with pairwise distinct connector ids, the connector ids of the
outputs stay pairwise distinct, they are exactly the ids present before together with the ids
of the connectors returned by any of the scans, and no output is removed or moved.  When no
output is Connected at the start (as before the first scan) the scans are defined. -/
theorem scans_keep_distinct_ids (envs : List Env) (b : wlr_drm_backend)
    (halloc : ∀ env, env ∈ envs → ∀ n,
      env.succeeds .calloc n = true ∧ env.succeeds .wlr_output_create n = true)
    (hnd : (b.outputs.map (fun o => o.connector)).Nodup) :
    (∀ b', scans envs b = some b' →
      (b'.outputs.map (fun o => o.connector)).Nodup ∧
      (∀ id, id ∈ b'.outputs.map (fun o => o.connector) ↔
        id ∈ b.outputs.map (fun o => o.connector) ∨ id ∈ observed_all envs) ∧
      ∃ l, b'.outputs.map (fun o => o.connector) = b.outputs.map (fun o => o.connector) ++ l) ∧
    ((∀ o, o ∈ b.outputs → o.state ≠ WLR_DRM_OUTPUT_CONNECTED) →
      ∃ b', scans envs b = some b') := by
  refine ⟨?_, fun hnc => scans_defined envs b halloc hnc⟩
  intro b' h
  obtain ⟨h1, h2, h3⟩ := scans_ids envs b b' halloc h
  exact ⟨h1 hnd, h2, h3⟩

/-- C7, on a concrete sequence: a first scan finds connector 7, a second one finds 7 and 9;
the outputs then have the ids 7 and 9. -/
theorem scans_keep_distinct_ids_witness :
    (scans Ex.hotplug Ex.fresh).map (fun b' => b'.outputs.map (fun o => o.connector))
      = some [7, 9] ∧
    ((∀ b', scans Ex.hotplug Ex.fresh = some b' →
      (b'.outputs.map (fun o => o.connector)).Nodup ∧
      (∀ id, id ∈ b'.outputs.map (fun o => o.connector) ↔
        id ∈ Ex.fresh.outputs.map (fun o => o.connector) ∨ id ∈ observed_all Ex.hotplug) ∧
      ∃ l, b'.outputs.map (fun o => o.connector)
        = Ex.fresh.outputs.map (fun o => o.connector) ++ l) ∧
    ((∀ o, o ∈ Ex.fresh.outputs → o.state ≠ WLR_DRM_OUTPUT_CONNECTED) →
      ∃ b', scans Ex.hotplug Ex.fresh = some b')) :=
  ⟨by decide,
   scans_keep_distinct_ids Ex.hotplug Ex.fresh
     (by
       intro env he n
       simp only [Ex.hotplug, List.mem_cons, List.mem_singleton, List.not_mem_nil,
         or_false] at he
       rcases he with rfl | rfl <;> exact ⟨rfl, rfl⟩)
     (by decide)⟩

/-! ## Modes of a reconnected output -/

/-- C8 fails for an output that has been connected before.  The connector 7 is found
connected with one mode, the output is set to that mode, the connector is unplugged (the
scan cleans the output up, leaving it Disconnected) and plugged in again.  The last scan
finds the Disconnected output's connector connected with one mode and emits one
`output_add`, but the output's mode list now has two entries: the scan appends to the
list, and nothing ever empties it. -/
theorem rescan_appends_modes :
    (((wlr_drm_scan_connectors (Ex.env 1 Ex.match_first Ex.all_succeed) Ex.fresh).bind
        (fun b => wlr_drm_output_set_mode (Ex.env 1 Ex.match_first Ex.all_succeed) b 0
          Ex.mode)).bind
        (fun r => wlr_drm_scan_connectors Ex.unplugged r.1)).map
      (fun b => b.outputs.map (fun o => (o.state, o.base.modes)))
      = some [(WLR_DRM_OUTPUT_DISCONNECTED, [Ex.mode])] ∧
    ((((wlr_drm_scan_connectors (Ex.env 1 Ex.match_first Ex.all_succeed) Ex.fresh).bind
        (fun b => wlr_drm_output_set_mode (Ex.env 1 Ex.match_first Ex.all_succeed) b 0
          Ex.mode)).bind
        (fun r => wlr_drm_scan_connectors Ex.unplugged r.1)).bind
        (fun b => wlr_drm_scan_connectors (Ex.env 1 Ex.match_first Ex.all_succeed) b)).map
      (fun b => b.outputs.map (fun o => (o.state, o.base.modes)))
      = some [(WLR_DRM_OUTPUT_NEEDS_MODESET, [Ex.mode, Ex.mode])] := by
  refine ⟨by decide, by decide⟩

/-! ## Page-flip completion -/

/-- The page-flip handler on a Connected output, unfolded. -/
theorem page_flip_handler_connected (b : wlr_drm_backend) (oi ci : Nat)
    (output : wlr_output_state) (ho : b.outputs[oi]? = some output)
    (hs : output.state = WLR_DRM_OUTPUT_CONNECTED) (hci : output.crtc = some ci) :
    page_flip_handler b oi =
      (wlr_drm_backend.on_plane
        { b with outputs := b.outputs.set oi { output with pageflip_pending := false } } ci 1
        page_flip_handler.release).bind
        (fun b => if b.session_active then some { b with sys := b.sys.emit (.frame oi) }
          else some b) := by
  unfold page_flip_handler
  simp only [Option.bind_eq_bind, ho, Option.some_bind, wlr_drm_backend.set_output]
  rw [if_neg (not_not.mpr hs), hci]
  rfl

/-- C10: `page_flip_handler` clears `pageflip_pending` of the output in every state.  On
an output that is not Connected it does nothing else, so no `frame` is emitted.  On a
Connected output it releases the front buffer of the primary plane, if there is one, and
sets `front` to null; it then emits `frame` exactly when the session is active. -/
theorem page_flip_handler_spec (b : wlr_drm_backend) (oi : Nat) (output : wlr_output_state)
    (ho : b.outputs[oi]? = some output) :
    (output.state ≠ WLR_DRM_OUTPUT_CONNECTED →
      page_flip_handler b oi =
        some { b with outputs := b.outputs.set oi { output with pageflip_pending := false } }) ∧
    (∀ ci c plane, output.state = WLR_DRM_OUTPUT_CONNECTED → output.crtc = some ci →
      b.crtcs[ci]? = some c → b.deref c.primary = some plane →
      (plane.front.isSome = true → plane.gbm.isSome = true) →
      ∃ b' c', page_flip_handler b oi = some b' ∧
        b'.outputs = b.outputs.set oi { output with pageflip_pending := false } ∧
        b'.crtcs[ci]? = some c' ∧
        b'.deref c'.primary = some { plane with front := none } ∧
        b'.sys.events = b.sys.events ++
          (match plane.front with
            | some bo => [Event.gbm_surface_release_buffer bo]
            | none => []) ++
          (if b.session_active then [Event.frame oi] else [])) := by
  refine ⟨?_, ?_⟩
  · intro hs
    simp only [page_flip_handler, ho, wlr_drm_backend.set_output, Option.bind_eq_bind,
      Option.some_bind, hs, ne_eq, not_false_eq_true, if_true]
  · intro ci c plane hs hci hc hp hgbm
    have hrel : ∃ s', page_flip_handler.release b.sys plane
          = some (s', { plane with front := none }) ∧
        s'.events = b.sys.events ++
          (match plane.front with
            | some bo => [Event.gbm_surface_release_buffer bo]
            | none => []) := by
      unfold page_flip_handler.release
      cases hf : plane.front with
      | none =>
        refine ⟨b.sys, ?_, by simp⟩
        have : ({ plane with front := none } : wlr_drm_plane) = plane := by
          cases plane
          simp_all
        simp [this]
      | some bo =>
        have hg : plane.gbm.isSome = true := hgbm (by simp [hf])
        obtain ⟨g, hg'⟩ := Option.isSome_iff_exists.mp hg
        exact ⟨b.sys.emit (.gbm_surface_release_buffer bo),
          by simp [gbm_surface_release_buffer, hg'], by simp [Sys.emit]⟩
    obtain ⟨s', hrel, hev⟩ := hrel
    obtain ⟨b1, c1, hon, hc1, hp1, hout1, hsys1, _⟩ :=
      wlr_drm_backend.on_plane_spec
        { b with outputs := b.outputs.set oi { output with pageflip_pending := false } } ci 1
        page_flip_handler.release c plane { plane with front := none } s' hc hp hrel
    have hact : b1.session_active = b.session_active := by
      have := (wlr_drm_backend.on_plane_frame _ b1 ci 1 _
        (fun s p s' p' => page_flip_handler.release_key s s' p p') hon).2.2.2.2
      exact this
    have hpf : page_flip_handler b oi =
        some (if b.session_active then { b1 with sys := b1.sys.emit (.frame oi) } else b1) := by
      rw [page_flip_handler_connected b oi ci output ho hs hci, hon]
      simp only [Option.some_bind, hact]
      split <;> rfl
    rw [hpf]
    cases hsa : b.session_active with
    | true =>
      refine ⟨{ b1 with sys := b1.sys.emit (.frame oi) }, c1, by simp, hout1, hc1, hp1, ?_⟩
      simp [Sys.emit, hsys1, hev]
    | false =>
      refine ⟨b1, c1, by simp, hout1, hc1, hp1, ?_⟩
      simp [hsys1, hev]

/-- C10, on a concrete backend: the completion of the flip of output 0 releases buffer 4
and, the session being active, emits `frame`. -/
theorem page_flip_handler_spec_witness :
    ∃ b' c', page_flip_handler Ex.flipped 0 = some b' ∧
      b'.outputs = Ex.flipped.outputs.set 0 (Ex.connected 7 0 1) ∧
      b'.crtcs[0]? = some c' ∧
      b'.deref c'.primary =
        some { Ex.primary 30 1 with width := 1920, height := 1080, gbm := some 2,
                                    egl := some 3, front := none, back := some 6 } ∧
      b'.sys.events = Ex.flipped.sys.events ++ [Event.gbm_surface_release_buffer 4] ++
        [Event.frame 0] :=
  (page_flip_handler_spec Ex.flipped 0 { Ex.connected 7 0 1 with pageflip_pending := true }
    (by decide)).2 0 { Ex.crtc 40 with primary := .kernel 0 }
    { Ex.primary 30 1 with width := 1920, height := 1080, gbm := some 2, egl := some 3,
                           front := some 4, back := some 6 }
    (by decide) (by decide) (by decide) (by decide) (by decide)

/-! ## The loops of a mode set while no output is Connected -/

/-- The first loop of `realloc_crtcs` leaves its arrays alone when no output is Connected. -/
theorem realloc_crtcs.collect_idle (n : Nat) :
    ∀ (os : List wlr_output_state) (i : Nat) (acc : List Nat × List Nat),
      (∀ o ∈ os, o.state ≠ WLR_DRM_OUTPUT_CONNECTED) →
      realloc_crtcs.collect n os i acc = some acc := by
  intro os
  induction os with
  | nil => intro i acc _; rfl
  | cons o rest ih =>
    intro i acc h
    obtain ⟨crtc, possible_crtc⟩ := acc
    have ho := h o (List.mem_cons_self _ _)
    rw [realloc_crtcs.collect, if_pos ho]
    exact ih _ _ (fun o' ho' => h o' (List.mem_cons_of_mem _ ho'))

/-- The loop body of `wlr_drm_output_set_mode` skips an output that is not Connected. -/
theorem wlr_drm_output_set_mode.reinit_one_idle (env : Env) (b : wlr_drm_backend) (i : Nat)
    (o : wlr_output_state) (ho : b.outputs[i]? = some o)
    (hs : o.state ≠ WLR_DRM_OUTPUT_CONNECTED) :
    wlr_drm_output_set_mode.reinit_one env b i = some (b, true) := by
  unfold wlr_drm_output_set_mode.reinit_one
  simp only [ho, Option.bind_eq_bind, Option.some_bind, if_pos hs]

/-- The loop of `wlr_drm_output_set_mode` over outputs none of which is Connected changes
nothing. -/
theorem wlr_drm_output_set_mode.reinit_idle (env : Env) :
    ∀ (l : List Nat) (b : wlr_drm_backend),
      (∀ i ∈ l, ∃ o, b.outputs[i]? = some o ∧ o.state ≠ WLR_DRM_OUTPUT_CONNECTED) →
      wlr_drm_output_set_mode.reinit env l b = some (b, true) := by
  intro l
  induction l with
  | nil => intro b _; rfl
  | cons i rest ih =>
    intro b h
    obtain ⟨o, ho, hs⟩ := h i (List.mem_cons_self _ _)
    rw [wlr_drm_output_set_mode.reinit,
      wlr_drm_output_set_mode.reinit_one_idle env b i o ho hs]
    simp only [Option.bind_eq_bind, Option.some_bind, if_true]
    exact ih b (fun j hj => h j (List.mem_cons_of_mem _ hj))

/-- The loop of `wlr_drm_output_set_mode` when `outputs[oi]` is the only Connected output among
those it visits: it does what its body does on `oi`. -/
theorem wlr_drm_output_set_mode.reinit_at (env : Env) (oi : Nat) (b b4 : wlr_drm_backend)
    (h1 : wlr_drm_output_set_mode.reinit_one env b oi = some (b4, true))
    (hsame : ∀ i, i ≠ oi → b4.outputs[i]? = b.outputs[i]?) :
    ∀ l : List Nat, l.Nodup → oi ∈ l →
      (∀ i ∈ l, i ≠ oi → ∃ o, b.outputs[i]? = some o ∧ o.state ≠ WLR_DRM_OUTPUT_CONNECTED) →
      wlr_drm_output_set_mode.reinit env l b = some (b4, true) := by
  intro l
  induction l with
  | nil => intro _ hmem _; simp at hmem
  | cons i rest ih =>
    intro hnd hmem hidle
    have hnd2 := List.nodup_cons.mp hnd
    by_cases hi : i = oi
    · subst hi
      rw [wlr_drm_output_set_mode.reinit, h1]
      simp only [Option.bind_eq_bind, Option.some_bind, if_true]
      refine wlr_drm_output_set_mode.reinit_idle env rest b4 ?_
      intro j hj
      have hji : j ≠ i := fun hji => hnd2.1 (hji ▸ hj)
      obtain ⟨o, ho, hs⟩ := hidle j (List.mem_cons_of_mem _ hj) hji
      exact ⟨o, by rw [hsame j hji]; exact ho, hs⟩
    · obtain ⟨o, ho, hs⟩ := hidle i (List.mem_cons_self _ _) hi
      rw [wlr_drm_output_set_mode.reinit,
        wlr_drm_output_set_mode.reinit_one_idle env b i o ho hs]
      simp only [Option.bind_eq_bind, Option.some_bind, if_true]
      refine ih hnd2.2 ?_ (fun j hj => hidle j (List.mem_cons_of_mem _ hj))
      rcases List.mem_cons.mp hmem with h | h
      · exact absurd h.symm hi
      · exact h

/-- A valid answer of the matcher for one slot, when only left item `k` has a mask, assigns `k`
if it assigns anything. -/
theorem MatchValid.single (n : Nat) (k mask : Nat) (res : Nat → Nat)
    (hv : MatchValid n ((List.replicate n 0).set k mask) 1 res)
    (hu : res 0 ≠ UNMATCHED) (hs : res 0 ≠ SKIP) : res 0 = k := by
  obtain ⟨hlt, hbit⟩ := hv 0 (by decide) hs hu
  by_contra hne
  have h0 : ((List.replicate n 0).set k mask).getD (res 0) 0 = 0 := by
    rw [List.getD_eq_getElem?_getD, List.getElem?_set_ne (fun h => hne h.symm)]
    simp [List.getElem?_replicate, hlt]
  rw [h0] at hbit
  exact absurd hbit (by decide)

/-! ## Cleanup of a Connected output -/

/-- A reset plane holds no buffer. -/
theorem wlr_drm_plane_renderer_free.reset_sound (p : wlr_drm_plane) :
    (wlr_drm_plane_renderer_free.reset p).sound := by
  intro h
  simp [wlr_drm_plane_renderer_free.reset] at h

/-- Releasing a buffer that is null, or that has a queue to go back to, is defined and appends
at most the release to the trace. -/
theorem release_if_locked_spec (s : Sys) (p : wlr_drm_plane) (bo : Option Nat)
    (h : bo ≠ none → p.gbm ≠ none) :
    ∃ s' l, release_if_locked s p bo = some s' ∧ s'.events = s.events ++ l ∧
      s'.clock = s.clock ∧ (∀ e ∈ l, e.is_drmModeSetCrtc = false) := by
  cases bo with
  | none => exact ⟨s, [], rfl, by simp, rfl, by simp⟩
  | some x =>
    cases hg : p.gbm with
    | none => exact absurd hg (h (by simp))
    | some g =>
      refine ⟨s.emit (.gbm_surface_release_buffer x), [.gbm_surface_release_buffer x], ?_, rfl,
        rfl, ?_⟩
      · simp [release_if_locked, gbm_surface_release_buffer, hg]
      · simp [Event.is_drmModeSetCrtc]

/-- The destructor calls of `wlr_drm_plane_renderer_free` append only destructor calls to the
trace. -/
theorem wlr_drm_plane_renderer_free.destroy_spec (s : Sys) (p : wlr_drm_plane) :
    ∃ l, (wlr_drm_plane_renderer_free.destroy s p).events = s.events ++ l ∧
      (wlr_drm_plane_renderer_free.destroy s p).clock = s.clock ∧
      (∀ e ∈ l, e.is_drmModeSetCrtc = false) := by
  unfold wlr_drm_plane_renderer_free.destroy
  cases p.egl with
  | none =>
    cases p.gbm with
    | none =>
      cases p.cursor_bo with
      | none => exact ⟨[], by simp, rfl, by simp⟩
      | some c => exact ⟨[.gbm_bo_destroy c], rfl, rfl, by simp [Event.is_drmModeSetCrtc]⟩
    | some g =>
      cases p.cursor_bo with
      | none => exact ⟨[.gbm_surface_destroy g], rfl, rfl, by simp [Event.is_drmModeSetCrtc]⟩
      | some c =>
        exact ⟨[.gbm_surface_destroy g, .gbm_bo_destroy c], by simp [Sys.emit], rfl,
          by simp [Event.is_drmModeSetCrtc]⟩
  | some e =>
    cases p.gbm with
    | none =>
      cases p.cursor_bo with
      | none => exact ⟨[.eglDestroySurface e], rfl, rfl, by simp [Event.is_drmModeSetCrtc]⟩
      | some c =>
        exact ⟨[.eglDestroySurface e, .gbm_bo_destroy c], by simp [Sys.emit], rfl,
          by simp [Event.is_drmModeSetCrtc]⟩
    | some g =>
      cases p.cursor_bo with
      | none =>
        exact ⟨[.eglDestroySurface e, .gbm_surface_destroy g], by simp [Sys.emit], rfl,
          by simp [Event.is_drmModeSetCrtc]⟩
      | some c =>
        exact ⟨[.eglDestroySurface e, .gbm_surface_destroy g, .gbm_bo_destroy c],
          by simp [Sys.emit], rfl, by simp [Event.is_drmModeSetCrtc]⟩

/-- The function `wlr_drm_plane_renderer_free` is defined on a sound plane: it resets the plane
and appends releases and destructor calls only. -/
theorem wlr_drm_plane_renderer_free_spec (s : Sys) (p : wlr_drm_plane) (h : p.sound) :
    ∃ s' l, wlr_drm_plane_renderer_free s p = some (s', wlr_drm_plane_renderer_free.reset p) ∧
      s'.events = s.events ++ l ∧ s'.clock = s.clock ∧
      (∀ e ∈ l, e.is_drmModeSetCrtc = false) := by
  obtain ⟨s1, l1, h1, e1, c1, n1⟩ := release_if_locked_spec s p p.front
    (fun hf => h (Or.inl hf))
  obtain ⟨s2, l2, h2, e2, c2, n2⟩ := release_if_locked_spec s1 p p.back
    (fun hb => h (Or.inr hb))
  obtain ⟨l3, e3, c3, n3⟩ := wlr_drm_plane_renderer_free.destroy_spec s2 p
  refine ⟨wlr_drm_plane_renderer_free.destroy s2 p, l1 ++ l2 ++ l3, ?_, ?_, ?_, ?_⟩
  · unfold wlr_drm_plane_renderer_free
    rw [h1]
    simp only [Option.bind_eq_bind, Option.some_bind]
    rw [h2]
    rfl
  · rw [e3, e2, e1]
    simp
  · rw [c3, c2, c1]
  · intro e he
    simp only [List.mem_append] at he
    rcases he with (he | he) | he
    · exact n1 e he
    · exact n2 e he
    · exact n3 e he

/-- Whether a slot can be processed depends on the plane array only. -/
theorem wlr_drm_backend.slot_ok_congr (b b' : wlr_drm_backend) (h : b'.planes = b.planes)
    (q : PlanePtr) (hq : b.slot_ok q) : b'.slot_ok q := by
  cases q with
  | null => trivial
  | kernel g =>
    obtain ⟨p, hp, hid, hs⟩ := hq
    exact ⟨p, by rw [h]; exact hp, hid, hs⟩
  | fake p => exact hq

/-- Resetting a kernel plane keeps every slot processable. -/
theorem wlr_drm_backend.slot_ok_reset (b b' : wlr_drm_backend) (g : Nat) (p : wlr_drm_plane)
    (hp : b.planes[g]? = some p)
    (h : b'.planes = b.planes.set g (wlr_drm_plane_renderer_free.reset p))
    (q : PlanePtr) (hq : b.slot_ok q) : b'.slot_ok q := by
  cases q with
  | null => trivial
  | kernel g' =>
    obtain ⟨p', hp', hid, hs⟩ := hq
    by_cases hg : g' = g
    · subst hg
      have hpp : p' = p := Option.some.inj (hp'.symm.trans hp)
      subst hpp
      refine ⟨wlr_drm_plane_renderer_free.reset p', ?_, hid,
        wlr_drm_plane_renderer_free.reset_sound p'⟩
      rw [h, List.getElem?_set_self (List.getElem?_eq_some.mp hp).1]
    · refine ⟨p', ?_, hid, hs⟩
      rw [h, List.getElem?_set_ne (fun hh => hg hh.symm)]
      exact hp'
  | fake p' => exact hq

/-- Writing a processable pointer into one slot of a CRTC keeps the CRTC processable. -/
theorem wlr_drm_backend.crtc_ok_set_plane (b b' : wlr_drm_backend) (ci i : Nat)
    (c : wlr_drm_crtc) (q : PlanePtr) (hi : i < 3) (hc : b.crtcs[ci]? = some c)
    (h0 : b.slot_ok c.overlay) (h1 : b.slot_ok c.primary) (h2 : b.slot_ok c.cursor)
    (hplanes : b'.planes = b.planes) (hcr : b'.crtcs = b.crtcs.set ci (c.set_plane i q))
    (hq : b.slot_ok q) : b'.crtc_ok ci := by
  have hlt : ci < b.crtcs.length := (List.getElem?_eq_some.mp hc).1
  refine ⟨c.set_plane i q, by rw [hcr, List.getElem?_set_self hlt], ?_⟩
  have k := wlr_drm_backend.slot_ok_congr b b' hplanes
  interval_cases i
  · exact ⟨k _ hq, k _ h1, k _ h2⟩
  · exact ⟨k _ h0, k _ hq, k _ h2⟩
  · exact ⟨k _ h0, k _ h1, k _ hq⟩

/-- One round of the plane loop of `wlr_drm_output_cleanup` on a processable CRTC is defined;
it touches neither the outputs nor the flips in flight and issues no `drmModeSetCrtc`. -/
theorem wlr_drm_output_cleanup.plane_spec (b : wlr_drm_backend) (ci i : Nat) (hi : i < 3)
    (hok : b.crtc_ok ci) :
    ∃ b' l, wlr_drm_output_cleanup.plane b ci i = some b' ∧ b'.crtc_ok ci ∧
      b'.outputs = b.outputs ∧ b'.inflight = b.inflight ∧
      b'.sys.events = b.sys.events ++ l ∧ (∀ e ∈ l, e.is_drmModeSetCrtc = false) := by
  obtain ⟨c, hc, h0, h1, h2⟩ := hok
  have hlt : ci < b.crtcs.length := (List.getElem?_eq_some.mp hc).1
  have hslot : b.slot_ok (c.planes i) := by
    interval_cases i
    · exact h0
    · exact h1
    · exact h2
  cases hpl : c.planes i with
  | null =>
    refine ⟨b, [], ?_, ⟨c, hc, h0, h1, h2⟩, rfl, rfl, by simp, by simp⟩
    simp only [wlr_drm_output_cleanup.plane, wlr_drm_backend.free_slot, hc, hpl,
      Option.bind_eq_bind, Option.some_bind, if_true]
  | kernel g =>
    rw [hpl] at hslot
    obtain ⟨p, hp, hid, hs⟩ := hslot
    obtain ⟨s', l, hfree, hev, _, hno⟩ := wlr_drm_plane_renderer_free_spec b.sys p hs
    have hg : g < b.planes.length := (List.getElem?_eq_some.mp hp).1
    have k := wlr_drm_backend.slot_ok_reset b
      { b with sys := s', planes := b.planes.set g (wlr_drm_plane_renderer_free.reset p) }
      g p hp rfl
    refine ⟨{ b with sys := s',
                     planes := b.planes.set g (wlr_drm_plane_renderer_free.reset p) }, l, ?_,
      ⟨c, hc, k _ h0, k _ h1, k _ h2⟩, rfl, rfl, hev, hno⟩
    simp only [wlr_drm_output_cleanup.plane, wlr_drm_backend.free_slot,
      wlr_drm_backend.on_plane, wlr_drm_backend.deref, wlr_drm_backend.store, hc, hpl, hp,
      hfree, hg, Option.bind_eq_bind, Option.some_bind, if_true, if_false,
      List.getElem?_set_self, reduceCtorEq, wlr_drm_plane_renderer_free.reset, hid]
  | fake p =>
    rw [hpl] at hslot
    obtain ⟨s', l, hfree, hev, _, hno⟩ := wlr_drm_plane_renderer_free_spec b.sys p hslot
    have hfs : b.free_slot ci i = some
        { b with sys := s',
                 crtcs := b.crtcs.set ci
                   (c.set_plane i (.fake (wlr_drm_plane_renderer_free.reset p))) } := by
      simp only [wlr_drm_backend.free_slot, wlr_drm_backend.on_plane, wlr_drm_backend.deref,
        wlr_drm_backend.store, hc, hpl, hfree, Option.bind_eq_bind, Option.some_bind,
        reduceCtorEq, if_false]
    have hok1 := wlr_drm_backend.crtc_ok_set_plane b
      { b with sys := s',
               crtcs := b.crtcs.set ci
                 (c.set_plane i (.fake (wlr_drm_plane_renderer_free.reset p))) }
      ci i c (.fake (wlr_drm_plane_renderer_free.reset p)) hi hc h0 h1 h2 rfl rfl
      (wlr_drm_plane_renderer_free.reset_sound p)
    by_cases hid : p.id = 0
    · have hok2 := wlr_drm_backend.crtc_ok_set_plane b
        { b with sys := s', crtcs := b.crtcs.set ci (c.set_plane i .null) }
        ci i c .null hi hc h0 h1 h2 rfl rfl trivial
      refine ⟨{ b with sys := s', crtcs := b.crtcs.set ci (c.set_plane i .null) }, l, ?_,
        hok2, rfl, rfl, hev, hno⟩
      unfold wlr_drm_output_cleanup.plane
      rw [hfs]
      simp only [Option.bind_eq_bind, Option.some_bind, List.getElem?_set_self hlt,
        wlr_drm_crtc.planes_set_plane, wlr_drm_plane_renderer_free.reset, hid, if_true,
        List.set_set]
      congr 2
      interval_cases i <;> rfl
    · refine ⟨_, l, ?_, hok1, rfl, rfl, hev, hno⟩
      unfold wlr_drm_output_cleanup.plane
      rw [hfs]
      simp only [Option.bind_eq_bind, Option.some_bind, List.getElem?_set_self hlt,
        wlr_drm_crtc.planes_set_plane, wlr_drm_plane_renderer_free.reset, hid, if_false]

/-- The function `wlr_drm_output_cleanup` on a Connected output, given what its restore step
does: the three slots are freed without any `drmModeSetCrtc`, the output loses its CRTC and
`output_remove` is emitted last. -/
theorem wlr_drm_output_cleanup_connected (b b2 : wlr_drm_backend) (oi ci : Nat)
    (restore : Bool) (output o2 : wlr_output_state)
    (ho : b.outputs[oi]? = some output) (hs : output.state = WLR_DRM_OUTPUT_CONNECTED)
    (hci : output.crtc = some ci)
    (hr : wlr_drm_output_cleanup.restore
      { b with
        outputs := b.outputs.set oi { output with state := WLR_DRM_OUTPUT_DISCONNECTED } }
      oi restore = some b2)
    (hok : b2.crtc_ok ci) (ho2 : b2.outputs[oi]? = some o2) :
    ∃ b' l, wlr_drm_output_cleanup b oi restore = some b' ∧
      b'.sys.events = b2.sys.events ++ l ++ [Event.output_remove oi] ∧
      (∀ e ∈ l, e.is_drmModeSetCrtc = false) ∧ b'.inflight = b2.inflight ∧
      b'.outputs = b2.outputs.set oi
        { o2 with state := WLR_DRM_OUTPUT_DISCONNECTED, crtc := none, possible_crtc := 0 } := by
  obtain ⟨x0, l0, hx0, ok0, out0, inf0, ev0, no0⟩ :=
    wlr_drm_output_cleanup.plane_spec b2 ci 0 (by decide) hok
  obtain ⟨x1, l1, hx1, ok1, out1, inf1, ev1, no1⟩ :=
    wlr_drm_output_cleanup.plane_spec x0 ci 1 (by decide) ok0
  obtain ⟨x2, l2, hx2, _, out2, inf2, ev2, no2⟩ :=
    wlr_drm_output_cleanup.plane_spec x1 ci 2 (by decide) ok1
  have hox : x2.outputs[oi]? = some o2 := by rw [out2, out1, out0]; exact ho2
  have hlt : oi < x2.outputs.length := (List.getElem?_eq_some.mp hox).1
  refine ⟨{ x2 with
             outputs := x2.outputs.set oi
               { o2 with state := WLR_DRM_OUTPUT_DISCONNECTED, crtc := none,
                         possible_crtc := 0 },
             sys := x2.sys.emit (.output_remove oi) }, l0 ++ l1 ++ l2, ?_, ?_, ?_, ?_, ?_⟩
  · unfold wlr_drm_output_cleanup
    simp only [ho, hs, wlr_drm_backend.set_output, Option.bind_eq_bind, Option.some_bind]
    rw [hr]
    simp only [Option.some_bind, hci, hx0, hx1, hx2, hox, List.getElem?_set_self hlt,
      List.set_set]
  · show (x2.sys.emit _).events = _
    simp [Sys.emit, ev2, ev1, ev0]
  · intro e he
    simp only [List.mem_append] at he
    rcases he with (he | he) | he
    · exact no0 e he
    · exact no1 e he
    · exact no2 e he
  · show x2.inflight = _
    rw [inf2, inf1, inf0]
  · show x2.outputs.set oi _ = _
    rw [out2, out1, out0]

/-- C11 as stated fails: output 0 is Connected with a page flip pending and has a saved CRTC;
a scan that finds its connector disconnected emits `output_remove` at once, while
`pageflip_pending` is still true and the flip is still in flight, and issues no
`drmModeSetCrtc`. -/
theorem scan_removes_while_pending :
    (wlr_drm_scan_connectors Ex.unplugged Ex.flipping_saved).map
      (fun b' => (b'.sys.events, b'.outputs.map (fun o => (o.state, o.pageflip_pending)),
        b'.inflight)) =
    some ([Event.gbm_surface_release_buffer 4, Event.eglDestroySurface 3,
           Event.gbm_surface_destroy 2, Event.output_remove 0],
          [(WLR_DRM_OUTPUT_DISCONNECTED, true)], [0]) := by
  decide

/-! ## Destruction of a Connected output -/

/-- Well-formedness depends on the planes, the CRTCs and the outputs only. -/
theorem wlr_drm_backend.wf_congr (b b' : wlr_drm_backend) (hp : b'.planes = b.planes)
    (hc : b'.crtcs = b.crtcs) (ho : b'.outputs = b.outputs) (h : b.wf) : b'.wf := by
  unfold wlr_drm_backend.wf at h ⊢
  rw [hp, hc, ho]
  refine ⟨h.1, ?_, h.2.2⟩
  intro c hcm
  have := h.2.1 c hcm
  unfold wlr_drm_backend.ptr_ok at this ⊢
  rw [hp]
  exact this

/-- Whether a slot pointer can be followed depends on the length of the plane array only. -/
theorem wlr_drm_backend.ptr_ok_congr (b b' : wlr_drm_backend)
    (h : b'.planes.length = b.planes.length) (q : PlanePtr) (hq : b.ptr_ok q) :
    b'.ptr_ok q := by
  cases q with
  | null => trivial
  | kernel g => exact (show g < b'.planes.length by rw [h]; exact hq)
  | fake p => exact hq

/-- Overwriting an output keeps the backend well formed when the new value, if Connected, has
the state and the CRTC of the old one. -/
theorem wlr_drm_backend.wf_set_output (b b' : wlr_drm_backend) (k : Nat)
    (o o' : wlr_output_state) (h : b.wf) (ho : b.outputs[k]? = some o)
    (hp : b'.planes = b.planes) (hc : b'.crtcs = b.crtcs)
    (hout : b'.outputs = b.outputs.set k o')
    (hs : o'.state = WLR_DRM_OUTPUT_CONNECTED →
      o.state = WLR_DRM_OUTPUT_CONNECTED ∧ o'.crtc = o.crtc) : b'.wf := by
  refine ⟨by rw [hp]; exact h.1, ?_, ?_⟩
  · intro c hcm
    rw [hc] at hcm
    have k' := wlr_drm_backend.ptr_ok_congr b b' (by rw [hp])
    exact ⟨k' _ (h.2.1 c hcm).1, k' _ (h.2.1 c hcm).2.1, k' _ (h.2.1 c hcm).2.2⟩
  · intro x hx hxs
    rw [hout] at hx
    rw [hc]
    rcases List.mem_or_eq_of_mem_set hx with hx | hx
    · exact h.2.2 x hx hxs
    · subst hx
      obtain ⟨h1, h2⟩ := hs hxs
      rw [h2]
      exact h.2.2 o (List.getElem?_mem ho) h1

/-- Overwriting a kernel plane by a sound plane with a non-zero id keeps the backend well
formed. -/
theorem wlr_drm_backend.wf_set_plane (b b' : wlr_drm_backend) (g : Nat)
    (p' : wlr_drm_plane) (h : b.wf) (hid : p'.id ≠ 0) (hs : p'.sound)
    (hp : b'.planes = b.planes.set g p') (hc : b'.crtcs = b.crtcs)
    (hout : b'.outputs = b.outputs) : b'.wf := by
  refine ⟨?_, ?_, by rw [hout, hc]; exact h.2.2⟩
  · intro x hx
    rw [hp] at hx
    rcases List.mem_or_eq_of_mem_set hx with hx | hx
    · exact h.1 x hx
    · subst hx
      exact ⟨hid, hs⟩
  · intro c hcm
    rw [hc] at hcm
    have k' := wlr_drm_backend.ptr_ok_congr b b' (by rw [hp, List.length_set])
    exact ⟨k' _ (h.2.1 c hcm).1, k' _ (h.2.1 c hcm).2.1, k' _ (h.2.1 c hcm).2.2⟩

/-- Writing a pointer that can be followed into a CRTC slot keeps the backend well formed,
provided the primary slot does not become null. -/
theorem wlr_drm_backend.wf_set_slot (b b' : wlr_drm_backend) (ci t : Nat)
    (c : wlr_drm_crtc) (q : PlanePtr) (h : b.wf) (ht : t < 3) (hc : b.crtcs[ci]? = some c)
    (hq : b.ptr_ok q) (hnn : t = 1 → q ≠ .null)
    (hp : b'.planes = b.planes) (hcr : b'.crtcs = b.crtcs.set ci (c.set_plane t q))
    (hout : b'.outputs = b.outputs) : b'.wf := by
  have hlt : ci < b.crtcs.length := (List.getElem?_eq_some.mp hc).1
  have k' := wlr_drm_backend.ptr_ok_congr b b' (by rw [hp])
  have hcm : c ∈ b.crtcs := List.getElem?_mem hc
  refine ⟨by rw [hp]; exact h.1, ?_, ?_⟩
  · intro x hx
    rw [hcr] at hx
    rcases List.mem_or_eq_of_mem_set hx with hx | hx
    · exact ⟨k' _ (h.2.1 x hx).1, k' _ (h.2.1 x hx).2.1, k' _ (h.2.1 x hx).2.2⟩
    · subst hx
      have hcs := h.2.1 c hcm
      interval_cases t
      · exact ⟨k' _ hq, k' _ hcs.2.1, k' _ hcs.2.2⟩
      · exact ⟨k' _ hcs.1, k' _ hq, k' _ hcs.2.2⟩
      · exact ⟨k' _ hcs.1, k' _ hcs.2.1, k' _ hq⟩
  · intro o ho hos
    rw [hout] at ho
    obtain ⟨cj, c', h1, h2, h3⟩ := h.2.2 o ho hos
    by_cases hj : cj = ci
    · subst hj
      have hcc : c' = c := Option.some.inj (h2.symm.trans hc)
      subst hcc
      refine ⟨cj, c'.set_plane t q, h1, by rw [hcr, List.getElem?_set_self hlt], ?_⟩
      interval_cases t
      · exact h3
      · exact hnn rfl
      · exact h3
    · exact ⟨cj, c', h1, by rw [hcr, List.getElem?_set_ne (fun hh => hj hh.symm)]; exact h2, h3⟩

/-- In a well-formed backend the cleanup can process every CRTC. -/
theorem wlr_drm_backend.crtc_ok_of_wf (b : wlr_drm_backend) (ci : Nat) (c : wlr_drm_crtc)
    (h : b.wf) (hc : b.crtcs[ci]? = some c) : b.crtc_ok ci := by
  have hs := h.2.1 c (List.getElem?_mem hc)
  have k : ∀ q, b.ptr_ok q → b.slot_ok q := by
    intro q hq
    cases q with
    | null => trivial
    | kernel g =>
      have hg : g < b.planes.length := hq
      exact ⟨b.planes[g], List.getElem?_eq_getElem hg, h.1 _ (List.getElem_mem hg)⟩
    | fake p => exact hq
  exact ⟨c, hc, k _ hs.1, k _ hs.2.1, k _ hs.2.2⟩

/-- The release of the front buffer in `page_flip_handler` is defined on a sound plane: the
front buffer, if any, goes back to the queue and `front` becomes null. -/
theorem page_flip_handler.release_spec (s : Sys) (p : wlr_drm_plane) (h : p.sound) :
    ∃ s' l, page_flip_handler.release s p = some (s', { p with front := none }) ∧
      s'.events = s.events ++ l ∧ (∀ e ∈ l, e.is_drmModeSetCrtc = false) ∧
      (∀ bo, p.front = some bo → l = [Event.gbm_surface_release_buffer bo]) ∧
      (p.front = none → l = []) := by
  cases hf : p.front with
  | none =>
    refine ⟨s, [], ?_, by simp, by simp, by simp, by simp⟩
    unfold page_flip_handler.release
    rw [hf]
    have hp : p = { p with front := none } := by
      cases p
      simp only at hf
      subst hf
      rfl
    exact congrArg (fun x => some (s, x)) hp
  | some bo =>
    cases hg : p.gbm with
    | none => exact absurd hg (h (Or.inl (by rw [hf]; simp)))
    | some g =>
      refine ⟨s.emit (.gbm_surface_release_buffer bo), [.gbm_surface_release_buffer bo], ?_,
        rfl, by simp [Event.is_drmModeSetCrtc], ?_, by simp⟩
      · simp only [page_flip_handler.release, hf, gbm_surface_release_buffer, hg,
          Option.bind_eq_bind, Option.some_bind]
      · intro bo' hbo
        cases hbo
        rfl

/-- A sound plane stays sound when its front buffer is dropped. -/
theorem wlr_drm_plane.sound_release (p : wlr_drm_plane) (h : p.sound) :
    wlr_drm_plane.sound { p with front := none } := by
  intro hh
  rcases hh with hh | hh
  · exact absurd rfl hh
  · exact h (Or.inr hh)

/-- The last step of `page_flip_handler` only appends to the trace, and never a
`drmModeSetCrtc`. -/
theorem page_flip_handler.frame_spec (b2 : wlr_drm_backend) (k : Nat) :
    ∃ b' l, (if b2.session_active then some { b2 with sys := b2.sys.emit (.frame k) }
        else some b2) = some b' ∧
      b'.planes = b2.planes ∧ b'.crtcs = b2.crtcs ∧ b'.outputs = b2.outputs ∧
      b'.inflight = b2.inflight ∧ b'.sys.events = b2.sys.events ++ l ∧
      (∀ e ∈ l, e.is_drmModeSetCrtc = false) := by
  by_cases hsa : b2.session_active = true
  · refine ⟨{ b2 with sys := b2.sys.emit (.frame k) }, [Event.frame k], by rw [if_pos hsa],
      rfl, rfl, rfl, rfl, rfl, ?_⟩
    intro e he
    simp only [List.mem_singleton] at he
    subst he
    rfl
  · exact ⟨b2, [], by rw [if_neg hsa], rfl, rfl, rfl, rfl, by simp, by simp⟩

/-- The function `page_flip_handler` is defined on every output of a well-formed backend; it
keeps the backend well formed, clears `pageflip_pending` of that output only and issues no
`drmModeSetCrtc`. -/
theorem page_flip_handler_wf (b : wlr_drm_backend) (k : Nat) (o : wlr_output_state)
    (h : b.wf) (ho : b.outputs[k]? = some o) :
    ∃ b' l, page_flip_handler b k = some b' ∧ b'.wf ∧ b'.inflight = b.inflight ∧
      b'.crtcs.length = b.crtcs.length ∧
      b'.outputs = b.outputs.set k { o with pageflip_pending := false } ∧
      b'.sys.events = b.sys.events ++ l ∧ (∀ e ∈ l, e.is_drmModeSetCrtc = false) := by
  have hwf1 : wlr_drm_backend.wf
      { b with outputs := b.outputs.set k { o with pageflip_pending := false } } :=
    wlr_drm_backend.wf_set_output b _ k o { o with pageflip_pending := false } h ho rfl rfl rfl
      (fun hs => ⟨hs, rfl⟩)
  by_cases hs : o.state = WLR_DRM_OUTPUT_CONNECTED
  · obtain ⟨ci, c, hci, hc, hnn⟩ := h.2.2 o (List.getElem?_mem ho) hs
    have hslots := h.2.1 c (List.getElem?_mem hc)
    have hlt : ci < b.crtcs.length := (List.getElem?_eq_some.mp hc).1
    -- what is left once the plane has been written back
    have fin : ∀ (b2 : wlr_drm_backend) (l : List Event),
        wlr_drm_backend.on_plane
          { b with outputs := b.outputs.set k { o with pageflip_pending := false } } ci 1
          page_flip_handler.release = some b2 →
        b2.wf → b2.inflight = b.inflight → b2.crtcs.length = b.crtcs.length →
        b2.outputs = b.outputs.set k { o with pageflip_pending := false } →
        b2.sys.events = b.sys.events ++ l → (∀ e ∈ l, e.is_drmModeSetCrtc = false) →
        ∃ b' l, page_flip_handler b k = some b' ∧ b'.wf ∧ b'.inflight = b.inflight ∧
          b'.crtcs.length = b.crtcs.length ∧
          b'.outputs = b.outputs.set k { o with pageflip_pending := false } ∧
          b'.sys.events = b.sys.events ++ l ∧ (∀ e ∈ l, e.is_drmModeSetCrtc = false) := by
      intro b2 l hon hwf2 hinf hlen hout hev hno
      obtain ⟨b', l', hfr, fp, fc, fo, fi, fe, fn⟩ := page_flip_handler.frame_spec b2 k
      refine ⟨b', l ++ l', ?_, wlr_drm_backend.wf_congr b2 b' fp fc fo hwf2, by rw [fi, hinf],
        by rw [fc, hlen], by rw [fo, hout], by rw [fe, hev, List.append_assoc], ?_⟩
      · rw [page_flip_handler_connected b k ci o ho hs hci, hon]
        exact hfr
      · intro e he
        rcases List.mem_append.mp he with he | he
        · exact hno e he
        · exact fn e he
    cases hprim : c.primary with
    | null => exact absurd hprim hnn
    | kernel g =>
      have hg : g < b.planes.length := by
        have := hslots.2.1
        rw [hprim] at this
        exact this
      have hpm := h.1 _ (List.getElem_mem hg)
      obtain ⟨s', l, hrel, hev, hno, _, _⟩ :=
        page_flip_handler.release_spec b.sys b.planes[g] hpm.2
      refine fin
        { b with outputs := b.outputs.set k { o with pageflip_pending := false },
                 sys := s',
                 planes := b.planes.set g { b.planes[g] with front := none } } l ?_ ?_ rfl rfl
        rfl hev hno
      · simp only [wlr_drm_backend.on_plane, hc, wlr_drm_crtc.planes, hprim,
          wlr_drm_backend.deref, List.getElem?_eq_getElem hg, hrel, wlr_drm_backend.store,
          Option.bind_eq_bind, Option.some_bind, hg, if_true]
      · exact wlr_drm_backend.wf_set_plane _ _ g { b.planes[g] with front := none } hwf1 hpm.1
          (wlr_drm_plane.sound_release _ hpm.2) rfl rfl rfl
    | fake p =>
      have hsound : p.sound := by
        have := hslots.2.1
        rw [hprim] at this
        exact this
      obtain ⟨s', l, hrel, hev, hno, _, _⟩ := page_flip_handler.release_spec b.sys p hsound
      refine fin
        { b with outputs := b.outputs.set k { o with pageflip_pending := false },
                 sys := s',
                 crtcs := b.crtcs.set ci (c.set_plane 1 (.fake { p with front := none })) }
        l ?_ ?_ rfl (List.length_set _ _ _) rfl hev hno
      · simp only [wlr_drm_backend.on_plane, hc, wlr_drm_crtc.planes, hprim,
          wlr_drm_backend.deref, hrel, wlr_drm_backend.store,
          Option.bind_eq_bind, Option.some_bind]
      · exact wlr_drm_backend.wf_set_slot _ _ ci 1 c (.fake { p with front := none }) hwf1
          (by decide) hc (wlr_drm_plane.sound_release _ hsound) (fun _ => by simp) rfl rfl rfl
  · refine ⟨_, [], ?_, hwf1, rfl, rfl, rfl, by simp, by simp⟩
    simp only [page_flip_handler, ho, wlr_drm_backend.set_output, Option.bind_eq_bind,
      Option.some_bind, ne_eq, hs, not_false_eq_true, if_true]

/-- The waiting loop of `restore_output` ends when a flip of the output is in flight whenever
its `pageflip_pending` is set: afterwards the flag is clear, the outputs are otherwise as
before and no `drmModeSetCrtc` has been issued. -/
theorem restore_output.drain_spec (oi : Nat) :
    ∀ (n : Nat) (b : wlr_drm_backend), b.wf → b.inflight.length ≤ n →
      (∀ k ∈ b.inflight, k < b.outputs.length) → oi < b.outputs.length →
      ((b.outputs[oi]?).map (fun o => o.pageflip_pending) = some true → oi ∈ b.inflight) →
      ∃ b' l, restore_output.drain oi n b = some b' ∧ b'.wf ∧
        b'.crtcs.length = b.crtcs.length ∧
        (b'.outputs[oi]?).map (fun o => o.pageflip_pending) = some false ∧
        b'.outputs.map (fun o => { o with pageflip_pending := false }) =
          b.outputs.map (fun o => { o with pageflip_pending := false }) ∧
        b'.sys.events = b.sys.events ++ l ∧ (∀ e ∈ l, e.is_drmModeSetCrtc = false) := by
  intro n
  induction n with
  | zero =>
    intro b hwf hn _ hoi hp
    have ho : b.outputs[oi]? = some b.outputs[oi] := List.getElem?_eq_getElem hoi
    have hnil : b.inflight = [] := List.length_eq_zero.mp (Nat.le_zero.mp hn)
    have hpf : b.outputs[oi].pageflip_pending = false := by
      cases hpp : b.outputs[oi].pageflip_pending with
      | false => rfl
      | true =>
        have := hp (by rw [ho]; simp [hpp])
        rw [hnil] at this
        simp at this
    refine ⟨b, [], ?_, hwf, rfl, by rw [ho]; simp [hpf], rfl, by simp, by simp⟩
    unfold restore_output.drain
    simp only [ho, hpf, Option.bind_eq_bind, Option.some_bind, Bool.not_false, if_true]
  | succ n ih =>
    intro b hwf hn hfl hoi hp
    have ho : b.outputs[oi]? = some b.outputs[oi] := List.getElem?_eq_getElem hoi
    cases hpp : b.outputs[oi].pageflip_pending with
    | false =>
      refine ⟨b, [], ?_, hwf, rfl, by rw [ho]; simp [hpp], rfl, by simp, by simp⟩
      unfold restore_output.drain
      simp only [ho, hpp, Option.bind_eq_bind, Option.some_bind, Bool.not_false, if_true]
    | true =>
      have hmem : oi ∈ b.inflight := hp (by rw [ho]; simp [hpp])
      cases hin : b.inflight with
      | nil => rw [hin] at hmem; simp at hmem
      | cons k rest =>
        have hk : k < b.outputs.length := hfl k (by rw [hin]; exact List.mem_cons_self _ _)
        have hok : b.outputs[k]? = some b.outputs[k] := List.getElem?_eq_getElem hk
        obtain ⟨b1, l1, hh, hwf1, hinf1, hlen1, hout1, hev1, hno1⟩ :=
          page_flip_handler_wf { b with inflight := rest } k b.outputs[k]
            (wlr_drm_backend.wf_congr b _ rfl rfl rfl hwf) hok
        have hinf1' : b1.inflight = rest := hinf1
        have hout1' : b1.outputs =
            b.outputs.set k { b.outputs[k] with pageflip_pending := false } := hout1
        have hl1 : b1.outputs.length = b.outputs.length := by rw [hout1', List.length_set]
        obtain ⟨b', l, hd, hwf', hlen', hpf', hmap', hev', hno'⟩ := ih b1 hwf1
          (by
            rw [hinf1']
            rw [hin] at hn
            exact Nat.le_of_succ_le_succ hn)
          (by
            intro j hj
            rw [hl1]
            rw [hinf1'] at hj
            exact hfl j (by rw [hin]; exact List.mem_cons_of_mem _ hj))
          (by rw [hl1]; exact hoi)
          (by
            intro hpend
            rw [hinf1']
            rw [hout1', List.getElem?_set] at hpend
            by_cases hko : k = oi
            · rw [if_pos hko, if_pos hk] at hpend
              simp at hpend
            · rw [hin] at hmem
              rcases List.mem_cons.mp hmem with h | h
              · exact absurd h.symm hko
              · exact h)
        refine ⟨b', l1 ++ l, ?_, hwf', by rw [hlen']; exact hlen1, hpf', ?_, ?_, ?_⟩
        · unfold restore_output.drain
          simp only [ho, hpp, Option.bind_eq_bind, Option.some_bind, Bool.not_true,
            Bool.false_eq_true, if_false, wlr_drm_event, hin]
          rw [hh]
          exact hd
        · rw [hmap', hout1']
          exact map_set_of_eq _ _ _ _ _ hok rfl
        · rw [hev', hev1]
          simp
        · intro e he
          rcases List.mem_append.mp he with he | he
          · exact hno1 e he
          · exact hno' e he

/-- C12 as amended: on a well-formed backend, destroying a Connected output that has a saved
CRTC is defined when a flip of the output is in flight whenever its `pageflip_pending` is set.
The trace then grows by: what the wait for the page flips appends, one `drmModeSetCrtc` with
the id, framebuffer, position and mode of the saved CRTC on the output's connector, what
freeing the planes appends, and `output_remove`; no other `drmModeSetCrtc` is among them. The
call is issued in the state `b1` the waiting loop ends in, where `pageflip_pending` is false. -/
theorem destroy_restores_saved_crtc (b : wlr_drm_backend) (oi : Nat)
    (output : wlr_output_state) (crtc : drmModeCrtc) (hwf : b.wf)
    (ho : b.outputs[oi]? = some output) (hs : output.state = WLR_DRM_OUTPUT_CONNECTED)
    (hold : output.old_crtc = some crtc)
    (hfl : ∀ k ∈ b.inflight, k < b.outputs.length)
    (hpend : output.pageflip_pending = true → oi ∈ b.inflight) :
    ∃ b' b1 l1 l2, wlr_drm_output_destroy b oi = some b' ∧
      b'.sys.events = b.sys.events ++ l1 ++
        [Event.drmModeSetCrtc crtc.crtc_id crtc.buffer_id crtc.x crtc.y output.connector
          crtc.mode] ++ l2 ++ [Event.output_remove oi] ∧
      (∀ e ∈ l1 ++ l2, e.is_drmModeSetCrtc = false) ∧
      restore_output.drain oi b.inflight.length
        { b with
          outputs := b.outputs.set oi { output with state := WLR_DRM_OUTPUT_DISCONNECTED } }
        = some b1 ∧
      b1.sys.events = b.sys.events ++ l1 ∧
      (b1.outputs[oi]?).map (fun o => o.pageflip_pending) = some false := by
  have hoi : oi < b.outputs.length := (List.getElem?_eq_some.mp ho).1
  obtain ⟨ci, c, hci, hc, _⟩ := hwf.2.2 output (List.getElem?_mem ho) hs
  have hwf0 : wlr_drm_backend.wf
      { b with
        outputs := b.outputs.set oi { output with state := WLR_DRM_OUTPUT_DISCONNECTED } } :=
    wlr_drm_backend.wf_set_output b _ oi output
      { output with state := WLR_DRM_OUTPUT_DISCONNECTED } hwf ho rfl rfl rfl
      (fun h => by simp at h)
  obtain ⟨b1, l1, hd, hwf1, hlen1, hpf1, hmap1, hev1, hno1⟩ :=
    restore_output.drain_spec oi b.inflight.length
      { b with
        outputs := b.outputs.set oi { output with state := WLR_DRM_OUTPUT_DISCONNECTED } }
      hwf0 (Nat.le_refl _)
      (by
        intro k hk
        show k < (b.outputs.set oi _).length
        rw [List.length_set]
        exact hfl k hk)
      (by
        show oi < (b.outputs.set oi _).length
        rw [List.length_set]
        exact hoi)
      (by
        intro hp
        refine hpend ?_
        have : ((b.outputs.set oi
            { output with state := WLR_DRM_OUTPUT_DISCONNECTED })[oi]?).map
            (fun o => o.pageflip_pending) = some true := hp
        rw [List.getElem?_set_self hoi] at this
        simpa using this)
  -- the output as the drain leaves it
  have hl1 : b1.outputs.length = b.outputs.length := by
    have := congrArg List.length hmap1
    simpa using this
  have ho1 : b1.outputs[oi]? = some b1.outputs[oi] :=
    List.getElem?_eq_getElem (by rw [hl1]; exact hoi)
  have hf1 : b1.outputs[oi].pageflip_pending = false := by
    rw [ho1] at hpf1
    simpa using hpf1
  have heq : ({ b1.outputs[oi] with pageflip_pending := false } : wlr_output_state) =
      { output with state := WLR_DRM_OUTPUT_DISCONNECTED, pageflip_pending := false } := by
    have := congrArg (fun l => l[oi]?) hmap1
    simp only [List.getElem?_map, ho1, Option.map_some] at this
    have h2 : ((b.outputs.set oi
        { output with state := WLR_DRM_OUTPUT_DISCONNECTED })[oi]?) =
        some { output with state := WLR_DRM_OUTPUT_DISCONNECTED } :=
      List.getElem?_set_self hoi
    have h3 : some ({ b1.outputs[oi] with pageflip_pending := false } : wlr_output_state) =
        Option.map (fun o => { o with pageflip_pending := false })
          ((b.outputs.set oi { output with state := WLR_DRM_OUTPUT_DISCONNECTED })[oi]?) :=
      this
    rw [h2] at h3
    exact Option.some.inj h3
  have hold1 : b1.outputs[oi].old_crtc = some crtc := by
    have := congrArg (fun o => o.old_crtc) heq
    exact this.trans hold
  have hconn1 : b1.outputs[oi].connector = output.connector :=
    congrArg (fun o => o.connector) heq
  obtain ⟨ev, hev0⟩ : ∃ ev, ev = Event.drmModeSetCrtc crtc.crtc_id crtc.buffer_id crtc.x
      crtc.y output.connector crtc.mode := ⟨_, rfl⟩
  have hr : wlr_drm_output_cleanup.restore
      { b with
        outputs := b.outputs.set oi { output with state := WLR_DRM_OUTPUT_DISCONNECTED } }
      oi true = some
      { b1 with sys := b1.sys.emit ev } := by
    unfold wlr_drm_output_cleanup.restore restore_output
    rw [if_pos rfl]
    show (restore_output.drain oi b.inflight.length _).bind _ = _
    rw [hd]
    simp only [Option.bind_eq_bind, Option.some_bind, ho1, hold1, hconn1, hev0]
  have hok : wlr_drm_backend.crtc_ok
      { b1 with sys := b1.sys.emit ev } ci := by
    have hlt : ci < b1.crtcs.length := by
      rw [hlen1]
      exact (List.getElem?_eq_some.mp hc).1
    exact wlr_drm_backend.crtc_ok_of_wf _ ci b1.crtcs[ci]
      (wlr_drm_backend.wf_congr b1 _ rfl rfl rfl hwf1) (List.getElem?_eq_getElem hlt)
  obtain ⟨b', l2, hcl, hev2, hno2, _, _⟩ :=
    wlr_drm_output_cleanup_connected b _ oi ci true output b1.outputs[oi] ho hs hci hr hok ho1
  refine ⟨b', b1, l1, l2, hcl, ?_, ?_, hd, hev1, hpf1⟩
  · rw [hev2]
    show (b1.sys.emit _).events ++ _ ++ _ = _
    simp [Sys.emit, hev1, hev0]
  · intro e he
    rcases List.mem_append.mp he with he | he
    · exact hno1 e he
    · exact hno2 e he

/-- The backend `Ex.flipping_saved` is well formed. -/
theorem Ex.flipping_saved_wf : Ex.flipping_saved.wf := by
  refine ⟨?_, ?_, ?_⟩
  · intro p hp
    have hp' : p = { Ex.primary 30 1 with width := 1920, height := 1080, gbm := some 2,
                                          egl := some 3, back := some 4 } := by
      simpa [Ex.flipping_saved, Ex.flipping] using hp
    subst hp'
    exact ⟨by decide, fun _ => by decide⟩
  · intro c hc
    have hc' : c = { Ex.crtc 40 with primary := .kernel 0 } := by
      simpa [Ex.flipping_saved, Ex.flipping] using hc
    subst hc'
    exact ⟨trivial, (by decide : 0 < 1), trivial⟩
  · intro o ho _
    have ho' : o = { Ex.connected 7 0 1 with pageflip_pending := true,
                                             old_crtc := some Ex.saved } := by
      simpa [Ex.flipping_saved] using ho
    subst ho'
    exact ⟨0, { Ex.crtc 40 with primary := .kernel 0 }, rfl, rfl, by decide⟩

/-- C12 on the backend `Ex.flipping_saved`, whose output has a flip in flight and the saved
CRTC `Ex.saved`. -/
theorem destroy_restores_saved_crtc_witness :
    ∃ b' b1 l1 l2, wlr_drm_output_destroy Ex.flipping_saved 0 = some b' ∧
      b'.sys.events = Ex.flipping_saved.sys.events ++ l1 ++
        [Event.drmModeSetCrtc 40 99 0 0 7 Ex.info] ++ l2 ++ [Event.output_remove 0] ∧
      (∀ e ∈ l1 ++ l2, e.is_drmModeSetCrtc = false) ∧
      restore_output.drain 0 1
        { Ex.flipping_saved with
          outputs := [{ Ex.connected 7 0 1 with pageflip_pending := true,
                                                old_crtc := some Ex.saved,
                                                state := WLR_DRM_OUTPUT_DISCONNECTED }] }
        = some b1 ∧
      b1.sys.events = Ex.flipping_saved.sys.events ++ l1 ∧
      (b1.outputs[0]?).map (fun o => o.pageflip_pending) = some false :=
  destroy_restores_saved_crtc Ex.flipping_saved 0
    { Ex.connected 7 0 1 with pageflip_pending := true, old_crtc := some Ex.saved } Ex.saved
    Ex.flipping_saved_wf rfl rfl rfl (by decide) (fun _ => by decide)

/-! ## One cycle of the render loop -/

/-- Beginning a request leaves the trace and the three plane slots alone. -/
theorem atomic_begin_slots (env : Env) (s : Sys) (c : wlr_drm_crtc) :
    (atomic_begin env s c).1.events = s.events ∧
    (atomic_begin env s c).2.1.slots = c.slots := by
  unfold atomic_begin
  split
  · split <;> exact ⟨rfl, rfl⟩
  · exact ⟨rfl, rfl⟩

/-- The mode blob block appends only blob calls to the trace and leaves the plane slots alone.
-/
theorem atomic_crtc_pageflip.blob_slots (env : Env) (s : Sys) (c : wlr_drm_crtc)
    (mode : Option drmModeModeInfo) :
    (∃ l, (atomic_crtc_pageflip.blob env s c mode).1.events = s.events ++ l ∧
      ∀ e ∈ l, e.quiet) ∧
    (atomic_crtc_pageflip.blob env s c mode).2.1.slots = c.slots := by
  unfold atomic_crtc_pageflip.blob
  cases mode with
  | none => exact ⟨⟨[], by simp, by simp⟩, rfl⟩
  | some m =>
    by_cases hm : c.mode_id = 0 <;>
      by_cases hs : env.succeeds .drmModeCreatePropertyBlob s.clock = true
    · exact ⟨⟨[.drmModeCreatePropertyBlob (s.clock + 1)], by simp [hm, hs, Sys.emit, Sys.tick],
        by simp [Event.quiet, Event.released, Event.locked]⟩, by simp [hm, hs, wlr_drm_crtc.slots, Sys.emit]⟩
    · exact ⟨⟨[], by simp [hm, hs, Sys.emit, Sys.tick], by simp⟩,
        by simp [hm, hs, wlr_drm_crtc.slots, Sys.emit]⟩
    · exact ⟨⟨[.drmModeDestroyPropertyBlob c.mode_id,
          .drmModeCreatePropertyBlob (s.clock + 1)], by simp [hm, hs, Sys.emit, Sys.tick],
        by simp [Event.quiet, Event.released, Event.locked]⟩, by simp [hm, hs, wlr_drm_crtc.slots, Sys.emit]⟩
    · exact ⟨⟨[.drmModeDestroyPropertyBlob c.mode_id], by simp [hm, hs, Sys.emit, Sys.tick],
        by simp [Event.quiet, Event.released, Event.locked]⟩, by simp [hm, hs, wlr_drm_crtc.slots, Sys.emit]⟩

/-- A commit appends at most the commit to the trace. -/
theorem atomic_commit_quiet (env : Env) (s : Sys) (atom : atomic) (oi : Nat) (am : Bool) :
    ∃ l, (atomic_commit env s atom oi am).1.events = s.events ++ l ∧ ∀ e ∈ l, e.quiet := by
  unfold atomic_commit
  split
  · exact ⟨[], by simp, by simp⟩
  · exact ⟨[_], rfl, by simp [Event.quiet, Event.released, Event.locked]⟩

/-- The legacy page flip touches neither the outputs nor the planes nor the CRTCs, and takes no
buffer from a queue and gives none back. -/
theorem legacy_crtc_pageflip_frame (env : Env) (b : wlr_drm_backend) (oi ci fb : Nat)
    (mode : Option drmModeModeInfo) (output : wlr_output_state) (c : wlr_drm_crtc)
    (ho : b.outputs[oi]? = some output) (hc : b.crtcs[ci]? = some c) :
    ∃ r l, legacy_crtc_pageflip env b oi ci fb mode = some r ∧
      r.1.sys.events = b.sys.events ++ l ∧ (∀ e ∈ l, e.quiet) ∧
      r.1.outputs = b.outputs ∧ r.1.planes = b.planes ∧ r.1.crtcs = b.crtcs ∧
      r.1.session_active = b.session_active := by
  simp only [legacy_crtc_pageflip, ho, hc, Option.bind_eq_bind, Option.some_bind]
  cases mode with
  | none =>
    exact ⟨_, [_], rfl, rfl, by simp [Event.quiet, Event.released, Event.locked], rfl, rfl,
      rfl, rfl⟩
  | some m =>
    exact ⟨_, [.drmModeSetCrtc c.id fb 0 0 output.connector m,
        .drmModePageFlip c.id fb oi (env.succeeds .drmModePageFlip b.sys.clock)], rfl,
      by simp [Sys.emit, Sys.tick], by simp [Event.quiet, Event.released, Event.locked], rfl,
      rfl, rfl, rfl⟩

/-- The atomic page flip touches neither the outputs nor the planes nor the plane slots of the
CRTC, and takes no buffer from a queue and gives none back. -/
theorem atomic_crtc_pageflip_frame (env : Env) (b : wlr_drm_backend) (oi ci fb : Nat)
    (mode : Option drmModeModeInfo) (output : wlr_output_state) (c : wlr_drm_crtc)
    (plane : wlr_drm_plane) (ho : b.outputs[oi]? = some output) (hc : b.crtcs[ci]? = some c)
    (hp : b.deref c.primary = some plane) :
    ∃ r l c', atomic_crtc_pageflip env b oi ci fb mode = some r ∧
      r.1.sys.events = b.sys.events ++ l ∧ (∀ e ∈ l, e.quiet) ∧
      r.1.outputs = b.outputs ∧ r.1.planes = b.planes ∧ r.1.crtcs = b.crtcs.set ci c' ∧
      c'.slots = c.slots ∧ r.1.session_active = b.session_active := by
  simp only [atomic_crtc_pageflip, ho, hc, Option.bind_eq_bind, Option.some_bind]
  obtain ⟨⟨l, hl, hq⟩, hslots⟩ := atomic_crtc_pageflip.blob_slots env b.sys c mode
  split
  · exact ⟨_, l, _, rfl, hl, hq, rfl, rfl, rfl, hslots, rfl⟩
  · have hb := atomic_begin_slots env (atomic_crtc_pageflip.blob env b.sys c mode).1
      (atomic_crtc_pageflip.blob env b.sys c mode).2.1
    have hd : b.deref (atomic_begin env (atomic_crtc_pageflip.blob env b.sys c mode).1
        (atomic_crtc_pageflip.blob env b.sys c mode).2.1).2.1.primary = some plane := by
      have h1 := congrArg (fun x => x.2.1) hb.2
      have h2 := congrArg (fun x => x.2.1) hslots
      simp only [wlr_drm_crtc.slots] at h1 h2
      rw [h1, h2]
      exact hp
    simp only [hd, Option.some_bind]
    obtain ⟨l2, hl2, hq2⟩ := atomic_commit_quiet env
      (atomic_crtc_pageflip.request env
        (atomic_begin env (atomic_crtc_pageflip.blob env b.sys c mode).1
          (atomic_crtc_pageflip.blob env b.sys c mode).2.1).1
        (atomic_begin env (atomic_crtc_pageflip.blob env b.sys c mode).1
          (atomic_crtc_pageflip.blob env b.sys c mode).2.1).2.2 output
        (atomic_begin env (atomic_crtc_pageflip.blob env b.sys c mode).1
          (atomic_crtc_pageflip.blob env b.sys c mode).2.1).2.1 plane fb).1
      (atomic_crtc_pageflip.request env
        (atomic_begin env (atomic_crtc_pageflip.blob env b.sys c mode).1
          (atomic_crtc_pageflip.blob env b.sys c mode).2.1).1
        (atomic_begin env (atomic_crtc_pageflip.blob env b.sys c mode).1
          (atomic_crtc_pageflip.blob env b.sys c mode).2.1).2.2 output
        (atomic_begin env (atomic_crtc_pageflip.blob env b.sys c mode).1
          (atomic_crtc_pageflip.blob env b.sys c mode).2.1).2.1 plane fb).2 oi mode.isSome
    refine ⟨_, l ++ l2, _, rfl, ?_, ?_, rfl, rfl, rfl, ?_, rfl⟩
    · simp only [hl2, atomic_crtc_pageflip.request_events, hb.1, hl, List.append_assoc]
    · intro e he
      rcases List.mem_append.mp he with he | he
      · exact hq e he
      · exact hq2 e he
    · show (wlr_drm_crtc.put_req _ _).slots = c.slots
      exact (show (wlr_drm_crtc.put_req _ _).slots = _ from rfl).trans (hb.2.trans hslots)

/-- The call through `iface->crtc_pageflip` records itself in the trace, touches neither the
outputs nor the planes nor the plane slots of the CRTC, and takes no buffer from a queue and
gives none back. -/
theorem crtc_pageflip_frame (env : Env) (b : wlr_drm_backend) (oi ci fb : Nat)
    (mode : Option drmModeModeInfo) (output : wlr_output_state) (c : wlr_drm_crtc)
    (plane : wlr_drm_plane) (ho : b.outputs[oi]? = some output) (hc : b.crtcs[ci]? = some c)
    (hp : b.deref c.primary = some plane) :
    ∃ r l c', crtc_pageflip env b oi ci fb mode = some r ∧
      r.1.sys.events = b.sys.events ++ [Event.crtc_pageflip oi ci fb mode] ++ l ∧
      (∀ e ∈ l, e.quiet) ∧
      r.1.outputs = b.outputs ∧ r.1.planes = b.planes ∧ r.1.crtcs = b.crtcs.set ci c' ∧
      c'.slots = c.slots ∧ r.1.session_active = b.session_active := by
  unfold crtc_pageflip
  cases hi : b.iface with
  | legacy_iface =>
    obtain ⟨r, l, h1, h2, h3, h4, h5, h6, h7⟩ := legacy_crtc_pageflip_frame env
      { b with sys := b.sys.emit (.crtc_pageflip oi ci fb mode) } oi ci fb mode output c ho hc
    refine ⟨r, l, c, by simpa [hi] using h1, by simpa [Sys.emit] using h2, h3, h4, h5, ?_, rfl,
      h7⟩
    rw [h6]
    show b.crtcs = b.crtcs.set ci c
    have := map_set_of_eq id c c b.crtcs ci hc rfl
    simpa using this.symm
  | atomic_iface =>
    obtain ⟨r, l, c', h1, h2, h3, h4, h5, h6, h7, h8⟩ := atomic_crtc_pageflip_frame env
      { b with sys := b.sys.emit (.crtc_pageflip oi ci fb mode) } oi ci fb mode output c plane
      ho hc hp
    exact ⟨r, l, c', by simpa [hi] using h1, by simpa [Sys.emit] using h2, h3, h4, h5, h6, h7,
      h8⟩

/-- A list of quiet events holds no release and no lock. -/
theorem Event.filterMap_quiet (l : List Event) (h : ∀ e ∈ l, e.quiet) :
    l.filterMap Event.released = [] ∧ l.filterMap Event.locked = [] := by
  induction l with
  | nil => exact ⟨rfl, rfl⟩
  | cons e l ih =>
    have he := h e (List.mem_cons_self _ _)
    have ih' := ih (fun x hx => h x (List.mem_cons_of_mem _ hx))
    simp only [List.filterMap_cons, he.1, he.2, ih'.1, ih'.2, and_self]

/-- What a slot pointer refers to depends on the plane array only. -/
theorem wlr_drm_backend.deref_congr (b b' : wlr_drm_backend) (h : b'.planes = b.planes)
    (q : PlanePtr) : b'.deref q = b.deref q := by
  cases q with
  | null => rfl
  | kernel g => simp only [wlr_drm_backend.deref, h]
  | fake p => rfl

/-- The function `wlr_drm_plane_swap_buffers` on a plane with a buffer queue and no front
buffer: the back buffer becomes the front buffer and a new buffer is locked as back buffer. -/
theorem wlr_drm_plane_swap_buffers_fresh (s : Sys) (plane : wlr_drm_plane) (g : Nat)
    (hg : plane.gbm = some g) (hf : plane.front = none) :
    wlr_drm_plane_swap_buffers s plane =
      some (((s.emit (.eglSwapBuffers plane.egl)).emit
          (.gbm_surface_lock_front_buffer s.clock)).tick,
        { plane with front := plane.back, back := some s.clock }) := by
  simp [wlr_drm_plane_swap_buffers, release_if_locked, gbm_surface_lock_front_buffer, hg, hf,
    Sys.emit, Sys.tick]

/-! ## The size check of the cursor image -/

/-- C14 fails once the cursor plane is initialised.  On a device whose capability query fails
(maximum 64x64) a first `wlr_drm_output_set_cursor` with a 65x65 image returns false; but after
a call with a 64x64 image has succeeded, a call with a 65x65 image returns true: the image is
uploaded and handed to the driver. -/
theorem set_cursor_accepts_oversize :
    (wlr_drm_output_set_cursor (Ex.env 1 Ex.match_keep Ex.all_succeed) Ex.flipping 0 true
        65 65).map (fun r => r.2) = some false ∧
    (wlr_drm_output_set_cursor (Ex.env 1 Ex.match_keep Ex.all_succeed) Ex.flipping 0 true
        64 64).bind (fun r =>
      (wlr_drm_output_set_cursor (Ex.env 1 Ex.match_keep Ex.all_succeed) r.1 0 true
        65 65).map (fun r2 => (r.2, r2.2, r2.1.sys.events.drop r.1.sys.events.length))) =
      some (true, true,
        [Event.cursor_upload 65 65, Event.eglSwapBuffers (some 8),
         Event.gbm_surface_lock_front_buffer 16, Event.crtc_set_cursor 0 (some 9),
         Event.drmModeSetCursor 40 (some 9) 64 64]) := by
  refine ⟨by decide, ?_⟩
  decide

/-! ## Enabling and disabling an output -/

/-- The function `atomic_end` appends at most one commit to the trace, and that commit is
test-only. -/
theorem atomic_end_events (env : Env) (s : Sys) (atom : atomic) :
    ∃ l, (atomic_end env s atom).1.events = s.events ++ l ∧
      (∀ e ∈ l, ∃ items ok, e = Event.drmModeAtomicCommit items true false none ok) := by
  unfold atomic_end
  by_cases hf : atom.failed = true
  · exact ⟨[], by simp [hf], by simp⟩
  · by_cases hok : env.succeeds .drmModeAtomicCommit s.clock = true
    · refine ⟨[.drmModeAtomicCommit atom.req true false none true], by simp [hf, hok, Sys.emit,
        Sys.tick], ?_⟩
      intro e he
      exact ⟨atom.req, true, by simpa using he⟩
    · refine ⟨[.drmModeAtomicCommit atom.req true false none false], by simp [hf, hok,
        Sys.emit, Sys.tick], ?_⟩
      intro e he
      exact ⟨atom.req, false, by simpa using he⟩

/-- C15 holds for the legacy interface and fails for the atomic one. Under the legacy interface
`conn_enable` sets the DPMS property of the connector to ON (0) or OFF (3). Under the atomic
interface everything `conn_enable` appends to the trace after its own record is a test-only
commit: ACTIVE is never committed. On the backend `Ex.atomic_flipped`, after
`conn_enable(output, false)` the next buffer swap commits a request in which ACTIVE = 0
(property 10 of CRTC 40), left over from `conn_enable`, is followed by ACTIVE = 1. -/
theorem conn_enable_atomic_only_tests (env : Env) (b : wlr_drm_backend) (oi ci : Nat)
    (enable : Bool) (output : wlr_output_state) (c : wlr_drm_crtc)
    (ho : b.outputs[oi]? = some output) (hci : output.crtc = some ci)
    (hc : b.crtcs[ci]? = some c) :
    (b.iface = .legacy_iface →
      (conn_enable env b oi enable).map (fun b' => b'.sys.events) =
        some (b.sys.events ++ [Event.conn_enable oi enable,
          Event.drmModeConnectorSetProperty output.connector output.props.dpms
            (if enable then 0 else 3)])) ∧
    (b.iface = .atomic_iface →
      ∃ l, (conn_enable env b oi enable).map (fun b' => b'.sys.events) =
          some (b.sys.events ++ [Event.conn_enable oi enable] ++ l) ∧
        (∀ e ∈ l, ∃ items ok, e = Event.drmModeAtomicCommit items true false none ok)) ∧
    (conn_enable (Ex.env 1 Ex.match_keep Ex.all_succeed) Ex.atomic_flipped 0 false).bind
      (fun x => (wlr_drm_output_swap_buffers (Ex.env 1 Ex.match_keep Ex.all_succeed) x 0).map
        (fun x' => (x'.sys.events.filterMap (fun e =>
          match e with
          | .drmModeAtomicCommit items test _ _ _ =>
            some (test, items.filter (fun i => i.1 == 40 && i.2.1 == 10))
          | _ => none)))) =
      some [(true, [(40, 10, 0)]), (false, [(40, 10, 0), (40, 10, 1)])] := by
  refine ⟨?_, ?_, by decide⟩
  · intro hi
    simp [conn_enable, hi, legacy_conn_enable, ho, Sys.emit]
  · intro hi
    obtain ⟨l, hl, hq⟩ := atomic_end_events env
      (atomic_add env
        (atomic_begin env (b.sys.emit (.conn_enable oi enable)) c).1
        (atomic_begin env (b.sys.emit (.conn_enable oi enable)) c).2.2
        (atomic_begin env (b.sys.emit (.conn_enable oi enable)) c).2.1.id
        (atomic_begin env (b.sys.emit (.conn_enable oi enable)) c).2.1.props.active
        (if enable then 1 else 0)).1
      (atomic_add env
        (atomic_begin env (b.sys.emit (.conn_enable oi enable)) c).1
        (atomic_begin env (b.sys.emit (.conn_enable oi enable)) c).2.2
        (atomic_begin env (b.sys.emit (.conn_enable oi enable)) c).2.1.id
        (atomic_begin env (b.sys.emit (.conn_enable oi enable)) c).2.1.props.active
        (if enable then 1 else 0)).2
    refine ⟨l, ?_, hq⟩
    simp only [conn_enable, hi, atomic_conn_enable, ho, hci, hc, Option.bind_eq_bind,
      Option.some_bind, Option.map_some']
    rw [hl, atomic_add_events, (atomic_begin_frame env _ c).1]
    rfl

/-- C15, the atomic half on the backend `Ex.atomic_flipped` with `enable` false. -/
theorem conn_enable_atomic_only_tests_witness :
    ∃ l, (conn_enable (Ex.env 1 Ex.match_keep Ex.all_succeed) Ex.atomic_flipped 0 false).map
        (fun b' => b'.sys.events) =
        some (Ex.atomic_flipped.sys.events ++ [Event.conn_enable 0 false] ++ l) ∧
      (∀ e ∈ l, ∃ items ok, e = Event.drmModeAtomicCommit items true false none ok) :=
  (conn_enable_atomic_only_tests (Ex.env 1 Ex.match_keep Ex.all_succeed) Ex.atomic_flipped 0 0
    false { Ex.connected 7 0 1 with pageflip_pending := true }
    { Ex.crtc 40 with primary := .kernel 0 } rfl rfl rfl).2.1 rfl

/-! ## Enumeration of CRTCs and planes -/

/-- When the loop of `init_planes` runs to its end, the lookup succeeded for every plane. -/
theorem init_planes.loop_true (K : Probe) :
    ∀ (ids : List Nat) (acc : List wlr_drm_plane × (Nat × Nat × Nat))
      (r : List wlr_drm_plane × (Nat × Nat × Nat) × Bool),
      init_planes.loop K ids acc = some r → r.2.2 = true →
      ∀ id ∈ ids, init_planes.plane K id ≠ none := by
  intro ids
  induction ids with
  | nil => intro _ _ _ _ id hid; simp at hid
  | cons i rest ih =>
    intro acc r h hr id hid
    unfold init_planes.loop at h
    cases hp : init_planes.plane K i with
    | none =>
      rw [hp] at h
      simp only [Option.some.injEq] at h
      rw [← h] at hr
      simp at hr
    | some p =>
      rw [hp] at h
      simp only at h
      cases hc : init_planes.count p.type acc.2 with
      | none => rw [hc] at h; simp at h
      | some n =>
        rw [hc] at h
        simp only at h
        rcases List.mem_cons.mp hid with hid | hid
        · rw [hid, hp]
          simp
        · exact ih _ r h hr id hid

/-- C16 holds for the resources, the plane resources and the plane properties, and fails for
the CRTC properties. `wlr_drm_resources_init` returns false when `drmModeGetResources` fails,
when `drmModeGetPlaneResources` fails, and never returns true when the lookup fails for one of
the planes. But on the kernel `Ex.probe_no_crtc_props`, where `wlr_drm_get_crtc_props` fails
for the only CRTC, it returns true and leaves the CRTC with zeroed property ids. -/
theorem resources_init_ignores_crtc_props :
    (∀ (K : Probe) (b : wlr_drm_backend), K.drmModeGetResources = none →
      wlr_drm_resources_init K b = some (b, false)) ∧
    (∀ (K : Probe) (b : wlr_drm_backend), K.drmModeGetPlaneResources = none →
      (wlr_drm_resources_init K b).map (fun r => r.2) = some false) ∧
    (∀ (K : Probe) (b : wlr_drm_backend) (ids : List Nat) (id : Nat),
      K.drmModeGetPlaneResources = some ids → id ∈ ids → init_planes.plane K id = none →
      (wlr_drm_resources_init K b).map (fun r => r.2) ≠ some true) ∧
    (wlr_drm_resources_init Ex.probe_no_crtc_props Ex.blank).map
      (fun r => (r.2, r.1.crtcs.map (fun c => c.props))) = some (true, [⟨0, 0⟩]) := by
  refine ⟨?_, ?_, ?_, by decide⟩
  · intro K b h
    simp [wlr_drm_resources_init, h]
  · intro K b h
    unfold wlr_drm_resources_init
    cases K.drmModeGetResources with
    | none => rfl
    | some crtcs =>
      by_cases hc : K.calloc_crtcs = true
      · simp [hc, init_planes, h]
      · simp [hc]
  · intro K b ids id h hid hp
    unfold wlr_drm_resources_init
    cases K.drmModeGetResources with
    | none => simp
    | some crtcs =>
      by_cases hc : K.calloc_crtcs = true
      · simp only [hc, Bool.not_true, Bool.false_eq_true, if_false, init_planes, h]
        have hne : ids.length ≠ 0 := by
          intro h0
          rw [List.length_eq_zero.mp h0] at hid
          simp at hid
        simp only [hne, if_false]
        by_cases hp2 : K.calloc_planes = true
        · simp only [hp2, Bool.not_true, Bool.false_eq_true, if_false]
          cases hl : init_planes.loop K ids
              ([], (b.num_overlay_planes, b.num_primary_planes, b.num_cursor_planes)) with
          | none => simp
          | some r =>
            cases hr : r.2.2 with
            | false => simp [hr]
            | true => exact absurd hp (init_planes.loop_true K ids _ r hl hr id hid)
        · simp [hp2]
      · simp [hc]

/-- C16, first part, on a kernel that refuses to list its resources. -/
theorem resources_init_ignores_crtc_props_witness :
    wlr_drm_resources_init { Ex.probe_no_crtc_props with drmModeGetResources := none }
      Ex.blank = some (Ex.blank, false) :=
  resources_init_ignores_crtc_props.1
    { Ex.probe_no_crtc_props with drmModeGetResources := none } Ex.blank rfl

/-! ## Initialisation of the multi backend -/

/-- The loop of `multi_backend_init` from any trace: it answers true exactly when every call it
makes answers true, then it has called every child once in list order; and it stops with false
at the first child whose call answers false. -/
theorem multi_backend_init_all_or_first (init : Nat → List Nat → Bool) :
    ∀ (subs trace : List Nat),
      ((multi_backend_init init subs trace).1 = true ↔
        ∀ i (h : i < subs.length), init (subs.get ⟨i, h⟩) (trace ++ subs.take i) = true) ∧
      ((multi_backend_init init subs trace).1 = true →
        (multi_backend_init init subs trace).2 = trace ++ subs) ∧
      (∀ k (h : k < subs.length),
        (∀ i (hi : i < k), init (subs.get ⟨i, Nat.lt_trans hi h⟩) (trace ++ subs.take i)
          = true) →
        init (subs.get ⟨k, h⟩) (trace ++ subs.take k) = false →
        multi_backend_init init subs trace = (false, trace ++ subs.take (k + 1))) := by
  intro subs
  induction subs with
  | nil =>
    intro trace
    refine ⟨⟨fun _ i h => absurd h (Nat.not_lt_zero _), fun _ => rfl⟩, fun _ => by simp [multi_backend_init], ?_⟩
    intro k h
    exact absurd h (Nat.not_lt_zero _)
  | cons sub rest ih =>
    intro trace
    obtain ⟨ih1, ih2, ih3⟩ := ih (trace ++ [sub])
    cases hs : init sub trace with
    | false =>
      refine ⟨⟨?_, ?_⟩, ?_, ?_⟩
      · intro h
        simp [multi_backend_init, hs] at h
      · intro h
        have := h 0 (Nat.succ_pos _)
        simp [hs] at this
      · intro h
        simp [multi_backend_init, hs] at h
      · intro k hk hbefore hfail
        cases k with
        | zero => simp [multi_backend_init, hs]
        | succ k =>
          have := hbefore 0 (Nat.succ_pos _)
          simp [hs] at this
    | true =>
      have hstep : multi_backend_init init (sub :: rest) trace =
          multi_backend_init init rest (trace ++ [sub]) := by
        simp [multi_backend_init, hs]
      rw [hstep]
      refine ⟨⟨?_, ?_⟩, ?_, ?_⟩
      · intro h i hi
        cases i with
        | zero => simpa using hs
        | succ i =>
          have := ih1.mp h i (Nat.lt_of_succ_lt_succ hi)
          simpa using this
      · intro h
        refine ih1.mpr ?_
        intro i hi
        have := h (i + 1) (Nat.succ_lt_succ hi)
        simpa using this
      · intro h
        rw [ih2 h]
        simp
      · intro k hk hbefore hfail
        cases k with
        | zero =>
          simp [hs] at hfail
        | succ k =>
          have := ih3 k (Nat.lt_of_succ_lt_succ hk)
            (by
              intro i hi
              have := hbefore (i + 1) (Nat.succ_lt_succ hi)
              simpa using this)
            (by simpa using hfail)
          rw [this]
          simp

/-- Adding children one after the other appends them in that order. -/
theorem wlr_multi_backend_add_all :
    ∀ (subs : List Nat) (multi : wlr_multi_backend),
      subs.foldlM (fun m sub => wlr_multi_backend_add m sub true) multi =
        some { backends := multi.backends ++ subs } := by
  intro subs
  induction subs with
  | nil => intro multi; simp
  | cons sub rest ih =>
    intro multi
    have hadd : wlr_multi_backend_add multi sub true =
        some { backends := multi.backends ++ [sub] } := rfl
    simp only [List.foldlM_cons, hadd, Option.bind_eq_bind, Option.some_bind]
    rw [ih]
    simp

/-- C17: for the children `subs` added in this order to a new multi backend,
`multi_backend_init` returns true exactly when the call `wlr_backend_init` of every child
answers true (each call seeing the calls made before it); in that case the calls made are
exactly `subs`, each child once, in insertion order. When child `k` is the first whose call
answers false, it returns false, having called the children up to `k` and none after it. -/
theorem multi_backend_init_spec (init : Nat → List Nat → Bool) (subs : List Nat) :
    subs.foldlM (fun m sub => wlr_multi_backend_add m sub true) wlr_multi_backend_create =
      some { backends := subs } ∧
    ((multi_backend_init init subs []).1 = true ↔
      ∀ i (h : i < subs.length), init (subs.get ⟨i, h⟩) (subs.take i) = true) ∧
    ((multi_backend_init init subs []).1 = true →
      (multi_backend_init init subs []).2 = subs) ∧
    (∀ k (h : k < subs.length),
      (∀ i (hi : i < k), init (subs.get ⟨i, Nat.lt_trans hi h⟩) (subs.take i) = true) →
      init (subs.get ⟨k, h⟩) (subs.take k) = false →
      multi_backend_init init subs [] = (false, subs.take (k + 1))) := by
  have h := multi_backend_init_all_or_first init subs []
  simp only [List.nil_append] at h
  refine ⟨?_, h.1, h.2.1, h.2.2⟩
  rw [wlr_multi_backend_add_all]
  simp [wlr_multi_backend_create]

/-- C17 on three children of which the second fails: the third is never initialised. -/
theorem multi_backend_init_spec_witness :
    multi_backend_init (fun sub _ => sub != 2) [1, 2, 3] [] = (false, [1, 2]) :=
  (multi_backend_init_spec (fun sub _ => sub != 2) [1, 2, 3]).2.2.2 1 (by decide)
    (by
      intro i hi
      have hi0 : i = 0 := by omega
      subst hi0
      rfl)
    rfl

/-! ## The layout of the plane array -/

/-- On plane types 0, 1 and 2 the comparison `cmp_plane` orders by type. -/
theorem cmp_plane_le (a b : wlr_drm_plane) (ha : a.type ≤ 2) (hb : b.type ≤ 2) :
    cmp_plane a b ≤ 0 ↔ a.type ≤ b.type := by
  have h1 : a.type % 4294967296 = a.type := Nat.mod_eq_of_lt (by omega)
  have h2 : b.type % 4294967296 = b.type := Nat.mod_eq_of_lt (by omega)
  unfold cmp_plane int_of_uint32
  rw [h1, h2, if_pos (by omega), if_pos (by omega)]
  omega

/-- The counter statement of `init_planes` on a type inside the counter array. -/
theorem init_planes.count_spec (t : Nat) (n : Nat × Nat × Nat) (ht : t ≤ 2) :
    init_planes.count t n =
      some (n.1 + (if t = 0 then 1 else 0), n.2.1 + (if t = 1 then 1 else 0),
        n.2.2 + (if t = 2 then 1 else 0)) := by
  interval_cases t <;> rfl

/-- The loop of `init_planes` when every lookup succeeds with a type inside the counter array:
it reads the planes in the order of their ids and counts them by type. -/
theorem init_planes.loop_spec (K : Probe) :
    ∀ (ids : List Nat) (acc : List wlr_drm_plane) (n : Nat × Nat × Nat),
      (∀ id ∈ ids, ∃ p, init_planes.plane K id = some p ∧ p.type ≤ 2) →
      init_planes.loop K ids (acc, n) =
        some (acc ++ ids.filterMap (init_planes.plane K),
          (n.1 + ((ids.filterMap (init_planes.plane K)).filter (fun p => p.type = 0)).length,
           n.2.1 + ((ids.filterMap (init_planes.plane K)).filter (fun p => p.type = 1)).length,
           n.2.2 + ((ids.filterMap (init_planes.plane K)).filter (fun p => p.type = 2)).length),
          true) := by
  intro ids
  induction ids with
  | nil => intro acc n _; simp [init_planes.loop]
  | cons id rest ih =>
    intro acc n h
    obtain ⟨p, hp, ht⟩ := h id (List.mem_cons_self _ _)
    have hrest := fun i hi => h i (List.mem_cons_of_mem _ hi)
    unfold init_planes.loop
    simp only [hp, init_planes.count_spec p.type n ht]
    rw [ih _ _ hrest]
    simp only [List.filterMap_cons, hp, List.filter_cons, List.append_assoc, List.singleton_append]
    have ht' : p.type = 0 ∨ p.type = 1 ∨ p.type = 2 := by omega
    rcases ht' with h0 | h0 | h0 <;> simp [h0] <;> omega

/-- A list of planes ordered by type, with types 0, 1 and 2 only, is its planes of type 0
followed by those of type 1 followed by those of type 2. -/
theorem filter_type_sorted :
    ∀ (l : List wlr_drm_plane), l.Pairwise (fun p q => p.type ≤ q.type) →
      (∀ p ∈ l, p.type ≤ 2) →
      l = l.filter (fun p => p.type = 0) ++ l.filter (fun p => p.type = 1) ++
        l.filter (fun p => p.type = 2) := by
  intro l
  induction l with
  | nil => intro _ _; rfl
  | cons x l ih =>
    intro hs hb
    have hx := hb x (List.mem_cons_self _ _)
    have hl := fun p hp => hb p (List.mem_cons_of_mem _ hp)
    obtain ⟨hle, hs'⟩ := List.pairwise_cons.mp hs
    have ih' := ih hs' hl
    have hx' : x.type = 0 ∨ x.type = 1 ∨ x.type = 2 := by omega
    rcases hx' with h0 | h0 | h0
    · simp only [List.filter_cons, h0, decide_True, if_true, List.cons_append]
      simp only [show decide ((0 : Nat) = 1) = false from rfl,
        show decide ((0 : Nat) = 2) = false from rfl, Bool.false_eq_true, if_false]
      exact congrArg (List.cons x) ih'
    · have e0 : l.filter (fun p => p.type = 0) = [] := by
        rw [List.filter_eq_nil_iff]
        intro p hp
        have := hle p hp
        simp only [decide_eq_true_eq]
        omega
      simp only [List.filter_cons, h0, decide_True, if_true]
      simp only [show decide ((1 : Nat) = 0) = false from rfl,
        show decide ((1 : Nat) = 2) = false from rfl, Bool.false_eq_true, if_false, e0,
        List.nil_append, List.cons_append]
      rw [e0] at ih'
      exact congrArg (List.cons x) ih'
    · have e0 : l.filter (fun p => p.type = 0) = [] := by
        rw [List.filter_eq_nil_iff]
        intro p hp
        have := hle p hp
        simp only [decide_eq_true_eq]
        omega
      have e1 : l.filter (fun p => p.type = 1) = [] := by
        rw [List.filter_eq_nil_iff]
        intro p hp
        have := hle p hp
        simp only [decide_eq_true_eq]
        omega
      simp only [List.filter_cons, h0, decide_True, if_true]
      simp only [show decide ((2 : Nat) = 0) = false from rfl,
        show decide ((2 : Nat) = 1) = false from rfl, Bool.false_eq_true, if_false, e0, e1,
        List.nil_append]
      rw [e0, e1] at ih'
      exact congrArg (List.cons x) ih'

/-- The three segments of a list made of three parts. -/
theorem take_drop_segments {α : Type} (A B C : List α) :
    ((A ++ B ++ C).drop 0).take A.length = A ∧
    ((A ++ B ++ C).drop A.length).take B.length = B ∧
    ((A ++ B ++ C).drop (A.length + B.length)).take C.length = C := by
  refine ⟨?_, ?_, ?_⟩
  · simp [List.append_assoc]
  · rw [List.append_assoc, List.drop_left]
    simp
  · have h : (A ++ B).length = A.length + B.length := List.length_append _ _
    rw [← h, List.drop_left]
    simp

/-- C18: when `qsort` meets its contract (the result is a permutation of its input, ordered by
the comparison), the kernel lists at least one plane, the allocation succeeds, every lookup
succeeds with a type among 0, 1, 2 and the counters start at zero, `init_planes` returns true;
the plane array is then a permutation of the planes read, ordered by type, and for each type
`t` the `num_type_planes[t]` entries from `type_planes[t]` on are exactly the planes of type
`t` of the array. -/
theorem init_planes_groups_by_type (K : Probe) (b : wlr_drm_backend) (ids : List Nat)
    (hq : ∀ l, (K.qsort cmp_plane l).Perm l ∧
      (K.qsort cmp_plane l).Pairwise (fun p q => cmp_plane p q ≤ 0))
    (hres : K.drmModeGetPlaneResources = some ids) (hne : ids ≠ [])
    (hcal : K.calloc_planes = true)
    (hplanes : ∀ id ∈ ids, ∃ p, init_planes.plane K id = some p ∧ p.type ≤ 2)
    (h0 : b.num_overlay_planes = 0) (h1 : b.num_primary_planes = 0)
    (h2 : b.num_cursor_planes = 0) :
    ∃ b', init_planes K b = some (b', true) ∧
      b'.planes.Perm (ids.filterMap (init_planes.plane K)) ∧
      b'.planes.Pairwise (fun p q => p.type ≤ q.type) ∧
      ∀ t, t < 3 →
        (b'.planes.drop (b'.type_planes t)).take (b'.num_type_planes t) =
          b'.planes.filter (fun p => p.type = t) := by
  obtain ⟨ps, hps⟩ : ∃ ps, ps = ids.filterMap (init_planes.plane K) := ⟨_, rfl⟩
  obtain ⟨L, hL⟩ : ∃ L, L = K.qsort cmp_plane ps := ⟨_, rfl⟩
  have hperm : L.Perm ps := by rw [hL]; exact (hq ps).1
  have hsorted : L.Pairwise (fun p q => cmp_plane p q ≤ 0) := by rw [hL]; exact (hq ps).2
  have hbound_ps : ∀ p ∈ ps, p.type ≤ 2 := by
    intro p hp
    rw [hps] at hp
    obtain ⟨id, hid, hpid⟩ := List.mem_filterMap.mp hp
    obtain ⟨p', hp', ht⟩ := hplanes id hid
    rw [hp'] at hpid
    cases hpid
    exact ht
  have hbound : ∀ p ∈ L, p.type ≤ 2 := fun p hp => hbound_ps p (hperm.mem_iff.mp hp)
  have htype : L.Pairwise (fun p q => p.type ≤ q.type) :=
    hsorted.imp_of_mem (fun ha hb h => (cmp_plane_le _ _ (hbound _ ha) (hbound _ hb)).mp h)
  have hlen : ∀ t : Nat, (ps.filter (fun p => p.type = t)).length =
      (L.filter (fun p => p.type = t)).length :=
    fun t => ((hperm.filter _).length_eq).symm
  have hseg := filter_type_sorted L htype hbound
  have hloop := init_planes.loop_spec K ids [] (0, 0, 0) hplanes
  simp only [List.nil_append, Nat.zero_add, ← hps, hlen] at hloop
  refine ⟨{ b with planes := L,
                   num_overlay_planes := (L.filter (fun p => p.type = 0)).length,
                   num_primary_planes := (L.filter (fun p => p.type = 1)).length,
                   num_cursor_planes := (L.filter (fun p => p.type = 2)).length }, ?_, ?_,
    htype, ?_⟩
  · have hn : ids.length ≠ 0 := fun h => hne (List.length_eq_zero.mp h)
    unfold init_planes
    simp only [hres, hn, if_false, hcal, Bool.not_true, Bool.false_eq_true, h0, h1, h2, hloop,
      ← hps, ← hL]
  · rw [← hps]
    exact hperm
  · intro t ht
    have hs := take_drop_segments (L.filter (fun p => p.type = 0))
      (L.filter (fun p => p.type = 1)) (L.filter (fun p => p.type = 2))
    rw [← hseg] at hs
    interval_cases t
    · exact hs.1
    · exact hs.2.1
    · exact hs.2.2

/-- Insertion sort meets the contract of `qsort` for `cmp_plane`. -/
theorem insertionSort_cmp_plane (l : List wlr_drm_plane) :
    (l.insertionSort (fun a b => cmp_plane a b ≤ 0)).Perm l ∧
    (l.insertionSort (fun a b => cmp_plane a b ≤ 0)).Pairwise
      (fun p q => cmp_plane p q ≤ 0) := by
  have htot : IsTotal wlr_drm_plane (fun a b => cmp_plane a b ≤ 0) :=
    ⟨fun a b => by unfold cmp_plane; omega⟩
  have htr : IsTrans wlr_drm_plane (fun a b => cmp_plane a b ≤ 0) :=
    ⟨fun a b c => by unfold cmp_plane; omega⟩
  exact ⟨List.perm_insertionSort _ l, List.sorted_insertionSort _ l⟩

/-- C18 on the kernel `Ex.probe_four`: the planes enumerated as cursor, primary, overlay,
primary end up as overlay 33, primary 32 and 34, cursor 31. -/
theorem init_planes_groups_by_type_witness :
    (init_planes Ex.probe_four Ex.blank).map
      (fun r => (r.2, r.1.planes.map (fun p => (p.id, p.type)), r.1.num_overlay_planes,
        r.1.num_primary_planes, r.1.num_cursor_planes)) =
      some (true, [(33, 0), (32, 1), (34, 1), (31, 2)], 1, 2, 1) ∧
    ∃ b', init_planes Ex.probe_four Ex.blank = some (b', true) ∧
      b'.planes.Perm ([31, 32, 33, 34].filterMap (init_planes.plane Ex.probe_four)) ∧
      b'.planes.Pairwise (fun p q => p.type ≤ q.type) ∧
      ∀ t, t < 3 →
        (b'.planes.drop (b'.type_planes t)).take (b'.num_type_planes t) =
          b'.planes.filter (fun p => p.type = t) :=
  ⟨by decide,
   init_planes_groups_by_type Ex.probe_four Ex.blank [31, 32, 33, 34]
     insertionSort_cmp_plane rfl (by decide) rfl
     (by
       intro id hid
       simp only [List.mem_cons, List.mem_singleton, List.not_mem_nil, or_false] at hid
       rcases hid with h | h | h | h <;> subst h
       · exact ⟨_, rfl, by decide⟩
       · exact ⟨_, rfl, by decide⟩
       · exact ⟨_, rfl, by decide⟩
       · exact ⟨_, rfl, by decide⟩)
     rfl rfl rfl⟩

/-! ## What realloc_planes leaves alone -/

/-- Assigning to one slot of a CRTC leaves the other two alone. -/
theorem wlr_drm_crtc.planes_set_plane_ne (c : wlr_drm_crtc) (t s : Nat) (p : PlanePtr)
    (ht : t < 3) (hs : s < 3) (h : s ≠ t) : (c.set_plane t p).planes s = c.planes s := by
  interval_cases t <;> interval_cases s <;> first | rfl | exact absurd rfl h

/-- Doing nothing touches nothing. -/
theorem realloc_planes.touches_refl (b : wlr_drm_backend) (i t : Nat) :
    realloc_planes.touches b b i t :=
  ⟨rfl, fun _ _ _ _ => rfl, fun _ => Or.inl rfl, rfl, rfl, rfl⟩

/-- Freeing the renderer of a kernel plane changes that plane only. -/
theorem wlr_drm_backend.free_kernel_spec (b b2 : wlr_drm_backend) (g : Nat)
    (h : b.free_kernel g = some b2) :
    b2.crtcs = b.crtcs ∧ (∀ g', g' ≠ g → b2.planes[g']? = b.planes[g']?) ∧
    g < b.planes.length ∧
    b2.num_overlay_planes = b.num_overlay_planes ∧
    b2.num_primary_planes = b.num_primary_planes ∧
    b2.num_cursor_planes = b.num_cursor_planes := by
  unfold wlr_drm_backend.free_kernel at h
  simp only [Option.bind_eq_bind, Option.bind_eq_some] at h
  obtain ⟨p, hp, r, _, h⟩ := h
  simp only [Option.some.injEq] at h
  subst h
  refine ⟨rfl, ?_, (List.getElem?_eq_some.mp hp).1, rfl, rfl, rfl⟩
  intro g' hg
  exact List.getElem?_set_ne (fun hh => hg hh.symm)

/-- Freeing the renderer of the plane in a slot changes no other slot and no kernel plane but
the one the slot points to. -/
theorem wlr_drm_backend.free_slot_spec (b b1 : wlr_drm_backend) (i t : Nat)
    (c : wlr_drm_crtc) (ht : t < 3) (hc : b.crtcs[i]? = some c)
    (h : b.free_slot i t = some b1) :
    ∃ c1, b1.crtcs = b.crtcs.set i c1 ∧ (∀ s, s < 3 → s ≠ t → c1.planes s = c.planes s) ∧
      (∀ g, c.planes t ≠ .kernel g → b1.planes[g]? = b.planes[g]?) ∧
      b1.planes.length = b.planes.length ∧
      b1.num_overlay_planes = b.num_overlay_planes ∧
      b1.num_primary_planes = b.num_primary_planes ∧
      b1.num_cursor_planes = b.num_cursor_planes := by
  have hself : b.crtcs.set i c = b.crtcs := by
    have := map_set_of_eq id c c b.crtcs i hc rfl
    simpa using this
  unfold wlr_drm_backend.free_slot at h
  simp only [hc, Option.bind_eq_bind, Option.some_bind] at h
  cases hpl : c.planes t with
  | null =>
    simp only [hpl, if_true, Option.some.injEq] at h
    subst h
    exact ⟨c, hself.symm, fun _ _ _ => rfl, fun _ _ => rfl, rfl, rfl, rfl, rfl⟩
  | kernel g0 =>
    simp only [hpl, reduceCtorEq, if_false, wlr_drm_backend.on_plane, hc,
      wlr_drm_backend.deref, Option.bind_eq_bind, Option.some_bind, Option.bind_eq_some] at h
    obtain ⟨p, hp, r, _, h⟩ := h
    simp only [wlr_drm_backend.store, hc, hpl, Option.bind_eq_bind, Option.some_bind] at h
    split at h
    · simp only [Option.some.injEq] at h
      subst h
      refine ⟨c, hself.symm, fun _ _ _ => rfl, ?_, List.length_set _ _ _, rfl, rfl, rfl⟩
      intro g hg
      exact List.getElem?_set_ne (fun hh => hg (by rw [hh]))
    · cases h
  | fake p =>
    simp only [hpl, reduceCtorEq, if_false, wlr_drm_backend.on_plane, hc,
      wlr_drm_backend.deref, Option.bind_eq_bind, Option.some_bind, Option.bind_eq_some] at h
    obtain ⟨r, _, h⟩ := h
    simp only [wlr_drm_backend.store, hc, hpl, Option.bind_eq_bind, Option.some_bind,
      Option.some.injEq] at h
    subst h
    exact ⟨_, rfl, fun s hs hne => wlr_drm_crtc.planes_set_plane_ne c t s _ ht hs hne,
      fun _ _ => rfl, rfl, rfl, rfl, rfl⟩

/-- One round of the last loop of `realloc_planes` writes at most slot `type` of CRTC `i`, and
changes a kernel plane only if it writes the slot and the plane is the old or the new occupant.
-/
theorem realloc_planes.assign_touches (type : Nat) (res : Nat → Nat)
    (b b' : wlr_drm_backend) (i : Nat) (ht : type < 3)
    (h : realloc_planes.assign type res b i = some b') :
    realloc_planes.touches b b' i type := by
  unfold realloc_planes.assign at h
  split at h
  · cases h
    exact realloc_planes.touches_refl b i type
  · simp only [Option.bind_eq_bind, Option.bind_eq_some] at h
    obtain ⟨c, hc, h⟩ := h
    have hlt : i < b.crtcs.length := (List.getElem?_eq_some.mp hc).1
    split at h
    · rename_i hne
      simp only [Option.bind_eq_bind, Option.bind_eq_some, Option.some.injEq] at h
      obtain ⟨b1, h1, b2, h2, c2, hc2, h⟩ := h
      obtain ⟨c1, e1, s1, p1, l1, n0, n1, n2⟩ :=
        wlr_drm_backend.free_slot_spec b b1 i type c ht hc h1
      obtain ⟨e2, p2, _, m0, m1, m2⟩ := wlr_drm_backend.free_kernel_spec b1 b2 _ h2
      have htp : b1.type_planes type = b.type_planes type := by
        interval_cases type
        · rfl
        · exact n0
        · show b1.num_overlay_planes + b1.num_primary_planes = _
          rw [n0, n1]
          rfl
      rw [htp] at p2
      have hc2' : c2 = c1 := by
        rw [e2, e1, List.getElem?_set_self hlt] at hc2
        exact (Option.some.inj hc2).symm
      subst hc2'
      have hcr : b'.crtcs = (b.crtcs.set i c2).set i
          (c2.set_plane type (.kernel (b.type_planes type + res i))) := by
        rw [← h, ← e1, ← e2]
      have hpl : b'.planes = b2.planes := by rw [← h]
      have k0 : b'.num_overlay_planes = b.num_overlay_planes := by rw [← h, ← n0, ← m0]
      have k1 : b'.num_primary_planes = b.num_primary_planes := by rw [← h, ← n1, ← m1]
      have k2 : b'.num_cursor_planes = b.num_cursor_planes := by rw [← h, ← n2, ← m2]
      have hslot' : b'.slot i type = some (.kernel (b.type_planes type + res i)) := by
        simp only [wlr_drm_backend.slot, hcr, List.set_set, List.getElem?_set_self hlt,
          Option.map_some', wlr_drm_crtc.planes_set_plane]
      have hslot : b.slot i type = some (c.planes type) := by
        simp only [wlr_drm_backend.slot, hc, Option.map_some']
      refine ⟨?_, ?_, ?_, k0, k1, k2⟩
      · rw [hcr, List.length_set, List.length_set]
      · intro j s hs hjs
        simp only [wlr_drm_backend.slot, hcr, List.set_set]
        by_cases hj : j = i
        · subst hj
          have hst : s ≠ type := by
            rcases hjs with h | h
            · exact absurd rfl h
            · exact h
          rw [List.getElem?_set_self hlt, hc]
          simp only [Option.map_some',
            wlr_drm_crtc.planes_set_plane_ne _ type s _ ht hs hst, s1 s hs hst]
        · rw [List.getElem?_set_ne (fun hh => hj hh.symm)]
      · intro g
        by_cases hg : g = b.type_planes type + res i
        · right
          rw [hslot', hslot]
          refine ⟨fun hh => hne (Option.some.inj hh).symm, Or.inr (by rw [hg])⟩
        · by_cases hold : c.planes type = .kernel g
          · right
            rw [hslot', hslot]
            exact ⟨fun hh => hne (Option.some.inj hh).symm, Or.inl (by rw [hold])⟩
          · left
            rw [hpl, p2 g hg, p1 g hold]
    · simp only [Option.some.injEq] at h
      subst h
      exact realloc_planes.touches_refl b i type

/-- The frame statement may name more slots. -/
theorem realloc_planes.frame_mono (b0 b : wlr_drm_backend) (P P' : Nat → Nat → Prop)
    (hP : ∀ j s, P j s → P' j s) (h : realloc_planes.frame b0 b P) :
    realloc_planes.frame b0 b P' := by
  obtain ⟨h1, h2, h3, h4⟩ := h
  refine ⟨h1, fun j s hs hn => h2 j s hs (fun hp => hn (hP j s hp)), ?_, h4⟩
  intro g
  rcases h3 g with h | ⟨j, s, hs, hp, hne, hor⟩
  · exact Or.inl h
  · exact Or.inr ⟨j, s, hs, hP j s hp, hne, hor⟩

/-- The frame statement after one more round, which may write a slot not named so far. -/
theorem realloc_planes.frame_step (b0 b b' : wlr_drm_backend) (P : Nat → Nat → Prop)
    (i t : Nat) (ht : t < 3) (hP : ¬P i t) (h : realloc_planes.frame b0 b P)
    (hstep : realloc_planes.touches b b' i t) :
    realloc_planes.frame b0 b' (fun j s => P j s ∨ (j = i ∧ s = t)) := by
  obtain ⟨h1, h2, h3, h4, h5, h6⟩ := h
  obtain ⟨t1, t2, t3, t4, t5, t6⟩ := hstep
  have hit : b.slot i t = b0.slot i t := h2 i t ht hP
  refine ⟨t1.trans h1, ?_, ?_, t4.trans h4, t5.trans h5, t6.trans h6⟩
  · intro j s hs hn
    have hnp : ¬P j s := fun hp => hn (Or.inl hp)
    have hne : j ≠ i ∨ s ≠ t := by
      by_contra hh
      push_neg at hh
      exact hn (Or.inr hh)
    rw [t2 j s hs hne]
    exact h2 j s hs hnp
  · intro g
    rcases t3 g with hsame | ⟨hch, hor⟩
    · rcases h3 g with h | ⟨j, s, hs, hp, hne, hor⟩
      · exact Or.inl (hsame.trans h)
      · have hjs : j ≠ i ∨ s ≠ t := by
          by_contra hh
          push_neg at hh
          exact hP (hh.1 ▸ hh.2 ▸ hp)
        refine Or.inr ⟨j, s, hs, Or.inl hp, ?_, ?_⟩
        · rw [t2 j s hs hjs]
          exact hne
        · rw [t2 j s hs hjs]
          exact hor
    · refine Or.inr ⟨i, t, ht, Or.inr ⟨rfl, rfl⟩, ?_, ?_⟩
      · rw [← hit]
        exact hch
      · rw [← hit]
        exact hor

/-- A property of the rounds done so far that every round hands on holds after the loop, when
no index comes twice. -/
theorem for_each_prefix (Q : List Nat → wlr_drm_backend → Prop)
    (f : wlr_drm_backend → Nat → Option wlr_drm_backend)
    (hf : ∀ pre i b b', i ∉ pre → Q pre b → f b i = some b' → Q (pre ++ [i]) b') :
    ∀ (l pre : List Nat) (b b' : wlr_drm_backend), (pre ++ l).Nodup → Q pre b →
      for_each f l b = some b' → Q (pre ++ l) b'
  | [], pre, b, b', _, hb, h => by
    simp only [for_each, Option.some.injEq] at h
    rw [List.append_nil]
    exact h ▸ hb
  | i :: l, pre, b, b', hnd, hb, h => by
    simp only [for_each, Option.bind_eq_bind, Option.bind_eq_some] at h
    obtain ⟨b1, h1, h2⟩ := h
    have hi : i ∉ pre := by
      intro hmem
      have := List.nodup_append.mp hnd
      exact this.2.2 hmem (List.mem_cons_self _ _)
    have hnd' : ((pre ++ [i]) ++ l).Nodup := by
      rw [List.append_assoc]
      exact hnd
    have := for_each_prefix Q f hf l (pre ++ [i]) b1 b' hnd' (hf pre i b b1 hi hb h1) h2
    rw [List.append_assoc] at this
    exact this

/-- The frame statement after the rounds of one more plane type. -/
theorem realloc_planes.type_frame (env : Env) (crtc_in : Nat → Nat)
    (b0 x x' : wlr_drm_backend) (t : Nat) (ht : t < 3)
    (hx : realloc_planes.frame b0 x (fun _ s => s < t))
    (h : realloc_planes.type env crtc_in x t = some x') :
    realloc_planes.frame b0 x' (fun _ s => s < t + 1) := by
  unfold realloc_planes.type at h
  split at h
  · simp only [Option.some.injEq] at h
    subst h
    exact realloc_planes.frame_mono b0 x _ _ (fun _ s hs => Nat.lt_succ_of_lt hs) hx
  · split at h
    · cases h
    · simp only [Option.bind_eq_bind, Option.bind_eq_some] at h
      obtain ⟨crtc, _, h⟩ := h
      have hq := for_each_prefix
        (fun pre y => realloc_planes.frame b0 y (fun j s => s < t ∨ (s = t ∧ j ∈ pre)))
        (realloc_planes.assign t
          (env.match_obj (x.num_type_planes t) (realloc_planes.possible x t) x.crtcs.length
            crtc))
        (by
          intro pre i y y' hi hy hstep
          have htouch := realloc_planes.assign_touches t _ y y' i ht hstep
          have := realloc_planes.frame_step b0 y y' _ i t ht
            (by
              intro hh
              rcases hh with hh | hh
              · exact Nat.lt_irrefl _ hh
              · exact hi hh.2)
            hy htouch
          refine realloc_planes.frame_mono b0 y' _ _ ?_ this
          intro j s hjs
          rcases hjs with (hlt | ⟨hs, hj⟩) | ⟨hj, hs⟩
          · exact Or.inl hlt
          · exact Or.inr ⟨hs, List.mem_append_left _ hj⟩
          · exact Or.inr ⟨hs, List.mem_append_right _ (by rw [hj]; exact List.mem_singleton_self _)⟩)
        (List.range x.crtcs.length) [] x x' (by simpa using List.nodup_range _)
        (realloc_planes.frame_mono b0 x _ _ (fun _ s hs => Or.inl hs) hx) h
      refine realloc_planes.frame_mono b0 x' _ _ ?_ hq
      intro j s hjs
      rcases hjs with hlt | ⟨hs, _⟩
      · exact Nat.lt_succ_of_lt hlt
      · rw [hs]
        exact Nat.lt_succ_self _

/-- The frame statement for the whole of `realloc_planes`. -/
theorem realloc_planes_frame (env : Env) (crtc_in : Nat → Nat) (b b' : wlr_drm_backend)
    (h : realloc_planes env b crtc_in = some b') :
    realloc_planes.frame b b' (fun _ s => s < 3) := by
  unfold realloc_planes at h
  simp only [for_each, Option.bind_eq_bind, Option.bind_eq_some, Option.some.injEq] at h
  obtain ⟨b1, h1, b2, h2, b3, h3, h⟩ := h
  subst h
  have f0 : realloc_planes.frame b b (fun _ s => s < 0) :=
    ⟨rfl, fun _ _ _ _ => rfl, fun _ => Or.inl rfl, rfl, rfl, rfl⟩
  have f1 := realloc_planes.type_frame env crtc_in b b b1 0 (by decide) f0 h1
  have f2 := realloc_planes.type_frame env crtc_in b b1 b2 1 (by decide) f1 h2
  exact realloc_planes.type_frame env crtc_in b b2 b3 2 (by decide) f2 h3

/-- Every entry of the array `crtc` of `realloc_planes` is the entry computed for its CRTC. -/
theorem realloc_planes.current_all_spec (b : wlr_drm_backend) (t : Nat)
    (crtc_in : Nat → Nat) :
    ∀ (l vs : List Nat), realloc_planes.current_all b t crtc_in l = some vs →
      ∀ (k i : Nat), l[k]? = some i →
        ∃ v : Nat, vs[k]? = some v ∧ realloc_planes.current b t crtc_in i = some v := by
  intro l
  induction l with
  | nil => intro vs _ k i hk; simp at hk
  | cons a l ih =>
    intro vs h k i hk
    unfold realloc_planes.current_all at h
    simp only [Option.bind_eq_bind, Option.bind_eq_some, Option.some.injEq] at h
    obtain ⟨v, hv, vs', hvs, h⟩ := h
    subst h
    cases k with
    | zero =>
      simp only [List.getElem?_cons_zero, Option.some.injEq] at hk
      subst hk
      exact ⟨v, List.getElem?_cons_zero, hv⟩
    | succ k =>
      simp only [List.getElem?_cons_succ] at hk ⊢
      exact ih vs' hvs k i hk

/-- A CRTC whose input entry is UNMATCHED gets the entry SKIP. -/
theorem realloc_planes.current_skip (b : wlr_drm_backend) (t i : Nat) (crtc_in : Nat → Nat)
    (c : wlr_drm_crtc) (hc : b.crtcs[i]? = some c) (hin : crtc_in i = UNMATCHED) :
    realloc_planes.current b t crtc_in i = some SKIP := by
  simp only [realloc_planes.current, hc, hin, Option.bind_eq_bind, Option.some_bind, if_true]

/-- The rounds of one plane type leave the slots of a CRTC alone whose input entry is
UNMATCHED, when the matcher hands SKIP entries back. -/
theorem realloc_planes.type_skips (env : Env) (crtc_in : Nat → Nat)
    (b0 x x' : wlr_drm_backend) (t i : Nat) (ht : t < 3) (hin : crtc_in i = UNMATCHED)
    (hskip : ∀ n poss m cur j, j < m → cur.getD j UNMATCHED = SKIP →
      env.match_obj n poss m cur j = SKIP)
    (hx : x.crtcs.length = b0.crtcs.length ∧ ∀ s, s < 3 → x.slot i s = b0.slot i s)
    (h : realloc_planes.type env crtc_in x t = some x') :
    x'.crtcs.length = b0.crtcs.length ∧ ∀ s, s < 3 → x'.slot i s = b0.slot i s := by
  unfold realloc_planes.type at h
  split at h
  · simp only [Option.some.injEq] at h
    subst h
    exact hx
  · split at h
    · cases h
    · simp only [Option.bind_eq_bind, Option.bind_eq_some] at h
      obtain ⟨crtc, hcur, h⟩ := h
      have hres : i < x.crtcs.length →
          env.match_obj (x.num_type_planes t) (realloc_planes.possible x t) x.crtcs.length
            crtc i = SKIP := by
        intro hi
        refine hskip _ _ _ _ i hi ?_
        obtain ⟨v, hv, hcv⟩ := realloc_planes.current_all_spec x t crtc_in _ crtc hcur i i
          (by rw [List.getElem?_range hi])
        rw [realloc_planes.current_skip x t i crtc_in x.crtcs[i]
          (List.getElem?_eq_getElem hi) hin] at hcv
        rw [List.getD_eq_getElem?_getD, hv, ← Option.some.inj hcv]
        rfl
      refine for_each_induct
        (fun y => y.crtcs.length = b0.crtcs.length ∧ ∀ s, s < 3 → y.slot i s = b0.slot i s)
        _ ?_ _ x x' hx h
      intro y j y' hy hstep
      by_cases hj : j = i
      · subst hj
        unfold realloc_planes.assign at hstep
        split at hstep
        · simp only [Option.some.injEq] at hstep
          subst hstep
          exact hy
        · rename_i hne
          simp only [Option.bind_eq_bind, Option.bind_eq_some] at hstep
          obtain ⟨c, hc, _⟩ := hstep
          have hi : j < x.crtcs.length := by
            rw [hx.1, ← hy.1]
            exact (List.getElem?_eq_some.mp hc).1
          exact absurd (Or.inr (hres hi)) hne
      · obtain ⟨t1, t2, _⟩ := realloc_planes.assign_touches t _ y y' j ht hstep
        refine ⟨t1.trans hy.1, fun s hs => ?_⟩
        rw [t2 i s hs (Or.inl (fun hh => hj hh.symm))]
        exact hy.2 s hs

/-- C19: whenever `realloc_planes` returns, every kernel plane is exactly as before (renderer
state included) unless some slot holds another pointer than before and the plane is the old or
the new occupant of that slot. A CRTC whose input entry is UNMATCHED is given the entry SKIP in
the array passed to `match_obj`; and when `match_obj` hands SKIP entries back, none of its
three slots is written. -/
theorem realloc_planes_frees_changed_slots (env : Env) (crtc_in : Nat → Nat)
    (b b' : wlr_drm_backend) (h : realloc_planes env b crtc_in = some b') :
    (∀ g, b'.planes[g]? = b.planes[g]? ∨
      ∃ j s, s < 3 ∧ b'.slot j s ≠ b.slot j s ∧
        (b.slot j s = some (.kernel g) ∨ b'.slot j s = some (.kernel g))) ∧
    (∀ i, crtc_in i = UNMATCHED →
      (∀ (x : wlr_drm_backend) (t : Nat), i < x.crtcs.length →
        realloc_planes.current x t crtc_in i = some SKIP) ∧
      ((∀ n poss m cur j, j < m → cur.getD j UNMATCHED = SKIP →
          env.match_obj n poss m cur j = SKIP) →
        ∀ s, s < 3 → b'.slot i s = b.slot i s)) := by
  refine ⟨?_, ?_⟩
  · intro g
    rcases (realloc_planes_frame env crtc_in b b' h).2.2.1 g with hg | ⟨j, s, hs, _, hne, hor⟩
    · exact Or.inl hg
    · exact Or.inr ⟨j, s, hs, hne, hor⟩
  · intro i hin
    refine ⟨fun x t hi => realloc_planes.current_skip x t i crtc_in x.crtcs[i]
      (List.getElem?_eq_getElem hi) hin, ?_⟩
    intro hskip
    unfold realloc_planes at h
    simp only [for_each, Option.bind_eq_bind, Option.bind_eq_some, Option.some.injEq] at h
    obtain ⟨b1, h1, b2, h2, b3, h3, h⟩ := h
    subst h
    have f1 := realloc_planes.type_skips env crtc_in b b b1 0 i (by decide) hin hskip
      ⟨rfl, fun _ _ => rfl⟩ h1
    have f2 := realloc_planes.type_skips env crtc_in b b1 b2 1 i (by decide) hin hskip f1 h2
    exact (realloc_planes.type_skips env crtc_in b b2 b3 2 i (by decide) hin hskip f2 h3).2

/-- C19 on the backend `Ex.two_planes`, where the matcher swaps the two primary planes between
the CRTCs. -/
theorem realloc_planes_frees_changed_slots_witness :
    (∀ g, Ex.two_planes_after.planes[g]? = Ex.two_planes.planes[g]? ∨
      ∃ j s, s < 3 ∧ Ex.two_planes_after.slot j s ≠ Ex.two_planes.slot j s ∧
        (Ex.two_planes.slot j s = some (.kernel g) ∨
          Ex.two_planes_after.slot j s = some (.kernel g))) ∧
    (∀ i, (fun j => if j < 2 then j else UNMATCHED) i = UNMATCHED →
      (∀ (x : wlr_drm_backend) (t : Nat), i < x.crtcs.length →
        realloc_planes.current x t (fun j => if j < 2 then j else UNMATCHED) i = some SKIP) ∧
      ((∀ n poss m cur j, j < m → cur.getD j UNMATCHED = SKIP →
          (Ex.env 2 Ex.match_planes Ex.all_succeed).match_obj n poss m cur j = SKIP) →
        ∀ s, s < 3 → Ex.two_planes_after.slot i s = Ex.two_planes.slot i s)) :=
  realloc_planes_frees_changed_slots (Ex.env 2 Ex.match_planes Ex.all_succeed)
    (fun j => if j < 2 then j else UNMATCHED) Ex.two_planes Ex.two_planes_after (by decide)

/-! ## What start_renderer flips to -/

/-- The mode blob step of the atomic page flip only appends requests to the kernel to the
trace. -/
theorem atomic_crtc_pageflip.blob_driver (env : Env) (s : Sys) (c : wlr_drm_crtc)
    (mode : Option drmModeModeInfo) :
    ∃ l, (atomic_crtc_pageflip.blob env s c mode).1.events = s.events ++ l ∧
      ∀ e ∈ l, e.from_driver = true := by
  unfold atomic_crtc_pageflip.blob
  cases mode with
  | none => exact ⟨[], by simp, by simp⟩
  | some m =>
    by_cases hm : c.mode_id = 0 <;>
      by_cases hs : env.succeeds .drmModeCreatePropertyBlob s.clock = true
    · exact ⟨[.drmModeCreatePropertyBlob (s.clock + 1)], by simp [hm, hs, Sys.emit, Sys.tick],
        by simp [Event.from_driver]⟩
    · exact ⟨[], by simp [hm, hs, Sys.emit, Sys.tick], by simp⟩
    · exact ⟨[.drmModeDestroyPropertyBlob c.mode_id,
          .drmModeCreatePropertyBlob (s.clock + 1)], by simp [hm, hs, Sys.emit, Sys.tick],
        by simp [Event.from_driver]⟩
    · exact ⟨[.drmModeDestroyPropertyBlob c.mode_id], by simp [hm, hs, Sys.emit, Sys.tick],
        by simp [Event.from_driver]⟩

/-- An atomic commit appends at most its own request to the trace. -/
theorem atomic_commit_driver (env : Env) (s : Sys) (atom : atomic) (oi : Nat) (am : Bool) :
    ∃ l, (atomic_commit env s atom oi am).1.events = s.events ++ l ∧
      ∀ e ∈ l, e.from_driver = true := by
  unfold atomic_commit
  split
  · exact ⟨[], by simp, by simp⟩
  · exact ⟨[_], rfl, by simp [Event.from_driver]⟩

/-- A defined `crtc_pageflip` records itself and then appends only requests of the driver
interface to the kernel: nothing is rendered, swapped, locked or released by it. -/
theorem crtc_pageflip_driver (env : Env) (b : wlr_drm_backend) (oi ci fb : Nat)
    (mode : Option drmModeModeInfo) (r : wlr_drm_backend × Bool)
    (h : crtc_pageflip env b oi ci fb mode = some r) :
    ∃ l, r.1.sys.events = b.sys.events ++ [Event.crtc_pageflip oi ci fb mode] ++ l ∧
      ∀ e ∈ l, e.from_driver = true := by
  unfold crtc_pageflip at h
  cases hi : b.iface with
  | legacy_iface =>
    simp only [hi, legacy_crtc_pageflip, Option.bind_eq_bind, Option.bind_eq_some,
      Option.some.injEq] at h
    obtain ⟨output, _, c, _, h⟩ := h
    subst h
    cases mode with
    | none =>
      exact ⟨[.drmModePageFlip c.id fb oi (env.succeeds .drmModePageFlip b.sys.clock)],
        by simp [Sys.emit, Sys.tick],
        by simp [Event.from_driver]⟩
    | some m =>
      exact ⟨[.drmModeSetCrtc c.id fb 0 0 output.connector m,
          .drmModePageFlip c.id fb oi (env.succeeds .drmModePageFlip b.sys.clock)],
        by simp [Sys.emit, Sys.tick], by simp [Event.from_driver]⟩
  | atomic_iface =>
    simp only [hi, atomic_crtc_pageflip, Option.bind_eq_bind, Option.bind_eq_some] at h
    obtain ⟨output, _, c, _, h⟩ := h
    obtain ⟨l1, hl1, hd1⟩ := atomic_crtc_pageflip.blob_driver env
      (b.sys.emit (.crtc_pageflip oi ci fb mode)) c mode
    split at h
    · simp only [Option.some.injEq] at h
      subst h
      exact ⟨l1, by simpa [Sys.emit] using hl1, hd1⟩
    · simp only [Option.bind_eq_bind, Option.bind_eq_some, Option.some.injEq] at h
      obtain ⟨plane, _, h⟩ := h
      subst h
      obtain ⟨l2, hl2, hd2⟩ := atomic_commit_driver env
        (atomic_crtc_pageflip.request env
          (atomic_begin env (atomic_crtc_pageflip.blob env
            (b.sys.emit (.crtc_pageflip oi ci fb mode)) c mode).1
            (atomic_crtc_pageflip.blob env
              (b.sys.emit (.crtc_pageflip oi ci fb mode)) c mode).2.1).1
          (atomic_begin env (atomic_crtc_pageflip.blob env
            (b.sys.emit (.crtc_pageflip oi ci fb mode)) c mode).1
            (atomic_crtc_pageflip.blob env
              (b.sys.emit (.crtc_pageflip oi ci fb mode)) c mode).2.1).2.2 output
          (atomic_begin env (atomic_crtc_pageflip.blob env
            (b.sys.emit (.crtc_pageflip oi ci fb mode)) c mode).1
            (atomic_crtc_pageflip.blob env
              (b.sys.emit (.crtc_pageflip oi ci fb mode)) c mode).2.1).2.1 plane fb).1
        (atomic_crtc_pageflip.request env
          (atomic_begin env (atomic_crtc_pageflip.blob env
            (b.sys.emit (.crtc_pageflip oi ci fb mode)) c mode).1
            (atomic_crtc_pageflip.blob env
              (b.sys.emit (.crtc_pageflip oi ci fb mode)) c mode).2.1).1
          (atomic_begin env (atomic_crtc_pageflip.blob env
            (b.sys.emit (.crtc_pageflip oi ci fb mode)) c mode).1
            (atomic_crtc_pageflip.blob env
              (b.sys.emit (.crtc_pageflip oi ci fb mode)) c mode).2.1).2.2 output
          (atomic_begin env (atomic_crtc_pageflip.blob env
            (b.sys.emit (.crtc_pageflip oi ci fb mode)) c mode).1
            (atomic_crtc_pageflip.blob env
              (b.sys.emit (.crtc_pageflip oi ci fb mode)) c mode).2.1).2.1 plane fb).2
        oi mode.isSome
      refine ⟨l1 ++ l2, ?_, ?_⟩
      · show (atomic_commit env _ _ oi mode.isSome).1.events = _
        rw [hl2, atomic_crtc_pageflip.request_events, (atomic_begin_frame env _ _).1, hl1]
        simp [Sys.emit]
      · intro e he
        rcases List.mem_append.mp he with he | he
        · exact hd1 e he
        · exact hd2 e he

/-- C20 as stated fails. On `Ex.flipping` the primary plane has a back buffer (4) and no front
buffer, and `wlr_drm_output_start_renderer` still renders a black frame and swaps; on
`Ex.flipped` the plane has front buffer 4 and back buffer 6, and the page flip shows the front
buffer 4, not the back buffer, and carries the mode. -/
theorem start_renderer_renders_despite_back_buffer :
    (Ex.flipping.planes[0]?).map (fun p => (p.front, p.back)) = some (none, some 4) ∧
    (wlr_drm_output_start_renderer (Ex.env 1 Ex.match_keep Ex.all_succeed) Ex.flipping 0).map
        (fun b' => b'.sys.events)
      = some [Event.glClear 1920 1080, Event.eglSwapBuffers (some 3),
              Event.gbm_surface_lock_front_buffer 6,
              Event.crtc_pageflip 0 0 6 (some Ex.info),
              Event.drmModeSetCrtc 40 6 0 0 7 Ex.info, Event.drmModePageFlip 40 6 0 true] ∧
    (Ex.flipped.planes[0]?).map (fun p => (p.front, p.back)) = some (some 4, some 6) ∧
    (wlr_drm_output_start_renderer (Ex.env 1 Ex.match_keep Ex.all_succeed) Ex.flipped 0).map
        (fun b' => b'.sys.events)
      = some [Event.crtc_pageflip 0 0 4 (some Ex.info),
              Event.drmModeSetCrtc 40 4 0 0 7 Ex.info, Event.drmModePageFlip 40 4 0 true] := by
  decide

/-- C20, amended: on a Connected output with a current mode whose CRTC has a primary plane with
a buffer queue, `wlr_drm_output_start_renderer` is defined and decides on the plane's FRONT
buffer. With no front buffer it clears to black, swaps, locks a buffer `bo` and submits a page
flip of `bo`; with a front buffer `f` it submits a page flip of `f` and neither renders nor
swaps. In both cases the page flip carries the mode, and every later event is a request of the
driver interface to the kernel. -/
theorem start_renderer_tests_front (env : Env) (b : wlr_drm_backend) (oi ci g : Nat)
    (output : wlr_output_state) (c : wlr_drm_crtc) (plane : wlr_drm_plane)
    (mode : wlr_output_mode)
    (ho : b.outputs[oi]? = some output) (hci : output.crtc = some ci)
    (hc : b.crtcs[ci]? = some c) (hp : b.deref c.primary = some plane)
    (hg : plane.gbm = some g) (hs : output.state = WLR_DRM_OUTPUT_CONNECTED)
    (hm : output.base.current_mode = some mode) :
    ∃ b' bo post, wlr_drm_output_start_renderer env b oi = some b' ∧
      (∀ e ∈ post, e.from_driver = true) ∧
      (plane.front = none →
        b'.sys.events = b.sys.events ++
          [Event.glClear plane.width plane.height, Event.eglSwapBuffers plane.egl,
           Event.gbm_surface_lock_front_buffer bo,
           Event.crtc_pageflip oi ci (get_fb_for_bo bo) (some mode.state)] ++ post) ∧
      (∀ f, plane.front = some f →
        b'.sys.events = b.sys.events ++
          [Event.crtc_pageflip oi ci (get_fb_for_bo f) (some mode.state)] ++ post) := by
  cases hf : plane.front with
  | some fbo =>
    obtain ⟨r, _, hpf, _, hout2⟩ := crtc_pageflip_spec env b oi ci (get_fb_for_bo fbo)
      (some mode.state) output c plane ho hc hp
    obtain ⟨post, hev2, hdrv⟩ := crtc_pageflip_driver env b oi ci (get_fb_for_bo fbo)
      (some mode.state) r hpf
    obtain ⟨b', hset, hsys', _, _, _⟩ := wlr_drm_backend.set_pending_spec r.1 oi output
      (by rw [hout2]; exact ho) true
    refine ⟨b', fbo, post, ?_, hdrv, fun h => by simp at h, ?_⟩
    · unfold wlr_drm_output_start_renderer
      simp only [ho, hs, hci, hc, hp, hm, hf, wlr_drm_output_start_renderer.buffer, hpf,
        Option.bind_eq_bind, Option.some_bind, ne_eq, not_true_eq_false, if_false]
      exact hset
    · intro f hf2
      simp only [Option.some.injEq] at hf2
      subst hf2
      rw [hsys', hev2]
  | none =>
    obtain ⟨s2, p2, l2, bo2, h2, hev2', hback2, _, hl2⟩ := wlr_drm_plane_swap_buffers_spec
      (b.sys.emit (.glClear plane.width plane.height)) plane g hg
    obtain ⟨b1, c1, hon, hc1, hp1, hout1, hsys1, _⟩ :=
      wlr_drm_backend.on_plane_spec
        { b with sys := b.sys.emit (.glClear plane.width plane.height) } ci 1
        wlr_drm_plane_swap_buffers c plane p2 s2 hc hp h2
    have hp1' : b1.deref c1.primary = some p2 := hp1
    obtain ⟨r, _, hpf, _, hout2⟩ := crtc_pageflip_spec env b1 oi ci (get_fb_for_bo bo2)
      (some mode.state) output c1 p2 (by rw [hout1]; exact ho) hc1 hp1'
    obtain ⟨post, hev2, hdrv⟩ := crtc_pageflip_driver env b1 oi ci (get_fb_for_bo bo2)
      (some mode.state) r hpf
    obtain ⟨b', hset, hsys', _, _, _⟩ := wlr_drm_backend.set_pending_spec r.1 oi output
      (by rw [hout2, hout1]; exact ho) true
    refine ⟨b', bo2, post, ?_, hdrv, ?_, fun f h => by simp at h⟩
    · unfold wlr_drm_output_start_renderer
      simp only [ho, hs, hci, hc, hp, hm, hf, wlr_drm_output_start_renderer.buffer, hon, hc1,
        hp1', hback2, hpf, Option.bind_eq_bind, Option.some_bind, ne_eq, not_true_eq_false,
        if_false]
      exact hset
    · intro _
      rw [hsys', hev2, hsys1, hev2', hl2 hf]
      simp [Sys.emit]

/-- C20 amended, on the backend `Ex.flipped`, whose primary plane has front buffer 4. -/
theorem start_renderer_tests_front_witness :
    ∃ b' post,
      wlr_drm_output_start_renderer (Ex.env 1 Ex.match_keep Ex.all_succeed) Ex.flipped 0 =
        some b' ∧
      (∀ e ∈ post, e.from_driver = true) ∧
      b'.sys.events = Ex.flipped.sys.events ++
        [Event.crtc_pageflip 0 0 (get_fb_for_bo 4) (some Ex.mode.state)] ++ post := by
  obtain ⟨b', _, post, h1, h2, _, h4⟩ :=
    start_renderer_tests_front (Ex.env 1 Ex.match_keep Ex.all_succeed) Ex.flipped 0 0 2
      (Ex.flipped.outputs.get ⟨0, by decide⟩) (Ex.flipped.crtcs.get ⟨0, by decide⟩)
      (Ex.flipped.planes.get ⟨0, by decide⟩) Ex.mode rfl rfl rfl rfl rfl rfl rfl
  exact ⟨b', post, h1, h2, h4 4 rfl⟩

/-! ## Front and back buffer of a plane -/

/-- A buffer swap on a plane with a buffer queue is defined: the old back buffer becomes the
front buffer and the buffer just locked, named by the call counter, the back buffer. -/
theorem wlr_drm_plane_swap_buffers_plane (s : Sys) (plane : wlr_drm_plane) (g : Nat)
    (hg : plane.gbm = some g) :
    ∃ s', wlr_drm_plane_swap_buffers s plane =
        some (s', { plane with front := plane.back, back := some s.clock }) ∧
      s'.clock = s.clock + 1 := by
  cases hf : plane.front with
  | none =>
    exact ⟨((s.emit (.eglSwapBuffers plane.egl)).emit
        (.gbm_surface_lock_front_buffer s.clock)).tick,
      by simp [wlr_drm_plane_swap_buffers, release_if_locked, gbm_surface_lock_front_buffer,
        hg, hf, Sys.emit, Sys.tick], rfl⟩
  | some bo =>
    exact ⟨(((s.emit (.gbm_surface_release_buffer bo)).emit (.eglSwapBuffers plane.egl)).emit
        (.gbm_surface_lock_front_buffer s.clock)).tick,
      by simp [wlr_drm_plane_swap_buffers, release_if_locked, gbm_surface_release_buffer,
        gbm_surface_lock_front_buffer, hg, hf, Sys.emit, Sys.tick], rfl⟩

/-- The primary plane after `wlr_drm_output_start_renderer` on a Connected output: untouched
when it had a front buffer, swapped once when it had none. -/
theorem wlr_drm_output_start_renderer_plane (env : Env) (b : wlr_drm_backend) (oi ci g : Nat)
    (output : wlr_output_state) (c : wlr_drm_crtc) (plane : wlr_drm_plane)
    (mode : wlr_output_mode)
    (ho : b.outputs[oi]? = some output) (hci : output.crtc = some ci)
    (hc : b.crtcs[ci]? = some c) (hp : b.deref c.primary = some plane)
    (hg : plane.gbm = some g) (hs : output.state = WLR_DRM_OUTPUT_CONNECTED)
    (hm : output.base.current_mode = some mode) :
    ∃ b' c', wlr_drm_output_start_renderer env b oi = some b' ∧ b'.crtcs[ci]? = some c' ∧
      b'.deref c'.primary = some (match plane.front with
        | some _ => plane
        | none => { plane with front := plane.back, back := some b.sys.clock }) := by
  have hlt : ci < b.crtcs.length := (List.getElem?_eq_some.mp hc).1
  cases hf : plane.front with
  | some fbo =>
    obtain ⟨r, l2, c2, hpf, _, _, hout2, hpl2, hcr2, hsl2, _⟩ :=
      crtc_pageflip_frame env b oi ci (get_fb_for_bo fbo) (some mode.state) output c plane
        ho hc hp
    obtain ⟨b', hset, _, _, _, hcr3, hpl3⟩ :=
      wlr_drm_backend.set_pending_spec r.1 oi output (by rw [hout2]; exact ho) true
    have hprim2 : c2.primary = c.primary := congrArg (fun x => x.2.1) hsl2
    refine ⟨b', c2, ?_, ?_, ?_⟩
    · unfold wlr_drm_output_start_renderer
      simp only [ho, hs, hci, hc, hp, hm, hf, wlr_drm_output_start_renderer.buffer, hpf,
        Option.bind_eq_bind, Option.some_bind, ne_eq, not_true_eq_false, if_false]
      exact hset
    · rw [hcr3, hcr2, List.getElem?_set_self hlt]
    · rw [wlr_drm_backend.deref_congr b b' (by rw [hpl3, hpl2]), hprim2]
      exact hp
  | none =>
    obtain ⟨s2, h2, _⟩ := wlr_drm_plane_swap_buffers_plane
      (b.sys.emit (.glClear plane.width plane.height)) plane g hg
    obtain ⟨b1, c1, hon, hc1, hp1, hout1, _, _⟩ :=
      wlr_drm_backend.on_plane_spec
        { b with sys := b.sys.emit (.glClear plane.width plane.height) } ci 1
        wlr_drm_plane_swap_buffers c plane _ s2 hc hp h2
    have hp1' : b1.deref c1.primary =
        some { plane with front := plane.back, back := some b.sys.clock } := hp1
    obtain ⟨r, l2, c2, hpf, _, _, hout2, hpl2, hcr2, hsl2, _⟩ :=
      crtc_pageflip_frame env b1 oi ci (get_fb_for_bo b.sys.clock) (some mode.state) output c1 _
        (by rw [hout1]; exact ho) hc1 hp1'
    obtain ⟨b', hset, _, _, _, hcr3, hpl3⟩ :=
      wlr_drm_backend.set_pending_spec r.1 oi output (by rw [hout2, hout1]; exact ho) true
    have hlt1 : ci < b1.crtcs.length := (List.getElem?_eq_some.mp hc1).1
    have hprim2 : c2.primary = c1.primary := congrArg (fun x => x.2.1) hsl2
    refine ⟨b', c2, ?_, ?_, ?_⟩
    · unfold wlr_drm_output_start_renderer
      simp only [ho, hs, hci, hc, hp, hm, hf, wlr_drm_output_start_renderer.buffer, hon, hc1,
        hp1', hpf, Option.bind_eq_bind, Option.some_bind, ne_eq, not_true_eq_false,
        if_false]
      exact hset
    · rw [hcr3, hcr2, List.getElem?_set_self hlt1]
    · rw [wlr_drm_backend.deref_congr b1 b' (by rw [hpl3, hpl2]), hprim2]
      exact hp1'

/-- C21 as stated fails: after `page_flip_handler` on `Ex.flipped` the primary plane has no
front buffer and back buffer 6; after the first `wlr_drm_plane_swap_buffers` on a plane without
buffers, and after `wlr_drm_output_start_renderer` on such a plane, the front buffer is null
and the back buffer is not. -/
theorem front_null_back_held_after_flip :
    (page_flip_handler Ex.flipped 0).map
        (fun b' => b'.planes.map (fun p => (p.front, p.back))) = some [(none, some 6)] ∧
    (wlr_drm_plane_swap_buffers ⟨5, []⟩
        { Ex.primary 30 1 with width := 1920, height := 1080, gbm := some 2,
                               egl := some 3 }).map
        (fun r => (r.2.front, r.2.back)) = some (none, some 5) ∧
    (wlr_drm_output_start_renderer (Ex.env 1 Ex.match_keep Ex.all_succeed)
        { Ex.flipping with
          planes := [{ Ex.primary 30 1 with width := 1920, height := 1080, gbm := some 2,
                                            egl := some 3 }] } 0).map
        (fun b' => b'.planes.map (fun p => (p.front, p.back))) = some [(none, some 6)] := by
  decide

/-- C21, amended: on the primary plane of a Connected output, with a buffer queue and a back
buffer (if any) locked earlier, each plane operation is defined and leaves these buffers. After
`wlr_drm_plane_swap_buffers` the front buffer is the previous back buffer and the back buffer
is non-null and was locked after the front buffer; after `page_flip_handler` the front buffer
is null and the back buffer unchanged; after `wlr_drm_plane_renderer_free` both are null;
`wlr_drm_output_start_renderer` leaves a plane with a front buffer as it is and swaps once
otherwise. Buffers are named by the call counter at their lock, so an earlier lock is a smaller
name. -/
theorem plane_buffers_after_operations (env : Env) (b : wlr_drm_backend) (oi ci g : Nat)
    (output : wlr_output_state) (c : wlr_drm_crtc) (plane : wlr_drm_plane)
    (mode : wlr_output_mode)
    (ho : b.outputs[oi]? = some output) (hs : output.state = WLR_DRM_OUTPUT_CONNECTED)
    (hci : output.crtc = some ci) (hc : b.crtcs[ci]? = some c)
    (hp : b.deref c.primary = some plane) (hg : plane.gbm = some g)
    (hm : output.base.current_mode = some mode)
    (hb : ∀ bo, plane.back = some bo → bo < b.sys.clock) :
    (∃ s' p' bk, wlr_drm_plane_swap_buffers b.sys plane = some (s', p') ∧
      p'.front = plane.back ∧ p'.back = some bk ∧ (∀ f, p'.front = some f → f < bk) ∧
      bk < s'.clock) ∧
    (∃ b' c' p', page_flip_handler b oi = some b' ∧ b'.crtcs[ci]? = some c' ∧
      b'.deref c'.primary = some p' ∧ p'.front = none ∧ p'.back = plane.back) ∧
    (∃ s' p', wlr_drm_plane_renderer_free b.sys plane = some (s', p') ∧
      p'.front = none ∧ p'.back = none) ∧
    (∃ b' c' p', wlr_drm_output_start_renderer env b oi = some b' ∧
      b'.crtcs[ci]? = some c' ∧ b'.deref c'.primary = some p' ∧
      (plane.front ≠ none → p' = plane) ∧
      (plane.front = none → p'.front = plane.back ∧
        ∃ bk, p'.back = some bk ∧ ∀ f, p'.front = some f → f < bk)) := by
  have hsound : plane.sound := fun _ => by simp [hg]
  refine ⟨?_, ?_, ?_, ?_⟩
  · obtain ⟨s', h, hcl⟩ := wlr_drm_plane_swap_buffers_plane b.sys plane g hg
    exact ⟨s', _, b.sys.clock, h, rfl, rfl, fun f hf => hb f hf, by omega⟩
  · obtain ⟨b', c', h1, _, h3, h4, _⟩ := (page_flip_handler_spec b oi output ho).2 ci c plane
      hs hci hc hp (fun _ => by simp [hg])
    exact ⟨b', c', _, h1, h3, h4, rfl, rfl⟩
  · obtain ⟨s', _, h, _⟩ := wlr_drm_plane_renderer_free_spec b.sys plane hsound
    exact ⟨s', _, h, rfl, rfl⟩
  · obtain ⟨b', c', h1, h2, h3⟩ := wlr_drm_output_start_renderer_plane env b oi ci g output c
      plane mode ho hci hc hp hg hs hm
    refine ⟨b', c', _, h1, h2, h3, ?_, ?_⟩
    · intro hf
      cases hf2 : plane.front with
      | none => exact absurd hf2 hf
      | some _ => rfl
    · intro hf
      rw [hf]
      exact ⟨rfl, b.sys.clock, rfl, fun f hf => hb f hf⟩

/-- C21 amended, on the backend `Ex.flipped`, whose primary plane has front buffer 4 and back
buffer 6. -/
theorem plane_buffers_after_operations_witness :
    (∃ s' p' bk, wlr_drm_plane_swap_buffers Ex.flipped.sys
        (Ex.flipped.planes.get ⟨0, by decide⟩) = some (s', p') ∧
      p'.front = some 6 ∧ p'.back = some bk ∧ (∀ f, p'.front = some f → f < bk) ∧
      bk < s'.clock) ∧
    (∃ b' c' p', page_flip_handler Ex.flipped 0 = some b' ∧ b'.crtcs[0]? = some c' ∧
      b'.deref c'.primary = some p' ∧ p'.front = none ∧ p'.back = some 6) :=
  have h := plane_buffers_after_operations (Ex.env 1 Ex.match_keep Ex.all_succeed) Ex.flipped
    0 0 2 (Ex.flipped.outputs.get ⟨0, by decide⟩) (Ex.flipped.crtcs.get ⟨0, by decide⟩)
    (Ex.flipped.planes.get ⟨0, by decide⟩) Ex.mode rfl rfl rfl rfl rfl rfl rfl
    (by decide)
  ⟨h.1, h.2.1⟩

/-! ## Re-initialising a plane renderer -/

/-- With the plane's own width and height `wlr_drm_plane_renderer_init` returns true, calls
nothing and leaves the plane as it is. -/
theorem wlr_drm_plane_renderer_init_same (env : Env) (s : Sys) (plane : wlr_drm_plane) :
    wlr_drm_plane_renderer_init env s plane plane.width plane.height = (s, plane, true) := by
  simp [wlr_drm_plane_renderer_init]

/-- C22 fails in the code: `wlr_drm_plane_renderer_init` with a width or height other than the
plane's only creates. The trace gains at most a `gbm_surface_create` and a
`wlr_egl_create_surface`, so the old buffer queue and context surface are not destroyed and no
buffer is released; `front` and `back` keep the buffers of the old queue, while on success
`gbm` is the new queue. -/
theorem renderer_init_keeps_old_surfaces (env : Env) (s : Sys) (plane : wlr_drm_plane)
    (w h : Nat) (hd : ¬ (plane.width = w ∧ plane.height = h)) :
    ∃ l, (wlr_drm_plane_renderer_init env s plane w h).1.events = s.events ++ l ∧
      (∀ e ∈ l, (∃ q, e = Event.gbm_surface_create q w h) ∨
        (∃ q, e = Event.wlr_egl_create_surface q)) ∧
      (wlr_drm_plane_renderer_init env s plane w h).2.1.front = plane.front ∧
      (wlr_drm_plane_renderer_init env s plane w h).2.1.back = plane.back ∧
      ((wlr_drm_plane_renderer_init env s plane w h).2.2 = true →
        (wlr_drm_plane_renderer_init env s plane w h).2.1.gbm = some s.clock) := by
  unfold wlr_drm_plane_renderer_init
  rw [if_neg hd]
  by_cases h1 : env.succeeds .gbm_surface_create s.clock = true
  · by_cases h2 : env.succeeds .wlr_egl_create_surface (s.clock + 1) = true
    · refine ⟨[.gbm_surface_create s.clock w h, .wlr_egl_create_surface (s.clock + 1)], ?_, ?_,
        ?_, ?_, ?_⟩ <;> simp [h1, h2, Sys.emit, Sys.tick]
    · refine ⟨[.gbm_surface_create s.clock w h], ?_, ?_, ?_, ?_, ?_⟩ <;>
        simp [h1, h2, Sys.emit, Sys.tick]
  · refine ⟨[], ?_, ?_, ?_, ?_, ?_⟩ <;> simp [h1, Sys.emit, Sys.tick]

/-- C22 on a 1920x1080 plane with queue 2, surface 3 and back buffer 4, re-initialised to
1280x720. -/
theorem renderer_init_keeps_old_surfaces_witness :
    ∃ l, (wlr_drm_plane_renderer_init (Ex.env 1 Ex.match_keep Ex.all_succeed) ⟨6, []⟩
        { Ex.primary 30 1 with width := 1920, height := 1080, gbm := some 2, egl := some 3,
                               back := some 4 } 1280 720).1.events = [] ++ l ∧
      (∀ e ∈ l, (∃ q, e = Event.gbm_surface_create q 1280 720) ∨
        (∃ q, e = Event.wlr_egl_create_surface q)) ∧
      (wlr_drm_plane_renderer_init (Ex.env 1 Ex.match_keep Ex.all_succeed) ⟨6, []⟩
        { Ex.primary 30 1 with width := 1920, height := 1080, gbm := some 2, egl := some 3,
                               back := some 4 } 1280 720).2.1.front = none ∧
      (wlr_drm_plane_renderer_init (Ex.env 1 Ex.match_keep Ex.all_succeed) ⟨6, []⟩
        { Ex.primary 30 1 with width := 1920, height := 1080, gbm := some 2, egl := some 3,
                               back := some 4 } 1280 720).2.1.back = some 4 ∧
      ((wlr_drm_plane_renderer_init (Ex.env 1 Ex.match_keep Ex.all_succeed) ⟨6, []⟩
        { Ex.primary 30 1 with width := 1920, height := 1080, gbm := some 2, egl := some 3,
                               back := some 4 } 1280 720).2.2 = true →
        (wlr_drm_plane_renderer_init (Ex.env 1 Ex.match_keep Ex.all_succeed) ⟨6, []⟩
          { Ex.primary 30 1 with width := 1920, height := 1080, gbm := some 2, egl := some 3,
                                 back := some 4 } 1280 720).2.1.gbm = some 6) :=
  renderer_init_keeps_old_surfaces (Ex.env 1 Ex.match_keep Ex.all_succeed) ⟨6, []⟩
    { Ex.primary 30 1 with width := 1920, height := 1080, gbm := some 2, egl := some 3,
                           back := some 4 } 1280 720 (by decide)

/-- C23 fails in the code: when `wlr_drm_plane_renderer_init` with a new width or height fails,
the same call made again returns true without creating anything, and the plane has no buffer
queue or no context surface. The width and height are stored before the surfaces are created.
-/
theorem renderer_init_true_after_failure (env : Env) (s : Sys) (plane : wlr_drm_plane)
    (w h : Nat) (hd : ¬ (plane.width = w ∧ plane.height = h))
    (hfail : (wlr_drm_plane_renderer_init env s plane w h).2.2 = false) :
    wlr_drm_plane_renderer_init env (wlr_drm_plane_renderer_init env s plane w h).1
        (wlr_drm_plane_renderer_init env s plane w h).2.1 w h =
      ((wlr_drm_plane_renderer_init env s plane w h).1,
        (wlr_drm_plane_renderer_init env s plane w h).2.1, true) ∧
    ((wlr_drm_plane_renderer_init env s plane w h).2.1.gbm = none ∨
      (wlr_drm_plane_renderer_init env s plane w h).2.1.egl = none) := by
  have hw : (wlr_drm_plane_renderer_init env s plane w h).2.1.width = w ∧
      (wlr_drm_plane_renderer_init env s plane w h).2.1.height = h := by
    unfold wlr_drm_plane_renderer_init
    rw [if_neg hd]
    by_cases h1 : env.succeeds .gbm_surface_create s.clock = true
    · by_cases h2 : env.succeeds .wlr_egl_create_surface (s.clock + 1) = true
      · simp [h1, h2, Sys.emit, Sys.tick]
      · simp [h1, h2, Sys.emit, Sys.tick]
    · simp [h1]
  refine ⟨?_, ?_⟩
  · obtain ⟨x, hx⟩ : ∃ x, x = wlr_drm_plane_renderer_init env s plane w h := ⟨_, rfl⟩
    rw [← hx] at hw ⊢
    rw [← hw.1, ← hw.2]
    exact wlr_drm_plane_renderer_init_same env x.1 x.2.1
  · revert hfail
    unfold wlr_drm_plane_renderer_init
    rw [if_neg hd]
    by_cases h1 : env.succeeds .gbm_surface_create s.clock = true
    · by_cases h2 : env.succeeds .wlr_egl_create_surface (s.clock + 1) = true
      · simp [h1, h2, Sys.emit, Sys.tick]
      · simp [h1, h2, Sys.emit, Sys.tick]
    · simp [h1]

/-- C23 on a zeroed primary plane, with `gbm_surface_create` failing: the first call for
1920x1080 returns false, the second returns true and the plane has no buffer queue. -/
theorem renderer_init_true_after_failure_witness :
    (wlr_drm_plane_renderer_init (Ex.env 1 Ex.match_keep Ex.no_surface) ⟨0, []⟩
        (Ex.primary 30 1) 1920 1080).2.2 = false ∧
    wlr_drm_plane_renderer_init (Ex.env 1 Ex.match_keep Ex.no_surface) ⟨1, []⟩
        { Ex.primary 30 1 with width := 1920, height := 1080 } 1920 1080 =
      (⟨1, []⟩, { Ex.primary 30 1 with width := 1920, height := 1080 }, true) ∧
    (Ex.primary 30 1).gbm = none := by
  have h := renderer_init_true_after_failure (Ex.env 1 Ex.match_keep Ex.no_surface) ⟨0, []⟩
    (Ex.primary 30 1) 1920 1080 (by decide) (by decide)
  exact ⟨by decide, h.1, rfl⟩

/-! ## Cursor operations on a synthetic plane -/

/-- C24: for a CRTC whose cursor slot holds a plane with id 0, `atomic_crtc_set_cursor` and
`atomic_crtc_move_cursor` are the legacy functions on the same arguments. Both are defined,
leave every CRTC and with it the reusable request untouched, and append exactly one legacy
request to the trace, `drmModeSetCursor` or `drmModeMoveCursor`; no atomic commit is made. -/
theorem atomic_cursor_on_fake_plane_is_legacy (env : Env) (b : wlr_drm_backend) (ci : Nat)
    (c : wlr_drm_crtc) (plane : wlr_drm_plane) (bo : Option Nat) (x y : Int)
    (hc : b.crtcs[ci]? = some c) (hp : b.deref c.cursor = some plane) (hid : plane.id = 0) :
    atomic_crtc_set_cursor env b (some ci) bo = legacy_crtc_set_cursor env b (some ci) bo ∧
    atomic_crtc_move_cursor env b (some ci) x y =
      legacy_crtc_move_cursor env b (some ci) x y ∧
    (∃ r, atomic_crtc_set_cursor env b (some ci) bo = some r ∧ r.1.crtcs = b.crtcs ∧
      r.1.sys.events = b.sys.events ++
        [match bo with
          | none => Event.drmModeSetCursor c.id none 0 0
          | some bo => Event.drmModeSetCursor c.id (some bo) plane.width plane.height]) ∧
    (∃ r, atomic_crtc_move_cursor env b (some ci) x y = some r ∧ r.1.crtcs = b.crtcs ∧
      r.1.sys.events = b.sys.events ++ [Event.drmModeMoveCursor c.id x y]) := by
  have hnull : c.cursor ≠ .null := by
    intro h
    rw [h] at hp
    simp [wlr_drm_backend.deref] at hp
  have h1 : atomic_crtc_set_cursor env b (some ci) bo =
      legacy_crtc_set_cursor env b (some ci) bo := by
    simp only [atomic_crtc_set_cursor, hc, hp, hid, hnull, Option.bind_eq_bind,
      Option.some_bind, if_true, if_false]
  have h2 : atomic_crtc_move_cursor env b (some ci) x y =
      legacy_crtc_move_cursor env b (some ci) x y := by
    simp only [atomic_crtc_move_cursor, hc, hp, hid, Option.bind_eq_bind, Option.some_bind,
      if_true]
  refine ⟨h1, h2, ?_, ?_⟩
  · rw [h1]
    cases bo with
    | none =>
      refine ⟨({ b with sys := b.sys.emit (.drmModeSetCursor c.id none 0 0) }, true), ?_,
        rfl, rfl⟩
      simp only [legacy_crtc_set_cursor, hc, hnull, Option.bind_eq_bind, Option.some_bind,
        if_false]
    | some bo =>
      refine ⟨({ b with sys := (b.sys.emit
        (.drmModeSetCursor c.id (some bo) plane.width plane.height)).tick },
        env.succeeds .drmModeSetCursor b.sys.clock), ?_, rfl, rfl⟩
      simp only [legacy_crtc_set_cursor, hc, hp, hnull, Option.bind_eq_bind,
        Option.some_bind, if_false]
  · rw [h2]
    refine ⟨({ b with sys := (b.sys.emit (.drmModeMoveCursor c.id x y)).tick },
      env.succeeds .drmModeMoveCursor b.sys.clock), ?_, rfl, rfl⟩
    simp only [legacy_crtc_move_cursor, hc, Option.bind_eq_bind, Option.some_bind]

/-- C24 on the backend `Ex.atomic_fake_cursor`. -/
theorem atomic_cursor_on_fake_plane_is_legacy_witness :
    atomic_crtc_set_cursor (Ex.env 1 Ex.match_keep Ex.all_succeed) Ex.atomic_fake_cursor
        (some 0) (some 10) =
      legacy_crtc_set_cursor (Ex.env 1 Ex.match_keep Ex.all_succeed) Ex.atomic_fake_cursor
        (some 0) (some 10) ∧
    atomic_crtc_move_cursor (Ex.env 1 Ex.match_keep Ex.all_succeed) Ex.atomic_fake_cursor
        (some 0) 5 7 =
      legacy_crtc_move_cursor (Ex.env 1 Ex.match_keep Ex.all_succeed) Ex.atomic_fake_cursor
        (some 0) 5 7 ∧
    (∃ r, atomic_crtc_set_cursor (Ex.env 1 Ex.match_keep Ex.all_succeed)
        Ex.atomic_fake_cursor (some 0) (some 10) = some r ∧
      r.1.crtcs = Ex.atomic_fake_cursor.crtcs ∧
      r.1.sys.events = [Event.drmModeSetCursor 40 (some 10) 64 64]) ∧
    (∃ r, atomic_crtc_move_cursor (Ex.env 1 Ex.match_keep Ex.all_succeed)
        Ex.atomic_fake_cursor (some 0) 5 7 = some r ∧
      r.1.crtcs = Ex.atomic_fake_cursor.crtcs ∧
      r.1.sys.events = [Event.drmModeMoveCursor 40 5 7]) :=
  atomic_cursor_on_fake_plane_is_legacy (Ex.env 1 Ex.match_keep Ex.all_succeed)
    Ex.atomic_fake_cursor 0 (Ex.atomic_fake_cursor.crtcs.get ⟨0, by decide⟩)
    { wlr_drm_plane.zero with width := 64, height := 64, gbm := some 8, egl := some 9,
                              cursor_bo := some 10 }
    (some 10) 5 7 rfl rfl rfl

/-! ## Failed property adds and the reusable request -/

/-- C25 fails in the code: when `atomic_crtc_move_cursor` on a kernel cursor plane adds
`CRTC_X` and then fails to add `CRTC_Y`, it returns false without a test commit and without
rewinding the cursor. The `CRTC_X` property that the failed operation appended stays in the
request of the CRTC, behind the items that were there before. -/
theorem atomic_add_failure_leaves_property (env : Env) (b : wlr_drm_backend) (ci : Nat)
    (c : wlr_drm_crtc) (plane : wlr_drm_plane) (items : List (Nat × Nat × Nat)) (x y : Int)
    (hc : b.crtcs[ci]? = some c) (hp : b.deref c.cursor = some plane) (hid : plane.id ≠ 0)
    (hat : c.atomic = some items)
    (h1 : env.succeeds .drmModeAtomicAddProperty b.sys.clock = true)
    (h2 : env.succeeds .drmModeAtomicAddProperty (b.sys.clock + 1) = false) :
    ∃ b', atomic_crtc_move_cursor env b (some ci) x y = some (b', false) ∧
      (b'.crtcs[ci]?).map (fun c' => c'.atomic) =
        some (some (items ++
          [(plane.id, plane.props.crtc_x, (x % 18446744073709551616).toNat)])) ∧
      b'.sys.events = b.sys.events := by
  have hlt : ci < b.crtcs.length := (List.getElem?_eq_some.mp hc).1
  refine ⟨{ b with
    sys := b.sys.tick.tick,
    crtcs := b.crtcs.set ci { c with atomic := some (items ++
      [(plane.id, plane.props.crtc_x, (x % 18446744073709551616).toNat)]) } }, ?_, ?_, rfl⟩
  · simp [atomic_crtc_move_cursor, hc, hp, hid, atomic_begin, hat, atomic_add, h1, h2,
      atomic_end, wlr_drm_crtc.put_req, Sys.tick]
  · simp [hlt]

/-- C25 on the backend `Ex.atomic_cursor`, with the second property add failing. -/
theorem atomic_add_failure_leaves_property_witness :
    ∃ b', atomic_crtc_move_cursor (Ex.env 1 Ex.match_keep Ex.add_fails_at_9) Ex.atomic_cursor
        (some 0) 5 7 = some (b', false) ∧
      (b'.crtcs[0]?).map (fun c' => c'.atomic) = some (some ([] ++ [(31, 5, 5)])) ∧
      b'.sys.events = Ex.atomic_cursor.sys.events :=
  atomic_add_failure_leaves_property (Ex.env 1 Ex.match_keep Ex.add_fails_at_9)
    Ex.atomic_cursor 0 (Ex.atomic_cursor.crtcs.get ⟨0, by decide⟩)
    (Ex.atomic_cursor.planes.get ⟨1, by decide⟩) [] 5 7 rfl rfl (by decide) rfl rfl rfl

/-! ## The pending flag after a refused flip -/

/-- When the kernel refuses every atomic commit, a page flip through the atomic interface
reports failure and puts no flip in flight. -/
theorem crtc_pageflip_refused (env : Env) (b : wlr_drm_backend) (oi ci fb : Nat)
    (mode : Option drmModeModeInfo) (r : wlr_drm_backend × Bool)
    (hat : b.iface = .atomic_iface)
    (hrefuse : ∀ n, env.succeeds .drmModeAtomicCommit n = false)
    (h : crtc_pageflip env b oi ci fb mode = some r) :
    r.2 = false ∧ r.1.inflight = b.inflight := by
  unfold crtc_pageflip at h
  simp only [hat, atomic_crtc_pageflip, Option.bind_eq_bind, Option.bind_eq_some] at h
  obtain ⟨output, _, c, _, h⟩ := h
  split at h
  · simp only [Option.some.injEq] at h
    subst h
    exact ⟨rfl, rfl⟩
  · simp only [Option.bind_eq_bind, Option.bind_eq_some, Option.some.injEq] at h
    obtain ⟨plane, _, h⟩ := h
    subst h
    have hc : ∀ s atom am, (atomic_commit env s atom oi am).2.2 = false := by
      intro s atom am
      unfold atomic_commit
      split
      · rfl
      · exact hrefuse _
    simp only [hc, Bool.false_eq_true, if_false, and_self]

/-- A plane-renderer function run on a slot leaves the flips in flight alone. -/
theorem wlr_drm_backend.on_plane_inflight (b b' : wlr_drm_backend) (ci t : Nat)
    (f : Sys → wlr_drm_plane → Option (Sys × wlr_drm_plane))
    (h : b.on_plane ci t f = some b') : b'.inflight = b.inflight := by
  simp only [wlr_drm_backend.on_plane, wlr_drm_backend.store, Option.bind_eq_bind,
    Option.bind_eq_some] at h
  obtain ⟨c, hc, p, _, ⟨s', p'⟩, _, c2, hc2, h⟩ := h
  split at h
  · simp at h
  · split at h
    · simp only [Option.some.injEq] at h
      subst h
      rfl
    · simp at h
  · simp only [Option.some.injEq] at h
    subst h
    rfl

/-- Assigning to the fields of an output leaves the flips in flight alone. -/
theorem wlr_drm_backend.set_output_inflight (b b' : wlr_drm_backend) (oi : Nat)
    (f : wlr_output_state → wlr_output_state) (h : b.set_output oi f = some b') :
    b'.inflight = b.inflight := by
  simp only [wlr_drm_backend.set_output, Option.bind_eq_bind, Option.bind_eq_some,
    Option.some.injEq] at h
  obtain ⟨_, _, h⟩ := h
  subst h
  rfl

/-- With `pageflip_pending` set and no flip in flight the waiting loop of `restore_output`
never ends, whatever the number of rounds. -/
theorem restore_output.drain_stuck (b : wlr_drm_backend) (oi : Nat)
    (hp : (b.outputs[oi]?).map (fun o => o.pageflip_pending) = some true)
    (hi : b.inflight = []) : ∀ n, restore_output.drain oi n b = none := by
  intro n
  cases ho : b.outputs[oi]? with
  | none => simp [ho] at hp
  | some output =>
    have hpp : output.pageflip_pending = true := by simpa [ho] using hp
    cases n with
    | zero => simp [restore_output.drain, ho, hpp]
    | succ n => simp [restore_output.drain, ho, hpp, wlr_drm_event, hi]

/-- C26 fails in the code: the result of `crtc_pageflip` is ignored. Through the atomic
interface with a kernel that refuses the commit, `crtc_pageflip` reports failure and no flip is
in flight, and `wlr_drm_output_swap_buffers` still sets `pageflip_pending`; so does
`wlr_drm_output_start_renderer` on a Connected output whose plane has a front buffer. If no
flip was in flight before, the waiting loop of `restore_output` on the resulting state never
ends. -/
theorem pending_set_when_flip_refused (env : Env) (b : wlr_drm_backend) (oi ci g : Nat)
    (output : wlr_output_state) (c : wlr_drm_crtc) (plane : wlr_drm_plane)
    (ho : b.outputs[oi]? = some output) (hci : output.crtc = some ci)
    (hc : b.crtcs[ci]? = some c) (hp : b.deref c.primary = some plane)
    (hg : plane.gbm = some g) (hat : b.iface = .atomic_iface)
    (hrefuse : ∀ n, env.succeeds .drmModeAtomicCommit n = false) :
    (∃ b1 bo r b', b.on_plane ci 1 wlr_drm_plane_swap_buffers = some b1 ∧
      crtc_pageflip env b1 oi ci (get_fb_for_bo bo) none = some (r, false) ∧
      wlr_drm_output_swap_buffers env b oi = some b' ∧
      (b'.outputs[oi]?).map (fun o => o.pageflip_pending) = some true ∧
      b'.inflight = b.inflight ∧
      (b.inflight = [] → ∀ n, restore_output.drain oi n b' = none)) ∧
    (∀ mode, output.state = WLR_DRM_OUTPUT_CONNECTED → output.base.current_mode = some mode →
      plane.front ≠ none →
      ∃ bo r b', crtc_pageflip env b oi ci (get_fb_for_bo bo) (some mode.state) =
          some (r, false) ∧
        wlr_drm_output_start_renderer env b oi = some b' ∧
        (b'.outputs[oi]?).map (fun o => o.pageflip_pending) = some true ∧
        b'.inflight = b.inflight ∧
        (b.inflight = [] → ∀ n, restore_output.drain oi n b' = none)) := by
  have hoi : oi < b.outputs.length := (List.getElem?_eq_some.mp ho).1
  refine ⟨?_, ?_⟩
  · obtain ⟨s', p', l, bo, hsw, hev, hback, _⟩ :=
      wlr_drm_plane_swap_buffers_spec b.sys plane g hg
    obtain ⟨b1, c1, hon, hc1, hp1, hout1, hsys1, hif1⟩ :=
      wlr_drm_backend.on_plane_spec b ci 1 wlr_drm_plane_swap_buffers c plane p' s' hc hp hsw
    have hp1' : b1.deref c1.primary = some p' := hp1
    obtain ⟨r, post, hpf, hev2, hout2⟩ := crtc_pageflip_spec env b1 oi ci (get_fb_for_bo bo)
      none output c1 p' (by rw [hout1]; exact ho) hc1 hp1'
    obtain ⟨hr2, hinf⟩ := crtc_pageflip_refused env b1 oi ci (get_fb_for_bo bo) none r
      (by rw [hif1]; exact hat) hrefuse hpf
    obtain ⟨b', hset, hsys', hpend, houts, _⟩ := wlr_drm_backend.set_pending_spec r.1 oi
      output (by rw [hout2, hout1]; exact ho) true
    have hinf' : b'.inflight = b.inflight := by
      rw [wlr_drm_backend.set_output_inflight r.1 b' oi _ hset, hinf,
        wlr_drm_backend.on_plane_inflight b b1 ci 1 _ hon]
    have hr : r = (r.1, false) := Prod.ext rfl hr2
    refine ⟨b1, bo, r.1, b', hon, by rw [← hr]; exact hpf, ?_, hpend, hinf', ?_⟩
    · unfold wlr_drm_output_swap_buffers
      simp only [ho, hci, hon, hc1, hp1', hback, hpf, Option.bind_eq_bind, Option.some_bind]
      exact hset
    · intro hi
      exact restore_output.drain_stuck b' oi hpend (by rw [hinf', hi])
  · intro mode hs hm hf
    obtain ⟨fbo, hfbo⟩ := Option.ne_none_iff_exists'.mp hf
    obtain ⟨r, post, hpf, hev2, hout2⟩ := crtc_pageflip_spec env b oi ci (get_fb_for_bo fbo)
      (some mode.state) output c plane ho hc hp
    obtain ⟨hr2, hinf⟩ := crtc_pageflip_refused env b oi ci (get_fb_for_bo fbo)
      (some mode.state) r hat hrefuse hpf
    obtain ⟨b', hset, hsys', hpend, houts, _⟩ := wlr_drm_backend.set_pending_spec r.1 oi
      output (by rw [hout2]; exact ho) true
    have hinf' : b'.inflight = b.inflight := by
      rw [wlr_drm_backend.set_output_inflight r.1 b' oi _ hset, hinf]
    have hr : r = (r.1, false) := Prod.ext rfl hr2
    refine ⟨fbo, r.1, b', by rw [← hr]; exact hpf, ?_, hpend, hinf', ?_⟩
    · unfold wlr_drm_output_start_renderer
      simp only [ho, hs, hci, hc, hp, hm, hfbo, wlr_drm_output_start_renderer.buffer, hpf,
        Option.bind_eq_bind, Option.some_bind, ne_eq, not_true_eq_false, if_false]
      exact hset
    · intro hi
      exact restore_output.drain_stuck b' oi hpend (by rw [hinf', hi])

/-- C26 on the backend `Ex.atomic_idle` with a kernel that refuses every atomic commit: the
half on `wlr_drm_output_swap_buffers`. -/
theorem pending_set_when_flip_refused_witness :
    ∃ b1 bo r b',
      Ex.atomic_idle.on_plane 0 1 wlr_drm_plane_swap_buffers = some b1 ∧
      crtc_pageflip (Ex.env 1 Ex.match_keep Ex.no_commit) b1 0 0 (get_fb_for_bo bo) none =
        some (r, false) ∧
      wlr_drm_output_swap_buffers (Ex.env 1 Ex.match_keep Ex.no_commit) Ex.atomic_idle 0 =
        some b' ∧
      (b'.outputs[0]?).map (fun o => o.pageflip_pending) = some true ∧
      b'.inflight = Ex.atomic_idle.inflight ∧
      (Ex.atomic_idle.inflight = [] → ∀ n, restore_output.drain 0 n b' = none) :=
  (pending_set_when_flip_refused (Ex.env 1 Ex.match_keep Ex.no_commit) Ex.atomic_idle 0 0 2
    (Ex.atomic_idle.outputs.get ⟨0, by decide⟩) (Ex.atomic_idle.crtcs.get ⟨0, by decide⟩)
    (Ex.atomic_idle.planes.get ⟨0, by decide⟩) rfl rfl rfl rfl rfl rfl
    (fun _ => rfl)).1

/-! ## The current assignment of a synthetic plane -/

/-- The array `crtc` has no defined content once one of its entries has none. -/
theorem realloc_planes.current_all_none (b : wlr_drm_backend) (type : Nat)
    (crtc_in : Nat → Nat) (i : Nat) (h : realloc_planes.current b type crtc_in i = none) :
    ∀ l : List Nat, i ∈ l → realloc_planes.current_all b type crtc_in l = none := by
  intro l
  induction l with
  | nil => intro hi; simp at hi
  | cons j rest ih =>
    intro hi
    unfold realloc_planes.current_all
    rcases List.mem_cons.mp hi with hj | hj
    · subst hj
      simp [h]
    · cases realloc_planes.current b type crtc_in j with
      | none => rfl
      | some v => simp [ih hj]

/-- For a CRTC whose slot of the type is null or points into the planes of that type, the entry
of `crtc` is UNMATCHED, SKIP or an index below `num_type_planes[type]`. -/
theorem realloc_planes.current_in_range (b : wlr_drm_backend) (type : Nat)
    (crtc_in : Nat → Nat) (i v : Nat) (c : wlr_drm_crtc) (hc : b.crtcs[i]? = some c)
    (hk : ∀ g, c.planes type = .kernel g →
      b.type_planes type ≤ g ∧ g < b.type_planes type + b.num_type_planes type)
    (h : realloc_planes.current b type crtc_in i = some v) :
    v = UNMATCHED ∨ v = SKIP ∨ v < b.num_type_planes type := by
  simp only [realloc_planes.current, hc, Option.bind_eq_bind, Option.some_bind] at h
  split at h
  · simp only [Option.some.injEq] at h
    exact Or.inr (Or.inl h.symm)
  · split at h
    · simp only [Option.some.injEq] at h
      exact Or.inl h.symm
    · rename_i g hg
      simp only [Option.some.injEq] at h
      obtain ⟨h1, h2⟩ := hk g hg
      right; right
      subst h
      omega
    · simp at h

/-- C27 fails in the code: for a CRTC in use whose slot holds a synthetic plane,
`realloc_planes` computes `crtcs[i].planes[type] - type_planes[type]` between a `calloc` block
and the plane array. The difference of pointers into different objects has no defined value, so
the entry passed to `match_obj` is not bounded by anything, and the round of `realloc_planes`
for this type has no defined result. -/
theorem realloc_planes_fake_cursor_undefined (env : Env) (b : wlr_drm_backend)
    (crtc_in : Nat → Nat) (i type : Nat) (c : wlr_drm_crtc) (p : wlr_drm_plane)
    (hc : b.crtcs[i]? = some c) (hslot : c.planes type = .fake p)
    (hin : crtc_in i ≠ UNMATCHED) (hn : b.num_type_planes type ≠ 0) :
    realloc_planes.current b type crtc_in i = none ∧
    realloc_planes.type env crtc_in b type = none := by
  have h1 : realloc_planes.current b type crtc_in i = none := by
    simp only [realloc_planes.current, hc, hslot, hin, Option.bind_eq_bind, Option.some_bind,
      if_false]
  have hi : i ∈ List.range b.crtcs.length :=
    List.mem_range.mpr (List.getElem?_eq_some.mp hc).1
  refine ⟨h1, ?_⟩
  unfold realloc_planes.type
  rw [if_neg hn]
  split
  · rfl
  · simp [realloc_planes.current_all_none b type crtc_in i h1 _ hi]

/-- C27 on the backend `Ex.fake_beside_kernel`: one kernel cursor plane, and a synthetic cursor
plane in the slot of CRTC 1. -/
theorem realloc_planes_fake_cursor_undefined_witness :
    realloc_planes.current Ex.fake_beside_kernel 2 (fun i => i) 1 = none ∧
    realloc_planes.type (Ex.env 3 Ex.match_keep Ex.all_succeed) (fun i => i)
      Ex.fake_beside_kernel 2 = none :=
  realloc_planes_fake_cursor_undefined (Ex.env 3 Ex.match_keep Ex.all_succeed)
    Ex.fake_beside_kernel (fun i => i) 1 2 (Ex.fake_beside_kernel.crtcs.get ⟨1, by decide⟩)
    { wlr_drm_plane.zero with width := 64, height := 64, gbm := some 8, egl := some 9,
                              cursor_bo := some 10 } rfl rfl (by decide) (by decide)

/-! ## Moving the cursor without a cursor plane -/

/-- C28 fails in the code: on an output whose CRTC has a null cursor slot,
`wlr_drm_output_move_cursor` through the legacy interface is defined and asks the kernel to
move the cursor, while through the atomic interface `atomic_crtc_move_cursor` reads
`plane->id` of the null plane and has no defined result. -/
theorem move_cursor_without_cursor_plane (env : Env) (b : wlr_drm_backend) (oi ci : Nat)
    (output : wlr_output_state) (c : wlr_drm_crtc) (x y : Int)
    (ho : b.outputs[oi]? = some output) (hci : output.crtc = some ci)
    (hc : b.crtcs[ci]? = some c) (hnull : c.cursor = .null) :
    (b.iface = .legacy_iface →
      ∃ r, wlr_drm_output_move_cursor env b oi x y = some r ∧
        r.1.sys.events = b.sys.events ++ [Event.drmModeMoveCursor c.id x y]) ∧
    (b.iface = .atomic_iface → wlr_drm_output_move_cursor env b oi x y = none) := by
  refine ⟨?_, ?_⟩
  · intro hi
    refine ⟨({ b with sys := (b.sys.emit (.drmModeMoveCursor c.id x y)).tick },
      env.succeeds .drmModeMoveCursor b.sys.clock), ?_, rfl⟩
    simp only [wlr_drm_output_move_cursor, ho, hci, crtc_move_cursor, hi,
      legacy_crtc_move_cursor, hc, Option.bind_eq_bind, Option.some_bind]
  · intro hi
    simp only [wlr_drm_output_move_cursor, ho, hci, crtc_move_cursor, hi,
      atomic_crtc_move_cursor, hc, hnull, wlr_drm_backend.deref, Option.bind_eq_bind,
      Option.some_bind, Option.none_bind]

/-- C28 on the backend `Ex.atomic_flipped`, whose CRTC has no cursor plane. -/
theorem move_cursor_without_cursor_plane_witness :
    wlr_drm_output_move_cursor (Ex.env 1 Ex.match_keep Ex.all_succeed) Ex.atomic_flipped 0
      5 7 = none :=
  (move_cursor_without_cursor_plane (Ex.env 1 Ex.match_keep Ex.all_succeed) Ex.atomic_flipped
    0 0 (Ex.atomic_flipped.outputs.get ⟨0, by decide⟩)
    (Ex.atomic_flipped.crtcs.get ⟨0, by decide⟩) 5 7 rfl rfl rfl rfl).2 rfl

/-! ## What cleanup leaves and emits -/

/-- No event is a run of incidental events. -/
theorem Sys.incidental_from_refl (s : Sys) : s.incidental_from s :=
  ⟨[], by simp, by simp⟩

/-- Runs of incidental events compose. -/
theorem Sys.incidental_from_trans (s1 s2 s3 : Sys) (h12 : s1.incidental_from s2)
    (h23 : s2.incidental_from s3) : s1.incidental_from s3 := by
  obtain ⟨l1, h1, k1⟩ := h12
  obtain ⟨l2, h2, k2⟩ := h23
  refine ⟨l1 ++ l2, by rw [h2, h1, List.append_assoc], ?_⟩
  intro e he
  rcases List.mem_append.mp he with h | h
  · exact k1 e h
  · exact k2 e h

/-- One incidental event extends the trace by incidental events only. -/
theorem Sys.incidental_from_emit (s : Sys) (e : Event) (h : e.incidental = true) :
    s.incidental_from (s.emit e) :=
  ⟨[e], rfl, by simpa using h⟩

/-- Releasing a buffer appends at most the release. -/
theorem release_if_locked_incidental (s s' : Sys) (p : wlr_drm_plane) (bo : Option Nat)
    (h : release_if_locked s p bo = some s') : s.incidental_from s' := by
  cases bo with
  | none =>
    simp only [release_if_locked, Option.some.injEq] at h
    subst h
    exact Sys.incidental_from_refl s
  | some x =>
    simp only [release_if_locked, gbm_surface_release_buffer] at h
    split at h
    · simp at h
    · simp only [Option.some.injEq] at h
      subst h
      exact Sys.incidental_from_emit s _ rfl

/-- A run of incidental events followed by one more. -/
theorem Sys.incidental_from_snoc (s s1 : Sys) (e : Event) (h : s.incidental_from s1)
    (he : e.incidental = true) : s.incidental_from (s1.emit e) :=
  Sys.incidental_from_trans s s1 _ h (Sys.incidental_from_emit s1 e he)

/-- The destructor calls of `wlr_drm_plane_renderer_free` are incidental events. -/
theorem wlr_drm_plane_renderer_free.destroy_incidental (s : Sys) (p : wlr_drm_plane) :
    s.incidental_from (wlr_drm_plane_renderer_free.destroy s p) := by
  unfold wlr_drm_plane_renderer_free.destroy
  cases p.egl <;> cases p.gbm <;> cases p.cursor_bo <;>
    repeat (first
      | exact Sys.incidental_from_refl s
      | refine Sys.incidental_from_snoc s _ _ ?_ rfl)

/-- Whatever `wlr_drm_plane_renderer_free` appends to the trace is incidental. -/
theorem wlr_drm_plane_renderer_free_incidental (s : Sys) (p : wlr_drm_plane)
    (r : Sys × wlr_drm_plane) (h : wlr_drm_plane_renderer_free s p = some r) :
    s.incidental_from r.1 := by
  simp only [wlr_drm_plane_renderer_free, Option.bind_eq_bind, Option.bind_eq_some,
    Option.some.injEq] at h
  obtain ⟨s1, h1, s2, h2, h⟩ := h
  subst h
  exact Sys.incidental_from_trans _ _ _ (release_if_locked_incidental _ _ _ _ h1)
    (Sys.incidental_from_trans _ _ _ (release_if_locked_incidental _ _ _ _ h2)
      (wlr_drm_plane_renderer_free.destroy_incidental s2 p))

/-- The release statement of `page_flip_handler` appends at most a release. -/
theorem page_flip_handler.release_incidental (s : Sys) (p : wlr_drm_plane)
    (r : Sys × wlr_drm_plane) (h : page_flip_handler.release s p = some r) :
    s.incidental_from r.1 := by
  unfold page_flip_handler.release at h
  split at h
  · simp only [gbm_surface_release_buffer, Option.bind_eq_bind, Option.bind_eq_some,
      Option.some.injEq] at h
    obtain ⟨s1, h1, h⟩ := h
    subst h
    split at h1
    · simp at h1
    · simp only [Option.some.injEq] at h1
      subst h1
      exact Sys.incidental_from_emit s _ rfl
  · simp only [Option.some.injEq] at h
    subst h
    exact Sys.incidental_from_refl s

/-- Writing a plane back touches neither the trace nor the outputs. -/
theorem wlr_drm_backend.store_sys (b b' : wlr_drm_backend) (ci t : Nat) (p : wlr_drm_plane)
    (h : b.store ci t p = some b') : b'.sys = b.sys ∧ b'.outputs = b.outputs := by
  simp only [wlr_drm_backend.store, Option.bind_eq_bind, Option.bind_eq_some] at h
  obtain ⟨c, _, h⟩ := h
  split at h
  · simp at h
  · split at h
    · simp only [Option.some.injEq] at h
      subst h
      exact ⟨rfl, rfl⟩
    · simp at h
  · simp only [Option.some.injEq] at h
    subst h
    exact ⟨rfl, rfl⟩

/-- A plane-renderer function that appends incidental events only does so when run on a slot,
and leaves the outputs alone. -/
theorem wlr_drm_backend.on_plane_incidental (b b' : wlr_drm_backend) (ci t : Nat)
    (f : Sys → wlr_drm_plane → Option (Sys × wlr_drm_plane))
    (hf : ∀ s p r, f s p = some r → s.incidental_from r.1)
    (h : b.on_plane ci t f = some b') :
    b.sys.incidental_from b'.sys ∧ b'.outputs = b.outputs := by
  simp only [wlr_drm_backend.on_plane, Option.bind_eq_bind, Option.bind_eq_some] at h
  obtain ⟨c, _, p, _, ⟨s', p'⟩, h1, h2⟩ := h
  have h3 := wlr_drm_backend.store_sys _ _ _ _ _ h2
  have h4 := hf _ _ _ h1
  rw [h3.1]
  exact ⟨h4, h3.2⟩

/-- Freeing the plane of a slot appends incidental events only and leaves the outputs alone. -/
theorem wlr_drm_backend.free_slot_incidental (b b' : wlr_drm_backend) (ci t : Nat)
    (h : b.free_slot ci t = some b') :
    b.sys.incidental_from b'.sys ∧ b'.outputs = b.outputs := by
  simp only [wlr_drm_backend.free_slot, Option.bind_eq_bind, Option.bind_eq_some] at h
  obtain ⟨c, _, h⟩ := h
  split at h
  · simp only [Option.some.injEq] at h
    subst h
    exact ⟨Sys.incidental_from_refl _, rfl⟩
  · exact wlr_drm_backend.on_plane_incidental b b' ci t _
      wlr_drm_plane_renderer_free_incidental h

/-- One round of the plane loop of `wlr_drm_output_cleanup` appends incidental events only and
leaves the outputs alone. -/
theorem wlr_drm_output_cleanup.plane_incidental (b b' : wlr_drm_backend) (ci i : Nat)
    (h : wlr_drm_output_cleanup.plane b ci i = some b') :
    b.sys.incidental_from b'.sys ∧ b'.outputs = b.outputs := by
  simp only [wlr_drm_output_cleanup.plane, Option.bind_eq_bind, Option.bind_eq_some] at h
  obtain ⟨b1, h1, c, _, h⟩ := h
  have k := wlr_drm_backend.free_slot_incidental b b1 ci i h1
  split at h
  · simp only [Option.some.injEq] at h
    subst h
    exact k
  · simp only [Option.bind_eq_bind, Option.bind_eq_some] at h
    obtain ⟨p, _, h⟩ := h
    split at h
    · simp at h
    · simp only [Option.some.injEq] at h
      subst h
      exact k
  · split at h <;>
    · simp only [Option.some.injEq] at h
      subst h
      exact k

/-- Assigning to the fields of an output leaves the trace alone. -/
theorem wlr_drm_backend.set_output_sys (b b' : wlr_drm_backend) (oi : Nat)
    (f : wlr_output_state → wlr_output_state) (h : b.set_output oi f = some b') :
    b'.sys = b.sys := by
  simp only [wlr_drm_backend.set_output, Option.bind_eq_bind, Option.bind_eq_some,
    Option.some.injEq] at h
  obtain ⟨_, _, h⟩ := h
  subst h
  rfl

/-- Whatever `page_flip_handler` appends to the trace is incidental: a release and the signal
`frame`. -/
theorem page_flip_handler_incidental (b b' : wlr_drm_backend) (oi : Nat)
    (h : page_flip_handler b oi = some b') : b.sys.incidental_from b'.sys := by
  simp only [page_flip_handler, Option.bind_eq_bind, Option.bind_eq_some] at h
  obtain ⟨output, _, b1, h1, h⟩ := h
  have k1 := wlr_drm_backend.set_output_sys b b1 oi _ h1
  rw [← k1]
  split at h
  · simp only [Option.some.injEq] at h
    subst h
    exact Sys.incidental_from_refl _
  · simp only [Option.bind_eq_bind, Option.bind_eq_some] at h
    obtain ⟨ci, _, b2, h2, h⟩ := h
    have k2 := (wlr_drm_backend.on_plane_incidental b1 b2 ci 1 _
      page_flip_handler.release_incidental h2).1
    split at h
    · simp only [Option.some.injEq] at h
      subst h
      exact Sys.incidental_from_trans _ _ _ k2 (Sys.incidental_from_emit _ _ rfl)
    · simp only [Option.some.injEq] at h
      subst h
      exact k2

/-- Whatever the waiting loop of `restore_output` appends to the trace is incidental. -/
theorem restore_output.drain_incidental (oi : Nat) :
    ∀ (n : Nat) (b b' : wlr_drm_backend), restore_output.drain oi n b = some b' →
      b.sys.incidental_from b'.sys := by
  intro n
  induction n with
  | zero =>
    intro b b' h
    unfold restore_output.drain at h
    simp only [Option.bind_eq_bind, Option.bind_eq_some] at h
    obtain ⟨output, _, h⟩ := h
    split at h
    · simp only [Option.some.injEq] at h
      subst h
      exact Sys.incidental_from_refl _
    · simp at h
  | succ n ih =>
    intro b b' h
    unfold restore_output.drain at h
    simp only [Option.bind_eq_bind, Option.bind_eq_some] at h
    obtain ⟨output, _, h⟩ := h
    split at h
    · simp only [Option.some.injEq] at h
      subst h
      exact Sys.incidental_from_refl _
    · simp only [Option.bind_eq_some] at h
      obtain ⟨b1, h1, h2⟩ := h
      have k1 : b.sys.incidental_from b1.sys := by
        unfold wlr_drm_event at h1
        split at h1
        · simp at h1
        · rename_i k rest _
          exact page_flip_handler_incidental { b with inflight := rest } b1 k h1
      exact Sys.incidental_from_trans _ _ _ k1 (ih b1 b' h2)

/-- The restore step of `wlr_drm_output_cleanup` appends incidental events and then at most one
`drmModeSetCrtc`, and nothing when `restore` is false. -/
theorem wlr_drm_output_cleanup.restore_events (b b' : wlr_drm_backend) (oi : Nat)
    (restore : Bool) (h : wlr_drm_output_cleanup.restore b oi restore = some b') :
    ∃ l r, b'.sys.events = b.sys.events ++ l ++ r ∧ (∀ e ∈ l, e.incidental = true) ∧
      (r = [] ∨ ∃ e, r = [e] ∧ e.is_drmModeSetCrtc = true) ∧ (restore = false → r = []) := by
  unfold wlr_drm_output_cleanup.restore at h
  split at h
  · simp only [restore_output, Option.bind_eq_bind, Option.bind_eq_some] at h
    obtain ⟨b1, h1, output, _, h⟩ := h
    obtain ⟨l, hl, kl⟩ := restore_output.drain_incidental oi _ _ _ h1
    split at h
    · simp only [Option.some.injEq] at h
      subst h
      exact ⟨l, [], by simp [hl], kl, Or.inl rfl, fun _ => rfl⟩
    · rename_i crtc _
      simp only [Option.some.injEq] at h
      subst h
      exact ⟨l, [Event.drmModeSetCrtc crtc.crtc_id crtc.buffer_id crtc.x crtc.y
        output.connector crtc.mode], by simp [Sys.emit, hl], kl, Or.inr ⟨_, rfl, rfl⟩,
        fun k => by simp_all⟩
  · simp only [Option.some.injEq] at h
    subst h
    exact ⟨[], [], by simp, by simp, Or.inl rfl, fun _ => rfl⟩

/-- A run of incidental events holds neither an `output_remove` nor a `drmModeSetCrtc`. -/
theorem Event.filter_incidental (l : List Event) (h : ∀ e ∈ l, e.incidental = true) :
    l.filter Event.is_output_remove = [] ∧ l.filter Event.is_drmModeSetCrtc = [] := by
  refine ⟨List.filter_eq_nil_iff.mpr ?_, List.filter_eq_nil_iff.mpr ?_⟩ <;>
  · intro e he
    have k := h e he
    cases e <;> simp_all [Event.incidental, Event.is_output_remove, Event.is_drmModeSetCrtc]

/-- A `drmModeSetCrtc` is not an `output_remove`. -/
theorem Event.is_drmModeSetCrtc_not_remove (e : Event) (h : e.is_drmModeSetCrtc = true) :
    e.is_output_remove = false := by
  cases e <;> simp [Event.is_drmModeSetCrtc, Event.is_output_remove] at h ⊢

/-- The trace of a defined `wlr_drm_output_cleanup`: on a Disconnected output the state is
returned as it is; otherwise the trace grows by incidental events, among them at most one
`drmModeSetCrtc` (none when `restore` is false), and ends with `output_remove` for the output.
-/
theorem wlr_drm_output_cleanup_events (b b' : wlr_drm_backend) (oi : Nat) (restore : Bool)
    (output : wlr_output_state) (ho : b.outputs[oi]? = some output)
    (h : wlr_drm_output_cleanup b oi restore = some b') :
    (output.state = WLR_DRM_OUTPUT_DISCONNECTED → b' = b) ∧
    (output.state ≠ WLR_DRM_OUTPUT_DISCONNECTED →
      ∃ l1 r l2, b'.sys.events = b.sys.events ++ l1 ++ r ++ l2 ++ [Event.output_remove oi] ∧
        (∀ e ∈ l1, e.incidental = true) ∧ (∀ e ∈ l2, e.incidental = true) ∧
        (r = [] ∨ ∃ e, r = [e] ∧ e.is_drmModeSetCrtc = true) ∧ (restore = false → r = [])) := by
  unfold wlr_drm_output_cleanup at h
  simp only [ho, Option.bind_eq_bind, Option.some_bind] at h
  cases hs : output.state with
  | WLR_DRM_OUTPUT_DISCONNECTED =>
    simp only [hs, Option.some.injEq] at h
    exact ⟨fun _ => h.symm, fun k => absurd rfl k⟩
  | WLR_DRM_OUTPUT_NEEDS_MODESET =>
    simp only [hs, Option.bind_eq_some, Option.some.injEq] at h
    obtain ⟨b1, h1, b2, h2, h⟩ := h
    subst h
    refine ⟨fun k => by simp at k, fun _ => ?_⟩
    obtain ⟨l, r, hl, kl, kr, kf⟩ := wlr_drm_output_cleanup.restore_events b1 b2 oi restore h2
    refine ⟨l, r, [], ?_, kl, by simp, kr, kf⟩
    show (b2.sys.emit _).events = _
    rw [← wlr_drm_backend.set_output_sys b b1 oi _ h1]
    simp [Sys.emit, hl]
  | WLR_DRM_OUTPUT_CONNECTED =>
    simp only [hs, Option.bind_eq_some, Option.some.injEq] at h
    obtain ⟨b1, h1, b2, h2, ci, _, x0, h3, x1, h4, x2, h5, x3, h6, x4, h7, h⟩ := h
    subst h
    refine ⟨fun k => by simp at k, fun _ => ?_⟩
    obtain ⟨l, r, hl, kl, kr, kf⟩ := wlr_drm_output_cleanup.restore_events b1 b2 oi restore h2
    obtain ⟨l2, hl2, kl2⟩ := Sys.incidental_from_trans _ _ _
      (wlr_drm_output_cleanup.plane_incidental b2 x0 ci 0 h3).1
      (Sys.incidental_from_trans _ _ _
        (wlr_drm_output_cleanup.plane_incidental x0 x1 ci 1 h4).1
        (wlr_drm_output_cleanup.plane_incidental x1 x2 ci 2 h5).1)
    refine ⟨l, r, l2, ?_, kl, kl2, kr, kf⟩
    show (x4.sys.emit _).events = _
    rw [wlr_drm_backend.set_output_sys x3 x4 oi _ h7,
      wlr_drm_backend.set_output_sys x2 x3 oi _ h6,
      ← wlr_drm_backend.set_output_sys b b1 oi _ h1]
    simp [Sys.emit, hl2, hl]

/-! ## Planes held by two CRTCs -/

/-- The answer of `Ex.match_last` for the CRTCs in the run on `Ex.one_plane` meets the
conditions of the specification. -/
theorem Ex.match_last_ok_crtcs :
    MatchOK 2 [0, 2] 2 [UNMATCHED, UNMATCHED]
      (Ex.match_last 2 [0, 2] 2 [UNMATCHED, UNMATCHED]) := by
  refine ⟨?_, ?_, ?_⟩
  · intro j hj
    interval_cases j <;> decide
  · intro j hj
    interval_cases j <;> decide
  · intro i j hi hj
    interval_cases i <;> interval_cases j <;> decide

/-- The answer of `Ex.match_last` for the primary planes in the run on `Ex.one_plane` meets the
conditions of the specification. -/
theorem Ex.match_last_ok_planes :
    MatchOK 1 [3] 2 [SKIP, UNMATCHED] (Ex.match_last 1 [3] 2 [SKIP, UNMATCHED]) := by
  refine ⟨?_, ?_, ?_⟩
  · intro j hj
    interval_cases j <;> decide
  · intro j hj
    interval_cases j <;> decide
  · intro i j hi hj
    interval_cases i <;> interval_cases j <;> decide

/-- C29 as stated fails. On `Ex.one_plane`, output 0 is cleaned up (its connector is gone) and
output 1 is then given a mode: CRTC 0 is no longer in use, so its entry is SKIP, the matcher
gives the only primary plane to CRTC 1, and the cleanup has left the pointer to that plane in
the slot of CRTC 0. Both primary slots hold plane 0. Both answers of the matcher meet the
conditions of the specification. -/
theorem cleanup_leaves_plane_in_two_slots :
    ((wlr_drm_output_cleanup Ex.one_plane 0 false).bind
        (fun b1 => wlr_drm_output_set_mode (Ex.env 2 Ex.match_last Ex.all_succeed) b1 1
          Ex.mode)).map
      (fun r => (r.2, r.1.crtcs.map (fun c => c.primary),
        r.1.outputs.map (fun o => (o.state, o.crtc)))) =
      some (true, [.kernel 0, .kernel 0],
        [(WLR_DRM_OUTPUT_DISCONNECTED, none), (WLR_DRM_OUTPUT_CONNECTED, some 1)]) ∧
    MatchOK 2 [0, 2] 2 [UNMATCHED, UNMATCHED]
      (Ex.match_last 2 [0, 2] 2 [UNMATCHED, UNMATCHED]) ∧
    MatchOK 1 [3] 2 [SKIP, UNMATCHED] (Ex.match_last 1 [3] 2 [SKIP, UNMATCHED]) :=
  ⟨by decide, Ex.match_last_ok_crtcs, Ex.match_last_ok_planes⟩

/-- One round of the last loop of `realloc_planes`: with the entry UNMATCHED or SKIP nothing
changes, otherwise the slot holds the plane of the entry afterwards. -/
theorem realloc_planes.assign_slot (type : Nat) (res : Nat → Nat)
    (b b' : wlr_drm_backend) (i : Nat) (ht : type < 3)
    (h : realloc_planes.assign type res b i = some b') :
    ((res i = UNMATCHED ∨ res i = SKIP) → b' = b) ∧
    (res i ≠ UNMATCHED → res i ≠ SKIP →
      b'.slot i type = some (.kernel (b.type_planes type + res i))) := by
  unfold realloc_planes.assign at h
  split at h
  · rename_i hus
    simp only [Option.some.injEq] at h
    exact ⟨fun _ => h.symm, fun h1 h2 => by rcases hus with k | k <;> contradiction⟩
  · rename_i hus
    refine ⟨fun k => absurd k hus, fun _ _ => ?_⟩
    simp only [Option.bind_eq_bind, Option.bind_eq_some] at h
    obtain ⟨c, hc, h⟩ := h
    have hlt : i < b.crtcs.length := (List.getElem?_eq_some.mp hc).1
    split at h
    · simp only [Option.bind_eq_bind, Option.bind_eq_some, Option.some.injEq] at h
      obtain ⟨b1, h1, b2, h2, c2, hc2, h⟩ := h
      obtain ⟨c1, e1, _, _, _, n0, n1, _⟩ :=
        wlr_drm_backend.free_slot_spec b b1 i type c ht hc h1
      obtain ⟨e2, _, _, _, _, _⟩ := wlr_drm_backend.free_kernel_spec b1 b2 _ h2
      have htp : b1.type_planes type = b.type_planes type := by
        interval_cases type
        · rfl
        · exact n0
        · show b1.num_overlay_planes + b1.num_primary_planes = _
          rw [n0, n1]
          rfl
      have hlt2 : i < b2.crtcs.length := (List.getElem?_eq_some.mp hc2).1
      rw [← h]
      simp only [wlr_drm_backend.slot, List.getElem?_set_self hlt2, Option.map_some',
        wlr_drm_crtc.planes_set_plane, htp]
    · rename_i heq
      simp only [Option.some.injEq] at h
      subst h
      simp only [wlr_drm_backend.slot, hc, Option.map_some']
      exact congrArg some (not_not.mp heq)

/-- C29, amended: in the round of `realloc_planes` for one plane type, with an answer of
`match_obj` that meets the conditions of the specification, every CRTC that the answer gives a
plane holds that plane afterwards, the slot of a CRTC whose entry is UNMATCHED or SKIP is as
before, and no two CRTCs that the answer gives a plane hold the same plane. -/
theorem matched_crtcs_hold_distinct_planes (env : Env) (crtc_in : Nat → Nat)
    (b b' : wlr_drm_backend) (t : Nat) (cur : List Nat) (ht : t < 3)
    (hn : b.num_type_planes t ≠ 0)
    (hcur : realloc_planes.current_all b t crtc_in (List.range b.crtcs.length) = some cur)
    (hok : MatchOK (b.num_type_planes t) (realloc_planes.possible b t) b.crtcs.length cur
      (env.match_obj (b.num_type_planes t) (realloc_planes.possible b t) b.crtcs.length cur))
    (h : realloc_planes.type env crtc_in b t = some b') :
    (∀ i, i < b.crtcs.length →
      env.match_obj (b.num_type_planes t) (realloc_planes.possible b t) b.crtcs.length cur i
        ≠ UNMATCHED →
      env.match_obj (b.num_type_planes t) (realloc_planes.possible b t) b.crtcs.length cur i
        ≠ SKIP →
      b'.slot i t = some (.kernel (b.type_planes t +
        env.match_obj (b.num_type_planes t) (realloc_planes.possible b t) b.crtcs.length cur
          i))) ∧
    (∀ i, i < b.crtcs.length →
      (env.match_obj (b.num_type_planes t) (realloc_planes.possible b t) b.crtcs.length cur i
          = UNMATCHED ∨
        env.match_obj (b.num_type_planes t) (realloc_planes.possible b t) b.crtcs.length cur i
          = SKIP) →
      b'.slot i t = b.slot i t) ∧
    (∀ i j, i < b.crtcs.length → j < b.crtcs.length → i ≠ j →
      env.match_obj (b.num_type_planes t) (realloc_planes.possible b t) b.crtcs.length cur i
        ≠ UNMATCHED →
      env.match_obj (b.num_type_planes t) (realloc_planes.possible b t) b.crtcs.length cur i
        ≠ SKIP →
      env.match_obj (b.num_type_planes t) (realloc_planes.possible b t) b.crtcs.length cur j
        ≠ UNMATCHED →
      env.match_obj (b.num_type_planes t) (realloc_planes.possible b t) b.crtcs.length cur j
        ≠ SKIP →
      b'.slot i t ≠ b'.slot j t) := by
  obtain ⟨res, hres⟩ : ∃ res, res = env.match_obj (b.num_type_planes t)
    (realloc_planes.possible b t) b.crtcs.length cur := ⟨_, rfl⟩
  rw [← hres] at hok ⊢
  unfold realloc_planes.type at h
  rw [if_neg hn] at h
  split at h
  · cases h
  · simp only [hcur, Option.bind_eq_bind, Option.some_bind] at h
    rw [← hres] at h
    have htp : ∀ y : wlr_drm_backend, y.num_overlay_planes = b.num_overlay_planes →
        y.num_primary_planes = b.num_primary_planes → y.type_planes t = b.type_planes t := by
      intro y k0 k1
      interval_cases t
      · rfl
      · exact k0
      · show y.num_overlay_planes + y.num_primary_planes = _
        rw [k0, k1]
        rfl
    have hq := for_each_prefix
      (fun pre y =>
        y.num_overlay_planes = b.num_overlay_planes ∧
        y.num_primary_planes = b.num_primary_planes ∧
        (∀ i ∈ pre, res i ≠ UNMATCHED → res i ≠ SKIP →
          y.slot i t = some (.kernel (b.type_planes t + res i))) ∧
        (∀ i, (i ∉ pre ∨ res i = UNMATCHED ∨ res i = SKIP) → y.slot i t = b.slot i t))
      (realloc_planes.assign t res)
      (by
        intro pre i y y' hi ⟨k0, k1, ka, kb⟩ hstep
        obtain ⟨_, hoth, _, m0, m1, _⟩ := realloc_planes.assign_touches t res y y' i ht hstep
        obtain ⟨s1, s2⟩ := realloc_planes.assign_slot t res y y' i ht hstep
        refine ⟨m0.trans k0, m1.trans k1, ?_, ?_⟩
        · intro j hj hu hs
          rcases List.mem_append.mp hj with hj | hj
          · have hne : j ≠ i := fun e => hi (e ▸ hj)
            rw [hoth j t ht (Or.inl hne)]
            exact ka j hj hu hs
          · have hji : j = i := by simpa using hj
            subst hji
            rw [s2 hu hs, htp y k0 k1]
        · intro j hj
          by_cases hji : j = i
          · subst hji
            rcases hj with hj | hj
            · exact absurd (List.mem_append_right _ (List.mem_singleton_self _)) hj
            · rw [s1 hj]
              exact kb j (Or.inr hj)
          · rw [hoth j t ht (Or.inl hji)]
            refine kb j ?_
            rcases hj with hj | hj
            · exact Or.inl (fun hm => hj (List.mem_append_left _ hm))
            · exact Or.inr hj)
      (List.range b.crtcs.length) [] b b' (by simpa using List.nodup_range _)
      ⟨rfl, rfl, fun i hi => by simp at hi, fun _ _ => rfl⟩ h
    simp only [List.nil_append, List.mem_range] at hq
    obtain ⟨_, _, qa, qb⟩ := hq
    refine ⟨qa, fun i _ hi => qb i (Or.inr hi), ?_⟩
    intro i j hi hj hij hiu his hju hjs heq
    rw [qa i hi hiu his, qa j hj hju hjs] at heq
    have he : res i = res j := by
      have := Option.some.inj heq
      injection this with this
      omega
    exact hij (hok.2.2 i j hi hj he his hiu)

/-- The answer of `Ex.match_planes` for the primary planes of `Ex.two_planes` meets the
conditions of the specification. -/
theorem Ex.match_planes_ok :
    MatchOK 2 [3, 1] 2 [0, UNMATCHED] (Ex.match_planes 2 [3, 1] 2 [0, UNMATCHED]) := by
  refine ⟨?_, ?_, ?_⟩
  · intro j hj
    interval_cases j <;> decide
  · intro j hj
    interval_cases j <;> decide
  · intro i j hi hj
    interval_cases i <;> interval_cases j <;> decide

/-- C29 amended, on the backend `Ex.two_planes`: the primary planes are swapped between the two
CRTCs. -/
theorem matched_crtcs_hold_distinct_planes_witness :
    realloc_planes.type (Ex.env 2 Ex.match_planes Ex.all_succeed)
        (fun j => if j < 2 then j else UNMATCHED) Ex.two_planes 1 =
      some Ex.two_planes_after ∧
    Ex.two_planes_after.slot 0 1 = some (.kernel 1) ∧
    Ex.two_planes_after.slot 1 1 = some (.kernel 0) ∧
    Ex.two_planes_after.slot 0 1 ≠ Ex.two_planes_after.slot 1 1 :=
  have h := matched_crtcs_hold_distinct_planes (Ex.env 2 Ex.match_planes Ex.all_succeed)
    (fun j => if j < 2 then j else UNMATCHED) Ex.two_planes Ex.two_planes_after 1
    [0, UNMATCHED] (by decide) (by decide) (by decide) Ex.match_planes_ok (by decide)
  ⟨by decide, h.1 0 (by decide) (by decide) (by decide),
    h.1 1 (by decide) (by decide) (by decide),
    h.2.2 0 1 (by decide) (by decide) (by decide) (by decide) (by decide) (by decide)
      (by decide)⟩

/-! ## One cycle of the render loop, from any plane state -/

/-- The releases of an optional buffer are the only releases among themselves, and no lock is
among them. -/
theorem Event.filterMap_release (o : Option Nat) :
    (o.toList.map Event.gbm_surface_release_buffer).filterMap Event.released = o.toList ∧
    (o.toList.map Event.gbm_surface_release_buffer).filterMap Event.locked = [] := by
  cases o <;> simp [Event.released, Event.locked]

/-- A buffer swap on a plane with a buffer queue: the front buffer, if held, is released, the
surface is swapped and a buffer is locked; the old back buffer becomes the front buffer and the
new buffer the back buffer. -/
theorem wlr_drm_plane_swap_buffers_trace (s : Sys) (plane : wlr_drm_plane) (g : Nat)
    (hg : plane.gbm = some g) :
    ∃ s', wlr_drm_plane_swap_buffers s plane =
        some (s', { plane with front := plane.back, back := some s.clock }) ∧
      s'.events = s.events ++ plane.front.toList.map Event.gbm_surface_release_buffer ++
        [Event.eglSwapBuffers plane.egl, Event.gbm_surface_lock_front_buffer s.clock] := by
  cases hf : plane.front with
  | none =>
    exact ⟨((s.emit (.eglSwapBuffers plane.egl)).emit
        (.gbm_surface_lock_front_buffer s.clock)).tick,
      by simp [wlr_drm_plane_swap_buffers, release_if_locked, gbm_surface_lock_front_buffer,
        hg, hf, Sys.emit, Sys.tick], by simp [Sys.emit, Sys.tick]⟩
  | some bo =>
    exact ⟨(((s.emit (.gbm_surface_release_buffer bo)).emit (.eglSwapBuffers plane.egl)).emit
        (.gbm_surface_lock_front_buffer s.clock)).tick,
      by simp [wlr_drm_plane_swap_buffers, release_if_locked, gbm_surface_release_buffer,
        gbm_surface_lock_front_buffer, hg, hf, Sys.emit, Sys.tick],
      by simp [Sys.emit, Sys.tick]⟩

/-- The release statement of `page_flip_handler` on a plane with a buffer queue releases the
front buffer, if held, and nulls it. -/
theorem page_flip_handler.release_trace (s : Sys) (p : wlr_drm_plane) (g : Nat)
    (hg : p.gbm = some g) :
    ∃ s', page_flip_handler.release s p = some (s', { p with front := none }) ∧
      s'.events = s.events ++ p.front.toList.map Event.gbm_surface_release_buffer := by
  cases hf : p.front with
  | none =>
    refine ⟨s, ?_, by simp⟩
    simp only [page_flip_handler.release, hf]
    congr
    cases p
    simp_all
  | some bo =>
    refine ⟨s.emit (.gbm_surface_release_buffer bo), ?_, by simp [Sys.emit]⟩
    simp only [page_flip_handler.release, hf, gbm_surface_release_buffer, hg,
      Option.bind_eq_bind, Option.some_bind]

/-- C13 as stated fails. On `Ex.flipped` the output is Connected and its primary plane still
holds front buffer 4 beside back buffer 6 (the previous flip has not completed). The sequence
`wlr_drm_output_swap_buffers`, page flip, `page_flip_handler` releases two buffers, 4 in the
swap and 6 in the handler, locks buffer 8 and leaves 8 as the only buffer held. -/
theorem swap_buffers_flips_while_front_held :
    (Ex.flipped.planes[0]?).map (fun p => (p.front, p.back)) = some (some 4, some 6) ∧
    ((wlr_drm_output_swap_buffers (Ex.env 1 Ex.match_keep Ex.all_succeed) Ex.flipped 0).bind
        (fun b1 => page_flip_handler b1 0)).map
      (fun b2 => (b2.sys.events.filterMap Event.released,
        b2.sys.events.filterMap Event.locked,
        b2.planes.map (fun p => (p.front, p.back)))) =
      some ([4, 6], [8], [(none, some 8)]) := by
  decide

/-- C13, amended: for every Connected output whose primary plane has a buffer queue, the
sequence `wlr_drm_output_swap_buffers`, page-flip submission, `page_flip_handler` is defined.
It releases exactly the buffers the plane held before, the front buffer (in the swap) and then
the back buffer (in the handler), locks exactly one new buffer `bN`, submits the page flip of
`bN`, and leaves the plane with `bN` as back buffer and no front buffer. So exactly one buffer
is released exactly when the plane held one buffer before, as it does after a completed page
flip. -/
theorem swap_flip_release (env : Env) (b : wlr_drm_backend) (oi ci g : Nat)
    (output : wlr_output_state) (c : wlr_drm_crtc) (plane : wlr_drm_plane)
    (ho : b.outputs[oi]? = some output) (hs : output.state = WLR_DRM_OUTPUT_CONNECTED)
    (hci : output.crtc = some ci) (hc : b.crtcs[ci]? = some c)
    (hp : b.deref c.primary = some plane) (hg : plane.gbm = some g) :
    ∃ b1 b2 c2 bN l, wlr_drm_output_swap_buffers env b oi = some b1 ∧
      page_flip_handler b1 oi = some b2 ∧
      b2.sys.events = b.sys.events ++ l ∧
      Event.crtc_pageflip oi ci (get_fb_for_bo bN) none ∈ l ∧
      l.filterMap Event.released = plane.front.toList ++ plane.back.toList ∧
      l.filterMap Event.locked = [bN] ∧
      b2.crtcs[ci]? = some c2 ∧
      b2.deref c2.primary = some { plane with front := none, back := some bN } := by
  have hoi : oi < b.outputs.length := (List.getElem?_eq_some.mp ho).1
  -- the swap
  obtain ⟨s1, hsw, hev0⟩ := wlr_drm_plane_swap_buffers_trace b.sys plane g hg
  obtain ⟨x1, c1, hon1, hc1, hp1, hout1, hsys1, _⟩ :=
    wlr_drm_backend.on_plane_spec b ci 1 wlr_drm_plane_swap_buffers c plane _ _ hc hp hsw
  have hp1' : x1.deref c1.primary =
      some { plane with front := plane.back, back := some b.sys.clock } := hp1
  -- the page flip
  obtain ⟨r, l2, c2, hpf, hev2, hq2, hout2, hpl2, hcr2, hsl2, _⟩ :=
    crtc_pageflip_frame env x1 oi ci (get_fb_for_bo b.sys.clock) none output c1 _
      (by rw [hout1]; exact ho) hc1 hp1'
  obtain ⟨b1, hset, hsys3, _, hout3, hcr3, hpl3⟩ :=
    wlr_drm_backend.set_pending_spec r.1 oi output (by rw [hout2, hout1]; exact ho) true
  have hlt1 : ci < x1.crtcs.length := (List.getElem?_eq_some.mp hc1).1
  have hc3 : b1.crtcs[ci]? = some c2 := by rw [hcr3, hcr2, List.getElem?_set_self hlt1]
  have hprim2 : c2.primary = c1.primary := congrArg (fun x => x.2.1) hsl2
  have hp3 : b1.deref c2.primary =
      some { plane with front := plane.back, back := some b.sys.clock } := by
    rw [wlr_drm_backend.deref_congr x1 b1 (by rw [hpl3, hpl2]), hprim2]
    exact hp1'
  have ho3 : b1.outputs[oi]? = some { output with pageflip_pending := true } := by
    rw [hout3, hout2, hout1, List.getElem?_set_self hoi]
  -- the completion
  obtain ⟨s4, hrel, hev4⟩ := page_flip_handler.release_trace b1.sys
    { plane with front := plane.back, back := some b.sys.clock } g hg
  obtain ⟨x2, c3, hon2, hc4, hp4, _, hsys4, _⟩ :=
    wlr_drm_backend.on_plane_spec
      { b1 with
        outputs := b1.outputs.set oi { output with pageflip_pending := false } }
      ci 1 page_flip_handler.release c2 _ _ _ hc3 hp3 hrel
  have hh := page_flip_handler_connected b1 oi ci { output with pageflip_pending := true }
    ho3 hs hci
  have hev1 : b1.sys.events = b.sys.events ++
      plane.front.toList.map Event.gbm_surface_release_buffer ++
      [Event.eglSwapBuffers plane.egl, Event.gbm_surface_lock_front_buffer b.sys.clock] ++
      [Event.crtc_pageflip oi ci (get_fb_for_bo b.sys.clock) none] ++ l2 := by
    rw [hsys3, hev2, hsys1, hev0]
  have hfm := Event.filterMap_quiet l2 hq2
  have hfa := Event.filterMap_release plane.front
  have hfb := Event.filterMap_release plane.back
  have hx2 : x2.sys.events = b.sys.events ++
      (plane.front.toList.map Event.gbm_surface_release_buffer ++
      [Event.eglSwapBuffers plane.egl, Event.gbm_surface_lock_front_buffer b.sys.clock] ++
      [Event.crtc_pageflip oi ci (get_fb_for_bo b.sys.clock) none] ++ l2 ++
      plane.back.toList.map Event.gbm_surface_release_buffer) := by
    rw [hsys4, hev4]
    show b1.sys.events ++ _ = _
    rw [hev1]
    simp
  by_cases hsa : x2.session_active = true
  · refine ⟨b1, { x2 with sys := x2.sys.emit (.frame oi) }, c3, b.sys.clock,
      plane.front.toList.map Event.gbm_surface_release_buffer ++
      [Event.eglSwapBuffers plane.egl, Event.gbm_surface_lock_front_buffer b.sys.clock] ++
      [Event.crtc_pageflip oi ci (get_fb_for_bo b.sys.clock) none] ++ l2 ++
      plane.back.toList.map Event.gbm_surface_release_buffer ++ [Event.frame oi],
      ?_, ?_, ?_, ?_, ?_, ?_, hc4, hp4⟩
    · unfold wlr_drm_output_swap_buffers
      simp only [ho, hci, hon1, hc1, hp1', hpf, Option.bind_eq_bind, Option.some_bind]
      exact hset
    · rw [hh, hon2]
      simp only [Option.some_bind, hsa, if_true]
    · show (x2.sys.emit _).events = _
      simp [Sys.emit, hx2]
    · simp
    · simp [List.filterMap_append, hfm.1, hfa.1, hfb.1, Event.released]
    · simp [List.filterMap_append, hfm.2, hfa.2, hfb.2, Event.locked]
  · refine ⟨b1, x2, c3, b.sys.clock,
      plane.front.toList.map Event.gbm_surface_release_buffer ++
      [Event.eglSwapBuffers plane.egl, Event.gbm_surface_lock_front_buffer b.sys.clock] ++
      [Event.crtc_pageflip oi ci (get_fb_for_bo b.sys.clock) none] ++ l2 ++
      plane.back.toList.map Event.gbm_surface_release_buffer,
      ?_, ?_, hx2, ?_, ?_, ?_, hc4, hp4⟩
    · unfold wlr_drm_output_swap_buffers
      simp only [ho, hci, hon1, hc1, hp1', hpf, Option.bind_eq_bind, Option.some_bind]
      exact hset
    · rw [hh, hon2]
      simp only [Option.some_bind, hsa, if_false, Bool.false_eq_true]
    · simp
    · simp [List.filterMap_append, hfm.1, hfa.1, hfb.1, Event.released]
    · simp [List.filterMap_append, hfm.2, hfa.2, hfb.2, Event.locked]

/-- C13 amended, on the backend `Ex.flipping`, whose primary plane holds only the back buffer
4: one buffer is released. -/
theorem swap_flip_release_witness :
    ∃ b1 b2 c2 bN l,
      wlr_drm_output_swap_buffers (Ex.env 1 Ex.match_keep Ex.all_succeed) Ex.flipping 0 =
        some b1 ∧
      page_flip_handler b1 0 = some b2 ∧
      b2.sys.events = Ex.flipping.sys.events ++ l ∧
      Event.crtc_pageflip 0 0 (get_fb_for_bo bN) none ∈ l ∧
      l.filterMap Event.released = [4] ∧ l.filterMap Event.locked = [bN] ∧
      b2.crtcs[0]? = some c2 ∧
      b2.deref c2.primary =
        some { Ex.primary 30 1 with width := 1920, height := 1080, gbm := some 2,
                                    egl := some 3, front := none, back := some bN } :=
  swap_flip_release (Ex.env 1 Ex.match_keep Ex.all_succeed) Ex.flipping 0 0 2
    { Ex.connected 7 0 1 with pageflip_pending := true }
    { Ex.crtc 40 with primary := .kernel 0 }
    { Ex.primary 30 1 with width := 1920, height := 1080, gbm := some 2, egl := some 3,
                           back := some 4 }
    rfl rfl rfl rfl rfl rfl

/-! ## Destruction without a restore -/

/-- C12 as stated fails, in two ways the code provides for.  Output 0 of `Ex.flipping` is
Connected and has no saved CRTC (the connector had no encoder when it was first seen):
destroying it waits for the flip and issues no `drmModeSetCrtc`.  Output 0 of
`Ex.flipping_saved` is Connected and has the saved CRTC `Ex.saved`; a scan that finds its
connector unplugged cleans it up without restoring, and destroying the output afterwards finds
it Disconnected and does nothing: no `drmModeSetCrtc` is issued at all, and the saved CRTC is
still held. -/
theorem destroy_without_restore :
    (Ex.flipping.outputs.map (fun o => (o.state, o.old_crtc)) =
      [(WLR_DRM_OUTPUT_CONNECTED, none)] ∧
    (wlr_drm_output_destroy Ex.flipping 0).map
        (fun b' => (b'.sys.events.filter Event.is_drmModeSetCrtc,
          b'.outputs.map (fun o => o.state))) =
      some ([], [WLR_DRM_OUTPUT_DISCONNECTED])) ∧
    (Ex.flipping_saved.outputs.map (fun o => (o.state, o.old_crtc)) =
      [(WLR_DRM_OUTPUT_CONNECTED, some Ex.saved)] ∧
    ((wlr_drm_scan_connectors Ex.unplugged Ex.flipping_saved).bind
        (fun b1 => wlr_drm_output_destroy b1 0)).map
        (fun b' => (b'.sys.events.filter Event.is_drmModeSetCrtc,
          b'.outputs.map (fun o => (o.state, o.old_crtc)))) =
      some ([], [(WLR_DRM_OUTPUT_DISCONNECTED, some Ex.saved)])) := by
  decide

/-! ## Cleanup while a flip is lost -/

/-- On a well-formed backend the restore step of `wlr_drm_output_cleanup` is defined when
`restore` is false, and when the flips in flight belong to outputs and one of them to this
output whenever its `pageflip_pending` is set; the output keeps all fields but
`pageflip_pending`. -/
theorem wlr_drm_output_cleanup.restore_defined (b0 : wlr_drm_backend) (oi : Nat)
    (restore : Bool) (o0 : wlr_output_state) (hwf : b0.wf) (ho : b0.outputs[oi]? = some o0)
    (hfl : restore = true → ∀ k ∈ b0.inflight, k < b0.outputs.length)
    (hpend : restore = true → o0.pageflip_pending = true → oi ∈ b0.inflight) :
    ∃ b2 o2, wlr_drm_output_cleanup.restore b0 oi restore = some b2 ∧ b2.wf ∧
      b2.crtcs.length = b0.crtcs.length ∧ b2.outputs[oi]? = some o2 ∧
      ({ o2 with pageflip_pending := false } : wlr_output_state) =
        { o0 with pageflip_pending := false } := by
  have hoi : oi < b0.outputs.length := (List.getElem?_eq_some.mp ho).1
  cases restore with
  | false => exact ⟨b0, o0, rfl, hwf, rfl, ho, rfl⟩
  | true =>
    obtain ⟨b1, l1, hd, hwf1, hlen1, hpf1, hmap1, _, _⟩ :=
      restore_output.drain_spec oi b0.inflight.length b0 hwf (Nat.le_refl _) (hfl rfl) hoi
        (by
          intro hp
          refine hpend rfl ?_
          rw [ho] at hp
          simpa using hp)
    have hl1 : b1.outputs.length = b0.outputs.length := by
      have := congrArg List.length hmap1
      simpa using this
    have ho1 : b1.outputs[oi]? = some b1.outputs[oi] :=
      List.getElem?_eq_getElem (by rw [hl1]; exact hoi)
    have heq : ({ b1.outputs[oi] with pageflip_pending := false } : wlr_output_state) =
        { o0 with pageflip_pending := false } := by
      have := congrArg (fun l => l[oi]?) hmap1
      simp only [List.getElem?_map, ho1, ho, Option.map_some] at this
      exact Option.some.inj this
    cases hold : b1.outputs[oi].old_crtc with
    | none =>
      refine ⟨b1, b1.outputs[oi], ?_, hwf1, hlen1, ho1, heq⟩
      unfold wlr_drm_output_cleanup.restore restore_output
      rw [if_pos rfl]
      show (restore_output.drain oi b0.inflight.length _).bind _ = _
      rw [hd]
      simp only [Option.bind_eq_bind, Option.some_bind, ho1, hold]
    | some crtc =>
      obtain ⟨ev, hev0⟩ : ∃ ev, ev = Event.drmModeSetCrtc crtc.crtc_id crtc.buffer_id crtc.x
        crtc.y b1.outputs[oi].connector crtc.mode := ⟨_, rfl⟩
      refine ⟨{ b1 with sys := b1.sys.emit ev }, b1.outputs[oi], ?_,
        wlr_drm_backend.wf_congr b1 _ rfl rfl rfl hwf1, hlen1, ho1, heq⟩
      unfold wlr_drm_output_cleanup.restore restore_output
      rw [if_pos rfl]
      show (restore_output.drain oi b0.inflight.length _).bind _ = _
      rw [hd]
      simp only [Option.bind_eq_bind, Option.some_bind, ho1, hold, hev0]

/-- On a well-formed backend `wlr_drm_output_cleanup` is defined under the same condition on
the flips in flight; it leaves the output Disconnected, and without CRTC and with
`possible_crtc` 0 when it was Connected. -/
theorem wlr_drm_output_cleanup_defined (b : wlr_drm_backend) (oi : Nat) (restore : Bool)
    (output : wlr_output_state) (hwf : b.wf) (ho : b.outputs[oi]? = some output)
    (hfl : restore = true → ∀ k ∈ b.inflight, k < b.outputs.length)
    (hpend : restore = true → output.pageflip_pending = true → oi ∈ b.inflight) :
    ∃ b' o', wlr_drm_output_cleanup b oi restore = some b' ∧ b'.outputs[oi]? = some o' ∧
      o'.state = WLR_DRM_OUTPUT_DISCONNECTED ∧
      (output.state = WLR_DRM_OUTPUT_CONNECTED → o'.crtc = none ∧ o'.possible_crtc = 0) := by
  have hoi : oi < b.outputs.length := (List.getElem?_eq_some.mp ho).1
  cases hs : output.state with
  | WLR_DRM_OUTPUT_DISCONNECTED =>
    refine ⟨b, output, ?_, ho, hs, fun k => by simp at k⟩
    unfold wlr_drm_output_cleanup
    simp only [ho, hs, Option.bind_eq_bind, Option.some_bind]
  | WLR_DRM_OUTPUT_NEEDS_MODESET =>
    obtain ⟨b0, hb0⟩ : ∃ b0 : wlr_drm_backend, b0 = { b with
      outputs := b.outputs.set oi { output with state := WLR_DRM_OUTPUT_DISCONNECTED } } :=
      ⟨_, rfl⟩
    have ho0 : b0.outputs[oi]? = some { output with state := WLR_DRM_OUTPUT_DISCONNECTED } := by
      rw [hb0]
      exact List.getElem?_set_self hoi
    have hwf0 : b0.wf := by
      rw [hb0]
      exact wlr_drm_backend.wf_set_output b _ oi output
        { output with state := WLR_DRM_OUTPUT_DISCONNECTED } hwf ho rfl rfl rfl
        (fun h => by simp at h)
    obtain ⟨b2, o2, hr, _, _, ho2, heq⟩ := wlr_drm_output_cleanup.restore_defined b0 oi restore
      _ hwf0 ho0
      (by
        intro hre k hk
        rw [hb0] at hk ⊢
        show k < (b.outputs.set oi _).length
        rw [List.length_set]
        exact hfl hre k hk)
      (by
        intro hre hp
        rw [hb0]
        exact hpend hre hp)
    refine ⟨{ b2 with sys := b2.sys.emit (.output_remove oi) }, o2, ?_, ho2, ?_,
      fun k => by simp at k⟩
    · unfold wlr_drm_output_cleanup
      simp only [ho, hs, wlr_drm_backend.set_output, Option.bind_eq_bind, Option.some_bind]
      rw [← hb0, hr]
      simp only [Option.some_bind]
    · exact congrArg (fun o => o.state) heq
  | WLR_DRM_OUTPUT_CONNECTED =>
    obtain ⟨ci, c, hci, hc, _⟩ := hwf.2.2 output (List.getElem?_mem ho) hs
    obtain ⟨b0, hb0⟩ : ∃ b0 : wlr_drm_backend, b0 = { b with
      outputs := b.outputs.set oi { output with state := WLR_DRM_OUTPUT_DISCONNECTED } } :=
      ⟨_, rfl⟩
    have ho0 : b0.outputs[oi]? = some { output with state := WLR_DRM_OUTPUT_DISCONNECTED } := by
      rw [hb0]
      exact List.getElem?_set_self hoi
    have hwf0 : b0.wf := by
      rw [hb0]
      exact wlr_drm_backend.wf_set_output b _ oi output
        { output with state := WLR_DRM_OUTPUT_DISCONNECTED } hwf ho rfl rfl rfl
        (fun h => by simp at h)
    obtain ⟨b2, o2, hr, hwf2, hlen2, ho2, heq⟩ :=
      wlr_drm_output_cleanup.restore_defined b0 oi restore _ hwf0 ho0
      (by
        intro hre k hk
        rw [hb0] at hk ⊢
        show k < (b.outputs.set oi _).length
        rw [List.length_set]
        exact hfl hre k hk)
      (by
        intro hre hp
        rw [hb0]
        exact hpend hre hp)
    have hok : b2.crtc_ok ci := by
      have hlt : ci < b2.crtcs.length := by
        rw [hlen2, hb0]
        exact (List.getElem?_eq_some.mp hc).1
      exact wlr_drm_backend.crtc_ok_of_wf _ ci b2.crtcs[ci] hwf2 (List.getElem?_eq_getElem hlt)
    rw [hb0] at hr
    obtain ⟨b', _, hcl, _, _, _, hout⟩ :=
      wlr_drm_output_cleanup_connected b b2 oi ci restore output o2 ho hs hci hr hok ho2
    have hlt2 : oi < b2.outputs.length := (List.getElem?_eq_some.mp ho2).1
    refine ⟨b', _, hcl, by rw [hout]; exact List.getElem?_set_self hlt2, rfl,
      fun _ => ⟨rfl, rfl⟩⟩

/-- What `wlr_drm_output_cleanup` does when it returns, on a well-formed backend; with `restore`
true it is assumed that the flips in flight belong to outputs and that one of them belongs to
this output whenever its `pageflip_pending` is set.  The call is defined and leaves the output
Disconnected. From Disconnected it returns the state unchanged; from Connected or NeedsModeset
the events it appends hold exactly one `output_remove`, for this output; from Connected the
output ends with `crtc` null and `possible_crtc` 0. At most one `drmModeSetCrtc` is issued (the
restore runs at most once), none when `restore` is false, and a second cleanup of the result
changes nothing. -/
theorem wlr_drm_output_cleanup_disconnects (b : wlr_drm_backend) (oi : Nat) (restore : Bool)
    (output : wlr_output_state) (hwf : b.wf) (ho : b.outputs[oi]? = some output)
    (hfl : restore = true → ∀ k ∈ b.inflight, k < b.outputs.length)
    (hpend : restore = true → output.pageflip_pending = true → oi ∈ b.inflight) :
    ∃ b' o' l, wlr_drm_output_cleanup b oi restore = some b' ∧
      b'.outputs[oi]? = some o' ∧ o'.state = WLR_DRM_OUTPUT_DISCONNECTED ∧
      b'.sys.events = b.sys.events ++ l ∧
      (output.state = WLR_DRM_OUTPUT_DISCONNECTED → b' = b) ∧
      (output.state ≠ WLR_DRM_OUTPUT_DISCONNECTED →
        l.filter Event.is_output_remove = [Event.output_remove oi]) ∧
      (output.state = WLR_DRM_OUTPUT_CONNECTED → o'.crtc = none ∧ o'.possible_crtc = 0) ∧
      (l.filter Event.is_drmModeSetCrtc).length ≤ 1 ∧
      (restore = false → l.filter Event.is_drmModeSetCrtc = []) ∧
      wlr_drm_output_cleanup b' oi restore = some b' := by
  obtain ⟨b', o', hcl, ho', hs', hcr⟩ :=
    wlr_drm_output_cleanup_defined b oi restore output hwf ho hfl hpend
  obtain ⟨hd, hn⟩ := wlr_drm_output_cleanup_events b b' oi restore output ho hcl
  have hagain : wlr_drm_output_cleanup b' oi restore = some b' := by
    unfold wlr_drm_output_cleanup
    simp only [ho', hs', Option.bind_eq_bind, Option.some_bind]
  by_cases hs : output.state = WLR_DRM_OUTPUT_DISCONNECTED
  · refine ⟨b', o', [], hcl, ho', hs', by rw [hd hs]; simp, hd, fun k => absurd hs k, hcr,
      by simp, fun _ => rfl, hagain⟩
  · obtain ⟨l1, r, l2, hev, k1, k2, kr, kf⟩ := hn hs
    have f1 := Event.filter_incidental l1 k1
    have f2 := Event.filter_incidental l2 k2
    refine ⟨b', o', l1 ++ r ++ l2 ++ [Event.output_remove oi], hcl, ho', hs',
      by rw [hev]; simp, hd, fun _ => ?_, hcr, ?_, ?_, hagain⟩
    · rcases kr with kr | ⟨e, kr, ke⟩
      · subst kr
        simp [List.filter_append, f1.1, f2.1, Event.is_output_remove]
      · subst kr
        have : e.is_output_remove = false := Event.is_drmModeSetCrtc_not_remove e ke
        rw [List.filter_append, List.filter_append, List.filter_append, f1.1, f2.1]
        have hx : (Event.output_remove oi).is_output_remove = true := rfl
        simp [List.filter_cons, this, hx]
    · rcases kr with kr | ⟨e, kr, ke⟩
      · subst kr
        simp [List.filter_append, f1.2, f2.2, Event.is_drmModeSetCrtc]
      · subst kr
        rw [List.filter_append, List.filter_append, List.filter_append, f1.2, f2.2]
        have hx : (Event.output_remove oi).is_drmModeSetCrtc = false := rfl
        simp [List.filter_cons, ke, hx]
    · intro hre
      rw [kf hre]
      simp [List.filter_append, f1.2, f2.2, Event.is_drmModeSetCrtc]

/-- C30 fails in the code: `wlr_drm_output_cleanup` with `restore` true on an output that is
Connected or NeedsModeset, whose `pageflip_pending` is set while no page flip is in flight,
sets the state and then waits in `restore_output` for a page-flip event that cannot come. The
call has no result: the waiting loop has no terminating run for any number of rounds, because
`wlr_drm_event` has no event to deliver; `output_remove` is not emitted and no plane is freed.
-/
theorem cleanup_waits_for_lost_flip (b : wlr_drm_backend) (oi : Nat)
    (output : wlr_output_state) (ho : b.outputs[oi]? = some output)
    (hs : output.state ≠ WLR_DRM_OUTPUT_DISCONNECTED)
    (hp : output.pageflip_pending = true) (hi : b.inflight = []) :
    wlr_drm_output_cleanup b oi true = none ∧
    (∀ n, restore_output.drain oi n
      { b with
        outputs := b.outputs.set oi { output with state := WLR_DRM_OUTPUT_DISCONNECTED } } =
      none) ∧
    wlr_drm_event
      { b with
        outputs := b.outputs.set oi { output with state := WLR_DRM_OUTPUT_DISCONNECTED } } =
      none := by
  have hoi : oi < b.outputs.length := (List.getElem?_eq_some.mp ho).1
  have hstuck := restore_output.drain_stuck
    { b with
      outputs := b.outputs.set oi { output with state := WLR_DRM_OUTPUT_DISCONNECTED } } oi
    (by
      show ((b.outputs.set oi _)[oi]?).map _ = _
      rw [List.getElem?_set_self hoi]
      simpa using hp)
    hi
  refine ⟨?_, hstuck, by simp [wlr_drm_event, hi]⟩
  have hr : wlr_drm_output_cleanup.restore
      { b with
        outputs := b.outputs.set oi { output with state := WLR_DRM_OUTPUT_DISCONNECTED } }
      oi true = none := by
    unfold wlr_drm_output_cleanup.restore restore_output
    rw [if_pos rfl]
    show (restore_output.drain oi _ _).bind _ = _
    rw [hstuck]
    rfl
  unfold wlr_drm_output_cleanup
  cases hst : output.state with
  | WLR_DRM_OUTPUT_DISCONNECTED => exact absurd hst hs
  | WLR_DRM_OUTPUT_NEEDS_MODESET =>
    simp only [ho, hst, wlr_drm_backend.set_output, Option.bind_eq_bind, Option.some_bind]
    rw [hr]
    rfl
  | WLR_DRM_OUTPUT_CONNECTED =>
    simp only [ho, hst, wlr_drm_backend.set_output, Option.bind_eq_bind, Option.some_bind]
    rw [hr]
    rfl

/-- C30 on the backend `Ex.flip_lost`: a Connected output with `pageflip_pending` set and
nothing in flight. -/
theorem cleanup_waits_for_lost_flip_witness :
    wlr_drm_output_cleanup Ex.flip_lost 0 true = none ∧
    (∀ n, restore_output.drain 0 n
      { Ex.flip_lost with
        outputs := [{ Ex.connected 7 0 1 with pageflip_pending := true,
                                              old_crtc := some Ex.saved,
                                              state := WLR_DRM_OUTPUT_DISCONNECTED }] } =
      none) :=
  have h := cleanup_waits_for_lost_flip Ex.flip_lost 0
    { Ex.connected 7 0 1 with pageflip_pending := true, old_crtc := some Ex.saved }
    rfl (by decide) rfl rfl
  ⟨h.1, h.2.1⟩

/-! ## What the unplug scan frees -/

/-- Freeing the renderer of a plane twice leaves what freeing it once leaves. -/
theorem wlr_drm_plane_renderer_free.reset_reset (p : wlr_drm_plane) :
    wlr_drm_plane_renderer_free.reset (wlr_drm_plane_renderer_free.reset p) =
      wlr_drm_plane_renderer_free.reset p := rfl

/-- The plane that `wlr_drm_plane_renderer_free` returns is the plane with the final
assignments applied, whatever it held. -/
theorem wlr_drm_plane_renderer_free_plane (s : Sys) (p : wlr_drm_plane)
    (r : Sys × wlr_drm_plane) (h : wlr_drm_plane_renderer_free s p = some r) :
    r.2 = wlr_drm_plane_renderer_free.reset p := by
  simp only [wlr_drm_plane_renderer_free, Option.bind_eq_bind, Option.bind_eq_some,
    Option.some.injEq] at h
  obtain ⟨_, _, _, _, h⟩ := h
  rw [← h]

/-- One round of the plane loop of `wlr_drm_output_cleanup`, when it returns: the CRTC is still
there and the other CRTCs are unchanged, the other slots are unchanged, an empty slot stays
empty, a slot with a kernel plane keeps it and that plane has its renderer freed, a synthetic
plane (id 0) is removed from the slot, and every other kernel plane is unchanged. -/
theorem wlr_drm_output_cleanup.plane_frees (b b' : wlr_drm_backend) (ci i : Nat)
    (c : wlr_drm_crtc) (hi : i < 3) (hc : b.crtcs[ci]? = some c)
    (h : wlr_drm_output_cleanup.plane b ci i = some b') :
    ∃ c', b'.crtcs[ci]? = some c' ∧ (∀ j, j ≠ ci → b'.crtcs[j]? = b.crtcs[j]?) ∧
      (∀ s, s < 3 → s ≠ i → c'.planes s = c.planes s) ∧
      (c.planes i = .null → c'.planes i = .null) ∧
      (∀ g, c.planes i = .kernel g → c'.planes i = .kernel g) ∧
      (∀ p, c.planes i = .fake p → p.id = 0 → c'.planes i = .null) ∧
      (∀ g, c.planes i = .kernel g →
        ∃ p, b.planes[g]? = some p ∧
          b'.planes[g]? = some (wlr_drm_plane_renderer_free.reset p)) ∧
      (∀ g, c.planes i ≠ .kernel g → b'.planes[g]? = b.planes[g]?) := by
  have hlt : ci < b.crtcs.length := (List.getElem?_eq_some.mp hc).1
  simp only [wlr_drm_output_cleanup.plane, Option.bind_eq_bind, Option.bind_eq_some] at h
  obtain ⟨b1, h1, c1, hc1, h⟩ := h
  simp only [wlr_drm_backend.free_slot, hc, Option.bind_eq_bind, Option.some_bind] at h1
  cases hpl : c.planes i with
  | null =>
    simp only [hpl, if_true, Option.some.injEq] at h1
    subst h1
    have hcc : c1 = c := Option.some.inj (hc1.symm.trans hc)
    subst hcc
    simp only [hpl, Option.some.injEq] at h
    subst h
    exact ⟨c1, hc, fun _ _ => rfl, fun _ _ _ => rfl, fun _ => hpl, fun g hg => by simp at hg,
      fun p hp => by simp at hp, fun g hg => by simp at hg, fun _ _ => rfl⟩
  | kernel g =>
    simp only [hpl, reduceCtorEq, if_false, wlr_drm_backend.on_plane, hc,
      wlr_drm_backend.deref, Option.bind_eq_bind, Option.some_bind, Option.bind_eq_some] at h1
    obtain ⟨p, hp, r, hfree, hst⟩ := h1
    have hr := wlr_drm_plane_renderer_free_plane _ _ _ hfree
    simp only [wlr_drm_backend.store, hc, hpl, Option.bind_eq_bind, Option.some_bind] at hst
    have hg : g < b.planes.length := (List.getElem?_eq_some.mp hp).1
    simp only [hg, if_true, Option.some.injEq] at hst
    subst hst
    have hcc : c1 = c := Option.some.inj (hc1.symm.trans hc)
    subst hcc
    simp only [hpl, Option.bind_eq_bind, Option.bind_eq_some] at h
    obtain ⟨p1, _, h⟩ := h
    split at h
    · cases h
    · simp only [Option.some.injEq] at h
      subst h
      refine ⟨c1, hc, fun _ _ => rfl, fun _ _ _ => rfl, fun hn => by simp [hpl] at hn,
        fun g' hg' => hpl.trans hg', fun p' hp' => by simp at hp', ?_, ?_⟩
      · intro g' hg'
        simp only [PlanePtr.kernel.injEq] at hg'
        subst hg'
        exact ⟨p, hp, by simp [List.getElem?_set_self hg, hr]⟩
      · intro g' hg'
        have hne : g ≠ g' := fun e => hg' (by rw [e])
        simp [List.getElem?_set_ne hne]
  | fake p =>
    simp only [hpl, reduceCtorEq, if_false, wlr_drm_backend.on_plane, hc,
      wlr_drm_backend.deref, Option.bind_eq_bind, Option.some_bind, Option.bind_eq_some] at h1
    obtain ⟨r, hfree, hst⟩ := h1
    have hr := wlr_drm_plane_renderer_free_plane _ _ _ hfree
    simp only [wlr_drm_backend.store, hc, hpl, Option.bind_eq_bind, Option.some_bind,
      Option.some.injEq] at hst
    subst hst
    have hcc : c1 = c.set_plane i (.fake r.2) := by
      have : (b.crtcs.set ci (c.set_plane i (.fake r.2)))[ci]? = some c1 := hc1
      rw [List.getElem?_set_self hlt] at this
      exact (Option.some.inj this).symm
    subst hcc
    simp only [wlr_drm_crtc.planes_set_plane] at h
    have hid : r.2.id = p.id := by rw [hr]; rfl
    by_cases h0 : p.id = 0
    · simp only [hid, h0, if_true, Option.some.injEq] at h
      subst h
      refine ⟨(c.set_plane i (.fake r.2)).set_plane i .null, ?_, ?_, ?_, ?_, ?_, ?_, ?_, ?_⟩
      · simp [List.getElem?_set_self hlt]
      · intro j hj
        simp [List.getElem?_set_ne (fun e => hj e.symm)]
      · intro s hs hne
        rw [wlr_drm_crtc.planes_set_plane_ne _ _ _ _ hi hs hne,
          wlr_drm_crtc.planes_set_plane_ne _ _ _ _ hi hs hne]
      · intro _
        exact wlr_drm_crtc.planes_set_plane _ _ _
      · intro g hg
        simp at hg
      · intro _ _ _
        exact wlr_drm_crtc.planes_set_plane _ _ _
      · intro g hg
        simp at hg
      · intro _ _
        rfl
    · simp only [hid, h0, if_false, Option.some.injEq] at h
      subst h
      refine ⟨c.set_plane i (.fake r.2), ?_, ?_, ?_, ?_, ?_, ?_, ?_, ?_⟩
      · simp [List.getElem?_set_self hlt]
      · intro j hj
        simp [List.getElem?_set_ne (fun e => hj e.symm)]
      · intro s hs hne
        rw [wlr_drm_crtc.planes_set_plane_ne _ _ _ _ hi hs hne]
      · intro hn
        simp at hn
      · intro g hg
        simp at hg
      · intro p' _ hp0
        simp only [PlanePtr.fake.injEq] at *
        subst_vars
        exact absurd hp0 h0
      · intro g hg
        simp at hg
      · intro _ _
        rfl

/-- One round of the plane loop keeps the relation `freed_if` for kernel plane `g`: the plane
becomes freed when the slot of this round holds it, and stays as it was otherwise. -/
theorem wlr_drm_backend.freed_if_step (b x x' : wlr_drm_backend) (g : Nat) (q : PlanePtr)
    (H : Prop)
    (hk : q = .kernel g →
      ∃ p, x.planes[g]? = some p ∧ x'.planes[g]? = some (wlr_drm_plane_renderer_free.reset p))
    (hn : q ≠ .kernel g → x'.planes[g]? = x.planes[g]?)
    (h : b.freed_if x g H) : b.freed_if x' g (H ∨ q = .kernel g) := by
  by_cases hq : q = .kernel g
  · obtain ⟨p, hp, hp'⟩ := hk hq
    right
    refine ⟨Or.inr hq, ?_⟩
    rcases h with ⟨_, h⟩ | ⟨_, p0, h0, h1⟩
    · exact ⟨p, by rw [← h]; exact hp, hp'⟩
    · have : p = wlr_drm_plane_renderer_free.reset p0 :=
        Option.some.inj (hp.symm.trans h1)
      exact ⟨p0, h0, by rw [hp', this]; rfl⟩
  · rcases h with ⟨hH, h⟩ | ⟨hH, p0, h0, h1⟩
    · left
      exact ⟨fun k => k.elim hH hq, by rw [hn hq]; exact h⟩
    · right
      exact ⟨Or.inl hH, p0, h0, by rw [hn hq]; exact h1⟩

/-- The planes after `wlr_drm_output_cleanup` without a restore on a Connected output: every
kernel plane in one of the three slots of its CRTC has its renderer freed, every other plane
and every other CRTC is unchanged, and the slots keep kernel planes and lose synthetic ones. -/
theorem wlr_drm_output_cleanup_frees (b b' : wlr_drm_backend) (oi ci : Nat)
    (output : wlr_output_state) (c : wlr_drm_crtc)
    (ho : b.outputs[oi]? = some output) (hs : output.state = WLR_DRM_OUTPUT_CONNECTED)
    (hci : output.crtc = some ci) (hc : b.crtcs[ci]? = some c)
    (h : wlr_drm_output_cleanup b oi false = some b') :
    (∃ c', b'.crtcs[ci]? = some c' ∧
      (∀ s, s < 3 → (c.planes s = .null → c'.planes s = .null) ∧
        (∀ g, c.planes s = .kernel g → c'.planes s = .kernel g) ∧
        (∀ p, c.planes s = .fake p → p.id = 0 → c'.planes s = .null))) ∧
    (∀ j, j ≠ ci → b'.crtcs[j]? = b.crtcs[j]?) ∧
    (∀ s g, s < 3 → c.planes s = .kernel g →
      ∃ p, b.planes[g]? = some p ∧
        b'.planes[g]? = some (wlr_drm_plane_renderer_free.reset p)) ∧
    (∀ g, (∀ s, s < 3 → c.planes s ≠ .kernel g) → b'.planes[g]? = b.planes[g]?) := by
  unfold wlr_drm_output_cleanup at h
  simp only [ho, hs, hci, wlr_drm_backend.set_output, wlr_drm_output_cleanup.restore,
    Option.bind_eq_bind, Option.some_bind, Bool.false_eq_true, if_false,
    Option.bind_eq_some, Option.some.injEq] at h
  obtain ⟨x0, h0, x1, h1, x2, h2, x3, ⟨o3, _, e3⟩, x4, ⟨o4, _, e4⟩, h⟩ := h
  have hcr : b'.crtcs = x2.crtcs := by rw [← h, ← e4, ← e3]
  have hpl : b'.planes = x2.planes := by rw [← h, ← e4, ← e3]
  obtain ⟨c0, d0, e0, f0, n0, k0, a0, p0, q0⟩ :=
    wlr_drm_output_cleanup.plane_frees _ x0 ci 0 c (by decide) (by exact hc) h0
  obtain ⟨c1, d1, e1, f1, n1, k1, a1, p1, q1⟩ :=
    wlr_drm_output_cleanup.plane_frees x0 x1 ci 1 c0 (by decide) d0 h1
  obtain ⟨c2, d2, e2, f2, n2, k2, a2, p2, q2⟩ :=
    wlr_drm_output_cleanup.plane_frees x1 x2 ci 2 c1 (by decide) d1 h2
  have s1 : c0.planes 1 = c.planes 1 := f0 1 (by decide) (by decide)
  have s2 : c1.planes 2 = c.planes 2 :=
    (f1 2 (by decide) (by decide)).trans (f0 2 (by decide) (by decide))
  have t0 : c2.planes 0 = c0.planes 0 :=
    (f2 0 (by decide) (by decide)).trans (f1 0 (by decide) (by decide))
  have t1 : c2.planes 1 = c1.planes 1 := f2 1 (by decide) (by decide)
  have hst : ∀ g, b.freed_if x2 g
      (((False ∨ c.planes 0 = .kernel g) ∨ c.planes 1 = .kernel g) ∨
        c.planes 2 = .kernel g) := by
    intro g
    have i0 : b.freed_if
        { b with
          outputs := b.outputs.set oi { output with state := WLR_DRM_OUTPUT_DISCONNECTED } }
        g False := Or.inl ⟨fun k => k, rfl⟩
    have i1 := wlr_drm_backend.freed_if_step b _ x0 g (c.planes 0) False (p0 g) (q0 g) i0
    have i2 := wlr_drm_backend.freed_if_step b x0 x1 g (c.planes 1) _
      (by rw [← s1]; exact p1 g) (by rw [← s1]; exact q1 g) i1
    exact wlr_drm_backend.freed_if_step b x1 x2 g (c.planes 2) _
      (by rw [← s2]; exact p2 g) (by rw [← s2]; exact q2 g) i2
  rw [hcr, hpl]
  refine ⟨⟨c2, d2, ?_⟩, ?_, ?_, ?_⟩
  · intro s hs3
    interval_cases s
    · rw [t0]
      exact ⟨n0, k0, a0⟩
    · rw [t1, ← s1]
      exact ⟨n1, k1, a1⟩
    · rw [← s2]
      exact ⟨n2, k2, a2⟩
  · intro j hj
    rw [e2 j hj, e1 j hj, e0 j hj]
  · intro s g hs3 hsg
    rcases hst g with ⟨hn, _⟩ | ⟨_, hp⟩
    · exfalso
      apply hn
      interval_cases s
      · exact Or.inl (Or.inl (Or.inr hsg))
      · exact Or.inl (Or.inr hsg)
      · exact Or.inr hsg
    · exact hp
  · intro g hg
    rcases hst g with ⟨_, hp⟩ | ⟨hH, _⟩
    · exact hp
    · exfalso
      rcases hH with ((hf | h0') | h1') | h2'
      · exact hf
      · exact hg 0 (by decide) h0'
      · exact hg 1 (by decide) h1'
      · exact hg 2 (by decide) h2'

/-- C11 as amended: when the scan finds the connector of a Connected output no longer
connected, it removes the output at once, whether or not a page flip is pending. On a CRTC with
well-formed slots the scan of the connector returns; `output_remove` is the last event it adds,
and before it come only buffer releases and destructions of surfaces and scratch buffers, so no
`drmModeSetCrtc`; the flips in flight are unchanged; the output becomes Disconnected without
CRTC and is otherwise unchanged, so `pageflip_pending` and `old_crtc` are kept; every kernel
plane of the CRTC has its renderer freed, the other planes and CRTCs are unchanged, and the
slots keep kernel planes and lose synthetic ones. -/
theorem scan_cleanup_not_deferred (env : Env) (b : wlr_drm_backend) (id index ci : Nat)
    (conn : drmModeConnector) (output : wlr_output_state) (c : wlr_drm_crtc)
    (hconn : env.drmModeGetConnector id = some conn)
    (hfind : list_seq_find b.outputs conn.connector_id = some index)
    (ho : b.outputs[index]? = some output) (hs : output.state = WLR_DRM_OUTPUT_CONNECTED)
    (hci : output.crtc = some ci) (hc : b.crtcs[ci]? = some c) (hok : b.crtc_ok ci)
    (hgone : conn.connected = false) :
    ∃ b' l c', wlr_drm_scan_connectors.connector env b id = some b' ∧
      b'.sys.events = b.sys.events ++ l ++ [Event.output_remove index] ∧
      (∀ e ∈ l, e.is_drmModeSetCrtc = false) ∧ (∀ e ∈ l, e.incidental = true) ∧
      b'.inflight = b.inflight ∧
      b'.outputs = b.outputs.set index
        { output with state := WLR_DRM_OUTPUT_DISCONNECTED, crtc := none,
                      possible_crtc := 0 } ∧
      (∀ s g, s < 3 → c.planes s = .kernel g →
        ∃ p, b.planes[g]? = some p ∧
          b'.planes[g]? = some (wlr_drm_plane_renderer_free.reset p)) ∧
      (∀ g, (∀ s, s < 3 → c.planes s ≠ .kernel g) → b'.planes[g]? = b.planes[g]?) ∧
      b'.crtcs[ci]? = some c' ∧ (∀ j, j ≠ ci → b'.crtcs[j]? = b.crtcs[j]?) ∧
      (∀ s, s < 3 → (c.planes s = .null → c'.planes s = .null) ∧
        (∀ g, c.planes s = .kernel g → c'.planes s = .kernel g) ∧
        (∀ p, c.planes s = .fake p → p.id = 0 → c'.planes s = .null)) := by
  have hlt : index < b.outputs.length := (List.getElem?_eq_some.mp ho).1
  obtain ⟨b', l, h, hev, hno, hinf, hout⟩ :=
    wlr_drm_output_cleanup_connected b _ index ci false output
      { output with state := WLR_DRM_OUTPUT_DISCONNECTED } ho hs hci rfl hok
      (List.getElem?_set_self hlt)
  obtain ⟨⟨c', hc', hsl⟩, hoth, hfr, hkeep⟩ :=
    wlr_drm_output_cleanup_frees b b' index ci output c ho hs hci hc h
  have hinc : ∀ e ∈ l, e.incidental = true := by
    obtain ⟨l1, r, l2, hev2, k1, k2, _, kf⟩ :=
      (wlr_drm_output_cleanup_events b b' index false output ho h).2
        (by rw [hs]; decide)
    have hr : r = [] := kf rfl
    subst hr
    have hl : l = l1 ++ l2 := by
      have := hev.symm.trans hev2
      simp only [List.append_assoc, List.append_nil] at this
      have := List.append_cancel_left this
      simpa using List.append_cancel_right (by simpa using this)
    intro e he
    rw [hl] at he
    rcases List.mem_append.mp he with he | he
    · exact k1 e he
    · exact k2 e he
  refine ⟨b', l, c', ?_, hev, hno, hinc, hinf, ?_, hfr, hkeep, hc', hoth, hsl⟩
  · unfold wlr_drm_scan_connectors.connector
    simp only [hconn, hfind, wlr_drm_scan_connectors.transition, ho, hs, hgone,
      Option.bind_eq_bind, Option.some_bind, reduceCtorEq, false_and, if_false, Bool.not_false,
      and_self, if_true]
    exact h
  · rw [hout]
    simp

/-- C11 on the backend `Ex.flipping_saved`, whose output has a flip in flight and a saved CRTC,
scanned while connector 7 is unplugged. -/
theorem scan_cleanup_not_deferred_witness :
    ∃ b' l c',
      wlr_drm_scan_connectors.connector Ex.unplugged Ex.flipping_saved 7 = some b' ∧
      b'.sys.events = Ex.flipping_saved.sys.events ++ l ++ [Event.output_remove 0] ∧
      (∀ e ∈ l, e.is_drmModeSetCrtc = false) ∧ (∀ e ∈ l, e.incidental = true) ∧
      b'.inflight = [0] ∧
      b'.outputs = Ex.flipping_saved.outputs.set 0
        { Ex.connected 7 0 1 with pageflip_pending := true, old_crtc := some Ex.saved,
                                  state := WLR_DRM_OUTPUT_DISCONNECTED, crtc := none,
                                  possible_crtc := 0 } ∧
      (∃ p, Ex.flipping_saved.planes[0]? = some p ∧
        b'.planes[0]? = some (wlr_drm_plane_renderer_free.reset p)) ∧
      b'.crtcs[0]? = some c' ∧ c'.planes 1 = .kernel 0 := by
  obtain ⟨b', l, c', h1, h2, h3, h4, h5, h6, h7, _, h9, _, h11⟩ :=
    scan_cleanup_not_deferred Ex.unplugged Ex.flipping_saved 7 0 0
      ⟨7, false, [], [3], 3, 500, 300⟩
      { Ex.connected 7 0 1 with pageflip_pending := true, old_crtc := some Ex.saved }
      { Ex.crtc 40 with primary := .kernel 0 }
      rfl (by decide) rfl rfl rfl rfl
      ⟨{ Ex.crtc 40 with primary := .kernel 0 }, rfl, trivial,
        ⟨_, rfl, by decide, fun _ => by decide⟩, trivial⟩
      rfl
  exact ⟨b', l, c', h1, h2, h3, h4, h5, h6, h7 1 0 (by decide) rfl, h9,
    (h11 1 (by decide)).2.1 0 rfl⟩

/-! ## A mode set on a free CRTC -/

/-- The function `atomic_crtc_pageflip` with a mode, when the blob, the request and every
property can be allocated: it destroys the old mode blob if there is one, creates a new one,
and makes one commit that is not test-only, allows a mode set and carries the output; the
request holds the items left in it followed by the connector, CRTC and plane properties in the
order of the code. The flip is in flight exactly when the kernel accepted the commit. -/
theorem atomic_crtc_pageflip_request (env : Env) (b : wlr_drm_backend) (oi ci fb : Nat)
    (m : drmModeModeInfo) (output : wlr_output_state) (c : wlr_drm_crtc)
    (plane : wlr_drm_plane) (ho : b.outputs[oi]? = some output) (hc : b.crtcs[ci]? = some c)
    (hp : b.deref c.primary = some plane)
    (hb : ∀ n, env.succeeds .drmModeCreatePropertyBlob n = true)
    (ha : ∀ n, env.succeeds .drmModeAtomicAlloc n = true)
    (hadd : ∀ n, env.succeeds .drmModeAtomicAddProperty n = true) :
    ∃ r ok c' blob, atomic_crtc_pageflip env b oi ci fb (some m) = some r ∧
      r.1.sys.events = b.sys.events ++
        ((if c.mode_id ≠ 0 then [Event.drmModeDestroyPropertyBlob c.mode_id] else []) ++
          [Event.drmModeCreatePropertyBlob blob,
           Event.drmModeAtomicCommit
             (c.atomic.getD [] ++
              [(output.connector, output.props.crtc_id, c.id),
               (c.id, c.props.mode_id, blob), (c.id, c.props.active, 1),
               (plane.id, plane.props.src_x, 0), (plane.id, plane.props.src_y, 0),
               (plane.id, plane.props.src_w, (plane.width <<< 16) % 4294967296),
               (plane.id, plane.props.src_h, (plane.height <<< 16) % 4294967296),
               (plane.id, plane.props.crtc_w, plane.width),
               (plane.id, plane.props.crtc_h, plane.height),
               (plane.id, plane.props.fb_id, fb), (plane.id, plane.props.crtc_id, c.id),
               (plane.id, plane.props.crtc_x, 0), (plane.id, plane.props.crtc_y, 0)])
             false true (some oi) ok]) ∧
      r.1.outputs = b.outputs ∧ r.1.planes = b.planes ∧ r.1.crtcs = b.crtcs.set ci c' ∧
      c'.slots = c.slots ∧ c'.id = c.id ∧ r.1.iface = b.iface ∧
      r.1.inflight = (if ok = true then b.inflight ++ [oi] else b.inflight) := by
  by_cases hm : c.mode_id = 0 <;> cases hat : c.atomic <;>
  · simp only [atomic_crtc_pageflip, ho, hc, Option.bind_eq_bind,
      Option.some_bind, atomic_crtc_pageflip.blob, hm, hb, ha, hadd, atomic_begin, hat,
      atomic_crtc_pageflip.request, set_plane_props, atomic_add, atomic_commit,
      ne_eq, not_true_eq_false, not_false_eq_true, if_true, if_false, Bool.not_true,
      Bool.false_eq_true, hp, Option.isSome_some, wlr_drm_crtc.put_req]
    refine ⟨_, _, _, b.sys.clock + 1, rfl, ?_, rfl, rfl, rfl, rfl, rfl, rfl, rfl⟩
    simp [Sys.emit, Sys.tick]

/-- The kernel request behind `crtc_pageflip` with a mode. Through the legacy interface it is
`drmModeSetCrtc` followed by `drmModePageFlip`; through the atomic interface, when the
allocations succeed, the creation of the mode blob followed by one commit. The outputs and
planes are unchanged, the CRTC keeps its id and slots, and the flip is in flight exactly when
the kernel accepted it. -/
theorem crtc_pageflip_request (env : Env) (b : wlr_drm_backend) (oi ci fb : Nat)
    (m : drmModeModeInfo) (output : wlr_output_state) (c : wlr_drm_crtc)
    (plane : wlr_drm_plane) (ho : b.outputs[oi]? = some output) (hc : b.crtcs[ci]? = some c)
    (hp : b.deref c.primary = some plane)
    (hatomic : b.iface = .atomic_iface → ∀ n,
      env.succeeds .drmModeCreatePropertyBlob n = true ∧
      env.succeeds .drmModeAtomicAlloc n = true ∧
      env.succeeds .drmModeAtomicAddProperty n = true) :
    ∃ r post ok c', crtc_pageflip env b oi ci fb (some m) = some r ∧
      r.1.sys.events = b.sys.events ++ [Event.crtc_pageflip oi ci fb (some m)] ++ post ∧
      r.1.outputs = b.outputs ∧ r.1.planes = b.planes ∧ r.1.crtcs = b.crtcs.set ci c' ∧
      c'.slots = c.slots ∧ c'.id = c.id ∧
      r.1.inflight = (if ok = true then b.inflight ++ [oi] else b.inflight) ∧
      (b.iface = .legacy_iface →
        post = [Event.drmModeSetCrtc c.id fb 0 0 output.connector m,
                Event.drmModePageFlip c.id fb oi ok]) ∧
      (b.iface = .atomic_iface → ∃ blob,
        post = (if c.mode_id ≠ 0 then [Event.drmModeDestroyPropertyBlob c.mode_id] else []) ++
          [Event.drmModeCreatePropertyBlob blob,
           Event.drmModeAtomicCommit
             (c.atomic.getD [] ++
              [(output.connector, output.props.crtc_id, c.id),
               (c.id, c.props.mode_id, blob), (c.id, c.props.active, 1),
               (plane.id, plane.props.src_x, 0), (plane.id, plane.props.src_y, 0),
               (plane.id, plane.props.src_w, (plane.width <<< 16) % 4294967296),
               (plane.id, plane.props.src_h, (plane.height <<< 16) % 4294967296),
               (plane.id, plane.props.crtc_w, plane.width),
               (plane.id, plane.props.crtc_h, plane.height),
               (plane.id, plane.props.fb_id, fb), (plane.id, plane.props.crtc_id, c.id),
               (plane.id, plane.props.crtc_x, 0), (plane.id, plane.props.crtc_y, 0)])
             false true (some oi) ok]) := by
  have hci : ci < b.crtcs.length := (List.getElem?_eq_some.mp hc).1
  have hset : b.crtcs.set ci c = b.crtcs := by
    apply List.ext_getElem?
    intro j
    by_cases hj : j = ci
    · subst hj
      rw [List.getElem?_set_self hci, hc]
    · rw [List.getElem?_set_ne (fun h => hj h.symm)]
  have hp2 : ∀ x : wlr_drm_backend, x.planes = b.planes → x.deref c.primary = some plane := by
    intro x hx
    cases hq : c.primary with
    | null => rw [hq] at hp; exact hp
    | kernel g => rw [hq] at hp; simp only [wlr_drm_backend.deref] at hp ⊢; rw [hx]; exact hp
    | fake q => rw [hq] at hp; exact hp
  cases hi : b.iface with
  | legacy_iface =>
    refine ⟨({ b with
        sys := (((b.sys.emit (.crtc_pageflip oi ci fb (some m))).emit
          (.drmModeSetCrtc c.id fb 0 0 output.connector m)).emit
          (.drmModePageFlip c.id fb oi (env.succeeds .drmModePageFlip b.sys.clock))).tick,
        inflight := if env.succeeds .drmModePageFlip b.sys.clock = true
          then b.inflight ++ [oi] else b.inflight }, true),
      [Event.drmModeSetCrtc c.id fb 0 0 output.connector m,
       Event.drmModePageFlip c.id fb oi (env.succeeds .drmModePageFlip b.sys.clock)],
      env.succeeds .drmModePageFlip b.sys.clock, c, ?_, ?_, rfl, rfl, hset.symm, rfl, rfl,
      rfl, fun _ => rfl, fun h => by cases h⟩
    · simp only [crtc_pageflip, hi, legacy_crtc_pageflip, ho, hc, Option.bind_eq_bind,
        Option.some_bind]
      rfl
    · simp [Sys.emit, Sys.tick]
  | atomic_iface =>
    obtain ⟨r, ok, c', blob, h1, h2, h3, h4, h5, h6, h7, _, h9⟩ :=
      atomic_crtc_pageflip_request env
        { b with sys := b.sys.emit (.crtc_pageflip oi ci fb (some m)) } oi ci fb m output c
        plane ho hc (hp2 _ rfl) (fun n => (hatomic hi n).1) (fun n => (hatomic hi n).2.1)
        (fun n => (hatomic hi n).2.2)
    refine ⟨r, _, ok, c', ?_, ?_, h3, h4, h5, h6, h7, h9, (fun h => nomatch h),
      (fun _ => ⟨blob, rfl⟩)⟩
    · rw [← h1]
      simp only [crtc_pageflip, hi]
    · rw [h2]
      simp [Sys.emit]

/-- The pointer difference that `realloc_planes` computes for a slot holding plane `k` of its
type is `k`, in 32 bits. -/
theorem realloc_planes.current_typed (tp k : Nat) : ((((tp + k : Nat) : Int) - (tp : Int)) % 4294967296).toNat = k % 4294967296 := by
  omega

/-- Writing back the element that a list holds at an index leaves the list unchanged. -/
theorem set_same {α : Type} (l : List α) (g : Nat) (p : α) (h : l[g]? = some p) :
    l.set g p = l := by
  apply List.ext_getElem?
  intro j
  by_cases hj : j = g
  · subst hj
    rw [List.getElem?_set_self (List.getElem?_eq_some.mp h).1, h]
  · rw [List.getElem?_set_ne (fun h => hj h.symm)]

/-- Freeing the renderer of a plane that has none releases and destroys nothing and leaves the
plane unchanged. -/
theorem wlr_drm_plane_renderer_free_idle (s : Sys) (p : wlr_drm_plane)
    (h : wlr_drm_plane_renderer_free.reset p = p) :
    wlr_drm_plane_renderer_free s p = some (s, p) := by
  have hf : p.front = none := by rw [← h]; rfl
  have hb : p.back = none := by rw [← h]; rfl
  have he : p.egl = none := by rw [← h]; rfl
  have hg : p.gbm = none := by rw [← h]; rfl
  have hc : p.cursor_bo = none := by rw [← h]; rfl
  simp [wlr_drm_plane_renderer_free, release_if_locked, hf, hb,
    wlr_drm_plane_renderer_free.destroy, he, hg, hc, h]

/-- Freeing a kernel plane without renderer leaves the backend unchanged. -/
theorem wlr_drm_backend.free_kernel_idle (x : wlr_drm_backend) (g : Nat) (p : wlr_drm_plane)
    (hp : x.planes[g]? = some p) (hfree : wlr_drm_plane_renderer_free.reset p = p) :
    x.free_kernel g = some x := by
  simp only [wlr_drm_backend.free_kernel, hp, Option.bind_eq_bind, Option.some_bind,
    wlr_drm_plane_renderer_free_idle _ _ hfree, set_same _ _ _ hp]

/-- Freeing the plane of a slot that is empty, or that holds a kernel plane without renderer,
leaves the backend unchanged. -/
theorem wlr_drm_backend.free_slot_idle (x : wlr_drm_backend) (ci t : Nat) (c : wlr_drm_crtc)
    (hc : x.crtcs[ci]? = some c)
    (hslot : c.planes t = .null ∨ ∃ g p, c.planes t = .kernel g ∧ x.planes[g]? = some p ∧
      wlr_drm_plane_renderer_free.reset p = p) :
    x.free_slot ci t = some x := by
  rcases hslot with h | ⟨g, p, hk, hp, hfree⟩
  · simp only [wlr_drm_backend.free_slot, hc, Option.bind_eq_bind, Option.some_bind, h, if_true]
  · have hg : g < x.planes.length := (List.getElem?_eq_some.mp hp).1
    simp only [wlr_drm_backend.free_slot, hc, Option.bind_eq_bind, Option.some_bind, hk,
      wlr_drm_backend.on_plane, wlr_drm_backend.deref, hp,
      wlr_drm_plane_renderer_free_idle _ _ hfree, wlr_drm_backend.store, hg, if_true,
      set_same _ _ _ hp, reduceCtorEq, if_false]

/-- Assigning to a slot the pointer it holds leaves the CRTC unchanged. -/
theorem wlr_drm_crtc.set_plane_self (c : wlr_drm_crtc) (t : Nat) :
    c.set_plane t (c.planes t) = c := by
  rcases t with _ | _ | t <;> rfl

/-- Assigning to `crtcs` the list it holds leaves the backend unchanged. -/
theorem wlr_drm_backend.crtcs_self (x : wlr_drm_backend) (c : wlr_drm_crtc)
    (hx : x.crtcs = [c]) : { x with crtcs := [c] } = x := by
  cases x
  simp only at hx
  subst hx
  rfl

/-- One round of `realloc_planes` on a single CRTC that is in use (`crtc_in 0` is not
UNMATCHED) while no plane has a renderer: the round returns and changes at most the slot of its
type, which keeps its pointer or gets the plane that the matcher chose; `cur` is the entry for
the slot in the array given to the matcher. -/
theorem realloc_planes.type_idle (env : Env) (x : wlr_drm_backend) (c : wlr_drm_crtc)
    (res : Nat → Nat) (t : Nat) (ht : t < 3) (hx : x.crtcs = [c])
    (hlay : x.planes.length =
      x.num_overlay_planes + x.num_primary_planes + x.num_cursor_planes)
    (hfree : ∀ p ∈ x.planes, wlr_drm_plane_renderer_free.reset p = p)
    (hres : res 0 ≠ UNMATCHED)
    (hslot : x.num_type_planes t ≠ 0 → c.planes t = .null ∨
      ∃ k, k < x.num_type_planes t ∧ c.planes t = .kernel (x.type_planes t + k))
    (hv : x.num_type_planes t ≠ 0 → ∀ cur, cur = UNMATCHED ∨ cur < x.num_type_planes t →
      MatchValid (x.num_type_planes t) (realloc_planes.possible x t) 1
        (env.match_obj (x.num_type_planes t) (realloc_planes.possible x t) 1 [cur])) :
    ∃ q cur, realloc_planes.type env res x t = some { x with crtcs := [c.set_plane t q] } ∧
      (cur = UNMATCHED ∨ cur < x.num_type_planes t) ∧
      (q = c.planes t ∨ ∃ k, k < x.num_type_planes t ∧ q = .kernel (x.type_planes t + k)) ∧
      (x.num_type_planes t ≠ 0 →
        env.match_obj (x.num_type_planes t) (realloc_planes.possible x t) 1 [cur] 0 ≠
          UNMATCHED →
        env.match_obj (x.num_type_planes t) (realloc_planes.possible x t) 1 [cur] 0 ≠ SKIP →
        q = .kernel (x.type_planes t +
          env.match_obj (x.num_type_planes t) (realloc_planes.possible x t) 1 [cur] 0)) := by
  have hc0 : x.crtcs[0]? = some c := by rw [hx]; rfl
  have hl : x.crtcs.length = 1 := by rw [hx]; rfl
  have hr1 : List.range 1 = [0] := rfl
  have hkeep : some x = some { x with crtcs := [c.set_plane t (c.planes t)] } := by
    rw [wlr_drm_crtc.set_plane_self, wlr_drm_backend.crtcs_self x c hx]
  by_cases hn : x.num_type_planes t = 0
  · refine ⟨c.planes t, UNMATCHED, ?_, Or.inl rfl, Or.inl rfl, fun h => absurd hn h⟩
    rw [← hkeep]
    simp only [realloc_planes.type, hn, if_true]
  · have hbound : x.type_planes t + x.num_type_planes t ≤ x.planes.length := by
      rcases t with _ | _ | _ | t
      · simp only [wlr_drm_backend.type_planes, wlr_drm_backend.num_type_planes]; omega
      · simp only [wlr_drm_backend.type_planes, wlr_drm_backend.num_type_planes]; omega
      · simp only [wlr_drm_backend.type_planes, wlr_drm_backend.num_type_planes]; omega
      · omega
    -- the entry of the slot in the array given to the matcher
    obtain ⟨cur, hcur, hcurr⟩ : ∃ cur, realloc_planes.current x t res 0 = some cur ∧
        (cur = UNMATCHED ∨ cur < x.num_type_planes t) := by
      rcases hslot hn with h | ⟨k, hk, h⟩
      · exact ⟨UNMATCHED, by simp only [realloc_planes.current, hc0, Option.bind_eq_bind,
          Option.some_bind, if_neg hres, h], Or.inl rfl⟩
      · refine ⟨k % 4294967296, ?_, Or.inr (lt_of_le_of_lt (Nat.mod_le _ _) hk)⟩
        simp only [realloc_planes.current, hc0, Option.bind_eq_bind, Option.some_bind,
          if_neg hres, h, realloc_planes.current_typed]
    obtain ⟨r, hr⟩ : ∃ r, r = env.match_obj (x.num_type_planes t)
      (realloc_planes.possible x t) 1 [cur] 0 := ⟨_, rfl⟩
    have hty : realloc_planes.type env res x t =
        realloc_planes.assign t (env.match_obj (x.num_type_planes t)
          (realloc_planes.possible x t) 1 [cur]) x 0 := by
      simp only [realloc_planes.type, if_neg hn, if_neg (not_lt.mpr hbound), hl, hr1,
        realloc_planes.current_all, hcur, Option.bind_eq_bind, Option.some_bind, for_each]
      cases realloc_planes.assign t (env.match_obj (x.num_type_planes t)
          (realloc_planes.possible x t) 1 [cur]) x 0 <;> rfl
    rw [hty]
    by_cases hu : r = UNMATCHED ∨ r = SKIP
    · refine ⟨c.planes t, cur, ?_, hcurr, Or.inl rfl, ?_⟩
      · rw [← hkeep]
        simp only [realloc_planes.assign, ← hr, if_pos hu]
      · intro _ h1 h2
        rw [← hr] at h1 h2
        rcases hu with h | h
        · exact absurd h h1
        · exact absurd h h2
    · have hu1 : r ≠ UNMATCHED := fun h => hu (Or.inl h)
      have hu2 : r ≠ SKIP := fun h => hu (Or.inr h)
      have hrn : r < x.num_type_planes t := by
        have := (hv hn cur hcurr 0 (by decide) (by rw [← hr]; exact hu2)
          (by rw [← hr]; exact hu1)).1
        rw [← hr] at this
        exact this
      by_cases hsame : c.planes t = .kernel (x.type_planes t + r)
      · refine ⟨c.planes t, cur, ?_, hcurr, Or.inr ⟨r, hrn, hsame⟩, fun _ _ _ => ?_⟩
        · rw [← hkeep]
          simp only [realloc_planes.assign, ← hr, if_neg hu, hc0, Option.bind_eq_bind,
            Option.some_bind, hsame, ne_eq, not_true_eq_false, if_false]
        · rw [← hr]; exact hsame
      · refine ⟨.kernel (x.type_planes t + r), cur, ?_, hcurr, Or.inr ⟨r, hrn, rfl⟩,
          fun _ _ _ => by rw [← hr]⟩
        have hin : x.type_planes t + r < x.planes.length := by omega
        have hfs : x.free_slot 0 t = some x := by
          refine wlr_drm_backend.free_slot_idle x 0 t c hc0 ?_
          rcases hslot hn with h | ⟨k, hk, h⟩
          · exact Or.inl h
          · have hkin : x.type_planes t + k < x.planes.length := by omega
            exact Or.inr ⟨_, x.planes[x.type_planes t + k], h,
              List.getElem?_eq_getElem hkin, hfree _ (List.getElem_mem _)⟩
        have hfk : x.free_kernel (x.type_planes t + r) = some x :=
          wlr_drm_backend.free_kernel_idle x _ x.planes[x.type_planes t + r]
            (List.getElem?_eq_getElem hin) (hfree _ (List.getElem_mem _))
        simp only [realloc_planes.assign, ← hr, if_neg hu, hc0, Option.bind_eq_bind,
          Option.some_bind, ne_eq, hsame, not_false_eq_true, if_true, hfs, hfk]
        rw [hx]
        rfl

/-- The function `realloc_planes` on a single CRTC with one primary plane while no plane has a
renderer, when the matcher gives the primary slot a plane: it returns, changes only the slots
of the CRTC, and the primary slot holds the primary plane. -/
theorem realloc_planes_idle (env : Env) (x : wlr_drm_backend) (c : wlr_drm_crtc)
    (res : Nat → Nat) (hx : x.crtcs = [c])
    (hlay : x.planes.length =
      x.num_overlay_planes + x.num_primary_planes + x.num_cursor_planes)
    (hnp : x.num_primary_planes = 1)
    (hfree : ∀ p ∈ x.planes, wlr_drm_plane_renderer_free.reset p = p)
    (hres : res 0 ≠ UNMATCHED)
    (hslot : ∀ t, t < 3 → x.num_type_planes t ≠ 0 → c.planes t = .null ∨
      ∃ k, k < x.num_type_planes t ∧ c.planes t = .kernel (x.type_planes t + k))
    (hv : ∀ t cur, t < 3 → x.num_type_planes t ≠ 0 →
      cur = UNMATCHED ∨ cur < x.num_type_planes t →
      MatchValid (x.num_type_planes t) (realloc_planes.possible x t) 1
        (env.match_obj (x.num_type_planes t) (realloc_planes.possible x t) 1 [cur]))
    (hp : ∀ cur, cur = UNMATCHED ∨ cur = 0 →
      env.match_obj (x.num_type_planes 1) (realloc_planes.possible x 1) 1 [cur] 0 ≠
        UNMATCHED ∧
      env.match_obj (x.num_type_planes 1) (realloc_planes.possible x 1) 1 [cur] 0 ≠ SKIP) :
    ∃ c', realloc_planes env x res = some { x with crtcs := [c'] } ∧
      c'.primary = .kernel x.num_overlay_planes ∧ c'.id = c.id ∧ c'.props = c.props ∧
      c'.atomic = c.atomic ∧ c'.mode_id = c.mode_id := by
  obtain ⟨q0, _, h0, _, _, _⟩ := realloc_planes.type_idle env x c res 0 (by decide) hx hlay
    hfree hres (hslot 0 (by decide)) (fun hn cur => hv 0 cur (by decide) hn)
  obtain ⟨q1, cur1, h1, hc1, _, hm1⟩ := realloc_planes.type_idle env
    { x with crtcs := [c.set_plane 0 q0] } (c.set_plane 0 q0) res 1 (by decide) rfl hlay
    hfree hres
    (by
      rw [wlr_drm_crtc.planes_set_plane_ne c 0 1 q0 (by decide) (by decide) (by decide)]
      exact hslot 1 (by decide))
    (fun hn cur => hv 1 cur (by decide) hn)
  obtain ⟨q2, _, h2, _, _, _⟩ := realloc_planes.type_idle env
    { x with crtcs := [(c.set_plane 0 q0).set_plane 1 q1] } ((c.set_plane 0 q0).set_plane 1 q1)
    res 2 (by decide) rfl hlay hfree hres
    (by
      rw [wlr_drm_crtc.planes_set_plane_ne _ 1 2 q1 (by decide) (by decide) (by decide),
        wlr_drm_crtc.planes_set_plane_ne c 0 2 q0 (by decide) (by decide) (by decide)]
      exact hslot 2 (by decide))
    (fun hn cur => hv 2 cur (by decide) hn)
  have hn1 : x.num_type_planes 1 = 1 := hnp
  have hcur1 : cur1 = UNMATCHED ∨ cur1 = 0 := by
    rcases hc1 with h | h
    · exact Or.inl h
    · exact Or.inr (by
        have h' : cur1 < x.num_type_planes 1 := h
        omega)
  have hq1 : q1 = .kernel x.num_overlay_planes := by
    have hr := hm1 (by show x.num_type_planes 1 ≠ 0; omega) (hp cur1 hcur1).1 (hp cur1 hcur1).2
    have hlt := (hv 1 cur1 (by decide) (by omega) hc1 0 (by decide) (hp cur1 hcur1).2 (hp cur1 hcur1).1).1
    have hz : env.match_obj (x.num_type_planes 1) (realloc_planes.possible x 1) 1 [cur1] 0 = 0 := by
      omega
    rw [hr]
    show PlanePtr.kernel (x.num_overlay_planes + env.match_obj (x.num_type_planes 1)
      (realloc_planes.possible x 1) 1 [cur1] 0) = _
    rw [hz]
    rfl
  refine ⟨((c.set_plane 0 q0).set_plane 1 q1).set_plane 2 q2, ?_, hq1, rfl, rfl, rfl, rfl⟩
  simp only [realloc_planes, for_each, h0, Option.bind_eq_bind, Option.some_bind, h1, h2]

/-- The function `realloc_crtcs` on a single CRTC with one primary plane while no output is
Connected and no plane has a renderer, when the matcher gives the CRTC to `outputs[oi]` and the
primary slot a plane: the output gets the CRTC and the primary slot holds the primary plane. -/
theorem realloc_crtcs_idle (env : Env) (b : wlr_drm_backend) (oi : Nat)
    (output : wlr_output_state) (c : wlr_drm_crtc) (hx : b.crtcs = [c])
    (hlay : b.planes.length =
      b.num_overlay_planes + b.num_primary_planes + b.num_cursor_planes)
    (hnp : b.num_primary_planes = 1)
    (hfree : ∀ p ∈ b.planes, wlr_drm_plane_renderer_free.reset p = p)
    (hslot : ∀ t, t < 3 → b.num_type_planes t ≠ 0 → c.planes t = .null ∨
      ∃ k, k < b.num_type_planes t ∧ c.planes t = .kernel (b.type_planes t + k))
    (ho : b.outputs[oi]? = some output)
    (hidle : ∀ o ∈ b.outputs, o.state ≠ WLR_DRM_OUTPUT_CONNECTED)
    (hlen : b.outputs.length ≤ UNMATCHED)
    (hm1 : env.match_obj b.outputs.length
      ((List.replicate b.outputs.length 0).set oi output.possible_crtc) 1 [UNMATCHED] 0 = oi)
    (hv : ∀ t cur, t < 3 → b.num_type_planes t ≠ 0 →
      cur = UNMATCHED ∨ cur < b.num_type_planes t →
      MatchValid (b.num_type_planes t) (realloc_planes.possible b t) 1
        (env.match_obj (b.num_type_planes t) (realloc_planes.possible b t) 1 [cur]))
    (hp : ∀ cur, cur = UNMATCHED ∨ cur = 0 →
      env.match_obj (b.num_type_planes 1) (realloc_planes.possible b 1) 1 [cur] 0 ≠
        UNMATCHED ∧
      env.match_obj (b.num_type_planes 1) (realloc_planes.possible b 1) 1 [cur] 0 ≠ SKIP) :
    ∃ c', realloc_crtcs env b oi =
        some { b with outputs := b.outputs.set oi { output with crtc := some 0 },
                      crtcs := [c'] } ∧
      c'.primary = .kernel b.num_overlay_planes ∧ c'.id = c.id ∧ c'.props = c.props ∧
      c'.atomic = c.atomic ∧ c'.mode_id = c.mode_id := by
  have hoi : oi < b.outputs.length := (List.getElem?_eq_some.mp ho).1
  have hne : oi ≠ UNMATCHED := by omega
  have hl : b.crtcs.length = 1 := by rw [hx]; rfl
  have hin : realloc_crtcs.inputs b oi =
      some ([UNMATCHED], (List.replicate b.outputs.length 0).set oi output.possible_crtc) := by
    unfold realloc_crtcs.inputs
    rw [realloc_crtcs.collect_idle _ _ _ _ hidle, hl]
    simp [ho]
  have hd : realloc_crtcs.deactivates 1 [UNMATCHED]
      (env.match_obj b.outputs.length
        ((List.replicate b.outputs.length 0).set oi output.possible_crtc) 1 [UNMATCHED]) =
      false := by
    simp [realloc_crtcs.deactivates]
  have hmt : realloc_crtcs.matched 1
      (env.match_obj b.outputs.length
        ((List.replicate b.outputs.length 0).set oi output.possible_crtc) 1 [UNMATCHED]) oi =
      true := by
    simp [realloc_crtcs.matched, hm1]
  have hres : env.match_obj b.outputs.length
        ((List.replicate b.outputs.length 0).set oi output.possible_crtc) 1 [UNMATCHED] 0 ≠
      UNMATCHED := by rw [hm1]; exact hne
  have hfe : for_each (realloc_crtcs.assign [UNMATCHED]
      (env.match_obj b.outputs.length
        ((List.replicate b.outputs.length 0).set oi output.possible_crtc) 1 [UNMATCHED]))
      (List.range 1) b =
      some { b with outputs := b.outputs.set oi { output with crtc := some 0 } } := by
    have hr : List.range 1 = [0] := rfl
    rw [hr]
    simp only [for_each, realloc_crtcs.assign, if_neg hres, Option.bind_eq_bind]
    rw [hm1]
    simp only [List.getD_cons_zero, if_pos hne, wlr_drm_backend.set_output, ho,
      Option.some_bind, Option.bind_eq_bind]
  obtain ⟨c', hc', hrest⟩ := realloc_planes_idle env
    { b with outputs := b.outputs.set oi { output with crtc := some 0 } } c _ hx hlay hnp hfree
    hres hslot hv hp
  refine ⟨c', ?_, hrest⟩
  unfold realloc_crtcs
  rw [hin]
  simp only [Option.bind_eq_bind, Option.some_bind]
  rw [hl, hd, hmt, hfe]
  simp only [Bool.false_eq_true, if_false, Bool.not_true, Option.some_bind]
  exact hc'

/-- The loop body of `wlr_drm_output_set_mode` on a Connected output whose primary plane is a
kernel plane of another size without front buffer, when the surfaces can be created: it creates
the surfaces, clears to black, swaps, and submits a mode-setting page flip of the buffer just
locked; the trace, the plane, the kernel request and the flips in flight are as stated. -/
theorem wlr_drm_output_set_mode.reinit_one_request (env : Env) (x : wlr_drm_backend)
    (oi ci g : Nat) (output : wlr_output_state) (c : wlr_drm_crtc) (plane : wlr_drm_plane)
    (mode : wlr_output_mode)
    (ho : x.outputs[oi]? = some output) (hs : output.state = WLR_DRM_OUTPUT_CONNECTED)
    (hci : output.crtc = some ci) (hc : x.crtcs[ci]? = some c)
    (hk : c.primary = .kernel g) (hp : x.planes[g]? = some plane)
    (hf : plane.front = none) (hm : output.base.current_mode = some mode)
    (halloc : ∀ n, env.succeeds .gbm_surface_create n = true ∧
      env.succeeds .wlr_egl_create_surface n = true)
    (hatomic : x.iface = .atomic_iface → ∀ n,
      env.succeeds .drmModeCreatePropertyBlob n = true ∧
      env.succeeds .drmModeAtomicAlloc n = true ∧
      env.succeeds .drmModeAtomicAddProperty n = true)
    (hsize : ¬(plane.width = mode.width ∧ plane.height = mode.height)) :
    ∃ b' gs e bo post ok c', wlr_drm_output_set_mode.reinit_one env x oi = some (b', true) ∧
      b'.sys.events = x.sys.events ++
        [Event.gbm_surface_create gs mode.width mode.height, Event.wlr_egl_create_surface e,
         Event.glClear mode.width mode.height, Event.eglSwapBuffers (some e),
         Event.gbm_surface_lock_front_buffer bo,
         Event.crtc_pageflip oi ci (get_fb_for_bo bo) (some mode.state)] ++ post ∧
      b'.outputs = x.outputs.set oi { output with pageflip_pending := true } ∧
      b'.planes = x.planes.set g
        { plane with width := mode.width, height := mode.height, gbm := some gs,
                     egl := some e, front := plane.back, back := some bo } ∧
      b'.crtcs = x.crtcs.set ci c' ∧ c'.slots = c.slots ∧ c'.id = c.id ∧
      b'.inflight = (if ok = true then x.inflight ++ [oi] else x.inflight) ∧
      (x.iface = .legacy_iface →
        post = [Event.drmModeSetCrtc c.id (get_fb_for_bo bo) 0 0 output.connector mode.state,
                Event.drmModePageFlip c.id (get_fb_for_bo bo) oi ok]) ∧
      (x.iface = .atomic_iface → ∃ blob,
        post = (if c.mode_id ≠ 0 then [Event.drmModeDestroyPropertyBlob c.mode_id] else []) ++
          [Event.drmModeCreatePropertyBlob blob,
           Event.drmModeAtomicCommit
             (c.atomic.getD [] ++
              [(output.connector, output.props.crtc_id, c.id),
               (c.id, c.props.mode_id, blob), (c.id, c.props.active, 1),
               (plane.id, plane.props.src_x, 0), (plane.id, plane.props.src_y, 0),
               (plane.id, plane.props.src_w, (mode.width <<< 16) % 4294967296),
               (plane.id, plane.props.src_h, (mode.height <<< 16) % 4294967296),
               (plane.id, plane.props.crtc_w, mode.width),
               (plane.id, plane.props.crtc_h, mode.height),
               (plane.id, plane.props.fb_id, get_fb_for_bo bo),
               (plane.id, plane.props.crtc_id, c.id),
               (plane.id, plane.props.crtc_x, 0), (plane.id, plane.props.crtc_y, 0)])
             false true (some oi) ok]) := by
  have hg : g < x.planes.length := (List.getElem?_eq_some.mp hp).1
  -- the surfaces
  obtain ⟨s1, hs1⟩ : ∃ s1, s1 = ((x.sys.emit
      (.gbm_surface_create x.sys.clock mode.width mode.height)).tick.emit
      (.wlr_egl_create_surface (x.sys.clock + 1))).tick := ⟨_, rfl⟩
  obtain ⟨p1, hp1⟩ : ∃ p1, p1 =
      { plane with width := mode.width, height := mode.height,
                   gbm := some x.sys.clock, egl := some (x.sys.clock + 1) } := ⟨_, rfl⟩
  have hinit : wlr_drm_plane_renderer_init env x.sys plane mode.width mode.height =
      (s1, p1, true) := by
    rw [hs1, hp1]
    simp only [wlr_drm_plane_renderer_init, if_neg hsize, (halloc _).1, (halloc _).2, if_true]
    rfl
  obtain ⟨x1, hx1⟩ : ∃ x1, x1 = { x with sys := s1, planes := x.planes.set g p1 } := ⟨_, rfl⟩
  have hstore : ({ x with sys := s1 } : wlr_drm_backend).store ci 1 p1 = some x1 := by
    rw [hx1]
    simp only [wlr_drm_backend.store, hc, Option.bind_eq_bind, Option.some_bind,
      wlr_drm_crtc.planes, hk, hg, if_true]
  -- the black frame
  obtain ⟨s2, hs2⟩ : ∃ s2, s2 = (((s1.emit (.glClear mode.width mode.height)).emit
      (.eglSwapBuffers (some (x.sys.clock + 1)))).emit
      (.gbm_surface_lock_front_buffer s1.clock)).tick := ⟨_, rfl⟩
  obtain ⟨p2, hp2⟩ : ∃ p2, p2 = { p1 with front := plane.back, back := some s1.clock } :=
    ⟨_, rfl⟩
  obtain ⟨x2, hx2⟩ : ∃ x2, x2 = { x with sys := s2, planes := x.planes.set g p2 } := ⟨_, rfl⟩
  have hp1g : x1.planes[g]? = some p1 := by
    rw [hx1]
    exact List.getElem?_set_self hg
  have hswap : wlr_drm_plane_swap_buffers (s1.emit (.glClear p1.width p1.height)) p1 =
      some (s2, p2) := by
    rw [hs2, hp2, hp1]
    simp only [wlr_drm_plane_swap_buffers, hf, release_if_locked, Option.bind_eq_bind,
      Option.some_bind, gbm_surface_lock_front_buffer]
    rfl
  have hbuf : wlr_drm_output_start_renderer.buffer x1 ci p1 = some (x2, s1.clock) := by
    have hf1 : p1.front = none := by rw [hp1]; exact hf
    have hc1 : x1.crtcs[ci]? = some c := by rw [hx1]; exact hc
    have hx1s : x1.sys = s1 := by rw [hx1]
    have hg1 : g < x1.planes.length := by rw [hx1]; simpa using hg
    have hon : ({ x1 with sys := x1.sys.emit (.glClear p1.width p1.height) } :
        wlr_drm_backend).on_plane ci 1 wlr_drm_plane_swap_buffers = some x2 := by
      simp only [wlr_drm_backend.on_plane, hc1, Option.bind_eq_bind, Option.some_bind,
        wlr_drm_crtc.planes, hk, wlr_drm_backend.deref, hp1g, hx1s, hswap,
        wlr_drm_backend.store, hg1, if_true]
      rw [hx2, hx1]
      simp only [List.set_set]
    have hc2 : x2.crtcs[ci]? = some c := by rw [hx2]; exact hc
    have hp2g : x2.planes[g]? = some p2 := by
      rw [hx2]
      exact List.getElem?_set_self hg
    have hb2 : p2.back = some s1.clock := by rw [hp2]
    simp only [wlr_drm_output_start_renderer.buffer, hf1, hon, Option.bind_eq_bind,
      Option.some_bind, hc2, hk, wlr_drm_backend.deref, hp2g, hb2]
  -- the flip
  have ho2 : x2.outputs[oi]? = some output := by rw [hx2]; exact ho
  have hc2 : x2.crtcs[ci]? = some c := by rw [hx2]; exact hc
  have hd2 : x2.deref c.primary = some p2 := by
    rw [hk, hx2]
    exact List.getElem?_set_self hg
  have hi2 : x2.iface = x.iface := by rw [hx2]
  obtain ⟨r, post, ok, c', hflip, hev, hout, hpl, hcr, hsl, hid, hinf, hleg, hat⟩ :=
    crtc_pageflip_request env x2 oi ci (get_fb_for_bo s1.clock) mode.state output c p2 ho2 hc2
      hd2 (by rw [hi2]; exact hatomic)
  have hor : r.1.outputs[oi]? = some output := by rw [hout]; exact ho2
  refine ⟨{ r.1 with outputs := r.1.outputs.set oi { output with pageflip_pending := true } },
    x.sys.clock, x.sys.clock + 1, s1.clock, post, ok, c', ?_, ?_, ?_, ?_, ?_, hsl, hid, ?_,
    ?_, ?_⟩
  · have ho1 : x1.outputs[oi]? = some output := by rw [hx1]; exact ho
    have hc1 : x1.crtcs[ci]? = some c := by rw [hx1]; exact hc
    have hd1 : x1.deref c.primary = some p1 := by rw [hk]; exact hp1g
    have hstart : wlr_drm_output_start_renderer env x1 oi = some
        { r.1 with outputs := r.1.outputs.set oi { output with pageflip_pending := true } } := by
      simp only [wlr_drm_output_start_renderer, ho1, hs, hci, hc1, hd1, hbuf, hm, hflip,
        Option.bind_eq_bind, Option.some_bind, ne_eq, not_true_eq_false, if_false,
        wlr_drm_backend.set_output, hor]
    have hdx : x.deref c.primary = some plane := by rw [hk]; exact hp
    simp only [wlr_drm_output_set_mode.reinit_one, ho, hs, hci, hc, hdx, hm, hinit, hstore,
      hstart, Option.bind_eq_bind, Option.some_bind, ne_eq, not_true_eq_false, if_false,
      Bool.not_true, Bool.false_eq_true]
  · show r.1.sys.events = _
    rw [hev, hx2, hs2, hs1]
    simp [Sys.emit, Sys.tick]
  · show r.1.outputs.set oi _ = _
    rw [hout, hx2]
  · show r.1.planes = _
    rw [hpl, hx2, hp2, hp1]
  · show r.1.crtcs = _
    rw [hcr, hx2]
  · show r.1.inflight = _
    rw [hinf, hx2]
  · intro h
    exact hleg (by rw [hi2]; exact h)
  · intro h
    obtain ⟨blob, hb⟩ := hat (by rw [hi2]; exact h)
    refine ⟨blob, ?_⟩
    rw [hb, hp2, hp1]

/-- C9 does not hold as stated. On `Ex.plugged` (one NeedsModeset output, one CRTC that the
encoder allows, one primary plane for it) `wlr_drm_output_set_mode` returns false and leaves
the output Disconnected when `gbm_surface_create` fails; and it returns false when the CRTC
drives another Connected output, which the reallocation never deactivates. -/
theorem set_mode_fails_without_surface :
    (Ex.plugged.outputs.map (fun o => o.state) = [WLR_DRM_OUTPUT_NEEDS_MODESET] ∧
    (wlr_drm_output_set_mode (Ex.env 1 Ex.match_first Ex.no_surface) Ex.plugged 0 Ex.mode).map
        (fun r => (r.2, r.1.outputs.map (fun o => (o.state, o.pageflip_pending)),
          r.1.sys.events)) =
      some (false, [(WLR_DRM_OUTPUT_DISCONNECTED, false)],
        [Event.resolution 0, Event.output_remove 0])) ∧
    (wlr_drm_output_set_mode (Ex.env 1 Ex.match_keep Ex.all_succeed)
        { Ex.flipping with outputs := Ex.flipping.outputs ++ [Ex.needs_modeset 8] } 1
        Ex.mode).map
      (fun r => (r.2, r.1.outputs.map (fun o => (o.state, o.pageflip_pending)),
        r.1.sys.events)) =
    some (false, [(WLR_DRM_OUTPUT_CONNECTED, true), (WLR_DRM_OUTPUT_DISCONNECTED, false)],
      [Event.output_remove 1]) := by
  decide

/-- C9 as amended: on a backend with one CRTC and one primary plane, while no other output is
Connected and no plane has a renderer, `wlr_drm_output_set_mode` on a NeedsModeset output
returns true when the connector is connected with a mode and an encoder, the matcher answers
validly and assigns the CRTC and the primary plane, the surfaces can be created (and, through
the atomic interface, the blob and the request), and the mode is not 0x0. Afterwards the output
is Connected on the CRTC with the size and `current_mode` of the mode and `pageflip_pending`
set; the trace added is `resolution`, the creation of the two surfaces, the black frame, the
swap, the lock of a new buffer and the page flip of that buffer with the mode, followed by the
kernel request through which it was submitted; the primary plane holds the buffer as its back
buffer, the primary slot holds the plane, and the flip is in flight exactly when the kernel
accepted it. -/
theorem set_mode_connects (env : Env) (b : wlr_drm_backend) (oi : Nat) (mode : wlr_output_mode)
    (output : wlr_output_state) (conn : drmModeConnector) (enc : drmModeEncoder)
    (crtc0 : wlr_drm_crtc) (plane0 : wlr_drm_plane)
    (hcrtcs : b.crtcs = [crtc0])
    (hlay : b.planes.length =
      b.num_overlay_planes + b.num_primary_planes + b.num_cursor_planes)
    (hnp : b.num_primary_planes = 1)
    (hplane : b.planes[b.num_overlay_planes]? = some plane0)
    (hfree : ∀ p ∈ b.planes, wlr_drm_plane_renderer_free.reset p = p)
    (hslot : ∀ t, t < 3 → b.num_type_planes t ≠ 0 → crtc0.planes t = .null ∨
      ∃ k, k < b.num_type_planes t ∧ crtc0.planes t = .kernel (b.type_planes t + k))
    (ho : b.outputs[oi]? = some output)
    (hstate : output.state = WLR_DRM_OUTPUT_NEEDS_MODESET)
    (hidle : ∀ k o, k ≠ oi → b.outputs[k]? = some o → o.state ≠ WLR_DRM_OUTPUT_CONNECTED)
    (hlen : b.outputs.length ≤ UNMATCHED)
    (hconn : env.drmModeGetConnector output.connector = some conn)
    (hcon : conn.connected = true) (hmodes : conn.modes.length ≠ 0)
    (henc : conn.encoders.findSome? env.drmModeGetEncoder = some enc)
    (hv1 : MatchValid b.outputs.length
      ((List.replicate b.outputs.length 0).set oi enc.possible_crtcs) 1
      (env.match_obj b.outputs.length
        ((List.replicate b.outputs.length 0).set oi enc.possible_crtcs) 1 [UNMATCHED]))
    (hp1 : env.match_obj b.outputs.length
        ((List.replicate b.outputs.length 0).set oi enc.possible_crtcs) 1 [UNMATCHED] 0 ≠
        UNMATCHED ∧
      env.match_obj b.outputs.length
        ((List.replicate b.outputs.length 0).set oi enc.possible_crtcs) 1 [UNMATCHED] 0 ≠ SKIP)
    (hv2 : ∀ t cur, t < 3 → b.num_type_planes t ≠ 0 →
      cur = UNMATCHED ∨ cur < b.num_type_planes t →
      MatchValid (b.num_type_planes t) (realloc_planes.possible b t) 1
        (env.match_obj (b.num_type_planes t) (realloc_planes.possible b t) 1 [cur]))
    (hp2 : ∀ cur, cur = UNMATCHED ∨ cur = 0 →
      env.match_obj (b.num_type_planes 1) (realloc_planes.possible b 1) 1 [cur] 0 ≠
        UNMATCHED ∧
      env.match_obj (b.num_type_planes 1) (realloc_planes.possible b 1) 1 [cur] 0 ≠ SKIP)
    (halloc : ∀ n, env.succeeds .gbm_surface_create n = true ∧
      env.succeeds .wlr_egl_create_surface n = true)
    (hatomic : b.iface = .atomic_iface → ∀ n,
      env.succeeds .drmModeCreatePropertyBlob n = true ∧
      env.succeeds .drmModeAtomicAlloc n = true ∧
      env.succeeds .drmModeAtomicAddProperty n = true)
    (hsize : mode.width ≠ 0 ∨ mode.height ≠ 0) :
    ∃ b' gs e bo post ok c',
      wlr_drm_output_set_mode env b oi mode = some (b', true) ∧
      b'.outputs = b.outputs.set oi
        { output with
          possible_crtc := enc.possible_crtcs, crtc := some 0,
          state := WLR_DRM_OUTPUT_CONNECTED, width := mode.width, height := mode.height,
          base := { output.base with width := mode.width, height := mode.height,
                                     current_mode := some mode },
          pageflip_pending := true } ∧
      b'.sys.events = b.sys.events ++
        [Event.resolution oi,
         Event.gbm_surface_create gs mode.width mode.height, Event.wlr_egl_create_surface e,
         Event.glClear mode.width mode.height, Event.eglSwapBuffers (some e),
         Event.gbm_surface_lock_front_buffer bo,
         Event.crtc_pageflip oi 0 (get_fb_for_bo bo) (some mode.state)] ++ post ∧
      b'.planes = b.planes.set b.num_overlay_planes
        { plane0 with width := mode.width, height := mode.height, gbm := some gs,
                      egl := some e, back := some bo } ∧
      b'.crtcs = [c'] ∧ c'.primary = .kernel b.num_overlay_planes ∧ c'.id = crtc0.id ∧
      b'.inflight = (if ok = true then b.inflight ++ [oi] else b.inflight) ∧
      (b.iface = .legacy_iface →
        post = [Event.drmModeSetCrtc crtc0.id (get_fb_for_bo bo) 0 0 output.connector
                  mode.state,
                Event.drmModePageFlip crtc0.id (get_fb_for_bo bo) oi ok]) ∧
      (b.iface = .atomic_iface → ∃ blob,
        post =
          (if crtc0.mode_id ≠ 0 then [Event.drmModeDestroyPropertyBlob crtc0.mode_id]
            else []) ++
          [Event.drmModeCreatePropertyBlob blob,
           Event.drmModeAtomicCommit
             (crtc0.atomic.getD [] ++
              [(output.connector, output.props.crtc_id, crtc0.id),
               (crtc0.id, crtc0.props.mode_id, blob), (crtc0.id, crtc0.props.active, 1),
               (plane0.id, plane0.props.src_x, 0), (plane0.id, plane0.props.src_y, 0),
               (plane0.id, plane0.props.src_w, (mode.width <<< 16) % 4294967296),
               (plane0.id, plane0.props.src_h, (mode.height <<< 16) % 4294967296),
               (plane0.id, plane0.props.crtc_w, mode.width),
               (plane0.id, plane0.props.crtc_h, mode.height),
               (plane0.id, plane0.props.fb_id, get_fb_for_bo bo),
               (plane0.id, plane0.props.crtc_id, crtc0.id),
               (plane0.id, plane0.props.crtc_x, 0), (plane0.id, plane0.props.crtc_y, 0)])
             false true (some oi) ok]) := by
  have hoi : oi < b.outputs.length := (List.getElem?_eq_some.mp ho).1
  have hm1 := MatchValid.single _ _ _ _ hv1 hp1.1 hp1.2
  have hmem0 : plane0 ∈ b.planes := by
    obtain ⟨hlt, heq⟩ := List.getElem?_eq_some.mp hplane
    rw [← heq]
    exact List.getElem_mem _
  have hr0 := hfree plane0 hmem0
  have hf0 : plane0.front = none := by rw [← hr0]; rfl
  have hb0 : plane0.back = none := by rw [← hr0]; rfl
  have hw0 : plane0.width = 0 := by rw [← hr0]; rfl
  have hh0 : plane0.height = 0 := by rw [← hr0]; rfl
  -- the output with its encoder mask, and the reallocation
  have hidle1 : ∀ o ∈ b.outputs.set oi { output with possible_crtc := enc.possible_crtcs },
      o.state ≠ WLR_DRM_OUTPUT_CONNECTED := by
    intro o hmem
    obtain ⟨k, hk, hget⟩ := List.getElem_of_mem hmem
    rw [List.getElem_set] at hget
    split at hget
    · rw [← hget]
      simp [hstate]
    · rename_i hne
      refine hidle k o (fun h => hne h.symm) ?_
      rw [← hget]
      exact List.getElem?_eq_getElem _
  obtain ⟨c1, hre, hprim, hid1, hprops1, hatom1, hmode1⟩ := realloc_crtcs_idle env
    { b with outputs := b.outputs.set oi { output with possible_crtc := enc.possible_crtcs } }
    oi { output with possible_crtc := enc.possible_crtcs } crtc0 hcrtcs hlay hnp hfree hslot
    (by simp [hoi]) hidle1 (by simpa using hlen) (by simpa using hm1) hv2 hp2
  -- the renderer of the output itself
  obtain ⟨o3, ho3e⟩ : ∃ o3 : wlr_output_state, o3 =
      { output with
        possible_crtc := enc.possible_crtcs, crtc := some 0,
        state := WLR_DRM_OUTPUT_CONNECTED, width := mode.width, height := mode.height,
        base := { output.base with width := mode.width, height := mode.height,
                                   current_mode := some mode } } := ⟨_, rfl⟩
  obtain ⟨b3, hb3⟩ : ∃ b3 : wlr_drm_backend, b3 =
      { b with outputs := b.outputs.set oi o3, crtcs := [c1],
               sys := b.sys.emit (.resolution oi) } := ⟨_, rfl⟩
  have ho3 : b3.outputs[oi]? = some o3 := by rw [hb3]; simp [hoi]
  have hc3 : b3.crtcs[0]? = some c1 := by rw [hb3]; rfl
  have hp3 : b3.planes[b.num_overlay_planes]? = some plane0 := by rw [hb3]; exact hplane
  have hi3 : b3.iface = b.iface := by rw [hb3]
  obtain ⟨b4, gs, e, bo, post, ok, c4, hone, hev4, hout4, hpl4, hcr4, hsl4, hid4, hinf4, hleg4,
      hat4⟩ :=
    wlr_drm_output_set_mode.reinit_one_request env b3 oi 0 b.num_overlay_planes o3 c1 plane0
      mode ho3 (by rw [ho3e]) (by rw [ho3e]) hc3 hprim hp3 hf0 (by rw [ho3e]) halloc
      (by rw [hi3]; exact hatomic)
      (by
        intro h
        rcases hsize with hw | hh
        · exact hw (by rw [← h.1, hw0])
        · exact hh (by rw [← h.2, hh0]))
  have hloop : wlr_drm_output_set_mode.reinit env (List.range b3.outputs.length) b3 =
      some (b4, true) := by
    refine wlr_drm_output_set_mode.reinit_at env oi b3 b4 hone ?_ _ (List.nodup_range _)
      (List.mem_range.mpr (by rw [hb3]; simp [hoi])) ?_
    · intro i hi
      rw [hout4, List.getElem?_set_ne (fun h => hi h.symm)]
    · intro i hil hi
      have hib : i < b.outputs.length := by
        have := List.mem_range.mp hil
        rw [hb3] at this
        simpa using this
      refine ⟨b.outputs[i], ?_, hidle i _ hi (List.getElem?_eq_getElem hib)⟩
      rw [hb3]
      show (b.outputs.set oi o3)[i]? = _
      rw [List.getElem?_set_ne (fun h => hi h.symm)]
      exact List.getElem?_eq_getElem hib
  refine ⟨b4, gs, e, bo, post, ok, c4, ?_, ?_, ?_, ?_, ?_, ?_, ?_, ?_, ?_, ?_⟩
  · unfold wlr_drm_output_set_mode
    simp only [ho, hconn, hcon, hmodes, henc, wlr_drm_backend.set_output, Option.bind_eq_bind,
      Option.some_bind, Bool.not_true, Bool.false_eq_true, or_self, if_false]
    rw [hre]
    simp only [Option.some_bind, List.getElem?_set_self, List.length_set, hoi,
      List.getElem?_cons_zero, List.set_set]
    have hlen3 : b3.outputs.length = b.outputs.length := by rw [hb3]; exact List.length_set _ _ _
    rw [hlen3, hb3, ho3e] at hloop
    change (wlr_drm_output_set_mode.reinit env (List.range b.outputs.length) _).bind _ = _
    rw [hloop]
    rfl
  · rw [hout4, hb3, ho3e]
    simp only [List.set_set]
  · rw [hev4, hb3]
    simp [Sys.emit]
  · rw [hpl4, hb3, hb0, ← hf0]
  · rw [hcr4, hb3]
    rfl
  · have : c4.primary = c1.primary := congrArg (fun s => s.2.1) hsl4
    rw [this, hprim]
  · rw [hid4, hid1]
  · rw [hinf4, hb3]
  · intro h
    rw [hleg4 (by rw [hi3]; exact h), hid1, ho3e]
  · intro h
    obtain ⟨blob, hb⟩ := hat4 (by rw [hi3]; exact h)
    refine ⟨blob, ?_⟩
    rw [hb, hid1, hprops1, hatom1, hmode1, ho3e]

/-- C9 on the backend `Ex.plugged` when its CRTC still holds the primary plane from an earlier
connection, with the mode 1920x1080, under a matcher that gives slot 0 to the first item. -/
theorem set_mode_connects_witness :
    ∃ b' gs e bo ok,
      wlr_drm_output_set_mode (Ex.env 1 Ex.match_first Ex.all_succeed)
        { Ex.plugged with crtcs := [{ Ex.crtc 40 with primary := .kernel 0 }] } 0 Ex.mode =
        some (b', true) ∧
      b'.outputs = [{ Ex.connected 7 0 1 with pageflip_pending := true }] ∧
      b'.sys.events =
        [Event.resolution 0, Event.gbm_surface_create gs 1920 1080,
         Event.wlr_egl_create_surface e, Event.glClear 1920 1080,
         Event.eglSwapBuffers (some e), Event.gbm_surface_lock_front_buffer bo,
         Event.crtc_pageflip 0 0 (get_fb_for_bo bo) (some Ex.info),
         Event.drmModeSetCrtc 40 (get_fb_for_bo bo) 0 0 7 Ex.info,
         Event.drmModePageFlip 40 (get_fb_for_bo bo) 0 ok] ∧
      b'.planes = [{ Ex.primary 30 1 with width := 1920, height := 1080, gbm := some gs,
                                          egl := some e, back := some bo }] ∧
      b'.inflight = (if ok = true then [0] else []) := by
  obtain ⟨b', gs, e, bo, post, ok, c', h1, h2, h3, h4, _, _, _, h8, h9, _⟩ :=
    set_mode_connects (Ex.env 1 Ex.match_first Ex.all_succeed)
      { Ex.plugged with crtcs := [{ Ex.crtc 40 with primary := .kernel 0 }] } 0 Ex.mode
      (Ex.needs_modeset 7) ⟨7, true, [Ex.info], [3], 3, 500, 300⟩ ⟨0, 1⟩
      { Ex.crtc 40 with primary := .kernel 0 } (Ex.primary 30 1) rfl rfl rfl rfl
      (by
        intro p hp
        have : p = Ex.primary 30 1 := by simpa [Ex.plugged, Ex.fresh] using hp
        subst this
        rfl)
      (by
        intro t ht hn
        rcases t with _ | _ | _ | t
        · exact absurd rfl hn
        · exact Or.inr ⟨0, by decide, rfl⟩
        · exact absurd rfl hn
        · omega)
      rfl rfl
      (by
        intro k o hk h
        cases k with
        | zero => exact absurd rfl hk
        | succ n => simp [Ex.plugged] at h)
      (by decide) rfl rfl (by decide) rfl
      (by
        intro j hj _ _
        have hj0 : j = 0 := by omega
        subst hj0
        exact ⟨by decide, by decide⟩)
      ⟨by decide, by decide⟩
      (by
        intro t cur ht hn _ j hj _ _
        have hj0 : j = 0 := by omega
        subst hj0
        rcases t with _ | _ | _ | t
        · exact absurd rfl hn
        · exact (show (0 : Nat) < 1 ∧ hasBit 1 0 = true from ⟨by decide, by decide⟩)
        · exact absurd rfl hn
        · omega)
      (fun _ _ => (show (0 : Nat) ≠ UNMATCHED ∧ (0 : Nat) ≠ SKIP from ⟨by decide, by decide⟩))
      (fun _ => ⟨rfl, rfl⟩)
      (fun h => absurd h (by decide)) (Or.inl (by decide))
  refine ⟨b', gs, e, bo, ok, h1, h2, ?_, h4, h8⟩
  rw [h3, h9 rfl]
  rfl

end Drm
